import Mathlib

/-!
# Tegra host-channel client and nvmap heap/handle-reference core

A shallow embedding of

* `drivers/video/tegra/nvmap/nv2/nv2_heap_alloc.c` (heap policy selection and
  the IOVMM page allocator),
* `drivers/video/tegra/nvmap/nv2/nv2_handle_ref.c` (handle references),
* `drivers/video/tegra/host/bus_client.c` (channel open/release, job
  submission, buffer map/unmap),

followed by the properties established about them.

Conventions.  C `int`/`u32` values are `Int`/`Nat`; a conversion between the
two is written out (`toInt32`, `wrap32`).  Kernel services that are not part
of these files (page allocator, slab, user copies, power management, the
address-space object, the job object) are state components or outcome records
supplied by the environment; each such helper says so in its doc comment.
-/

namespace TegraHost

/-! ## Machine integers and status codes -/

/-- Two to the thirty-second. -/
def two32 : Nat := 4294967296

/-- Value of a 32-bit pattern read as a C `int` (two's complement). -/
def toInt32 (x : Nat) : Int :=
  if x % two32 < 2147483648 then (x % two32 : Nat) else (x % two32 : Nat) - 4294967296

/-- Reduction of an integer to the range of a C `int`, as `atomic_t`
arithmetic does. -/
def wrap32 (x : Int) : Int :=
  (x + 2147483648) % 4294967296 - 2147483648

/-- Bitwise complement of an `unsigned int`. -/
def not32 (x : Nat) : Nat := (two32 - 1) ^^^ (x % two32)

def EPERM : Int := 1
def EAGAIN : Int := 11
def ENOMEM : Int := 12
def EFAULT : Int := 14
def ENODEV : Int := 19
def EINVAL : Int := 22

/-! ## nv2_heap_alloc.c : heap policy selection -/

/-- The heap-type bit constants of `linux/nvmap.h`.  The header is not part
of the translated files, so the constants are parameters of the model. -/
structure HeapConsts where
  NVMAP_HEAP_CARVEOUT_VPR : Nat
  NVMAP_HEAP_CARVEOUT_IRAM : Nat
  NVMAP_HEAP_CARVEOUT_MASK : Nat
  NVMAP_HEAP_IOVMM : Nat
  NVMAP_HEAP_CARVEOUT_IVM : Nat
  NVMAP_HEAP_CARVEOUT_VIDMEM : Nat
  NVMAP_HEAP_CARVEOUT_GENERIC : Nat
  deriving DecidableEq, Repr

/-- `heap_policy_small[]`, sentinel included. -/
def heap_policy_small (c : HeapConsts) : List Nat :=
  [c.NVMAP_HEAP_CARVEOUT_VPR, c.NVMAP_HEAP_CARVEOUT_IRAM,
   c.NVMAP_HEAP_CARVEOUT_MASK, c.NVMAP_HEAP_IOVMM, 0]

/-- `heap_policy_large[]`, sentinel included. -/
def heap_policy_large (c : HeapConsts) : List Nat :=
  [c.NVMAP_HEAP_CARVEOUT_VPR, c.NVMAP_HEAP_CARVEOUT_IRAM,
   c.NVMAP_HEAP_IOVMM, c.NVMAP_HEAP_CARVEOUT_MASK, 0]

/-- `heap_policy_excl[]`, sentinel included. -/
def heap_policy_excl (c : HeapConsts) : List Nat :=
  [c.NVMAP_HEAP_CARVEOUT_IVM, c.NVMAP_HEAP_CARVEOUT_VIDMEM, 0]

/-- The three static policy arrays; a returned pointer is one of them. -/
inductive PolicyList where
  | small
  | large
  | excl
  deriving DecidableEq, Repr

/-- Contents of the array a policy pointer designates. -/
def PolicyList.entries (c : HeapConsts) : PolicyList → List Nat
  | .small => heap_policy_small c
  | .large => heap_policy_large c
  | .excl => heap_policy_excl c

/-- The `for` loop of `NVMAP2_heap_mask_to_policy` over the entries of
`heap_policy_excl` (all `ARRAY_SIZE` of them): `none` is the `return NULL`
inside the loop, `some b` the value of `alloc_from_excl` after it. -/
def excl_scan (heap_mask : Nat) : List Nat → Bool → Option Bool
  | [], alloc_from_excl => some alloc_from_excl
  | e :: rest, alloc_from_excl =>
    if heap_mask &&& e = 0 then excl_scan heap_mask rest alloc_from_excl
    else if heap_mask &&& not32 e ≠ 0 then none
    else excl_scan heap_mask rest true

/-- `NVMAP2_heap_mask_to_policy(heap_mask, nr_page)`; `none` is `NULL`. -/
def NVMAP2_heap_mask_to_policy (c : HeapConsts) (heap_mask : Nat) (nr_page : Int) :
    Option PolicyList :=
  match excl_scan heap_mask (heap_policy_excl c) false with
  | none => none
  | some alloc_from_excl =>
    if heap_mask = 0 then none
    else some (if alloc_from_excl then PolicyList.excl
               else if nr_page = 1 then PolicyList.small else PolicyList.large)

/-- The heap constants as `linux/nvmap.h` of this kernel line defines them
(generic carveout bit 0, IVM bit 1, VIDMEM bit 26, VPR bit 28, IRAM bit 29,
IOVMM bit 30, carveout mask = IOVMM - 1); used for concrete evaluations only. -/
def tegraHeapConsts : HeapConsts where
  NVMAP_HEAP_CARVEOUT_VPR := 268435456
  NVMAP_HEAP_CARVEOUT_IRAM := 536870912
  NVMAP_HEAP_CARVEOUT_MASK := 1073741823
  NVMAP_HEAP_IOVMM := 1073741824
  NVMAP_HEAP_CARVEOUT_IVM := 2
  NVMAP_HEAP_CARVEOUT_VIDMEM := 67108864
  NVMAP_HEAP_CARVEOUT_GENERIC := 1

/-! ## nv2_handle_ref.c : handle references -/

/-- The fields of `struct nvmap_handle` the reference code touches:
`ref` and `share_count` are `atomic_t`; `dmabuf` is the reference count of the
handle's `struct dma_buf` (the `f_count` that `get_dma_buf`/`dma_buf_put`
move). -/
structure nvmap_handle where
  ref : Int
  share_count : Int
  dmabuf : Int
  deriving DecidableEq, Repr

/-- `struct nvmap_handle_ref`: the `dupes` counter and the pointer to the
handle (an address into the handle store). -/
structure nvmap_handle_ref where
  dupes : Int
  handle : Nat
  deriving DecidableEq, Repr

/-- Handle objects by address. -/
abbrev HandleStore := Nat → nvmap_handle

/-- Modelled from the spec: `NVMAP2_handle_get` lives in nv2_handle.c, which is
not among the translated files.  It takes one reference on the handle and
returns it, or returns NULL and leaves the handle as it was when the handle
cannot be retained; whether it can is the environment's `retain_ok`. -/
def NVMAP2_handle_get (retain_ok : Bool) (hs : HandleStore) (h : Nat) :
    HandleStore × Option Nat :=
  if retain_ok then
    (Function.update hs h { hs h with ref := wrap32 ((hs h).ref + 1) }, some h)
  else (hs, none)

/-- Modelled from the spec: `NVMAP2_handle_put` lives in nv2_handle.c, which is
not among the translated files.  It drops one of the handle's own references. -/
def NVMAP2_handle_put (hs : HandleStore) (h : Nat) : HandleStore :=
  Function.update hs h { hs h with ref := wrap32 ((hs h).ref - 1) }

/-- `NVMAP2_handle_ref_get(ref)`: returns the status, the handle store and the
reference record afterwards.  The result of `NVMAP2_handle_get` is not
inspected by the source. -/
def NVMAP2_handle_ref_get (retain_ok : Bool) (hs : HandleStore)
    (ref : Option nvmap_handle_ref) : Int × HandleStore × Option nvmap_handle_ref :=
  match ref with
  | none => (-1, hs, none)
  | some r =>
    let r1 := { r with dupes := wrap32 (r.dupes + 1) }
    let hs1 := (NVMAP2_handle_get retain_ok hs r1.handle).1
    (0, hs1, some r1)

/-- `NVMAP2_handle_ref_count(ref)`. -/
def NVMAP2_handle_ref_count (ref : nvmap_handle_ref) : Int := ref.dupes

/-- `NVMAP2_handle_ref_create(handle)`: `kzalloc_ok` is the outcome of the
record allocation; `none` is the NULL return. -/
def NVMAP2_handle_ref_create (kzalloc_ok retain_ok : Bool) (hs : HandleStore)
    (handle : Nat) : HandleStore × Option nvmap_handle_ref :=
  if !kzalloc_ok then (hs, none)
  else
    let ref : nvmap_handle_ref := { dupes := 1, handle := 0 }
    match NVMAP2_handle_get retain_ok hs handle with
    | (hs1, none) => (hs1, none)
    | (hs1, some h) =>
      let ref1 := { ref with handle := h }
      let hs2 := Function.update hs1 h
        { hs1 h with share_count := wrap32 ((hs1 h).share_count + 1) }
      let hs3 := Function.update hs2 h { hs2 h with dmabuf := (hs2 h).dmabuf + 1 }
      (hs3, some ref1)

/-- `NVMAP2_handle_ref_free(ref)`: the store afterwards (the record is gone). -/
def NVMAP2_handle_ref_free (hs : HandleStore) (ref : nvmap_handle_ref) : HandleStore :=
  let hs1 := Function.update hs ref.handle
    { hs ref.handle with share_count := wrap32 ((hs ref.handle).share_count - 1) }
  Function.update hs1 ref.handle
    { hs1 ref.handle with dmabuf := (hs1 ref.handle).dmabuf - 1 }

/-- `NVMAP2_handle_ref_put(ref)`: the returned post-decrement count, the store
and the record afterwards. -/
def NVMAP2_handle_ref_put (hs : HandleStore) (ref : nvmap_handle_ref) :
    Int × HandleStore × nvmap_handle_ref :=
  let hs1 := NVMAP2_handle_put hs ref.handle
  let r1 := { ref with dupes := wrap32 (ref.dupes - 1) }
  (r1.dupes, hs1, r1)

/-- A call made on an existing reference: `get` carries the outcome of the
handle retain inside it. -/
inductive RefOp where
  | get (retain_ok : Bool)
  | put
  deriving DecidableEq, Repr

/-- A reference, the handle store, and the value the latest call returned. -/
structure RefState where
  hs : HandleStore
  ref : nvmap_handle_ref
  ret : Int

/-- One call of `NVMAP2_handle_ref_get` or `NVMAP2_handle_ref_put`. -/
def ref_step (s : RefState) : RefOp → RefState
  | .get retain_ok =>
    match NVMAP2_handle_ref_get retain_ok s.hs (some s.ref) with
    | (ret, hs1, some r1) => { hs := hs1, ref := r1, ret := ret }
    | (ret, hs1, none) => { hs := hs1, ref := s.ref, ret := ret }
  | .put =>
    match NVMAP2_handle_ref_put s.hs s.ref with
    | (ret, hs1, r1) => { hs := hs1, ref := r1, ret := ret }

/-- A sequence of calls, left to right. -/
def ref_run (s : RefState) (ops : List RefOp) : RefState :=
  ops.foldl ref_step s

/-- `k` calls of get (each retain succeeding) followed by `k + 1` calls of
put. -/
def gets_then_puts (k : Nat) : List RefOp :=
  List.replicate k (RefOp.get true) ++ List.replicate (k + 1) RefOp.put

/-! ## nv2_heap_alloc.c : IOVMM page allocation -/

/-- Build constants of the page allocator code: `PAGE_SHIFT`,
`NVMAP_PP_BIG_PAGE_SIZE` (nv2_pp.h) and whether `CONFIG_NVMAP_PAGE_POOLS` is
set.  None is defined in the translated files, so they are parameters. -/
structure PageCfg where
  PAGE_SHIFT : Nat
  NVMAP_PP_BIG_PAGE_SIZE : Nat
  CONFIG_NVMAP_PAGE_POOLS : Bool
  deriving DecidableEq, Repr

/-- The part of `struct nvmap_page_pool` (nv2_pp.h) the allocator reads:
the big-page granularity, the base page of every big page in the pool, and
the loose base-size pages in the pool. -/
structure PagePool where
  pages_per_big_pg : Nat
  big : List Nat
  loose : List Nat
  deriving DecidableEq, Repr

/-- The memory system as the allocator sees it.  Pages are page-frame numbers.
`alloc_outcomes` holds the outcomes of the coming `alloc_pages` calls (none
left: out of memory) and `next_pfn` the frame the next block starts at.
`allocated`, `from_pool`, `freed` and `cleaned` record, in call order, every
page handed out by `alloc_pages`, taken out of the pool, passed to
`__free_page`, and cache-cleaned.  `live_arrays` counts page arrays obtained
from `NVMAP2_altalloc` and not yet given back. -/
structure PageSys where
  next_pfn : Nat
  alloc_outcomes : List Bool
  pool : PagePool
  allocated : List Nat
  from_pool : List Nat
  freed : List Nat
  cleaned : List Nat
  live_arrays : Int
  nvmap_big_page_allocs : Nat
  nvmap_total_page_allocs : Nat
  deriving DecidableEq, Repr

/-- Modelled from the spec: `alloc_pages(gfp, order)` is the kernel page
allocator.  It hands out a block of `2 ^ order` contiguous pages and returns
its first page, or returns NULL. -/
def alloc_pages (w : PageSys) (order : Nat) : PageSys × Option Nat :=
  match w.alloc_outcomes with
  | true :: rest =>
    ({ w with alloc_outcomes := rest, next_pfn := w.next_pfn + 2 ^ order,
              allocated := w.allocated ++ List.range' w.next_pfn (2 ^ order) },
     some w.next_pfn)
  | false :: rest => ({ w with alloc_outcomes := rest }, none)
  | [] => (w, none)

/-- Modelled from the spec: `__free_page(p)` gives one page back to the kernel
page allocator. -/
def free_page (w : PageSys) (p : Nat) : PageSys :=
  { w with freed := w.freed ++ [p] }

/-- Modelled from the spec: `NVMAP2_cache_clean_pages(pages, n)` (nv2_cache.h)
cleans the cache lines of the listed pages. -/
def NVMAP2_cache_clean_pages (w : PageSys) (pages : List Nat) : PageSys :=
  { w with cleaned := w.cleaned ++ pages }

/-- Search of `get_order`: the first order, counting up from `order`, whose
block of `bytes` bytes holds `size`. -/
def order_search (size : Nat) : Nat → Nat → Nat → Nat
  | 0, order, _ => order
  | fuel + 1, order, bytes =>
    if size ≤ bytes then order else order_search size fuel (order + 1) (2 * bytes)

/-- Modelled from the spec: `get_order(size)` is a kernel macro, the least
order whose block of `2 ^ order` pages holds `size` bytes. -/
def get_order (cfg : PageCfg) (size : Nat) : Nat :=
  order_search size size 0 (2 ^ cfg.PAGE_SHIFT)

/-- `heap_alloc_pages_exact(gfp, size)`: the first page of the block, or NULL
(the `gfp` flags act only through the outcome of `alloc_pages`).
The tail pages from index `size >> PAGE_SHIFT` up to `1 << order` are freed. -/
def heap_alloc_pages_exact (cfg : PageCfg) (w : PageSys) (size : Nat) :
    PageSys × Option Nat :=
  let order := get_order cfg size
  match alloc_pages w order with
  | (w1, none) => (w1, none)
  | (w1, some page) =>
    let tail := List.range' (page + (size >>> cfg.PAGE_SHIFT))
      (2 ^ order - (size >>> cfg.PAGE_SHIFT))
    (tail.foldl free_page w1, some page)

/-- `heap_big_pages_alloc_exact(pages, starting_idx, gfp, num_pages)` with
`starting_idx` the number of entries of `pages` filled so far: `none` is the
`-ENOMEM` return, otherwise the array with `num_pages` more entries. -/
def heap_big_pages_alloc_exact (cfg : PageCfg) (w : PageSys) (pages : List Nat)
    (num_pages : Nat) : PageSys × Option (List Nat) :=
  match heap_alloc_pages_exact cfg w (num_pages <<< cfg.PAGE_SHIFT) with
  | (w1, none) => (w1, none)
  | (w1, some page) =>
    let fresh := (List.range num_pages).map (fun idx => page + idx)
    (NVMAP2_cache_clean_pages w1 fresh, some (pages ++ fresh))

/-- Taking big pages out of the pool while at least `ppbp` entries remain to
be filled: the big pages left in the pool and the pages taken. -/
def pool_take_big (ppbp : Nat) : List Nat → Nat → List Nat × List Nat
  | [], _ => ([], [])
  | b :: bs, remaining =>
    if 1 ≤ ppbp ∧ ppbp ≤ remaining then
      ((pool_take_big ppbp bs (remaining - ppbp)).1,
       List.range' b ppbp ++ (pool_take_big ppbp bs (remaining - ppbp)).2)
    else (b :: bs, [])

/-- Modelled from the spec: `nvmap_page_pool_alloc_lots_bp(pool, pages, nr)`
(nv2_pp.h) fills the array from its start with as many whole big pages of the
pool as fit into `nr` entries and returns how many entries it filled. -/
def nvmap_page_pool_alloc_lots_bp (w : PageSys) (nr : Nat) : PageSys × List Nat :=
  let r := pool_take_big w.pool.pages_per_big_pg w.pool.big nr
  ({ w with pool := { w.pool with big := r.1 }, from_pool := w.from_pool ++ r.2 }, r.2)

/-- Modelled from the spec: `nvmap_page_pool_alloc_lots(pool, pages, nr)`
(nv2_pp.h) takes up to `nr` loose pages out of the pool and returns how many
it took. -/
def nvmap_page_pool_alloc_lots (w : PageSys) (nr : Nat) : PageSys × List Nat :=
  ({ w with pool := { w.pool with loose := w.pool.loose.drop nr },
            from_pool := w.from_pool ++ w.pool.loose.take nr },
   w.pool.loose.take nr)

/-- The statement `nvmap_big_page_allocs += page_index` (a `u64` counter). -/
def count_big_page_allocs (w : PageSys) (page_index : Nat) : PageSys :=
  { w with nvmap_big_page_allocs :=
      (w.nvmap_big_page_allocs + page_index) % 18446744073709551616 }

/-- The statement `nvmap_total_page_allocs += nr_page` (a `u64` counter). -/
def count_total_page_allocs (w : PageSys) (nr_page : Int) : PageSys :=
  { w with nvmap_total_page_allocs :=
      (((w.nvmap_total_page_allocs : Int) + nr_page) % 18446744073709551616).toNat }

/-- The `for` loop of `heap_big_pages_alloc`; `page_index` is the number of
entries of `pages` filled so far.  Each round fills `pages_per_big_pg >= 1`
entries, so `fuel = nr_page` rounds are never used up before the loop
condition fails. -/
def big_pages_loop (cfg : PageCfg) (pages_per_big_pg nr_page : Int) :
    Nat → PageSys → List Nat → PageSys × List Nat
  | 0, w, pages => (w, pages)
  | fuel + 1, w, pages =>
    if ¬ ((pages.length : Int) < nr_page) then (w, pages)
    else if pages_per_big_pg < 1 then (w, pages)
    else if nr_page - (pages.length : Int) < pages_per_big_pg then (w, pages)
    else
      match heap_big_pages_alloc_exact cfg w pages pages_per_big_pg.toNat with
      | (w1, none) => (w1, pages)
      | (w1, some pages1) => big_pages_loop cfg pages_per_big_pg nr_page fuel w1 pages1

/-- `heap_big_pages_alloc(pages, nr_page, gfp)`: the array entries filled, the
returned `page_index` being their number. -/
def heap_big_pages_alloc (cfg : PageCfg) (w : PageSys) (nr_page : Int) :
    PageSys × List Nat :=
  let pages_per_big_pg0 : Int :=
    toInt32 (cfg.NVMAP_PP_BIG_PAGE_SIZE >>> cfg.PAGE_SHIFT)
  let r0 : PageSys × List Nat :=
    if cfg.CONFIG_NVMAP_PAGE_POOLS then
      nvmap_page_pool_alloc_lots_bp w (nr_page % 4294967296).toNat
    else (w, [])
  let pages_per_big_pg : Int :=
    if cfg.CONFIG_NVMAP_PAGE_POOLS then toInt32 w.pool.pages_per_big_pg
    else pages_per_big_pg0
  let r1 := big_pages_loop cfg pages_per_big_pg nr_page nr_page.toNat r0.1 r0.2
  let w2 := count_big_page_allocs r1.1 r1.2.length
  if cfg.CONFIG_NVMAP_PAGE_POOLS then
    let r3 := nvmap_page_pool_alloc_lots w2
      ((nr_page - (r1.2.length : Int)) % 4294967296).toNat
    (r3.1, r1.2 ++ r3.2)
  else (w2, r1.2)

/-- The single-page loop of `NVMAP2_heap_alloc_iovmm_pages`:
`for (i = page_index; i < nr_page; i++)`, `count` rounds remaining.  `none`
in the second component is the `goto fail`, with the array as filled up to
the failing index. -/
def single_pages_loop (cfg : PageCfg) : Nat → PageSys → List Nat →
    PageSys × List Nat × Bool
  | 0, w, pages => (w, pages, true)
  | count + 1, w, pages =>
    match heap_alloc_pages_exact cfg w (2 ^ cfg.PAGE_SHIFT) with
    | (w1, none) => (w1, pages, false)
    | (w1, some page) => single_pages_loop cfg count w1 (pages ++ [page])

/-- The `fail:` block of `NVMAP2_heap_alloc_iovmm_pages`, entered with `i`
entries filled: frees `pages[i-1]` down to `pages[0]`, gives the array back and
returns `ERR_PTR(-ENOMEM)`. -/
def iovmm_pages_fail (w : PageSys) (pages : List Nat) : PageSys × Except Int (List Nat) :=
  let w1 := pages.reverse.foldl free_page w
  ({ w1 with live_arrays := w1.live_arrays - 1 }, Except.error (-ENOMEM))

/-- `NVMAP2_heap_alloc_iovmm_pages(size, contiguous)`; `altalloc_ok` is the
outcome of `NVMAP2_altalloc`.  The result is the filled page array or the
`ERR_PTR` code. -/
def NVMAP2_heap_alloc_iovmm_pages (cfg : PageCfg) (altalloc_ok : Bool) (w : PageSys)
    (size : Nat) (contiguous : Bool) : PageSys × Except Int (List Nat) :=
  let nr_page : Int := toInt32 (size >>> cfg.PAGE_SHIFT)
  if !altalloc_ok then (w, Except.error (-ENOMEM))
  else
    let w0 := { w with live_arrays := w.live_arrays + 1 }
    if contiguous then
      match heap_alloc_pages_exact cfg w0 size with
      | (w1, none) => iovmm_pages_fail w1 []
      | (w1, some page) =>
        let pages := (List.range nr_page.toNat).map (fun i => page + i)
        (NVMAP2_cache_clean_pages w1 pages, Except.ok pages)
    else
      let r := heap_big_pages_alloc cfg w0 nr_page
      let page_index := r.2.length
      match single_pages_loop cfg (nr_page - (page_index : Int)).toNat r.1 r.2 with
      | (w1, pages, false) => iovmm_pages_fail w1 pages
      | (w1, pages, true) =>
        let w2 := count_total_page_allocs w1 nr_page
        if (page_index : Int) < nr_page then
          (NVMAP2_cache_clean_pages w2 (pages.drop page_index), Except.ok pages)
        else (w2, Except.ok pages)

/-- A 4 KiB-page build with page pools and a memory system holding one big
page of three pages and one loose page in its pool, in which the first and
third `alloc_pages` calls succeed; used for concrete evaluations only. -/
def demoPageCfg : PageCfg :=
  { PAGE_SHIFT := 12, NVMAP_PP_BIG_PAGE_SIZE := 16384, CONFIG_NVMAP_PAGE_POOLS := true }

/-- See `demoPageCfg`. -/
def demoPageSys : PageSys :=
  { next_pfn := 100, alloc_outcomes := [true, false, true, false],
    pool := { pages_per_big_pg := 3, big := [1000], loose := [5000] },
    allocated := [], from_pool := [], freed := [], cleaned := [],
    live_arrays := 0, nvmap_big_page_allocs := 0, nvmap_total_page_allocs := 0 }

/-- Page accounting between two states of the memory system: the three page
records only grew, and the pages obtained in between (handed out by
`alloc_pages` or taken out of the pool) are, counted with multiplicity, the
pages in `kept` together with the pages freed in between. -/
def Accounted (w w1 : PageSys) (kept : List Nat) : Prop :=
  ∃ a q f, w1.allocated = w.allocated ++ a ∧ w1.from_pool = w.from_pool ++ q ∧
    w1.freed = w.freed ++ f ∧ List.Perm (a ++ q) (kept ++ f)

/-! ## bus_client.c : channel contexts -/

/-- Values of `nvhost_get_channel_policy()`. -/
inductive nvhost_channel_policy where
  | MAP_CHANNEL_ON_OPEN
  | MAP_CHANNEL_ON_SUBMIT
  deriving DecidableEq, Repr

/-- Values of `nvhost_get_syncpt_policy()`. -/
inductive nvhost_syncpt_policy where
  | SYNCPT_PER_CHANNEL
  | SYNCPT_PER_CHANNEL_INSTANCE
  deriving DecidableEq, Repr

/-- Constants of `linux/nvhost.h`, `linux/nvhost_ioctl.h` and `class_ids.h`
that the translated functions use; the headers are not part of the translated
files, so the constants are parameters. -/
structure HostConsts where
  NV_HOST1X_CLASS_ID : Nat
  NVHOST_PRIORITY_MEDIUM : Nat
  NVHOST_SUBMIT_FLAG_SYNC_FENCE_FD : Nat
  NVHOST_MODULE_MAX_SYNCPTS : Nat
  deriving DecidableEq, Repr

/-- The part of `struct nvhost_channel` used here: the per-channel sync-point
table (an array of `NVHOST_MODULE_MAX_SYNCPTS` entries) and the
client-managed sync point. -/
structure nvhost_channel where
  syncpts : List Nat
  client_managed_syncpt : Nat
  deriving DecidableEq, Repr

/-- The part of `struct nvhost_device_data` used here.  `engine_class` is the
field `class`. -/
structure nvhost_device_data where
  exclusive : Bool
  keepalive : Bool
  num_channels : Int
  num_mapped_chs : Int
  engine_class : Nat
  push_work_done : Bool
  deriving DecidableEq, Repr

/-- `struct nvhost_channel_userctx`.  Pointers are addresses (`ch`, `vm`,
`error_notifier_ref`; `none` is NULL); `syncpts` is the array of
`NVHOST_MODULE_MAX_SYNCPTS` entries; the `ioctl_lock` has no state here. -/
structure nvhost_channel_userctx where
  ch : Option Nat
  timeout : Nat
  priority : Nat
  clientid : Int
  timeout_debug_dump : Bool
  pdev : Option Nat
  syncpts : List Nat
  client_managed_syncpt : Nat
  error_notifier_ref : Option Nat
  error_notifier_offset : Nat
  vm : Option Nat
  deriving DecidableEq, Repr

/-- The state around channel contexts that open and release read and write:
the two global policies, the device data, the host's default timeout and
client-id counter, and the state of the collaborators the calls go to: the
power-management (ACM) client list, whether power-off is disabled, the
outstanding busy votes, the references held on the device's channel, the live
address-space objects, the references on dma-bufs, the sync points given back,
and the context records currently allocated (`priv` addresses; `next_priv` is
the address `kzalloc` hands out next). -/
structure HostState where
  channel_policy : nvhost_channel_policy
  syncpt_policy : nvhost_syncpt_policy
  pdata : nvhost_device_data
  nvhost_timeout_default : Nat
  clientid : Int
  acm_clients : List Nat
  poweroff_disabled : Bool
  busy_votes : Int
  channel_refs : Int
  live_vms : List Nat
  next_vm : Nat
  dmabuf_puts : List Nat
  freed_syncpts : List Nat
  live_privs : List Nat
  next_priv : Nat
  deriving DecidableEq, Repr

/-- Outcomes of the calls `__nvhost_channelopen` makes into other modules:
`nvhost_channel_map` (its status and the channel it stores), `kzalloc`,
`nvhost_module_add_client`, `nvhost_module_busy`, `nvhost_vm_allocate`, and
`tegra_platform_is_silicon`. -/
structure OpenEnv where
  channel_map_ret : Int
  channel_map_ch : Option Nat
  kzalloc_ok : Bool
  add_client_ret : Int
  module_busy_ret : Int
  vm_allocate_ok : Bool
  is_silicon : Bool
  deriving DecidableEq, Repr

/-- Modelled from the spec: `nvhost_channel_map` (nvhost_channel.c, not among
the translated files) acquires a channel slot and stores the channel; the
caller then holds one reference on it. -/
def nvhost_channel_map (env : OpenEnv) (s : HostState) : HostState × Int × Option Nat :=
  if env.channel_map_ret = 0 ∧ env.channel_map_ch.isSome then
    ({ s with channel_refs := s.channel_refs + 1 }, 0, env.channel_map_ch)
  else (s, env.channel_map_ret, none)

/-- Modelled from the spec: `nvhost_putchannel(ch, cnt)` (nvhost_channel.c)
drops `cnt` references on the channel. -/
def nvhost_putchannel (s : HostState) (cnt : Int) : HostState :=
  { s with channel_refs := s.channel_refs - cnt }

/-- Modelled from the spec: `nvhost_module_add_client(pdev, priv)`
(nvhost_acm.c) registers the context with the power-management client list and
returns 0, or returns an error and registers nothing. -/
def nvhost_module_add_client (env : OpenEnv) (s : HostState) (priv : Nat) : HostState × Int :=
  if env.add_client_ret = 0 then ({ s with acm_clients := priv :: s.acm_clients }, 0)
  else (s, env.add_client_ret)

/-- Modelled from the spec: `nvhost_module_remove_client(pdev, priv)`
(nvhost_acm.c) unregisters the context from the power-management client list. -/
def nvhost_module_remove_client (s : HostState) (priv : Nat) : HostState :=
  { s with acm_clients := s.acm_clients.erase priv }

/-- Modelled from the spec: `nvhost_module_disable_poweroff(pdev)`
(nvhost_acm.c) keeps the device powered. -/
def nvhost_module_disable_poweroff (s : HostState) : HostState :=
  { s with poweroff_disabled := true }

/-- Modelled from the spec: `nvhost_module_enable_poweroff(pdev)`
(nvhost_acm.c) re-enables normal power-down. -/
def nvhost_module_enable_poweroff (s : HostState) : HostState :=
  { s with poweroff_disabled := false }

/-- Modelled from the spec: `nvhost_module_busy(pdev)` (nvhost_acm.c) votes the
device busy and returns 0, or returns the power error and holds no vote. -/
def nvhost_module_busy (ret : Int) (s : HostState) : HostState × Int :=
  if ret = 0 then ({ s with busy_votes := s.busy_votes + 1 }, 0) else (s, ret)

/-- Modelled from the spec: `nvhost_module_idle(pdev)` (nvhost_acm.c) releases
one busy vote. -/
def nvhost_module_idle (s : HostState) : HostState :=
  { s with busy_votes := s.busy_votes - 1 }

/-- Modelled from the spec: `nvhost_vm_allocate(pdev)` (nvhost_vm.c) creates an
address-space object, or returns NULL. -/
def nvhost_vm_allocate (env : OpenEnv) (s : HostState) : HostState × Option Nat :=
  if env.vm_allocate_ok then
    ({ s with live_vms := s.next_vm :: s.live_vms, next_vm := s.next_vm + 1 }, some s.next_vm)
  else (s, none)

/-- Modelled from the spec: `nvhost_vm_put(vm)` (nvhost_vm.c) releases the
context's reference on its address-space object. -/
def nvhost_vm_put (s : HostState) (vm : Option Nat) : HostState :=
  match vm with
  | some v => { s with live_vms := s.live_vms.erase v }
  | none => s

/-- The `atomic_add_return(1, &host->clientid)` sequence of
`__nvhost_channelopen`, done a second time when the first result is 0: the
counter afterwards and the id assigned. -/
def next_clientid (counter : Int) : Int × Int :=
  let c1 := wrap32 (counter + 1)
  if c1 = 0 then (wrap32 (c1 + 1), wrap32 (c1 + 1)) else (c1, c1)

/-- The `fail:` block of `__nvhost_channelopen`: `ch` is the channel taken at
open, if any. -/
def channelopen_fail (s : HostState) (ch : Option Nat) : HostState × Int :=
  ((if ch.isSome then nvhost_putchannel s 1 else s), -ENOMEM)

/-- The block `fail_alloc_vm: fail_power_on: fail_add_client:` of
`__nvhost_channelopen`: `kfree(priv)`, then `fail:`. -/
def channelopen_fail_free (s : HostState) (priv : Nat) (ch : Option Nat) : HostState × Int :=
  channelopen_fail { s with live_privs := s.live_privs.erase priv } ch

/-- `__nvhost_channelopen(inode, pdev, filp)`.  `has_dev` says whether `pdev` or
`inode` is non-NULL; the state describes the one device they designate
(`priv->pdev` is recorded as `some 0`).  Returns the state, the status, and on
success the address and contents of the context stored in
`filp->private_data`.  `channel_lock` is held from the exclusive-mode check to
the return and has no state here. -/
def __nvhost_channelopen (c : HostConsts) (env : OpenEnv) (has_dev : Bool) (s : HostState) :
    HostState × Int × Option (Nat × nvhost_channel_userctx) :=
  if !has_dev then (s, -EINVAL, none)
  else
    let r0 : HostState × Int × Option Nat :=
      if s.channel_policy = nvhost_channel_policy.MAP_CHANNEL_ON_OPEN then
        nvhost_channel_map env s
      else (s, 0, none)
    if s.channel_policy = nvhost_channel_policy.MAP_CHANNEL_ON_OPEN ∧
        (r0.2.1 ≠ 0 ∨ r0.2.2.isNone) then (r0.1, r0.2.1, none)
    else
      let ch := r0.2.2
      let s1 := r0.1
      let excl : Bool := s1.channel_policy = nvhost_channel_policy.MAP_CHANNEL_ON_SUBMIT ∧
        s1.pdata.exclusive = true
      if excl ∧ s1.pdata.num_mapped_chs = s1.pdata.num_channels then
        ((channelopen_fail s1 ch).1, (channelopen_fail s1 ch).2, none)
      else
        let s2 : HostState :=
          if excl then
            { s1 with pdata := { s1.pdata with
                num_mapped_chs := wrap32 (s1.pdata.num_mapped_chs + 1) } }
          else s1
        if !env.kzalloc_ok then ((channelopen_fail s2 ch).1, (channelopen_fail s2 ch).2, none)
        else
          let priv := s2.next_priv
          let s3 := { s2 with live_privs := priv :: s2.live_privs, next_priv := priv + 1 }
          let r4 := nvhost_module_add_client env s3 priv
          if r4.2 ≠ 0 then ((channelopen_fail_free r4.1 priv ch).1, (channelopen_fail_free r4.1 priv ch).2, none)
          else
            let s5 := if r4.1.pdata.keepalive then nvhost_module_disable_poweroff r4.1 else r4.1
            let r6 := nvhost_module_busy env.module_busy_ret s5
            if r6.2 ≠ 0 then ((channelopen_fail_free r6.1 priv ch).1, (channelopen_fail_free r6.1 priv ch).2, none)
            else
              let s7 := nvhost_module_idle r6.1
              let ids := next_clientid s7.clientid
              let s8 := { s7 with clientid := ids.1 }
              let r9 := nvhost_vm_allocate env s8
              let ctx : nvhost_channel_userctx :=
                { ch := ch,
                  timeout := if !env.is_silicon then 0 else s8.nvhost_timeout_default,
                  priority := c.NVHOST_PRIORITY_MEDIUM,
                  clientid := ids.2,
                  timeout_debug_dump := true,
                  pdev := some 0,
                  syncpts := List.replicate c.NVHOST_MODULE_MAX_SYNCPTS 0,
                  client_managed_syncpt := 0,
                  error_notifier_ref := none,
                  error_notifier_offset := 0,
                  vm := r9.2 }
              if r9.2.isNone then ((channelopen_fail_free r9.1 priv ch).1, (channelopen_fail_free r9.1 priv ch).2, none)
              else (r9.1, 0, some (priv, ctx))

/-- Modelled from the spec: `dma_buf_put(dmabuf)` (the kernel dma-buf API)
drops one reference on the buffer; the state records the buffers put. -/
def host_dma_buf_put (s : HostState) (dmabuf : Nat) : HostState :=
  { s with dmabuf_puts := s.dmabuf_puts ++ [dmabuf] }

/-- Modelled from the spec: `nvhost_free_syncpt(id)` (nvhost_syncpt.c) gives a
sync point back; the state records the ids given back. -/
def nvhost_free_syncpt (s : HostState) (id : Nat) : HostState :=
  { s with freed_syncpts := s.freed_syncpts ++ [id] }

/-- The loop of `nvhost_channelrelease` over `priv->syncpts`: every nonzero
entry is given back. -/
def release_syncpts (s : HostState) : List Nat → HostState
  | [] => s
  | id :: rest => release_syncpts (if id ≠ 0 then nvhost_free_syncpt s id else s) rest

/-- `nvhost_channelrelease(inode, filp)` for the context at address `priv` with
contents `ctx`: the state afterwards and the status (always 0).  The context
record is freed at the end. -/
def nvhost_channelrelease (s : HostState) (priv : Nat) (ctx : nvhost_channel_userctx) :
    HostState × Int :=
  let s1 := nvhost_module_remove_client s priv
  let s2 := match ctx.error_notifier_ref with
    | some d => host_dma_buf_put s1 d
    | none => s1
  let s3 := nvhost_vm_put s2 ctx.vm
  let s4 : HostState :=
    if s3.channel_policy = nvhost_channel_policy.MAP_CHANNEL_ON_SUBMIT ∧
        s3.pdata.exclusive = true then
      { s3 with pdata := { s3.pdata with num_mapped_chs := wrap32 (s3.pdata.num_mapped_chs - 1) } }
    else s3
  let s5 := if s4.channel_policy = nvhost_channel_policy.MAP_CHANNEL_ON_OPEN then
      nvhost_putchannel s4 1 else s4
  let s6 : HostState :=
    if s5.syncpt_policy = nvhost_syncpt_policy.SYNCPT_PER_CHANNEL_INSTANCE then
      let t := release_syncpts s5 ctx.syncpts
      if ctx.client_managed_syncpt ≠ 0 then nvhost_free_syncpt t ctx.client_managed_syncpt else t
    else s5
  let s7 := if s6.pdata.keepalive then nvhost_module_enable_poweroff s6 else s6
  ({ s7 with live_privs := s7.live_privs.erase priv }, 0)

/-- A file operation on the channel device node: an open (with the outcomes of
the calls it makes) or the release of the `idx`-th open file. -/
inductive FileOp where
  | open (env : OpenEnv)
  | release (idx : Nat)
  deriving DecidableEq, Repr

/-- The device state, the open files (address and contents of each context), and
the statuses returned so far, oldest first. -/
structure FileSys where
  host : HostState
  files : List (Nat × nvhost_channel_userctx)
  rets : List Int
  deriving DecidableEq, Repr

/-- One file operation.  A release of a file that is not open is no operation. -/
def file_step (c : HostConsts) (fs : FileSys) : FileOp → FileSys
  | .open env =>
    match __nvhost_channelopen c env true fs.host with
    | (s1, ret, some f) => { host := s1, files := fs.files ++ [f], rets := fs.rets ++ [ret] }
    | (s1, ret, none) => { host := s1, files := fs.files, rets := fs.rets ++ [ret] }
  | .release idx =>
    match fs.files.get? idx with
    | some f =>
      { host := (nvhost_channelrelease fs.host f.1 f.2).1,
        files := fs.files.eraseIdx idx,
        rets := fs.rets ++ [(nvhost_channelrelease fs.host f.1 f.2).2] }
    | none => fs

/-- A sequence of file operations, left to right. -/
def file_run (c : HostConsts) (fs : FileSys) (ops : List FileOp) : FileSys :=
  ops.foldl (file_step c) fs

/-- Every step of an open other than the exclusive-mode check succeeds. -/
def OpenEnv.others_ok (env : OpenEnv) : Prop :=
  env.kzalloc_ok = true ∧ env.add_client_ret = 0 ∧ env.module_busy_ret = 0 ∧
    env.vm_allocate_ok = true

/-- An open in which every call into other modules succeeds. -/
def okOpenEnv : OpenEnv :=
  { channel_map_ret := 0, channel_map_ch := some 1, kzalloc_ok := true, add_client_ret := 0,
    module_busy_ret := 0, vm_allocate_ok := true, is_silicon := true }

/-- Constants as the headers of this kernel line define them (host class 1,
medium priority 100, fence-fd flag bit 0, 16 sync points per module); used for
concrete evaluations only. -/
def tegraHostConsts : HostConsts :=
  { NV_HOST1X_CLASS_ID := 1, NVHOST_PRIORITY_MEDIUM := 100,
    NVHOST_SUBMIT_FLAG_SYNC_FENCE_FD := 0, NVHOST_MODULE_MAX_SYNCPTS := 16 }

/-- A device in exclusive mode under the map-on-submit policy with `n` channels,
none mapped, no context open, and the keep-powered flag as given. -/
def exclusiveDevice (n : Int) (keepalive : Bool) : HostState :=
  { channel_policy := nvhost_channel_policy.MAP_CHANNEL_ON_SUBMIT,
    syncpt_policy := nvhost_syncpt_policy.SYNCPT_PER_CHANNEL_INSTANCE,
    pdata := { exclusive := true, keepalive := keepalive, num_channels := n,
               num_mapped_chs := 0, engine_class := 0, push_work_done := false },
    nvhost_timeout_default := 0, clientid := 0, acm_clients := [],
    poweroff_disabled := false, busy_votes := 0, channel_refs := 0, live_vms := [],
    next_vm := 1, dmabuf_puts := [], freed_syncpts := [], live_privs := [], next_priv := 1 }

/-! ## bus_client.c : buffer mapping -/

def EBADF : Int := 9

/-- `struct nvhost_channel_buffer` (linux/nvhost_ioctl.h): `reserved1_0` and
`reserved1_1` are the two words of `reserved1[2]`. -/
structure nvhost_channel_buffer where
  dmabuf_fd : Nat
  reserved0 : Nat
  reserved1_0 : Nat
  reserved1_1 : Nat
  address : Nat
  deriving DecidableEq, Repr

/-- `struct nvhost_channel_map_buffer_args` and
`struct nvhost_channel_unmap_buffer_args`, which have the same fields. -/
structure nvhost_channel_map_buffer_args where
  num_buffers : Nat
  reserved : Nat
  table_address : Nat
  deriving DecidableEq, Repr

/-- What a file descriptor of the calling process designates. -/
inductive FdEntry where
  | closed
  | not_dmabuf
  | dmabuf (d : Nat)
  deriving DecidableEq, Repr

/-- The calls the buffer ioctls make on dma-bufs and on the address space. -/
inductive BufEv where
  | dma_buf_get (d : Nat)
  | dma_buf_put (d : Nat)
  | vm_map (d : Nat)
  | vm_unmap (d : Nat)
  deriving DecidableEq, Repr

/-- What the buffer ioctls find around them: the descriptor table of the
process, the status and device address `nvhost_vm_map_dmabuf` gives for each
dma-buf, the outcomes of the two `kzalloc` calls, and the bytes the final
`copy_to_user` leaves uncopied. -/
structure BufEnv where
  fd_table : Nat → FdEntry
  vm_map_status : Nat → Int
  vm_map_addr : Nat → Nat
  kzalloc_buffers_ok : Bool
  kzalloc_dmabufs_ok : Bool
  copy_to_user_left : Nat

/-- The state the buffer ioctls act on: the context's address space `ctx->vm`
(for each dma-buf the number of times it is mapped by the user; mapped means
nonzero), the table in user memory at `table_address`, and the calls made so
far. -/
structure BufState where
  vm : Nat → Nat
  user_table : List nvhost_channel_buffer
  log : List BufEv

/-- Modelled from the spec: `dma_buf_get(fd)` (the kernel dma-buf API) resolves
a descriptor to its dma-buf and takes a reference, or returns
`ERR_PTR(-EBADF)` for no file and `ERR_PTR(-EINVAL)` for a file that is no
dma-buf. -/
def dma_buf_get (env : BufEnv) (st : BufState) (fd : Nat) : BufState × Except Int Nat :=
  match env.fd_table fd with
  | FdEntry.dmabuf d => ({ st with log := st.log ++ [BufEv.dma_buf_get d] }, Except.ok d)
  | FdEntry.closed => (st, Except.error (-EBADF))
  | FdEntry.not_dmabuf => (st, Except.error (-EINVAL))

/-- Modelled from the spec: `dma_buf_put(dmabuf)` drops one reference. -/
def dma_buf_put (st : BufState) (d : Nat) : BufState :=
  { st with log := st.log ++ [BufEv.dma_buf_put d] }

/-- Modelled from the spec: `nvhost_vm_map_dmabuf(vm, dmabuf, &addr)`
(nvhost_vm.c) maps the buffer into the address space and stores its device
address, returning 0, or returns an error and maps nothing.  The result is the
state, the status, and the value of `addr` afterwards. -/
def nvhost_vm_map_dmabuf (env : BufEnv) (st : BufState) (d : Nat) (addr : Nat) :
    BufState × Int × Nat :=
  if env.vm_map_status d = 0 then
    ({ st with vm := Function.update st.vm d (st.vm d + 1),
               log := st.log ++ [BufEv.vm_map d] }, 0, env.vm_map_addr d)
  else (st, env.vm_map_status d, addr)

/-- Modelled from the spec: `nvhost_vm_unmap_dmabuf(vm, dmabuf)` (nvhost_vm.c)
removes one user mapping of the buffer, if there is one. -/
def nvhost_vm_unmap_dmabuf (st : BufState) (d : Nat) : BufState :=
  { st with vm := Function.update st.vm d (st.vm d - 1),
            log := st.log ++ [BufEv.vm_unmap d] }

/-- Modelled from the spec: the bytes `copy_from_user` leaves uncopied when
`n` table entries (32 bytes each) are read from a user table: none when the
table holds them, else the bytes beyond the table. -/
def copy_table_left (st : BufState) (n : Nat) : Nat :=
  (n - st.user_table.length) * 32

/-- Result of the mapping loop: `err` is `some e` when the loop left through
`goto err_map_buffers` with `err = e`; `buffers` is the kernel copy of the
table and `num_handled_buffers` the counter at that point. -/
structure MapLoop where
  st : BufState
  err : Option Int
  buffers : List nvhost_channel_buffer
  num_handled_buffers : Nat

/-- The `for` loop of `nvhost_ioctl_channel_map_buffer` over the entries not
yet visited; `addr` is the local `addr`. -/
def map_buffers_loop (env : BufEnv) : List nvhost_channel_buffer → BufState → Nat → MapLoop
  | [], st, _ => { st := st, err := none, buffers := [], num_handled_buffers := 0 }
  | b :: rest, st, addr =>
    if b.reserved0 ≠ 0 ∨ b.reserved1_0 ≠ 0 ∨ b.reserved1_1 ≠ 0 then
      { st := st, err := some (-EINVAL), buffers := b :: rest, num_handled_buffers := 0 }
    else
      match dma_buf_get env st b.dmabuf_fd with
      | (st1, Except.error e) =>
        { st := st1, err := some e, buffers := b :: rest, num_handled_buffers := 0 }
      | (st1, Except.ok d) =>
        let r := nvhost_vm_map_dmabuf env st1 d addr
        let b1 := { b with address := r.2.2 % 18446744073709551616 }
        let st3 := dma_buf_put r.1 d
        if r.2.1 ≠ 0 then
          { st := st3, err := some r.2.1, buffers := b1 :: rest, num_handled_buffers := 0 }
        else
          let l := map_buffers_loop env rest st3 r.2.2
          { st := l.st, err := l.err, buffers := b1 :: l.buffers,
            num_handled_buffers := l.num_handled_buffers + 1 }

/-- The loop under `err_map_buffers:` over the first `num_handled_buffers`
entries of the kernel table. -/
def map_buffers_rollback (env : BufEnv) : List nvhost_channel_buffer → BufState → BufState
  | [], st => st
  | b :: rest, st =>
    match dma_buf_get env st b.dmabuf_fd with
    | (st1, Except.error _) => map_buffers_rollback env rest st1
    | (st1, Except.ok d) =>
      map_buffers_rollback env rest (dma_buf_put (nvhost_vm_unmap_dmabuf st1 d) d)

/-- `nvhost_ioctl_channel_map_buffer(ctx, args)`: the state afterwards and the
returned status. -/
def nvhost_ioctl_channel_map_buffer (env : BufEnv) (st : BufState)
    (args : nvhost_channel_map_buffer_args) : BufState × Int :=
  if args.reserved ≠ 0 then (st, -EINVAL)
  else if !env.kzalloc_buffers_ok then (st, -ENOMEM)
  else if copy_table_left st args.num_buffers ≠ 0 then
    (st, (copy_table_left st args.num_buffers : Int))
  else
    let l := map_buffers_loop env (st.user_table.take args.num_buffers) st 0
    match l.err with
    | some e => (map_buffers_rollback env (l.buffers.take l.num_handled_buffers) l.st, e)
    | none =>
      if env.copy_to_user_left ≠ 0 then
        (map_buffers_rollback env (l.buffers.take l.num_handled_buffers) l.st,
         (env.copy_to_user_left : Int))
      else
        ({ l.st with user_table := l.buffers ++ l.st.user_table.drop args.num_buffers }, 0)

/-- Result of the first loop of `nvhost_ioctl_channel_unmap_buffer`: `err` is
`some e` when it left through `goto err_get_dmabufs`; `dmabufs` holds the
entries of the array `dmabufs` that were resolved (the first
`num_handled_buffers` ones). -/
structure UnmapLoop where
  st : BufState
  err : Option Int
  dmabufs : List Nat

/-- The first `for` loop of `nvhost_ioctl_channel_unmap_buffer`. -/
def unmap_get_loop (env : BufEnv) : List nvhost_channel_buffer → BufState → UnmapLoop
  | [], st => { st := st, err := none, dmabufs := [] }
  | b :: rest, st =>
    if b.reserved0 ≠ 0 ∨ b.reserved1_0 ≠ 0 ∨ b.reserved1_1 ≠ 0 then
      { st := st, err := some (-EINVAL), dmabufs := [] }
    else
      match dma_buf_get env st b.dmabuf_fd with
      | (st1, Except.error e) => { st := st1, err := some e, dmabufs := [] }
      | (st1, Except.ok d) =>
        let l := unmap_get_loop env rest st1
        { st := l.st, err := l.err, dmabufs := d :: l.dmabufs }

/-- `nvhost_ioctl_channel_unmap_buffer(ctx, args)`: the state afterwards and
the returned status. -/
def nvhost_ioctl_channel_unmap_buffer (env : BufEnv) (st : BufState)
    (args : nvhost_channel_map_buffer_args) : BufState × Int :=
  if args.reserved ≠ 0 then (st, -EINVAL)
  else if !env.kzalloc_buffers_ok then (st, -ENOMEM)
  else if !env.kzalloc_dmabufs_ok then (st, -ENOMEM)
  else if copy_table_left st args.num_buffers ≠ 0 then
    (st, (copy_table_left st args.num_buffers : Int))
  else
    let l := unmap_get_loop env (st.user_table.take args.num_buffers) st
    match l.err with
    | some e => (l.dmabufs.foldl dma_buf_put l.st, e)
    | none =>
      let st2 := l.dmabufs.foldl nvhost_vm_unmap_dmabuf l.st
      (l.dmabufs.foldl dma_buf_put st2, 0)

/-- The status the per-entry checks of the two buffer ioctls produce for a
table entry: `-EINVAL` for a nonzero reserved field, the `dma_buf_get` error
for a descriptor that does not resolve, none for an entry that passes. -/
def entry_error (env : BufEnv) (b : nvhost_channel_buffer) : Option Int :=
  if b.reserved0 ≠ 0 ∨ b.reserved1_0 ≠ 0 ∨ b.reserved1_1 ≠ 0 then some (-EINVAL)
  else
    match env.fd_table b.dmabuf_fd with
    | FdEntry.dmabuf _ => none
    | FdEntry.closed => some (-EBADF)
    | FdEntry.not_dmabuf => some (-EINVAL)

/-- The dma-bufs the descriptors of the given entries resolve to. -/
def resolved (env : BufEnv) (bs : List nvhost_channel_buffer) : List Nat :=
  bs.filterMap (fun b =>
    match env.fd_table b.dmabuf_fd with
    | FdEntry.dmabuf d => some d
    | _ => none)

/-- A process with three dma-buf descriptors (3, 4 and 5 for the dma-bufs 30,
40 and 50), every mapping succeeding; used for concrete evaluations only. -/
def demoBufEnv : BufEnv :=
  { fd_table := fun fd =>
      if fd = 3 then FdEntry.dmabuf 30 else if fd = 4 then FdEntry.dmabuf 40
      else if fd = 5 then FdEntry.dmabuf 50 else FdEntry.closed,
    vm_map_status := fun _ => 0,
    vm_map_addr := fun d => 4096 * d,
    kzalloc_buffers_ok := true,
    kzalloc_dmabufs_ok := true,
    copy_to_user_left := 0 }

/-- A table entry with the given descriptor and first reserved word. -/
def demoBuffer (fd reserved0 : Nat) : nvhost_channel_buffer :=
  { dmabuf_fd := fd, reserved0 := reserved0, reserved1_0 := 0, reserved1_1 := 0, address := 0 }

/-- An address space in which dma-buf 30 is mapped once, with the given user
table; used for concrete evaluations only. -/
def demoBufState (table : List nvhost_channel_buffer) : BufState :=
  { vm := fun d => if d = 30 then 1 else 0, user_table := table, log := [] }

/-! ## bus_client.c : job submission -/

/-- `struct nvhost_submit_args` (linux/nvhost_ioctl.h): the 32-bit counts and
flags, the returned `fence`, and the user pointers (0 is NULL). -/
structure nvhost_submit_args where
  submit_version : Nat
  num_syncpt_incrs : Nat
  num_cmdbufs : Nat
  num_relocs : Nat
  num_waitchks : Nat
  timeout : Nat
  flags : Nat
  fence : Nat
  syncpt_incrs : Nat
  cmdbuf_exts : Nat
  cmdbufs : Nat
  relocs : Nat
  reloc_shifts : Nat
  waitchks : Nat
  waitbases : Nat
  class_ids : Nat
  fences : Nat
  deriving DecidableEq, Repr

/-- `struct nvhost_cmdbuf`. -/
structure nvhost_cmdbuf where
  mem : Nat
  offset : Nat
  words : Nat
  deriving DecidableEq, Repr

/-- `struct nvhost_cmdbuf_ext`: the signed `pre_fence`. -/
structure nvhost_cmdbuf_ext where
  pre_fence : Int
  deriving DecidableEq, Repr

/-- `struct nvhost_syncpt_incr`. -/
structure nvhost_syncpt_incr where
  syncpt_id : Nat
  syncpt_incrs : Nat
  deriving DecidableEq, Repr

/-- Outcome of one `copy_from_user`: the number of bytes left uncopied (0 on
success) and the contents of the destination afterwards. -/
structure UserCopy (α : Type) where
  left : Nat
  val : α
  deriving DecidableEq, Repr

/-- User memory as the submit call reads and writes it: what each
`copy_from_user` of the call yields (for the three element-wise copies, per
index), and the bytes each `copy_to_user` of a fence leaves uncopied. -/
structure SubmitUser where
  class_ids : UserCopy (List Nat)
  cmdbufs : List (UserCopy nvhost_cmdbuf)
  cmdbuf_exts : List (UserCopy nvhost_cmdbuf_ext)
  relocs : UserCopy (List Nat)
  reloc_shifts : UserCopy (List Nat)
  waitchks : UserCopy (List Nat)
  syncpt_incrs : List (UserCopy nvhost_syncpt_incr)
  fences_left : List Nat
  deriving DecidableEq, Repr

/-- The copy of element `i` of a user array: an index beyond the described
memory faults, leaving all `size` bytes uncopied. -/
def user_at {α : Type} (l : List (UserCopy α)) (i : Nat) (size : Nat) (dflt : α) : UserCopy α :=
  l.getD i { left := size, val := dflt }

/-- Outcomes of the calls the submit makes into other modules:
`nvhost_job_alloc`, the `kzalloc` of the class-id buffer, `nvhost_module_busy`,
`nvhost_job_pin`, `nvhost_channel_submit` and the fences it assigns to the
job's sync points, and `nvhost_sync_create_fence_fd` with the descriptor it
stores. -/
structure SubmitEnv where
  job_alloc_ok : Bool
  kzalloc_ok : Bool
  module_busy_ret : Int
  job_pin_ret : Int
  channel_submit_ret : Int
  job_fences : List Nat
  create_fence_fd_ret : Int
  fence_fd : Nat
  deriving DecidableEq, Repr

/-- A gather entry of a job, as `nvhost_job_add_gather` records it. -/
structure nvhost_job_gather where
  mem : Nat
  words : Nat
  offset : Nat
  class_id : Nat
  pre_fence : Int
  deriving DecidableEq, Repr

/-- An entry of `job->sp`. -/
structure nvhost_job_syncpt where
  id : Nat
  incrs : Nat
  fence : Nat
  deriving DecidableEq, Repr

/-- The part of `struct nvhost_job` the submit call fills.  `sp` holds the
entries written so far (the array itself has `num_syncpt_incrs` entries). -/
structure nvhost_job where
  gathers : List nvhost_job_gather
  relocarray : List Nat
  relocshiftarray : List Nat
  waitchk : List Nat
  sp : List nvhost_job_syncpt
  num_relocs : Int
  num_waitchk : Int
  num_syncpts : Int
  priority : Nat
  clientid : Int
  vm : Option Nat
  error_notifier_ref : Option Nat
  error_notifier_offset : Nat
  timeout : Nat
  timeout_debug_dump : Bool
  hwctx_syncpt_idx : Nat
  deriving DecidableEq, Repr

/-- The calls a submit makes into other modules, in the order made. -/
inductive SubmitEv where
  | job_alloc
  | vm_get
  | get_dma_buf (d : Nat)
  | kzalloc_class_ids
  | kfree_class_ids
  | job_add_gather (g : nvhost_job_gather)
  | module_busy
  | module_idle
  | job_pin
  | job_unpin
  | channel_submit
  | job_put
  | copy_fence_to_user (idx : Nat) (fence : Nat)
  | create_fence_fd (pts : List (Nat × Nat))
  deriving DecidableEq, Repr

/-- The calls that only build the job: the references taken for it, the
class-id buffer, and the gathers added. -/
def SubmitEv.is_build : SubmitEv → Bool
  | SubmitEv.vm_get => true
  | SubmitEv.get_dma_buf _ => true
  | SubmitEv.kzalloc_class_ids => true
  | SubmitEv.kfree_class_ids => true
  | SubmitEv.job_add_gather _ => true
  | _ => false

/-- The locals of `nvhost_ioctl_channel_submit` while the job is built: the
calls made so far, the job, and `local_class_ids` (`none` is NULL). -/
structure SubmitSt where
  trace : List SubmitEv
  job : nvhost_job
  local_class_ids : Option (List Nat)
  deriving DecidableEq, Repr

/-- What a submit call leaves behind: the returned status, the calls made, the
job as last seen by the call (none when none was allocated), `args->fence`, and
the fence words written to the user's fence array. -/
structure SubmitResult where
  ret : Int
  trace : List SubmitEv
  job : Option nvhost_job
  fence : Nat
  user_fences : List Nat
  deriving DecidableEq, Repr

/-- The table `syncpt_array` points to: the context's under the per-instance
policy, the channel's otherwise. -/
def syncpt_array (policy : nvhost_syncpt_policy) (ctx : nvhost_channel_userctx)
    (ch : nvhost_channel) : List Nat :=
  if policy = nvhost_syncpt_policy.SYNCPT_PER_CHANNEL_INSTANCE then ctx.syncpts else ch.syncpts

/-- `get_job_fence(job, id)`. -/
def get_job_fence (pdata : nvhost_device_data) (job : nvhost_job) (id : Nat) : Nat :=
  let fence := (job.sp.getD id { id := 0, incrs := 0, fence := 0 }).fence
  if pdata.push_work_done ∧ id = 0 then (fence + 4294967295) % 4294967296 else fence

/-- Lines 452-473: the job as `nvhost_job_alloc` returned it, with the fields
copied from the arguments and the context, the address-space reference taken
and the error notifier copied. -/
def submit_init (ctx : nvhost_channel_userctx) (args : nvhost_submit_args) : SubmitSt :=
  let job : nvhost_job :=
    { gathers := [], relocarray := [], relocshiftarray := [], waitchk := [], sp := [],
      num_relocs := toInt32 args.num_relocs,
      num_waitchk := toInt32 args.num_waitchks,
      num_syncpts := toInt32 args.num_syncpt_incrs,
      priority := ctx.priority,
      clientid := ctx.clientid,
      vm := ctx.vm,
      error_notifier_ref := none,
      error_notifier_offset := 0,
      timeout := 0,
      timeout_debug_dump := false,
      hwctx_syncpt_idx := 0 }
  match ctx.error_notifier_ref with
  | some d =>
    { trace := [SubmitEv.job_alloc, SubmitEv.vm_get, SubmitEv.get_dma_buf d],
      job := { job with error_notifier_ref := some d,
                        error_notifier_offset := ctx.error_notifier_offset },
      local_class_ids := none }
  | none =>
    { trace := [SubmitEv.job_alloc, SubmitEv.vm_get], job := job, local_class_ids := none }

/-- Lines 475-489, the mass copy of the class ids; `some err` is `goto fail`
with that `err`. -/
def submit_class_ids (args : nvhost_submit_args) (um : SubmitUser) (env : SubmitEnv)
    (st : SubmitSt) : SubmitSt × Option Int :=
  if args.class_ids ≠ 0 then
    if !env.kzalloc_ok then
      ({ st with trace := st.trace ++ [SubmitEv.kzalloc_class_ids] }, some (-ENOMEM))
    else
      let st1 := { st with trace := st.trace ++ [SubmitEv.kzalloc_class_ids],
                           local_class_ids := some um.class_ids.val }
      if um.class_ids.left ≠ 0 then (st1, some (-EINVAL)) else (st1, none)
  else (st, none)

/-- The loop over the command buffers, lines 491-518, over the indices still
to visit; `some err` is `goto fail` with that `err`. -/
def submit_cmdbuf_loop (c : HostConsts) (pdata : nvhost_device_data)
    (args : nvhost_submit_args) (um : SubmitUser) : List Nat → SubmitSt → SubmitSt × Option Int
  | [], st => (st, none)
  | i :: rest, st =>
    let class_id : Nat :=
      if args.class_ids ≠ 0 then (st.local_class_ids.getD []).getD i 0 else 0
    let cmdbuf := user_at um.cmdbufs i 12 { mem := 0, offset := 0, words := 0 }
    if cmdbuf.left ≠ 0 then (st, some (cmdbuf.left : Int))
    else
      let ext : UserCopy nvhost_cmdbuf_ext :=
        if args.cmdbuf_exts ≠ 0 then user_at um.cmdbuf_exts i 8 { pre_fence := -1 }
        else { left := 0, val := { pre_fence := -1 } }
      let pre_fence : Int := if ext.left ≠ 0 then -1 else ext.val.pre_fence
      if class_id ≠ 0 ∧ class_id ≠ pdata.engine_class ∧ class_id ≠ c.NV_HOST1X_CLASS_ID then
        (st, some (-EINVAL))
      else
        let g : nvhost_job_gather :=
          { mem := cmdbuf.val.mem, words := cmdbuf.val.words, offset := cmdbuf.val.offset,
            class_id := class_id, pre_fence := pre_fence }
        submit_cmdbuf_loop c pdata args um rest
          { st with trace := st.trace ++ [SubmitEv.job_add_gather g],
                    job := { st.job with gathers := st.job.gathers ++ [g] } }

/-- Lines 520-536: the class-id buffer is freed and the relocation,
relocation-shift and wait-check arrays are copied into the job. -/
def submit_copy_arrays (um : SubmitUser) (st : SubmitSt) : SubmitSt × Option Int :=
  let st1 : SubmitSt :=
    { st with trace := if st.local_class_ids.isSome then st.trace ++ [SubmitEv.kfree_class_ids]
                       else st.trace,
              local_class_ids := none }
  if um.relocs.left ≠ 0 then (st1, some (um.relocs.left : Int))
  else
    let st2 := { st1 with job := { st1.job with relocarray := um.relocs.val } }
    if um.reloc_shifts.left ≠ 0 then (st2, some (um.reloc_shifts.left : Int))
    else
      let st3 := { st2 with job := { st2.job with relocshiftarray := um.reloc_shifts.val } }
      if um.waitchks.left ≠ 0 then (st3, some (um.waitchks.left : Int))
      else ({ st3 with job := { st3.job with waitchk := um.waitchks.val } }, none)

/-- The steps of a submit from the allocated job up to the sync-point loop
(lines 460-536). -/
def submit_prepare (c : HostConsts) (pdata : nvhost_device_data)
    (ctx : nvhost_channel_userctx) (args : nvhost_submit_args) (um : SubmitUser)
    (env : SubmitEnv) : SubmitSt × Option Int :=
  match submit_class_ids args um env (submit_init ctx args) with
  | (st1, some err) => (st1, some err)
  | (st1, none) =>
    match submit_cmdbuf_loop c pdata args um
        (List.range (toInt32 args.num_cmdbufs).toNat) st1 with
    | (st2, some err) => (st2, some err)
    | (st2, none) => submit_copy_arrays um st2

/-- The loop over the sync-point increments, lines 545-578, over the indices
still to visit; `some err` is `goto fail` with that `err`. -/
def submit_syncpt_loop (table : List Nat) (um : SubmitUser) :
    List Nat → SubmitSt → SubmitSt × Option Int
  | [], st => (st, none)
  | i :: rest, st =>
    let sp := user_at um.syncpt_incrs i 8 { syncpt_id := 0, syncpt_incrs := 0 }
    if sp.left ≠ 0 then (st, some (sp.left : Int))
    else if sp.val.syncpt_id = 0 then (st, some (-EINVAL))
    else if sp.val.syncpt_id ∉ table then (st, some (-EINVAL))
    else
      submit_syncpt_loop table um rest
        { st with job := { st.job with sp := st.job.sp ++
            [{ id := sp.val.syncpt_id, incrs := sp.val.syncpt_incrs, fence := 0 }] } }

/-- Modelled from the spec: `nvhost_channel_submit(job)` (nvhost_channel.c, not
among the translated files) hands the job to the hardware dispatch, which
assigns each sync point of the job its fence value. -/
def job_assign_fences (job : nvhost_job) (fences : List Nat) : nvhost_job :=
  let padded := fences ++ List.replicate job.sp.length 0
  { job with sp := List.zipWith (fun s f => { s with fence := f }) job.sp padded }

/-- The labels `fail_submit:` (when `unpin`) and `fail:`. -/
def submit_fail (st : SubmitSt) (err : Int) (unpin : Bool) (fence : Nat)
    (user_fences : List Nat) : SubmitResult :=
  { ret := err,
    trace := st.trace ++ (if unpin then [SubmitEv.job_unpin] else []) ++ [SubmitEv.job_put] ++
      (if st.local_class_ids.isSome then [SubmitEv.kfree_class_ids] else []),
    job := some st.job,
    fence := fence,
    user_fences := user_fences }

/-- The loop delivering the fences to the user's array, lines 607-614, over
the indices still to visit: the calls made and the words written; it stops at
the first copy that fails. -/
def submit_deliver_fences (pdata : nvhost_device_data) (um : SubmitUser) (job : nvhost_job) :
    List Nat → List SubmitEv × List Nat
  | [] => ([], [])
  | i :: rest =>
    let fence := get_job_fence pdata job i
    if um.fences_left.getD i 4 ≠ 0 then ([SubmitEv.copy_fence_to_user i fence], [])
    else
      ((SubmitEv.copy_fence_to_user i fence) :: (submit_deliver_fences pdata um job rest).1,
       fence :: (submit_deliver_fences pdata um job rest).2)

/-- Lines 580-638 and the failure labels: power vote, pinning, timeout,
dispatch and the delivery of the fences. -/
def submit_dispatch (c : HostConsts) (pdata : nvhost_device_data)
    (ctx : nvhost_channel_userctx) (args : nvhost_submit_args) (um : SubmitUser)
    (env : SubmitEnv) (st0 : SubmitSt) : SubmitResult :=
  let num_syncpt_incrs : Int := toInt32 args.num_syncpt_incrs
  let st1 := { st0 with job := { st0.job with hwctx_syncpt_idx := 0 },
                        trace := st0.trace ++ [SubmitEv.module_busy] }
  if env.module_busy_ret ≠ 0 then submit_fail st1 env.module_busy_ret false args.fence []
  else
    let st2 := { st1 with trace := st1.trace ++ [SubmitEv.job_pin, SubmitEv.module_idle] }
    if env.job_pin_ret ≠ 0 then submit_fail st2 env.job_pin_ret false args.fence []
    else
      let st3 := { st2 with
        job := { st2.job with
          timeout := if args.timeout ≠ 0 then min ctx.timeout args.timeout else ctx.timeout,
          timeout_debug_dump := ctx.timeout_debug_dump },
        trace := st2.trace ++ [SubmitEv.channel_submit] }
      if env.channel_submit_ret ≠ 0 then
        submit_fail st3 env.channel_submit_ret true args.fence []
      else
        let job4 := job_assign_fences st3.job env.job_fences
        let delivered : List SubmitEv × List Nat :=
          if args.fences ≠ 0 then
            submit_deliver_fences pdata um job4 (List.range num_syncpt_incrs.toNat)
          else ([], [])
        let st5 := { st3 with job := job4, trace := st3.trace ++ delivered.1 }
        if args.flags &&& (1 <<< c.NVHOST_SUBMIT_FLAG_SYNC_FENCE_FD) ≠ 0 then
          let pts := (List.range num_syncpt_incrs.toNat).map (fun i =>
            ((job4.sp.getD i { id := 0, incrs := 0, fence := 0 }).id, get_job_fence pdata job4 i))
          let st6 := { st5 with trace := st5.trace ++ [SubmitEv.create_fence_fd pts] }
          if env.create_fence_fd_ret ≠ 0 then
            submit_fail st6 env.create_fence_fd_ret false args.fence delivered.2
          else
            { ret := 0, trace := st6.trace ++ [SubmitEv.job_put], job := some job4,
              fence := env.fence_fd, user_fences := delivered.2 }
        else
          { ret := 0, trace := st5.trace ++ [SubmitEv.job_put], job := some job4,
            fence := if num_syncpt_incrs = 1 then get_job_fence pdata job4 job4.hwctx_syncpt_idx
                     else 0,
            user_fences := delivered.2 }

/-- `nvhost_ioctl_channel_submit(ctx, args)`.  `nb_pts` is
`host->info.nb_pts`, an `int` field of `struct host1x_device_info` (dev.h, not
among the translated files); `ch` is the channel `ctx->ch` points to; the
locals `num_cmdbufs`, `num_relocs`, `num_waitchks` and `num_syncpt_incrs` are
`int`s holding the 32-bit argument fields. -/
def nvhost_ioctl_channel_submit (c : HostConsts) (policy : nvhost_syncpt_policy)
    (nb_pts : Int) (pdata : nvhost_device_data) (ctx : nvhost_channel_userctx)
    (ch : nvhost_channel) (args : nvhost_submit_args) (um : SubmitUser) (env : SubmitEnv) :
    SubmitResult :=
  let num_syncpt_incrs : Int := toInt32 args.num_syncpt_incrs
  if num_syncpt_incrs > nb_pts then
    { ret := -EINVAL, trace := [], job := none, fence := args.fence, user_fences := [] }
  else if !env.job_alloc_ok then
    { ret := -ENOMEM, trace := [SubmitEv.job_alloc], job := none, fence := args.fence,
      user_fences := [] }
  else
    match submit_prepare c pdata ctx args um env with
    | (st1, some err) => submit_fail st1 err false args.fence []
    | (st1, none) =>
      match submit_syncpt_loop (syncpt_array policy ctx ch) um
          (List.range num_syncpt_incrs.toNat) st1 with
      | (st2, some err) => submit_fail st2 err false args.fence []
      | (st2, none) => submit_dispatch c pdata ctx args um env st2

/-- A context with sync points 5 and 6 reserved, medium priority and a
5000 ms timeout; used for concrete evaluations only. -/
def demoCtx : nvhost_channel_userctx :=
  { ch := some 1, timeout := 5000, priority := 100, clientid := 1, timeout_debug_dump := true,
    pdev := some 0, syncpts := [5, 6, 0, 0], client_managed_syncpt := 0,
    error_notifier_ref := none, error_notifier_offset := 0, vm := some 1 }

/-- A channel with sync point 9 reserved. -/
def demoChannel : nvhost_channel := { syncpts := [9, 0, 0, 0], client_managed_syncpt := 0 }

/-- Device data of an engine of class 96. -/
def demoPdata : nvhost_device_data :=
  { exclusive := false, keepalive := false, num_channels := 1, num_mapped_chs := 0,
    engine_class := 96, push_work_done := false }

/-- Submit arguments with the given number of sync-point increments and
nothing else. -/
def demoArgs (num_syncpt_incrs : Nat) : nvhost_submit_args :=
  { submit_version := 0, num_syncpt_incrs := num_syncpt_incrs, num_cmdbufs := 0,
    num_relocs := 0, num_waitchks := 0, timeout := 0, flags := 0, fence := 0,
    syncpt_incrs := 4096, cmdbuf_exts := 0, cmdbufs := 0, relocs := 0, reloc_shifts := 0,
    waitchks := 0, waitbases := 0, class_ids := 0, fences := 0 }

/-- User memory holding the given sync-point increment descriptors, every
copy succeeding. -/
def demoUser (incrs : List nvhost_syncpt_incr) : SubmitUser :=
  { class_ids := { left := 0, val := [] }, cmdbufs := [], cmdbuf_exts := [],
    relocs := { left := 0, val := [] }, reloc_shifts := { left := 0, val := [] },
    waitchks := { left := 0, val := [] },
    syncpt_incrs := incrs.map (fun s => { left := 0, val := s }),
    fences_left := [] }

/-- Every call into other modules succeeds; the job's fences are 41, 42, ... -/
def okSubmitEnv : SubmitEnv :=
  { job_alloc_ok := true, kzalloc_ok := true, module_busy_ret := 0, job_pin_ret := 0,
    channel_submit_ret := 0, job_fences := [41, 42, 43, 44], create_fence_fd_ret := 0,
    fence_fd := 7 }

/-! ## bus_client.c : register window check -/

/-- `validate_reg(ndev, offset, count)`.  A memory resource is given by its
`resource_size`, `none` being the NULL of `platform_get_resource`; `master` is
`pdata->master` (`none` is NULL) as the resource of the master device, `ndev`
the resource of the device itself.  `offset` is a `u32` and `count` an `int`:
`4 * count` is an `int` product, the sum is taken in `unsigned int`, and the
comparison with the `resource_size_t` is made in the wider type. -/
def validate_reg (master : Option (Option Nat)) (ndev : Option Nat) (offset : Nat)
    (count : Int) : Int :=
  let r : Option Nat := match master with
    | some m => m
    | none => ndev
  match r with
  | none => -ENODEV
  | some size =>
    let sum : Nat := (((offset : Int) + wrap32 (4 * count)) % 4294967296).toNat
    if sum > size ∨ sum < offset then -EPERM else 0

/-! ## bus_client.c : error notifier -/

/-- `struct nvhost_set_error_notifier` (linux/nvhost_ioctl.h): the 64-bit
`offset` and `size` and the 32-bit buffer descriptor `mem`. -/
structure nvhost_set_error_notifier where
  offset : Nat
  size : Nat
  mem : Nat
  deriving DecidableEq, Repr

/-- What `nvhost_init_error_notifier` finds around it: the descriptor table of
the process, whether `dma_buf_vmap` maps a given dma-buf, and
`sizeof(struct nvhost_notification)` (linux/nvhost_ioctl.h, not among the
translated files). -/
structure NotifierEnv where
  fd_table : Nat → FdEntry
  vmap_ok : Nat → Bool
  sizeof_notification : Nat

/-- The dma-bufs and the kernel memory as the notifier code acts on them: the
reference count and the size in bytes (`dmabuf->size`) of each dma-buf, the
kernel address `dma_buf_vmap` returns for each, and the bytes of kernel memory
by 64-bit address.  Every address holds a byte that can be written: a write
beyond the end of a buffer changes whatever lies there (on the machine it can
also fault, which leaves no state to describe). -/
structure DmaBufs where
  refs : Nat → Int
  size : Nat → Nat
  va : Nat → Nat
  mem : Nat → Nat

/-- The byte at `va + off` for the mapping `va` of dma-buf `d`; the pointer
sum wraps at 64 bits. -/
def DmaBufs.bytes (b : DmaBufs) (d off : Nat) : Nat :=
  b.mem ((b.va d + off) % 18446744073709551616)

/-- Modelled from the spec: `dma_buf_get`/`get_dma_buf` (the kernel dma-buf
API) take one reference on the buffer. -/
def DmaBufs.get (b : DmaBufs) (d : Nat) : DmaBufs :=
  { b with refs := Function.update b.refs d (b.refs d + 1) }

/-- Modelled from the spec: `dma_buf_put` (the kernel dma-buf API) drops one
reference on the buffer. -/
def DmaBufs.put (b : DmaBufs) (d : Nat) : DmaBufs :=
  { b with refs := Function.update b.refs d (b.refs d - 1) }

/-- `memset(va + offset, 0, n)` on the mapping `va` of dma-buf `d`: the `n`
bytes from the address `va + offset` on (a 64-bit pointer sum) become zero,
wherever they lie: inside the buffer, behind its end, or, after wrap-around,
before its start.  Nothing compares the address with the size of the buffer.
An address `a` is among these bytes when `a - (va + offset)`, taken modulo
`2 ^ 64`, is below `n`. -/
def memset_zero (b : DmaBufs) (d offset n : Nat) : DmaBufs :=
  { b with mem := fun a =>
      if a < 18446744073709551616 ∧
          (a + (18446744073709551616 - (b.va d + offset) % 18446744073709551616))
            % 18446744073709551616 < n
      then 0 else b.mem a }

/-- `nvhost_init_error_notifier(ctx, args)`: the dma-bufs and the context
afterwards, and the status.  `IS_ERR(dmabuf)` holds when the descriptor names
no dma-buf. -/
def nvhost_init_error_notifier (env : NotifierEnv) (b : DmaBufs)
    (ctx : nvhost_channel_userctx) (args : nvhost_set_error_notifier) :
    DmaBufs × nvhost_channel_userctx × Int :=
  if args.mem = 0 then
    let b1 := match ctx.error_notifier_ref with
      | some old => b.put old
      | none => b
    (b1, { ctx with error_notifier_ref := none }, 0)
  else
    match env.fd_table args.mem with
    | FdEntry.dmabuf d =>
      let b1 := b.get d
      if !env.vmap_ok d then (b1.put d, ctx, -ENOMEM)
      else
        let b2 := memset_zero b1 d args.offset env.sizeof_notification
        let b3 := match ctx.error_notifier_ref with
          | some old => b2.put old
          | none => b2
        (b3, { ctx with error_notifier_ref := some d, error_notifier_offset := args.offset }, 0)
    | _ => (b, ctx, -EINVAL)

/-- Descriptor 3 is dma-buf 7, descriptor 4 is dma-buf 8, every mapping
succeeds, and a notification record has 16 bytes; used for concrete
evaluations only. -/
def demoNotifierEnv : NotifierEnv :=
  { fd_table := fun fd => if fd = 3 then FdEntry.dmabuf 7 else if fd = 4 then FdEntry.dmabuf 8
      else FdEntry.closed,
    vmap_ok := fun _ => true,
    sizeof_notification := 16 }

/-- Every dma-buf holds one reference, has 64 bytes and is mapped at 4096
times its number, so that dma-buf 8 lies 4096 bytes behind dma-buf 7; every
byte of memory is 255. -/
def demoDmaBufs : DmaBufs :=
  { refs := fun _ => 1, size := fun _ => 64, va := fun d => 4096 * d, mem := fun _ => 255 }

/-! ## bus_client.c : control calls -/

/-- The case `NVHOST_IOCTL_CHANNEL_SET_TIMEOUT` of `nvhost_channelctl`:
`timeout` is the field of the argument record in `buf`, read as a `u32`; the
context afterwards and `err`. -/
def nvhost_channelctl_SET_TIMEOUT (priv : nvhost_channel_userctx) (timeout : Nat) :
    nvhost_channel_userctx × Int :=
  ({ priv with timeout := timeout % 4294967296 }, 0)

/-- `struct nvhost32_submit_args` (linux/nvhost_ioctl.h), every field 32 bits
wide: the fields the legacy case reads, and `waitbases`, which it does not
copy. -/
structure nvhost32_submit_args where
  submit_version : Nat
  num_syncpt_incrs : Nat
  num_cmdbufs : Nat
  num_relocs : Nat
  num_waitchks : Nat
  timeout : Nat
  syncpt_incrs : Nat
  cmdbufs : Nat
  relocs : Nat
  reloc_shifts : Nat
  waitchks : Nat
  waitbases : Nat
  class_ids : Nat
  fences : Nat
  fence : Nat
  deriving DecidableEq, Repr

/-- Outcome of the `nvhost_channel_map` call of the submit cases: its status,
and the channel it stores in `priv->ch` with the contents that channel then
has. -/
structure MapEnv where
  ret : Int
  ch_ptr : Nat
  ch : nvhost_channel
  deriving DecidableEq, Repr

/-- What a submit case of `nvhost_channelctl` leaves behind: `err`, the
context, the contents of the channel `priv->ch` points to, the references held
on that channel, the result of the call of `nvhost_ioctl_channel_submit` when
one was made, and the `fence` field of the argument record in `buf`. -/
structure SubmitCtl where
  err : Int
  priv : nvhost_channel_userctx
  ch : nvhost_channel
  channel_refs : Int
  submit : Option SubmitResult
  fence : Nat
  deriving DecidableEq, Repr

/-- The case `NVHOST_IOCTL_CHANNEL_SUBMIT` of `nvhost_channelctl`, lines
1272-1311.  `ch` holds the contents of the channel `priv->ch` points to on
entry and `channel_refs` the references held on it; `nvhost_channel_map`
(nvhost_channel.c, not among the translated files) stores the mapped channel
in `priv->ch` and takes one reference, which `nvhost_putchannel(priv->ch, 1)`
drops. -/
def nvhost_channelctl_SUBMIT (c : HostConsts) (channel_policy : nvhost_channel_policy)
    (syncpt_policy : nvhost_syncpt_policy) (nb_pts : Int) (pdata : nvhost_device_data)
    (menv : MapEnv) (priv : nvhost_channel_userctx) (ch : nvhost_channel) (channel_refs : Int)
    (args : nvhost_submit_args) (um : SubmitUser) (env : SubmitEnv) : SubmitCtl :=
  if channel_policy = nvhost_channel_policy.MAP_CHANNEL_ON_SUBMIT then
    if menv.ret ≠ 0 then
      { err := menv.ret, priv := priv, ch := ch, channel_refs := channel_refs, submit := none,
        fence := args.fence }
    else
      let priv1 := { priv with ch := some menv.ch_ptr }
      let ch1 : nvhost_channel :=
        { menv.ch with syncpts := priv1.syncpts,
                       client_managed_syncpt := priv1.client_managed_syncpt }
      let r := nvhost_ioctl_channel_submit c syncpt_policy nb_pts pdata priv1 ch1 args um env
      { err := r.ret, priv := priv1, ch := ch1, channel_refs := channel_refs + 1 - 1,
        submit := some r, fence := r.fence }
  else
    let r := nvhost_ioctl_channel_submit c syncpt_policy nb_pts pdata priv ch args um env
    { err := r.ret, priv := priv, ch := ch, channel_refs := channel_refs, submit := some r,
      fence := r.fence }

/-- The case `NVHOST32_IOCTL_CHANNEL_SUBMIT` of `nvhost_channelctl`, lines
1212-1271: the local `args` is zeroed and filled from the legacy record, and
the `fence` of the legacy record is set from it after the submit. -/
def nvhost_channelctl_SUBMIT32 (c : HostConsts) (channel_policy : nvhost_channel_policy)
    (syncpt_policy : nvhost_syncpt_policy) (nb_pts : Int) (pdata : nvhost_device_data)
    (menv : MapEnv) (priv : nvhost_channel_userctx) (ch : nvhost_channel) (channel_refs : Int)
    (args32 : nvhost32_submit_args) (um : SubmitUser) (env : SubmitEnv) : SubmitCtl :=
  let zeroed : nvhost_submit_args :=
    { submit_version := 0, num_syncpt_incrs := 0, num_cmdbufs := 0, num_relocs := 0,
      num_waitchks := 0, timeout := 0, flags := 0, fence := 0, syncpt_incrs := 0,
      cmdbuf_exts := 0, cmdbufs := 0, relocs := 0, reloc_shifts := 0, waitchks := 0,
      waitbases := 0, class_ids := 0, fences := 0 }
  let args : nvhost_submit_args :=
    { zeroed with
      submit_version := args32.submit_version,
      num_syncpt_incrs := args32.num_syncpt_incrs,
      num_cmdbufs := args32.num_cmdbufs,
      num_relocs := args32.num_relocs,
      num_waitchks := args32.num_waitchks,
      timeout := args32.timeout,
      syncpt_incrs := args32.syncpt_incrs,
      fence := args32.fence,
      cmdbufs := args32.cmdbufs,
      relocs := args32.relocs,
      reloc_shifts := args32.reloc_shifts,
      waitchks := args32.waitchks,
      class_ids := args32.class_ids,
      fences := args32.fences }
  if channel_policy = nvhost_channel_policy.MAP_CHANNEL_ON_SUBMIT then
    if menv.ret ≠ 0 then
      { err := menv.ret, priv := priv, ch := ch, channel_refs := channel_refs, submit := none,
        fence := args32.fence }
    else
      let priv1 := { priv with ch := some menv.ch_ptr }
      let ch1 : nvhost_channel :=
        { menv.ch with syncpts := priv1.syncpts,
                       client_managed_syncpt := priv1.client_managed_syncpt }
      let r := nvhost_ioctl_channel_submit c syncpt_policy nb_pts pdata priv1 ch1 args um env
      { err := r.ret, priv := priv1, ch := ch1, channel_refs := channel_refs + 1 - 1,
        submit := some r, fence := r.fence }
  else
    let r := nvhost_ioctl_channel_submit c syncpt_policy nb_pts pdata priv ch args um env
    { err := r.ret, priv := priv, ch := ch, channel_refs := channel_refs, submit := some r,
      fence := r.fence }

/-! ## nv2_heap_alloc.c : heap type conversion -/

/-- `NVMAP2_heap_type_conversion(orig_heap)`; the globals
`nvmap_convert_carveout_to_iovmm` and `nvmap_convert_iovmm_to_carveout` are
parameters. -/
def NVMAP2_heap_type_conversion (c : HeapConsts)
    (nvmap_convert_carveout_to_iovmm nvmap_convert_iovmm_to_carveout : Bool)
    (orig_heap : Nat) : Nat :=
  if !nvmap_convert_carveout_to_iovmm && nvmap_convert_iovmm_to_carveout then
    if orig_heap &&& c.NVMAP_HEAP_IOVMM ≠ 0 then
      (orig_heap &&& not32 c.NVMAP_HEAP_IOVMM) ||| c.NVMAP_HEAP_CARVEOUT_GENERIC
    else orig_heap
  else orig_heap

/-! ## bus_client.c : sync-point and mutex masks -/

/-- `create_mask(words, num)`: the loop visits the first `num` entries of the
array (the callers pass the size of the array). -/
def create_mask (words : List Nat) (num : Int) : Nat :=
  (words.take num.toNat).foldl
    (fun word w => if w = 0 ∨ w > 31 then word else word ||| (1 <<< w)) 0

/-- `nvhost_ioctl_channel_get_syncpt_mask(priv)`; `ch` is the channel
`priv->ch` points to. -/
def nvhost_ioctl_channel_get_syncpt_mask (c : HostConsts) (policy : nvhost_syncpt_policy)
    (priv : nvhost_channel_userctx) (ch : nvhost_channel) : Nat :=
  if policy = nvhost_syncpt_policy.SYNCPT_PER_CHANNEL_INSTANCE then
    create_mask priv.syncpts c.NVHOST_MODULE_MAX_SYNCPTS
  else create_mask ch.syncpts c.NVHOST_MODULE_MAX_SYNCPTS

/-- Modelled from the spec: `nvhost_get_syncpt_host_managed(pdev, index)`
(nvhost_syncpt.c, not among the translated files) reserves a free sync point
and returns its id, or returns 0 when none is free.  `new_id` is what the
allocator has to offer; `given` lists the ids handed out so far. -/
def nvhost_get_syncpt_host_managed (new_id : Nat) (given : List Nat) : List Nat × Nat :=
  if new_id = 0 then (given, 0) else (given ++ [new_id], new_id)

/-- `nvhost_ioctl_channel_get_syncpt_channel(ch, pdata, index)`: the channel
and the ids handed out afterwards, and the returned id. -/
def nvhost_ioctl_channel_get_syncpt_channel (new_id : Nat) (given : List Nat)
    (ch : nvhost_channel) (index : Nat) : nvhost_channel × List Nat × Nat :=
  let id := ch.syncpts.getD index 0
  if id ≠ 0 then (ch, given, id)
  else
    let r := nvhost_get_syncpt_host_managed new_id given
    if r.2 = 0 then (ch, r.1, r.2)
    else ({ ch with syncpts := ch.syncpts.set index r.2 }, r.1, r.2)

/-- `nvhost_ioctl_channel_get_syncpt_instance(ctx, pdata, index)`: the context
and the ids handed out afterwards, and the returned id. -/
def nvhost_ioctl_channel_get_syncpt_instance (new_id : Nat) (given : List Nat)
    (ctx : nvhost_channel_userctx) (index : Nat) : nvhost_channel_userctx × List Nat × Nat :=
  if ctx.syncpts.getD index 0 ≠ 0 then (ctx, given, ctx.syncpts.getD index 0)
  else
    let r := nvhost_get_syncpt_host_managed new_id given
    if r.2 = 0 then (ctx, r.1, 0)
    else ({ ctx with syncpts := ctx.syncpts.set index r.2 }, r.1, r.2)

/-- `nvhost_ioctl_channel_get_client_syncpt(ctx, args)`: the context, the
channel and the ids handed out afterwards, the status, and the value stored in
`args->value` (`none` when nothing is stored).  `name_ok` is false when
`strncpy_from_user` fails on a non-NULL `args->name`; `new_id` is what
`nvhost_get_syncpt_client_managed` (nvhost_syncpt.c, not among the translated
files; modelled from the spec like the host-managed allocator) has to offer. -/
def nvhost_ioctl_channel_get_client_syncpt (policy : nvhost_syncpt_policy) (name_ok : Bool)
    (new_id : Nat) (given : List Nat) (ctx : nvhost_channel_userctx) (ch : nvhost_channel) :
    nvhost_channel_userctx × nvhost_channel × List Nat × Int × Option Nat :=
  if !name_ok then (ctx, ch, given, -EFAULT, none)
  else if policy = nvhost_syncpt_policy.SYNCPT_PER_CHANNEL_INSTANCE then
    let r : nvhost_channel_userctx × List Nat :=
      if ctx.client_managed_syncpt = 0 then
        ({ ctx with client_managed_syncpt := (nvhost_get_syncpt_host_managed new_id given).2 },
         (nvhost_get_syncpt_host_managed new_id given).1)
      else (ctx, given)
    (r.1, ch, r.2, (if r.1.client_managed_syncpt = 0 then -EAGAIN else 0),
     some r.1.client_managed_syncpt)
  else
    let r : nvhost_channel × List Nat :=
      if ch.client_managed_syncpt = 0 then
        ({ ch with client_managed_syncpt := (nvhost_get_syncpt_host_managed new_id given).2 },
         (nvhost_get_syncpt_host_managed new_id given).1)
      else (ch, given)
    (ctx, r.1, r.2, (if r.1.client_managed_syncpt = 0 then -EAGAIN else 0),
     some r.1.client_managed_syncpt)

/-! ## bus_client.c : clock rates -/

/-- Constants of `linux/nvhost.h` and `linux/nvhost_ioctl.h` used by the
control calls; the headers are not part of the translated files, so the
constants are parameters. -/
structure CtlConsts where
  NVHOST_MODULE_MAX_CLOCKS : Nat
  NVHOST_MODULE_MAX_MODMUTEXES : Nat
  NVHOST_MODULE_ID_BIT_POS : Nat
  NVHOST_MODULE_ID_BIT_WIDTH : Nat
  NVHOST_CLOCK_ATTR_BIT_POS : Nat
  NVHOST_CLOCK_ATTR_BIT_WIDTH : Nat
  NVHOST_TIMEOUT_FLAG_DISABLE_DUMP : Nat
  deriving DecidableEq, Repr

/-- The loop of `moduleid_to_index` over the clock indices still to visit. -/
def moduleid_to_index_loop (clocks : List Nat) (moduleid : Nat) : List Nat → Nat
  | [] => 0
  | i :: rest =>
    if clocks.getD i 0 = moduleid then i else moduleid_to_index_loop clocks moduleid rest

/-- `moduleid_to_index(dev, moduleid)`; `clocks` holds the `moduleid` field of
each entry of `pdata->clocks`. -/
def moduleid_to_index (k : CtlConsts) (clocks : List Nat) (moduleid : Nat) : Nat :=
  moduleid_to_index_loop clocks moduleid (List.range k.NVHOST_MODULE_MAX_CLOCKS)

/-- The clocks of a device: the `moduleid` of each entry of `pdata->clocks`
and the rate each clock runs at. -/
structure ClkState where
  clocks : List Nat
  rates : List Nat
  deriving DecidableEq, Repr

/-- Modelled from the spec: `nvhost_module_set_rate(pdev, priv, rate, index,
attr)` (nvhost_acm.c, not among the translated files) sets the rate the client
asks of clock `index`, or fails with `ret` and sets nothing. -/
def nvhost_module_set_rate (ret : Int) (s : ClkState) (rate index _attr : Nat) :
    ClkState × Int :=
  if ret = 0 then ({ s with rates := s.rates.set index rate }, 0) else (s, ret)

/-- Modelled from the spec: `nvhost_module_get_rate(pdev, &rate, index)`
(nvhost_acm.c) reads the rate of clock `index`, or fails with `ret` and leaves
`rate` as it was. -/
def nvhost_module_get_rate (ret : Int) (s : ClkState) (rate index : Nat) : Int × Nat :=
  if ret = 0 then (0, s.rates.getD index 0) else (ret, rate)

/-- `nvhost_ioctl_channel_set_rate(ctx, arg)`: `moduleid` and `rate` are the
fields of `arg`; the result carries the index and the attribute passed on. -/
def nvhost_ioctl_channel_set_rate (k : CtlConsts) (ret : Int) (s : ClkState)
    (arg_moduleid arg_rate : Nat) : ClkState × Int × Nat × Nat :=
  let moduleid := ((arg_moduleid >>> k.NVHOST_MODULE_ID_BIT_POS) &&&
    ((1 <<< k.NVHOST_MODULE_ID_BIT_WIDTH) - 1)) % two32
  let attr := ((arg_moduleid >>> k.NVHOST_CLOCK_ATTR_BIT_POS) &&&
    ((1 <<< k.NVHOST_CLOCK_ATTR_BIT_WIDTH) - 1)) % two32
  let index := if moduleid ≠ 0 then moduleid_to_index k s.clocks moduleid else 0
  let r := nvhost_module_set_rate ret s arg_rate index attr
  (r.1, r.2, index, attr)

/-- `nvhost_ioctl_channel_get_rate(ctx, moduleid, rate)`: the status, `*rate`
afterwards, and the index passed on. -/
def nvhost_ioctl_channel_get_rate (k : CtlConsts) (ret : Int) (s : ClkState)
    (moduleid rate : Nat) : Int × Nat × Nat :=
  let index := if moduleid ≠ 0 then moduleid_to_index k s.clocks moduleid else 0
  let r := nvhost_module_get_rate ret s rate index
  (r.1, r.2, index)

/-- Bit-field constants with the module id in the low 16 bits of the argument
and the attribute in the high 16 bits, seven clocks and five mutexes per
module; used for concrete evaluations only. -/
def tegraCtlConsts : CtlConsts :=
  { NVHOST_MODULE_MAX_CLOCKS := 7, NVHOST_MODULE_MAX_MODMUTEXES := 5,
    NVHOST_MODULE_ID_BIT_POS := 0, NVHOST_MODULE_ID_BIT_WIDTH := 16,
    NVHOST_CLOCK_ATTR_BIT_POS := 16, NVHOST_CLOCK_ATTR_BIT_WIDTH := 16,
    NVHOST_TIMEOUT_FLAG_DISABLE_DUMP := 0 }

/-! ## bus_client.c : register access -/

/-- One call of `nvhost_read_module_regs` or `nvhost_write_module_regs` that
got to the registers: the direction, the byte offset and the word count. -/
structure RegEv where
  write : Bool
  offset : Nat
  count : Nat
  deriving DecidableEq, Repr

/-- The device as the register calls find it: whether `get_aperture` returns
a mapping, the memory resources `validate_reg` consults, and the outcome of
`nvhost_module_busy`. -/
structure RegDev where
  aperture : Bool
  master : Option (Option Nat)
  ndev : Option Nat
  module_busy_ret : Int
  deriving DecidableEq, Repr

/-- The registers of the aperture by byte offset, the caller's `values` array
by word index, and the register accesses made so far. -/
structure RegState where
  regs : Nat → Nat
  user_values : Nat → Nat
  log : List RegEv

/-- `nvhost_read_module_regs(ndev, offset, count, values)`: the state, the
status and the words read.  The callers pass a `count` from 1 to 64. -/
def nvhost_read_module_regs (dev : RegDev) (st : RegState) (offset : Nat) (count : Int) :
    RegState × Int × List Nat :=
  if !dev.aperture then (st, -ENODEV, [])
  else if validate_reg dev.master dev.ndev offset count ≠ 0 then
    (st, validate_reg dev.master dev.ndev offset count, [])
  else if dev.module_busy_ret ≠ 0 then (st, dev.module_busy_ret, [])
  else
    ({ st with log := st.log ++ [{ write := false, offset := offset, count := count.toNat }] },
     0, (List.range count.toNat).map (fun i => st.regs (offset + 4 * i)))

/-- `nvhost_write_module_regs(ndev, offset, count, values)`: the state and the
status.  The callers pass a `count` from 1 to 64. -/
def nvhost_write_module_regs (dev : RegDev) (st : RegState) (offset : Nat) (count : Int)
    (values : List Nat) : RegState × Int :=
  if !dev.aperture then (st, -ENODEV)
  else if validate_reg dev.master dev.ndev offset count ≠ 0 then
    (st, validate_reg dev.master dev.ndev offset count)
  else if dev.module_busy_ret ≠ 0 then (st, dev.module_busy_ret)
  else
    ({ st with
        regs := fun a =>
          if offset ≤ a ∧ (a - offset) % 4 = 0 ∧ (a - offset) / 4 < count.toNat then
            values.getD ((a - offset) / 4) 0
          else st.regs a,
        log := st.log ++ [{ write := true, offset := offset, count := count.toNat }] },
     0)

/-- `struct nvhost_ctrl_module_regrdwr_args` (linux/nvhost_ioctl.h). -/
structure nvhost_ctrl_module_regrdwr_args where
  id : Nat
  num_offsets : Nat
  block_size : Nat
  offsets : Nat
  values : Nat
  write : Nat
  deriving DecidableEq, Repr

/-- User memory as the register ioctl finds it: the words of the `offsets`
array that `get_user` can read (it faults beyond them), and the word positions
of the `values` array at which a batch copy faults. -/
structure RegUser where
  offsets : List Nat
  values_fault : Nat → Bool

/-- The loop `while (remaining)` of `nvhost_ioctl_channel_module_regrdwr`.
`pos` is the word index `values` has advanced to.  The result is the state,
`some err` when the function returns `err` from inside the loop, and `pos`
afterwards; `none` means the iteration bound `fuel` was used up. -/
def regrdwr_batches (dev : RegDev) (um : RegUser) (write : Bool) :
    Nat → Nat → Nat → Nat → RegState → Option (RegState × Option Int × Nat)
  | fuel, remaining, offs, pos, st =>
    if remaining = 0 then some (st, none, pos)
    else
      match fuel with
      | 0 => none
      | fuel + 1 =>
        let batch := min remaining 64
        if write then
          if um.values_fault pos then some (st, some (-EFAULT), pos)
          else
            let vals := (List.range batch).map (fun i => st.user_values (pos + i))
            let r := nvhost_write_module_regs dev st offs batch vals
            if r.2 ≠ 0 then some (r.1, some r.2, pos)
            else
              regrdwr_batches dev um write fuel (remaining - batch)
                ((offs + batch * 4) % two32) (pos + batch) r.1
        else
          let r := nvhost_read_module_regs dev st offs batch
          if r.2.1 ≠ 0 then some (r.1, some r.2.1, pos)
          else if um.values_fault pos then some (r.1, some (-EFAULT), pos)
          else
            let st1 := { r.1 with user_values := fun w =>
              if pos ≤ w ∧ w < pos + batch then r.2.2.getD (w - pos) 0 else r.1.user_values w }
            regrdwr_batches dev um write fuel (remaining - batch)
              ((offs + batch * 4) % two32) (pos + batch) st1

/-- The loop `while (num_offsets--)` over the `n` offsets still to visit;
`idx` is the index `offsets` has advanced to. -/
def regrdwr_offsets (dev : RegDev) (um : RegUser) (args : nvhost_ctrl_module_regrdwr_args) :
    Nat → Nat → Nat → RegState → Option (RegState × Int)
  | 0, _, _, st => some (st, 0)
  | n + 1, idx, pos, st =>
    match um.offsets.get? idx with
    | none => some (st, -EFAULT)
    | some offs =>
      match regrdwr_batches dev um (args.write ≠ 0) (args.block_size >>> 2)
          (args.block_size >>> 2) (offs % two32) pos st with
      | none => none
      | some (st1, some err, _) => some (st1, err)
      | some (st1, none, pos1) => regrdwr_offsets dev um args n (idx + 1) pos1 st1

/-- `nvhost_ioctl_channel_module_regrdwr(ctx, args)` on the device `ctx->pdev`:
the state and the status; `none` would mean that an iteration bound was used
up. -/
def nvhost_ioctl_channel_module_regrdwr (dev : RegDev) (um : RegUser) (st : RegState)
    (args : nvhost_ctrl_module_regrdwr_args) : Option (RegState × Int) :=
  if args.num_offsets = 0 ∨ args.block_size &&& 3 ≠ 0 then some (st, -EINVAL)
  else regrdwr_offsets dev um args args.num_offsets 0 0 st

/-- A segment of register accesses as one start offset produces it: every
access goes in direction `write` and moves between 1 and 64 words, the `k`-th
starts at `start` plus four times the words moved before it, and the word
counts add up to `words`. -/
def BatchSegment (write : Bool) (start words : Nat) (evs : List RegEv) : Prop :=
  (∀ e ∈ evs, e.write = write ∧ 1 ≤ e.count ∧ e.count ≤ 64) ∧
  ((evs.map (fun e => e.count)).sum = words) ∧
  ∀ k (h : k < evs.length),
    (evs.get ⟨k, h⟩).offset = start + 4 * ((evs.take k).map (fun e => e.count)).sum

/-- A device with a 4096-byte aperture that can be powered; used for concrete
evaluations only. -/
def demoRegDev : RegDev :=
  { aperture := true, master := none, ndev := some 4096, module_busy_ret := 0 }

/-- Registers holding their own byte offset, a `values` array holding 7
everywhere, no access made. -/
def demoRegState : RegState :=
  { regs := fun a => a, user_values := fun _ => 7, log := [] }

/-! ## bus_client.c : the control call -/

def ENOTTY : Int := 25

/-- What the `OPEN` case meets: the result of `get_unused_fd_flags`, whether
`kasprintf` returns a name, the error `anon_inode_getfile` returns (0 when it
returns a file), and the environment of `__nvhost_channelopen`. -/
structure OpenCtlEnv where
  fd_ret : Int
  name_ok : Bool
  file_err : Int
  open_env : OpenEnv
  deriving DecidableEq, Repr

/-- A control call after `nvhost_channelctl` has decoded `cmd` and copied the
argument record into `buf`: the case of the switch, the fields of the record
the case reads, and what the environment decides during the call (outcomes of
allocations, user memory, calls into other modules).  `unknown` is any `cmd`
the switch has no case for. -/
inductive ChannelCmd where
  | OPEN (env : OpenCtlEnv)
  | GET_SYNCPOINTS
  | GET_SYNCPOINT (param : Nat) (new_id : Nat)
  | GET_CLIENT_MANAGED_SYNCPOINT (name_ok : Bool) (new_id : Nat)
  | FREE_CLIENT_MANAGED_SYNCPOINT
  | GET_WAITBASES
  | GET_WAITBASE
  | GET_MODMUTEXES
  | GET_MODMUTEX (param : Nat)
  | SET_NVMAP_FD
  | GET_CLK_RATE (moduleid rate : Nat) (ret : Int)
  | SET_CLK_RATE (moduleid rate : Nat) (ret : Int)
  | SET_TIMEOUT (timeout : Nat)
  | GET_TIMEDOUT
  | SET_PRIORITY (priority : Nat)
  | MODULE_REGRDWR32 (args : nvhost_ctrl_module_regrdwr_args) (um : RegUser)
  | MODULE_REGRDWR (args : nvhost_ctrl_module_regrdwr_args) (um : RegUser)
  | SUBMIT32 (args32 : nvhost32_submit_args) (um : SubmitUser) (env : SubmitEnv) (menv : MapEnv)
  | SUBMIT (args : nvhost_submit_args) (um : SubmitUser) (env : SubmitEnv) (menv : MapEnv)
  | SET_ERROR_NOTIFIER (args : nvhost_set_error_notifier) (env : NotifierEnv)
  | MAP_BUFFER (args : nvhost_channel_map_buffer_args) (env : BufEnv)
  | UNMAP_BUFFER (args : nvhost_channel_map_buffer_args) (env : BufEnv)
  | SET_TIMEOUT_EX (timeout flags : Nat)
  | unknown

/-- Everything a control call on one open file reads and writes: the context
`priv`, the channel `priv->ch` points to and the references held on it, the
device and host state (policies, device data, open contexts), the sync-point
count of the host, the device's `modulemutexes` and clocks, the sync points
handed out by the allocator so far, the registers, the context's address
space, the dma-bufs, and the descriptors installed by `OPEN`. -/
structure CtlWorld where
  priv : nvhost_channel_userctx
  ch : nvhost_channel
  channel_refs : Int
  host : HostState
  nb_pts : Int
  modulemutexes : List Nat
  clk : ClkState
  syncpts_given : List Nat
  regdev : RegDev
  regs : RegState
  bufs : BufState
  dmabufs : DmaBufs
  fds : List Int

/-- What a control call leaves: the world, `err`, the scalar the case stores
in the argument record (`value`, `rate`, `channel_fd` or `fence`; `none` when
it stores none), and the result of `nvhost_ioctl_channel_submit` when the case
called it. -/
structure CtlResult where
  w : CtlWorld
  err : Int
  value : Option Nat
  submit : Option SubmitResult

/-- `nvhost_channelctl(filp, cmd, arg)` from the check of `priv->pdev` to the
end of the switch; the decoding of `cmd` and the copies of the argument record
from and to user memory lie outside.  `none` would mean that an iteration
bound of the register loops was used up.  In the `OPEN` case the descriptor
counts as installed only when `__nvhost_channelopen` succeeds, the failure
path taking it back. -/
def nvhost_channelctl (c : HostConsts) (k : CtlConsts) (w : CtlWorld) (cmd : ChannelCmd) :
    Option CtlResult :=
  if w.priv.pdev.isNone then some { w := w, err := -EFAULT, value := none, submit := none }
  else
    match cmd with
    | .OPEN env =>
      if env.fd_ret < 0 then some { w := w, err := env.fd_ret, value := none, submit := none }
      else if !env.name_ok then some { w := w, err := -ENOMEM, value := none, submit := none }
      else if env.file_err ≠ 0 then
        some { w := w, err := env.file_err, value := none, submit := none }
      else
        let r := __nvhost_channelopen c env.open_env true w.host
        if r.2.1 ≠ 0 then
          some { w := { w with host := r.1 }, err := r.2.1, value := none, submit := none }
        else
          some { w := { w with host := r.1, fds := w.fds ++ [env.fd_ret] }, err := 0,
                 value := some env.fd_ret.toNat, submit := none }
    | .GET_SYNCPOINTS =>
      some { w := w, err := 0,
             value := some (nvhost_ioctl_channel_get_syncpt_mask c w.host.syncpt_policy w.priv w.ch),
             submit := none }
    | .GET_SYNCPOINT param new_id =>
      if param ≥ c.NVHOST_MODULE_MAX_SYNCPTS then
        some { w := w, err := -EINVAL, value := none, submit := none }
      else if w.host.syncpt_policy = nvhost_syncpt_policy.SYNCPT_PER_CHANNEL_INSTANCE then
        let r := nvhost_ioctl_channel_get_syncpt_instance new_id w.syncpts_given w.priv param
        some { w := { w with priv := r.1, syncpts_given := r.2.1 },
               err := if r.2.2 = 0 then -EAGAIN else 0, value := some r.2.2, submit := none }
      else
        let r := nvhost_ioctl_channel_get_syncpt_channel new_id w.syncpts_given w.ch param
        some { w := { w with ch := r.1, syncpts_given := r.2.1 },
               err := if r.2.2 = 0 then -EAGAIN else 0, value := some r.2.2, submit := none }
    | .GET_CLIENT_MANAGED_SYNCPOINT name_ok new_id =>
      let r := nvhost_ioctl_channel_get_client_syncpt w.host.syncpt_policy name_ok new_id
        w.syncpts_given w.priv w.ch
      some { w := { w with priv := r.1, ch := r.2.1, syncpts_given := r.2.2.1 },
             err := r.2.2.2.1, value := r.2.2.2.2, submit := none }
    | .FREE_CLIENT_MANAGED_SYNCPOINT =>
      some { w := w, err := 0, value := none, submit := none }
    | .GET_WAITBASES => some { w := w, err := 0, value := some 0, submit := none }
    | .GET_WAITBASE => some { w := w, err := -EINVAL, value := none, submit := none }
    | .GET_MODMUTEXES =>
      some { w := w, err := 0,
             value := some (create_mask w.modulemutexes k.NVHOST_MODULE_MAX_MODMUTEXES),
             submit := none }
    | .GET_MODMUTEX param =>
      if param ≥ k.NVHOST_MODULE_MAX_MODMUTEXES ∨ w.modulemutexes.getD param 0 = 0 then
        some { w := w, err := -EINVAL, value := none, submit := none }
      else
        some { w := w, err := 0, value := some (w.modulemutexes.getD param 0), submit := none }
    | .SET_NVMAP_FD => some { w := w, err := 0, value := none, submit := none }
    | .GET_CLK_RATE moduleid rate ret =>
      let r := nvhost_ioctl_channel_get_rate k ret w.clk moduleid rate
      some { w := w, err := r.1, value := some r.2.1, submit := none }
    | .SET_CLK_RATE moduleid rate ret =>
      let r := nvhost_ioctl_channel_set_rate k ret w.clk moduleid rate
      some { w := { w with clk := r.1 }, err := r.2.1, value := none, submit := none }
    | .SET_TIMEOUT timeout =>
      let r := nvhost_channelctl_SET_TIMEOUT w.priv timeout
      some { w := { w with priv := r.1 }, err := r.2, value := none, submit := none }
    | .GET_TIMEDOUT => some { w := w, err := 0, value := some 0, submit := none }
    | .SET_PRIORITY priority =>
      some { w := { w with priv := { w.priv with priority := priority % two32 } }, err := 0,
             value := none, submit := none }
    | .MODULE_REGRDWR32 args um =>
      (nvhost_ioctl_channel_module_regrdwr w.regdev um w.regs args).map (fun r =>
        { w := { w with regs := r.1 }, err := r.2, value := none, submit := none })
    | .MODULE_REGRDWR args um =>
      (nvhost_ioctl_channel_module_regrdwr w.regdev um w.regs args).map (fun r =>
        { w := { w with regs := r.1 }, err := r.2, value := none, submit := none })
    | .SUBMIT32 args32 um env menv =>
      let r := nvhost_channelctl_SUBMIT32 c w.host.channel_policy w.host.syncpt_policy w.nb_pts
        w.host.pdata menv w.priv w.ch w.channel_refs args32 um env
      some { w := { w with priv := r.priv, ch := r.ch, channel_refs := r.channel_refs },
             err := r.err, value := some r.fence, submit := r.submit }
    | .SUBMIT args um env menv =>
      let r := nvhost_channelctl_SUBMIT c w.host.channel_policy w.host.syncpt_policy w.nb_pts
        w.host.pdata menv w.priv w.ch w.channel_refs args um env
      some { w := { w with priv := r.priv, ch := r.ch, channel_refs := r.channel_refs },
             err := r.err, value := some r.fence, submit := r.submit }
    | .SET_ERROR_NOTIFIER args env =>
      let r := nvhost_init_error_notifier env w.dmabufs w.priv args
      some { w := { w with dmabufs := r.1, priv := r.2.1 }, err := r.2.2, value := none,
             submit := none }
    | .MAP_BUFFER args env =>
      let r := nvhost_ioctl_channel_map_buffer env w.bufs args
      some { w := { w with bufs := r.1 }, err := r.2, value := none, submit := none }
    | .UNMAP_BUFFER args env =>
      let r := nvhost_ioctl_channel_unmap_buffer env w.bufs args
      some { w := { w with bufs := r.1 }, err := r.2, value := none, submit := none }
    | .SET_TIMEOUT_EX timeout flags =>
      some { w := { w with priv := { w.priv with
                timeout := timeout % two32,
                timeout_debug_dump :=
                  !(decide ((flags % two32) &&& (1 <<< k.NVHOST_TIMEOUT_FLAG_DISABLE_DUMP) ≠ 0)) } },
             err := 0, value := none, submit := none }
    | .unknown => some { w := w, err := -ENOTTY, value := none, submit := none }

/-- A world around `demoCtx` and `demoChannel` with the given sync-point
policy under the map-on-submit channel policy; used for concrete evaluations
only. -/
def demoWorld (policy : nvhost_syncpt_policy) : CtlWorld :=
  { priv := demoCtx, ch := demoChannel, channel_refs := 0,
    host := { exclusiveDevice 2 false with syncpt_policy := policy, pdata := demoPdata },
    nb_pts := 192, modulemutexes := [1, 2, 0, 0, 0],
    clk := { clocks := [0, 5, 0, 0, 0, 0, 0], rates := [100, 200, 0, 0, 0, 0, 0] },
    syncpts_given := [], regdev := demoRegDev, regs := demoRegState,
    bufs := demoBufState [], dmabufs := demoDmaBufs, fds := [] }

/-! ## Properties -/

/-! ### Heap policy selection -/

/-- C7. `NVMAP2_heap_mask_to_policy` returns NULL exactly when the mask is
empty or holds an exclusive heap bit (IVM or VIDMEM) together with any other
bit, for every value of the heap constants and every page count. -/
theorem heap_mask_to_policy_null_iff (c : HeapConsts) (heap_mask : Nat) (nr_page : Int) :
    NVMAP2_heap_mask_to_policy c heap_mask nr_page = none ↔
      heap_mask = 0 ∨
      ∃ e, (e = c.NVMAP_HEAP_CARVEOUT_IVM ∨ e = c.NVMAP_HEAP_CARVEOUT_VIDMEM) ∧
        heap_mask &&& e ≠ 0 ∧ heap_mask &&& not32 e ≠ 0 := by
  unfold NVMAP2_heap_mask_to_policy heap_policy_excl
  simp only [excl_scan, Nat.and_zero, if_true]
  by_cases h1 : heap_mask &&& c.NVMAP_HEAP_CARVEOUT_IVM = 0 <;>
  by_cases h2 : heap_mask &&& c.NVMAP_HEAP_CARVEOUT_VIDMEM = 0 <;>
  by_cases h3 : heap_mask &&& not32 c.NVMAP_HEAP_CARVEOUT_IVM = 0 <;>
  by_cases h4 : heap_mask &&& not32 c.NVMAP_HEAP_CARVEOUT_VIDMEM = 0 <;>
  by_cases h0 : heap_mask = 0 <;>
  simp [h1, h2, h3, h4, h0]

/-- C8, as stated, fails: the mask holding only the IVM bit is valid, and for
one page the exclusive list is returned, which is not the small-first list
(neither the same array nor the same contents). -/
theorem heap_mask_to_policy_excl_single_page :
    NVMAP2_heap_mask_to_policy tegraHeapConsts 2 1 = some PolicyList.excl ∧
    NVMAP2_heap_mask_to_policy tegraHeapConsts 2 1 ≠ some PolicyList.small ∧
    PolicyList.entries tegraHeapConsts PolicyList.excl ≠ heap_policy_small tegraHeapConsts := by
  decide

/-- C8, amended. For a valid mask: when it holds no exclusive heap bit the
small-first list is returned for one page and the large-first list for more
than one page; when it holds an exclusive heap bit the exclusive list is
returned whatever the page count. -/
theorem heap_mask_to_policy_order (c : HeapConsts) (heap_mask : Nat) (nr_page : Int)
    (p : PolicyList) (h : NVMAP2_heap_mask_to_policy c heap_mask nr_page = some p) :
    ((heap_mask &&& c.NVMAP_HEAP_CARVEOUT_IVM = 0 ∧
        heap_mask &&& c.NVMAP_HEAP_CARVEOUT_VIDMEM = 0) →
      (nr_page = 1 → p = PolicyList.small) ∧ (1 < nr_page → p = PolicyList.large)) ∧
    (¬ (heap_mask &&& c.NVMAP_HEAP_CARVEOUT_IVM = 0 ∧
        heap_mask &&& c.NVMAP_HEAP_CARVEOUT_VIDMEM = 0) → p = PolicyList.excl) := by
  unfold NVMAP2_heap_mask_to_policy heap_policy_excl at h
  simp only [excl_scan, Nat.and_zero, if_true] at h
  by_cases h1 : heap_mask &&& c.NVMAP_HEAP_CARVEOUT_IVM = 0 <;>
  by_cases h2 : heap_mask &&& c.NVMAP_HEAP_CARVEOUT_VIDMEM = 0 <;>
  by_cases h3 : heap_mask &&& not32 c.NVMAP_HEAP_CARVEOUT_IVM = 0 <;>
  by_cases h4 : heap_mask &&& not32 c.NVMAP_HEAP_CARVEOUT_VIDMEM = 0 <;>
  by_cases h0 : heap_mask = 0 <;>
  simp [h1, h2, h3, h4, h0] at h ⊢ <;>
  (subst h; constructor <;> intro hn <;> simp [hn] <;> omega)

/-- The amended C8 at concrete masks: IOVMM alone with four pages gives the
large-first list. -/
theorem heap_mask_to_policy_order_witness :
    ((1073741824 &&& tegraHeapConsts.NVMAP_HEAP_CARVEOUT_IVM = 0 ∧
        1073741824 &&& tegraHeapConsts.NVMAP_HEAP_CARVEOUT_VIDMEM = 0) →
      ((4 : Int) = 1 → PolicyList.large = PolicyList.small) ∧
      ((1 : Int) < 4 → PolicyList.large = PolicyList.large)) ∧
    (¬ (1073741824 &&& tegraHeapConsts.NVMAP_HEAP_CARVEOUT_IVM = 0 ∧
        1073741824 &&& tegraHeapConsts.NVMAP_HEAP_CARVEOUT_VIDMEM = 0) →
      PolicyList.large = PolicyList.excl) :=
  heap_mask_to_policy_order tegraHeapConsts 1073741824 4 PolicyList.large (by decide)

/-! ### Handle references -/

theorem wrap32_add_wrap32 (a b : Int) : wrap32 (wrap32 a + b) = wrap32 (a + b) := by
  unfold wrap32; omega

theorem wrap32_of_range (a : Int) (h1 : -2147483648 ≤ a) (h2 : a < 2147483648) :
    wrap32 a = a := by
  unfold wrap32; omega

theorem ref_run_nil (s : RefState) : ref_run s [] = s := rfl

theorem ref_run_cons (s : RefState) (op : RefOp) (ops : List RefOp) :
    ref_run s (op :: ops) = ref_run (ref_step s op) ops := rfl

theorem ref_step_get (s : RefState) :
    ref_step s (RefOp.get true) =
      { hs := Function.update s.hs s.ref.handle
          { s.hs s.ref.handle with ref := wrap32 ((s.hs s.ref.handle).ref + 1) },
        ref := { s.ref with dupes := wrap32 (s.ref.dupes + 1) },
        ret := 0 } := by
  simp [ref_step, NVMAP2_handle_ref_get, NVMAP2_handle_get]

theorem ref_step_put (s : RefState) :
    ref_step s RefOp.put =
      { hs := Function.update s.hs s.ref.handle
          { s.hs s.ref.handle with ref := wrap32 ((s.hs s.ref.handle).ref - 1) },
        ref := { s.ref with dupes := wrap32 (s.ref.dupes - 1) },
        ret := wrap32 (s.ref.dupes - 1) } := by
  simp [ref_step, NVMAP2_handle_ref_put, NVMAP2_handle_put]

theorem wrap32_idem (a : Int) : wrap32 (wrap32 a) = wrap32 a := by
  unfold wrap32; omega

/-- Closed form of a run whose retains all succeed. -/
theorem ref_run_closed (ops : List RefOp) :
    ∀ s : RefState, (∀ op ∈ ops, op = RefOp.get true ∨ op = RefOp.put) →
      wrap32 s.ref.dupes = s.ref.dupes →
      wrap32 (s.hs s.ref.handle).ref = (s.hs s.ref.handle).ref →
      (ref_run s ops).ref.handle = s.ref.handle ∧
      (ref_run s ops).ref.dupes =
        wrap32 (s.ref.dupes + (ops.count (RefOp.get true) : Int) - (ops.count RefOp.put : Int)) ∧
      ((ref_run s ops).hs s.ref.handle).ref =
        wrap32 ((s.hs s.ref.handle).ref + (ops.count (RefOp.get true) : Int)
          - (ops.count RefOp.put : Int)) := by
  induction ops with
  | nil =>
    intro s _ hd hr
    refine ⟨rfl, ?_, ?_⟩
    · simp [ref_run_nil, hd]
    · simp [ref_run_nil, hr]
  | cons op ops ih =>
    intro s hops hd hr
    have hop := hops op (List.mem_cons_self _ _)
    have hrest : ∀ o ∈ ops, o = RefOp.get true ∨ o = RefOp.put :=
      fun o ho => hops o (List.mem_cons_of_mem _ ho)
    rw [ref_run_cons]
    rcases hop with rfl | rfl
    · have h := ih (ref_step s (RefOp.get true)) hrest
        (by rw [ref_step_get]; exact wrap32_idem _)
        (by rw [ref_step_get]; simp only [Function.update_same]; exact wrap32_idem _)
      rw [ref_step_get] at h
      simp only [Function.update_same] at h
      rw [← ref_step_get] at h
      obtain ⟨h1, h2, h3⟩ := h
      have hc1 : List.count (RefOp.get true) (RefOp.get true :: ops)
          = List.count (RefOp.get true) ops + 1 := List.count_cons_self _ _
      have hc2 : List.count RefOp.put (RefOp.get true :: ops) = List.count RefOp.put ops :=
        List.count_cons_of_ne (by decide) _
      refine ⟨h1, ?_, ?_⟩
      · rw [h2, hc1, hc2]; unfold wrap32; omega
      · rw [h3, hc1, hc2]; unfold wrap32; omega
    · have h := ih (ref_step s RefOp.put) hrest
        (by rw [ref_step_put]; exact wrap32_idem _)
        (by rw [ref_step_put]; simp only [Function.update_same]; exact wrap32_idem _)
      rw [ref_step_put] at h
      simp only [Function.update_same] at h
      rw [← ref_step_put] at h
      obtain ⟨h1, h2, h3⟩ := h
      have hc1 : List.count RefOp.put (RefOp.put :: ops)
          = List.count RefOp.put ops + 1 := List.count_cons_self _ _
      have hc2 : List.count (RefOp.get true) (RefOp.put :: ops)
          = List.count (RefOp.get true) ops :=
        List.count_cons_of_ne (by decide) _
      refine ⟨h1, ?_, ?_⟩
      · rw [h2, hc1, hc2]; unfold wrap32; omega
      · rw [h3, hc1, hc2]; unfold wrap32; omega

theorem gets_then_puts_ops (k : Nat) :
    ∀ op ∈ gets_then_puts k, op = RefOp.get true ∨ op = RefOp.put := by
  intro op hop
  unfold gets_then_puts at hop
  rcases List.mem_append.mp hop with h | h
  · exact Or.inl (List.eq_of_mem_replicate h)
  · exact Or.inr (List.eq_of_mem_replicate h)

theorem gets_then_puts_take_count (k n : Nat) :
    List.count (RefOp.get true) ((gets_then_puts k).take n) = min n k ∧
    List.count RefOp.put ((gets_then_puts k).take n) = min (n - k) (k + 1) := by
  unfold gets_then_puts
  rw [List.take_append_eq_append_take, List.take_replicate, List.take_replicate]
  simp only [List.count_append, List.length_replicate]
  rw [List.count_replicate_self, List.count_replicate_self]
  rw [List.count_replicate, List.count_replicate]
  simp

theorem create_ok (hs : HandleStore) (h : Nat) :
    ∃ hs0, NVMAP2_handle_ref_create true true hs h = (hs0, some { dupes := 1, handle := h }) ∧
      (hs0 h).ref = wrap32 ((hs h).ref + 1) ∧
      (hs0 h).share_count = wrap32 ((hs h).share_count + 1) ∧
      (hs0 h).dmabuf = (hs h).dmabuf + 1 := by
  refine ⟨_, by simp [NVMAP2_handle_ref_create, NVMAP2_handle_get]; rfl, ?_, ?_, ?_⟩ <;> simp

theorem gets_then_puts_last (k : Nat) (hs0 : HandleStore) (h : Nat)
    (hr : wrap32 (hs0 h).ref = (hs0 h).ref) :
    (ref_run ⟨hs0, { dupes := 1, handle := h }, 0⟩ (gets_then_puts k)).ret = 0 ∧
    (ref_run ⟨hs0, { dupes := 1, handle := h }, 0⟩ (gets_then_puts k)).ref.dupes = 0 := by
  have hsplit : gets_then_puts k =
      (List.replicate k (RefOp.get true) ++ List.replicate k RefOp.put) ++ [RefOp.put] := by
    unfold gets_then_puts
    rw [List.replicate_succ', List.append_assoc]
  have hmem : ∀ op ∈ List.replicate k (RefOp.get true) ++ List.replicate k RefOp.put,
      op = RefOp.get true ∨ op = RefOp.put := by
    intro op hop
    rcases List.mem_append.mp hop with h1 | h1
    · exact Or.inl (List.eq_of_mem_replicate h1)
    · exact Or.inr (List.eq_of_mem_replicate h1)
  have hc := ref_run_closed _ ⟨hs0, { dupes := 1, handle := h }, 0⟩ hmem
    (by show wrap32 (1 : Int) = 1; decide) hr
  have hd : (ref_run ⟨hs0, { dupes := 1, handle := h }, 0⟩
      (List.replicate k (RefOp.get true) ++ List.replicate k RefOp.put)).ref.dupes = 1 := by
    rw [hc.2.1, List.count_append, List.count_append, List.count_replicate_self,
      List.count_replicate_self, List.count_replicate, List.count_replicate]
    simp only [show (RefOp.get true == RefOp.put) = false by decide,
      show (RefOp.put == RefOp.get true) = false by decide]
    simp only [Bool.false_eq_true, if_false, add_zero, zero_add]
    unfold wrap32; omega
  rw [hsplit]
  unfold ref_run
  rw [List.foldl_append]
  simp only [List.foldl_cons, List.foldl_nil]
  rw [ref_step_put]
  unfold ref_run at hd
  simp only [hd]
  constructor <;> decide

/-- C10. After `NVMAP2_handle_ref_create` on a handle whose own count is `r`,
`k` gets (retains succeeding) and `k + 1` puts: the reference starts with count
1 on the handle; after every prefix of the call sequence the handle's own count
is `r` plus the reference's count, in `atomic_t` arithmetic always and as plain
integers when `0 ≤ r` and `r + k + 1` fits an `int`; the last put returns 0 and
the count read back is 0. -/
theorem handle_ref_counts_mirror (hs : HandleStore) (h : Nat) (k : Nat) :
    ∃ hs0 ref0, NVMAP2_handle_ref_create true true hs h = (hs0, some ref0) ∧
      ref0.handle = h ∧ ref0.dupes = 1 ∧
      (hs0 h).ref = wrap32 ((hs h).ref + ref0.dupes) ∧
      (∀ n, ((ref_run ⟨hs0, ref0, 0⟩ ((gets_then_puts k).take n)).hs h).ref
          = wrap32 ((hs h).ref
              + (ref_run ⟨hs0, ref0, 0⟩ ((gets_then_puts k).take n)).ref.dupes)) ∧
      (0 ≤ (hs h).ref → (hs h).ref + k + 1 < 2147483648 →
        ∀ n, ((ref_run ⟨hs0, ref0, 0⟩ ((gets_then_puts k).take n)).hs h).ref
          = (hs h).ref + (ref_run ⟨hs0, ref0, 0⟩ ((gets_then_puts k).take n)).ref.dupes) ∧
      (ref_run ⟨hs0, ref0, 0⟩ (gets_then_puts k)).ret = 0 ∧
      NVMAP2_handle_ref_count (ref_run ⟨hs0, ref0, 0⟩ (gets_then_puts k)).ref = 0 := by
  obtain ⟨hs0, hcreate, href, -, -⟩ := create_ok hs h
  have hclosed : ∀ n,
      (ref_run ⟨hs0, { dupes := 1, handle := h }, 0⟩ ((gets_then_puts k).take n)).ref.dupes
        = wrap32 (1 + (min n k : Nat) - (min (n - k) (k + 1) : Nat)) ∧
      ((ref_run ⟨hs0, { dupes := 1, handle := h }, 0⟩ ((gets_then_puts k).take n)).hs h).ref
        = wrap32 (wrap32 ((hs h).ref + 1) + (min n k : Nat) - (min (n - k) (k + 1) : Nat)) := by
    intro n
    have hc := ref_run_closed ((gets_then_puts k).take n)
      ⟨hs0, { dupes := 1, handle := h }, 0⟩
      (fun op hop => gets_then_puts_ops k op (List.mem_of_mem_take hop))
      (by show wrap32 (1 : Int) = 1; decide)
      (by show wrap32 (hs0 h).ref = (hs0 h).ref; rw [href]; exact wrap32_idem _)
    obtain ⟨c1, c2⟩ := gets_then_puts_take_count k n
    obtain ⟨-, h2, h3⟩ := hc
    rw [c1, c2] at h2 h3
    refine ⟨h2, ?_⟩
    rw [h3]
    show wrap32 ((hs0 h).ref + _ - _) = _
    rw [href]
  refine ⟨hs0, _, hcreate, rfl, rfl, ?_, ?_, ?_, ?_, ?_⟩
  · rw [href]
  · intro n
    obtain ⟨h2, h3⟩ := hclosed n
    rw [h3, h2]
    unfold wrap32; omega
  · intro hr0 hrk n
    obtain ⟨h2, h3⟩ := hclosed n
    rw [h3, h2]
    unfold wrap32; omega
  · exact (gets_then_puts_last k hs0 h (by rw [href]; exact wrap32_idem _)).1
  · exact (gets_then_puts_last k hs0 h (by rw [href]; exact wrap32_idem _)).2

/-- The no-overflow part of C10 at a concrete handle: own count 3, two gets and
three puts; after the first four calls the handle's count is 3 plus the
reference's count. -/
theorem handle_ref_counts_mirror_witness :
    ∃ hs0 ref0,
      NVMAP2_handle_ref_create true true (fun _ => { ref := 3, share_count := 0, dmabuf := 1 }) 7
        = (hs0, some ref0) ∧
      ((ref_run ⟨hs0, ref0, 0⟩ ((gets_then_puts 2).take 4)).hs 7).ref
          = 3 + (ref_run ⟨hs0, ref0, 0⟩ ((gets_then_puts 2).take 4)).ref.dupes ∧
      (ref_run ⟨hs0, ref0, 0⟩ (gets_then_puts 2)).ret = 0 := by
  obtain ⟨hs0, ref0, h1, -, -, -, -, h6, h7, -⟩ :=
    handle_ref_counts_mirror (fun _ => { ref := 3, share_count := 0, dmabuf := 1 }) 7 2
  exact ⟨hs0, ref0, h1, h6 (by decide) (by decide) 4, h7⟩

/-! ### IOVMM page allocation -/

theorem Accounted.refl (w : PageSys) : Accounted w w [] :=
  ⟨[], [], [], by simp, by simp, by simp, by simp⟩

theorem Accounted.trans {w w1 w2 : PageSys} {k1 k2 : List Nat}
    (h1 : Accounted w w1 k1) (h2 : Accounted w1 w2 k2) : Accounted w w2 (k1 ++ k2) := by
  obtain ⟨a1, q1, f1, ha1, hq1, hf1, hp1⟩ := h1
  obtain ⟨a2, q2, f2, ha2, hq2, hf2, hp2⟩ := h2
  refine ⟨a1 ++ a2, q1 ++ q2, f1 ++ f2, ?_, ?_, ?_, ?_⟩
  · rw [ha2, ha1, List.append_assoc]
  · rw [hq2, hq1, List.append_assoc]
  · rw [hf2, hf1, List.append_assoc]
  · have h := List.Perm.append hp1 hp2
    refine List.Perm.trans ?_ (List.Perm.trans h ?_)
    · simp only [List.append_assoc]
      refine List.Perm.append_left a1 ?_
      simp only [← List.append_assoc]
      exact List.Perm.append_right q2 List.perm_append_comm
    · simp only [List.append_assoc]
      refine List.Perm.append_left k1 ?_
      simp only [← List.append_assoc]
      exact List.Perm.append_right f2 List.perm_append_comm

/-- Accounting is not affected by changes outside the three page records. -/
theorem Accounted.of_eq_logs {w w1 : PageSys} {k : List Nat} (h : Accounted w w1 k)
    (w2 : PageSys) (ha : w2.allocated = w1.allocated) (hq : w2.from_pool = w1.from_pool)
    (hf : w2.freed = w1.freed) : Accounted w w2 k := by
  obtain ⟨a, q, f, h1, h2, h3, h4⟩ := h
  exact ⟨a, q, f, by rw [ha, h1], by rw [hq, h2], by rw [hf, h3], h4⟩

theorem free_pages_logs (l : List Nat) : ∀ w : PageSys,
    (l.foldl free_page w).allocated = w.allocated ∧
    (l.foldl free_page w).from_pool = w.from_pool ∧
    (l.foldl free_page w).freed = w.freed ++ l ∧
    (l.foldl free_page w).live_arrays = w.live_arrays := by
  induction l with
  | nil => intro w; simp
  | cons p l ih =>
    intro w
    obtain ⟨h1, h2, h3, h4⟩ := ih (free_page w p)
    simp only [List.foldl_cons]
    refine ⟨h1, h2, ?_, h4⟩
    rw [h3]; simp [free_page]

theorem order_search_spec (size : Nat) : ∀ fuel order bytes, size ≤ bytes * 2 ^ fuel →
    size * 2 ^ order ≤ bytes * 2 ^ (order_search size fuel order bytes) := by
  intro fuel
  induction fuel with
  | zero => intro order bytes h; simp only [order_search]; simp at h; exact Nat.mul_le_mul_right _ h
  | succ n ih =>
    intro order bytes h
    simp only [order_search]
    split
    · rename_i hle; exact Nat.mul_le_mul_right _ hle
    · have := ih (order + 1) (2 * bytes) (by rw [pow_succ] at h; linarith)
      rw [pow_succ] at this
      nlinarith [this]

theorem get_order_spec (cfg : PageCfg) (size : Nat) :
    size >>> cfg.PAGE_SHIFT ≤ 2 ^ get_order cfg size := by
  have h := order_search_spec size size 0 (2 ^ cfg.PAGE_SHIFT) (by
    have : size < 2 ^ size := Nat.lt_two_pow size
    have h1 : 1 ≤ 2 ^ cfg.PAGE_SHIFT := Nat.one_le_two_pow
    nlinarith)
  simp only [pow_zero, mul_one] at h
  unfold get_order
  rw [Nat.shiftRight_eq_div_pow]
  apply Nat.div_le_of_le_mul
  exact h

theorem alloc_pages_spec (w : PageSys) (order : Nat) :
    (∃ w1, alloc_pages w order = (w1, none) ∧ w1.allocated = w.allocated ∧
        w1.from_pool = w.from_pool ∧ w1.freed = w.freed ∧ w1.live_arrays = w.live_arrays) ∨
    (∃ w1 page, alloc_pages w order = (w1, some page) ∧
        w1.allocated = w.allocated ++ List.range' page (2 ^ order) ∧
        w1.from_pool = w.from_pool ∧ w1.freed = w.freed ∧
        w1.live_arrays = w.live_arrays) := by
  unfold alloc_pages
  rcases h : w.alloc_outcomes with _ | ⟨b, rest⟩
  · exact Or.inl ⟨w, rfl, rfl, rfl, rfl, rfl⟩
  · cases b
    · exact Or.inl ⟨_, rfl, rfl, rfl, rfl, rfl⟩
    · exact Or.inr ⟨_, _, rfl, rfl, rfl, rfl, rfl⟩

/-- `heap_alloc_pages_exact` either fails and changes no page record, or keeps
exactly the first `size >> PAGE_SHIFT` pages of its block. -/
theorem heap_alloc_pages_exact_spec (cfg : PageCfg) (w : PageSys) (size : Nat) :
    (∃ w1, heap_alloc_pages_exact cfg w size = (w1, none) ∧ Accounted w w1 [] ∧
        w1.live_arrays = w.live_arrays) ∨
    (∃ w1 page, heap_alloc_pages_exact cfg w size = (w1, some page) ∧
        Accounted w w1 (List.range' page (size >>> cfg.PAGE_SHIFT)) ∧
        w1.live_arrays = w.live_arrays) := by
  unfold heap_alloc_pages_exact
  rcases alloc_pages_spec w (get_order cfg size) with
    ⟨w1, h, ha, hq, hf, hl⟩ | ⟨w1, page, h, ha, hq, hf, hl⟩
  · left
    refine ⟨w1, by simp [h], ?_, hl⟩
    exact ⟨[], [], [], by simp [ha], by simp [hq], by simp [hf], by simp⟩
  · right
    simp only [h]
    obtain ⟨g1, g2, g3, g4⟩ := free_pages_logs
      (List.range' (page + (size >>> cfg.PAGE_SHIFT))
        (2 ^ get_order cfg size - (size >>> cfg.PAGE_SHIFT))) w1
    refine ⟨_, page, rfl, ?_, by rw [g4, hl]⟩
    refine ⟨List.range' page (2 ^ get_order cfg size), [], _, by rw [g1, ha],
      by rw [g2, hq]; simp, by rw [g3, hf], ?_⟩
    have hle := get_order_spec cfg size
    simp only [List.append_nil]
    rw [List.range'_append_1]
    rw [Nat.sub_add_cancel hle]

theorem shift_roundtrip (n s : Nat) : (n <<< s) >>> s = n := by
  rw [Nat.shiftLeft_eq, Nat.shiftRight_eq_div_pow]
  exact Nat.mul_div_cancel _ (Nat.two_pow_pos s)

theorem range_map_add (page n : Nat) :
    (List.range n).map (fun idx => page + idx) = List.range' page n := by
  rw [List.range_eq_range', List.map_add_range']
  simp

theorem heap_big_pages_alloc_exact_spec (cfg : PageCfg) (w : PageSys) (pages : List Nat)
    (num_pages : Nat) :
    (∃ w1, heap_big_pages_alloc_exact cfg w pages num_pages = (w1, none) ∧ Accounted w w1 [] ∧
        w1.live_arrays = w.live_arrays) ∨
    (∃ w1 fresh, heap_big_pages_alloc_exact cfg w pages num_pages = (w1, some (pages ++ fresh)) ∧
        Accounted w w1 fresh ∧ fresh.length = num_pages ∧
        w1.live_arrays = w.live_arrays) := by
  unfold heap_big_pages_alloc_exact
  rcases heap_alloc_pages_exact_spec cfg w (num_pages <<< cfg.PAGE_SHIFT) with
    ⟨w1, h, hacc, hl⟩ | ⟨w1, page, h, hacc, hl⟩
  · left; exact ⟨w1, by simp [h], hacc, hl⟩
  · right
    simp only [h]
    rw [shift_roundtrip] at hacc
    refine ⟨_, _, rfl, ?_, by simp, hl⟩
    rw [range_map_add]
    exact hacc.of_eq_logs _ rfl rfl rfl

theorem pool_take_big_length (ppbp : Nat) : ∀ (big : List Nat) (remaining : Nat),
    (pool_take_big ppbp big remaining).2.length ≤ remaining := by
  intro big
  induction big with
  | nil => intro r; simp [pool_take_big]
  | cons b bs ih =>
    intro r
    simp only [pool_take_big]
    split
    · rename_i h
      have := ih (r - ppbp)
      simp only [List.length_append, List.length_range']
      omega
    · simp

theorem alloc_lots_bp_spec (w : PageSys) (nr : Nat) :
    Accounted w (nvmap_page_pool_alloc_lots_bp w nr).1 (nvmap_page_pool_alloc_lots_bp w nr).2 ∧
    (nvmap_page_pool_alloc_lots_bp w nr).2.length ≤ nr ∧
    (nvmap_page_pool_alloc_lots_bp w nr).1.live_arrays = w.live_arrays := by
  refine ⟨⟨[], (nvmap_page_pool_alloc_lots_bp w nr).2, [], ?_, ?_, ?_, ?_⟩, ?_, rfl⟩
  · simp [nvmap_page_pool_alloc_lots_bp]
  · simp [nvmap_page_pool_alloc_lots_bp]
  · simp [nvmap_page_pool_alloc_lots_bp]
  · simp
  · exact pool_take_big_length _ _ _

theorem alloc_lots_spec (w : PageSys) (nr : Nat) :
    Accounted w (nvmap_page_pool_alloc_lots w nr).1 (nvmap_page_pool_alloc_lots w nr).2 ∧
    (nvmap_page_pool_alloc_lots w nr).2.length ≤ nr ∧
    (nvmap_page_pool_alloc_lots w nr).1.live_arrays = w.live_arrays := by
  refine ⟨⟨[], (nvmap_page_pool_alloc_lots w nr).2, [], ?_, ?_, ?_, ?_⟩, ?_, rfl⟩
  · simp [nvmap_page_pool_alloc_lots]
  · simp [nvmap_page_pool_alloc_lots]
  · simp [nvmap_page_pool_alloc_lots]
  · simp
  · simp [nvmap_page_pool_alloc_lots]

theorem big_pages_loop_spec (cfg : PageCfg) (ppbp nr_page : Int) :
    ∀ (fuel : Nat) (w : PageSys) (pages : List Nat), (pages.length : Int) ≤ max nr_page 0 →
      ∃ fresh, (big_pages_loop cfg ppbp nr_page fuel w pages).2 = pages ++ fresh ∧
        Accounted w (big_pages_loop cfg ppbp nr_page fuel w pages).1 fresh ∧
        ((pages ++ fresh).length : Int) ≤ max nr_page 0 ∧
        (big_pages_loop cfg ppbp nr_page fuel w pages).1.live_arrays = w.live_arrays := by
  intro fuel
  induction fuel with
  | zero =>
    intro w pages hlen
    exact ⟨[], by simp [big_pages_loop], by simpa [big_pages_loop] using Accounted.refl w,
      by simpa using hlen, rfl⟩
  | succ n ih =>
    intro w pages hlen
    simp only [big_pages_loop]
    split
    · exact ⟨[], by simp, by simpa using Accounted.refl w, by simpa using hlen, rfl⟩
    · split
      · exact ⟨[], by simp, by simpa using Accounted.refl w, by simpa using hlen, rfl⟩
      · split
        · exact ⟨[], by simp, by simpa using Accounted.refl w, by simpa using hlen, rfl⟩
        · rename_i h1 h2 h3
          rcases heap_big_pages_alloc_exact_spec cfg w pages ppbp.toNat with
            ⟨w1, h, hacc, hl⟩ | ⟨w1, fresh, h, hacc, hflen, hl⟩
          · simp only [h]
            exact ⟨[], by simp, by simpa using hacc, by simpa using hlen, hl⟩
          · simp only [h]
            have hlen1 : ((pages ++ fresh).length : Int) ≤ max nr_page 0 := by
              simp only [List.length_append, hflen, Nat.cast_add]
              have : ((ppbp.toNat : Nat) : Int) = ppbp := Int.toNat_of_nonneg (by omega)
              rw [this]
              omega
            obtain ⟨fresh2, e1, e2, e3, e4⟩ := ih w1 (pages ++ fresh) hlen1
            refine ⟨fresh ++ fresh2, by rw [e1, List.append_assoc], hacc.trans e2, ?_, ?_⟩
            · rw [← List.append_assoc]; exact e3
            · rw [e4, hl]

/-- The round budget of `big_pages_loop` is never what ends the loop: with at
least as many rounds as entries remain to be filled, one more round changes
nothing. -/
theorem big_pages_loop_fuel_enough (cfg : PageCfg) (ppbp nr_page : Int) :
    ∀ (fuel : Nat) (w : PageSys) (pages : List Nat),
      (nr_page - (pages.length : Int)).toNat ≤ fuel →
      big_pages_loop cfg ppbp nr_page (fuel + 1) w pages
        = big_pages_loop cfg ppbp nr_page fuel w pages := by
  intro fuel
  induction fuel with
  | zero =>
    intro w pages h
    have hge : ¬ ((pages.length : Int) < nr_page) := by omega
    simp [big_pages_loop, hge]
  | succ n ih =>
    intro w pages h
    rw [big_pages_loop]
    conv_rhs => rw [big_pages_loop]
    split
    · rfl
    · split
      · rfl
      · split
        · rfl
        · rename_i h1 h2 h3
          rcases heap_big_pages_alloc_exact_spec cfg w pages ppbp.toNat with
            ⟨w1, he, -, -⟩ | ⟨w1, fresh, he, -, hflen, -⟩
          · simp only [he]
          · simp only [he]
            apply ih
            have : ((ppbp.toNat : Nat) : Int) = ppbp := Int.toNat_of_nonneg (by omega)
            simp only [List.length_append, hflen, Nat.cast_add, this]
            omega

theorem single_pages_loop_spec (cfg : PageCfg) :
    ∀ (count : Nat) (w : PageSys) (pages : List Nat),
      ∃ fresh, (single_pages_loop cfg count w pages).2.1 = pages ++ fresh ∧
        Accounted w (single_pages_loop cfg count w pages).1 fresh ∧
        ((single_pages_loop cfg count w pages).2.2 = true → fresh.length = count) ∧
        (single_pages_loop cfg count w pages).1.live_arrays = w.live_arrays := by
  intro count
  induction count with
  | zero =>
    intro w pages
    exact ⟨[], by simp [single_pages_loop], by simpa [single_pages_loop] using Accounted.refl w,
      by simp, rfl⟩
  | succ n ih =>
    intro w pages
    simp only [single_pages_loop]
    rcases heap_alloc_pages_exact_spec cfg w (2 ^ cfg.PAGE_SHIFT) with
      ⟨w1, h, hacc, hl⟩ | ⟨w1, page, h, hacc, hl⟩
    · simp only [h]
      exact ⟨[], by simp, by simpa using hacc, by simp, hl⟩
    · simp only [h]
      obtain ⟨fresh2, e1, e2, e3, e4⟩ := ih w1 (pages ++ [page])
      have hone : (2 ^ cfg.PAGE_SHIFT) >>> cfg.PAGE_SHIFT = 1 := by
        rw [Nat.shiftRight_eq_div_pow]; exact Nat.div_self (Nat.two_pow_pos _)
      rw [hone] at hacc
      have hr : List.range' page 1 = [page] := by simp [List.range']
      rw [hr] at hacc
      refine ⟨[page] ++ fresh2, by rw [e1, List.append_assoc], hacc.trans e2, ?_, by rw [e4, hl]⟩
      intro hs
      have := e3 hs
      simp only [List.length_append, List.length_singleton, this]
      omega

theorem toInt32_of_lt (n : Nat) (h : n < 2147483648) : toInt32 n = (n : Int) := by
  unfold toInt32 two32
  have : n % 4294967296 = n := Nat.mod_eq_of_lt (by omega)
  rw [this]; simp [h]

theorem heap_big_pages_alloc_spec (cfg : PageCfg) (w : PageSys) (nr_page : Int)
    (h0 : 0 ≤ nr_page) (h1 : nr_page < 2147483648) :
    Accounted w (heap_big_pages_alloc cfg w nr_page).1 (heap_big_pages_alloc cfg w nr_page).2 ∧
    ((heap_big_pages_alloc cfg w nr_page).2.length : Int) ≤ nr_page ∧
    (heap_big_pages_alloc cfg w nr_page).1.live_arrays = w.live_arrays := by
  have hmod : (((nr_page % 4294967296).toNat : Nat) : Int) = nr_page := by
    rw [Int.emod_eq_of_lt h0 (by omega)]; exact Int.toNat_of_nonneg h0
  have hmax : max nr_page 0 = nr_page := max_eq_left h0
  unfold heap_big_pages_alloc
  cases hp : cfg.CONFIG_NVMAP_PAGE_POOLS
  · simp only [Bool.false_eq_true, if_false]
    obtain ⟨fresh, e1, e2, e3, e4⟩ := big_pages_loop_spec cfg
      (toInt32 (cfg.NVMAP_PP_BIG_PAGE_SIZE >>> cfg.PAGE_SHIFT)) nr_page nr_page.toNat w []
      (by simp [hmax, h0])
    simp only [List.nil_append] at e1 e3
    rw [hmax] at e3
    rw [e1]
    exact ⟨e2.of_eq_logs _ rfl rfl rfl, e3, e4⟩
  · simp only [if_true]
    obtain ⟨b1, b2, b3⟩ := alloc_lots_bp_spec w (nr_page % 4294967296).toNat
    obtain ⟨fresh, e1, e2, e3, e4⟩ := big_pages_loop_spec cfg
      (toInt32 w.pool.pages_per_big_pg) nr_page nr_page.toNat
      (nvmap_page_pool_alloc_lots_bp w (nr_page % 4294967296).toNat).1
      (nvmap_page_pool_alloc_lots_bp w (nr_page % 4294967296).toNat).2
      (by rw [hmax]; omega)
    rw [hmax] at e3
    have acc1 := b1.trans e2
    rw [← e1] at acc1 e3
    generalize hr1 : big_pages_loop cfg (toInt32 w.pool.pages_per_big_pg) nr_page nr_page.toNat
      (nvmap_page_pool_alloc_lots_bp w (nr_page % 4294967296).toNat).1
      (nvmap_page_pool_alloc_lots_bp w (nr_page % 4294967296).toNat).2 = r1 at *
    obtain ⟨c1, c2, c3⟩ := alloc_lots_spec (count_big_page_allocs r1.1 r1.2.length)
      ((nr_page - (r1.2.length : Int)) % 4294967296).toNat
    have hmod2 : ((((nr_page - (r1.2.length : Int)) % 4294967296).toNat : Nat) : Int)
        = nr_page - (r1.2.length : Int) := by
      rw [Int.emod_eq_of_lt (by omega) (by omega)]; exact Int.toNat_of_nonneg (by omega)
    refine ⟨(acc1.of_eq_logs (count_big_page_allocs r1.1 r1.2.length)
          rfl rfl rfl).trans c1, ?_, ?_⟩
    · simp only [List.length_append, Nat.cast_add]
      omega
    · rw [c3]; show r1.1.live_arrays = _; rw [e4, b3]

theorem iovmm_pages_fail_spec (w : PageSys) (pages : List Nat) :
    (iovmm_pages_fail w pages).2 = Except.error (-ENOMEM) ∧
    (iovmm_pages_fail w pages).1.allocated = w.allocated ∧
    (iovmm_pages_fail w pages).1.from_pool = w.from_pool ∧
    (iovmm_pages_fail w pages).1.freed = w.freed ++ pages.reverse ∧
    (iovmm_pages_fail w pages).1.live_arrays = w.live_arrays - 1 := by
  obtain ⟨g1, g2, g3, g4⟩ := free_pages_logs pages.reverse w
  unfold iovmm_pages_fail
  exact ⟨rfl, g1, g2, g3, by show (List.foldl free_page w pages.reverse).live_arrays - 1 = _; rw [g4]⟩

/-- C9. A non-contiguous `NVMAP2_heap_alloc_iovmm_pages` of `N = size >>
PAGE_SHIFT` pages (`N` in the range of the `int nr_page`), whatever the pool
holds and whichever allocations fail: either it returns an array of exactly `N`
entries, and the pages obtained during the call (from `alloc_pages` and from
the pool) are the array's entries together with the trimmed tail pages it
freed; or it returns `ERR_PTR(-ENOMEM)`, every page obtained during the call
was freed (the filled entries `pages[i-1]` down to `pages[0]` last) and the
page array was given back. -/
theorem iovmm_pages_exact_or_released (cfg : PageCfg) (altalloc_ok : Bool) (w : PageSys)
    (size : Nat) (hN : size >>> cfg.PAGE_SHIFT < 2147483648) :
    ∃ a q f,
      (NVMAP2_heap_alloc_iovmm_pages cfg altalloc_ok w size false).1.allocated
        = w.allocated ++ a ∧
      (NVMAP2_heap_alloc_iovmm_pages cfg altalloc_ok w size false).1.from_pool
        = w.from_pool ++ q ∧
      (NVMAP2_heap_alloc_iovmm_pages cfg altalloc_ok w size false).1.freed = w.freed ++ f ∧
      ((∃ pages,
          (NVMAP2_heap_alloc_iovmm_pages cfg altalloc_ok w size false).2 = Except.ok pages ∧
          pages.length = size >>> cfg.PAGE_SHIFT ∧
          List.Perm (a ++ q) (pages ++ f) ∧
          (NVMAP2_heap_alloc_iovmm_pages cfg altalloc_ok w size false).1.live_arrays
            = w.live_arrays + 1) ∨
       ((NVMAP2_heap_alloc_iovmm_pages cfg altalloc_ok w size false).2
            = Except.error (-ENOMEM) ∧
          List.Perm (a ++ q) f ∧
          (∃ filled trimmed, f = trimmed ++ filled.reverse ∧
            List.Perm (a ++ q) (filled ++ trimmed)) ∧
          (NVMAP2_heap_alloc_iovmm_pages cfg altalloc_ok w size false).1.live_arrays
            = w.live_arrays)) := by
  unfold NVMAP2_heap_alloc_iovmm_pages
  cases altalloc_ok
  · exact ⟨[], [], [], by simp, by simp, by simp, Or.inr ⟨by simp, by simp,
      ⟨[], [], by simp, by simp⟩, by simp⟩⟩
  · simp only [Bool.not_true, Bool.false_eq_true, if_false]
    rw [toInt32_of_lt _ hN]
    generalize hNdef : size >>> cfg.PAGE_SHIFT = N at *
    obtain ⟨b1, b2, b3⟩ := heap_big_pages_alloc_spec cfg
      { w with live_arrays := w.live_arrays + 1 } (N : Int) (by omega) (by omega)
    generalize hr : heap_big_pages_alloc cfg { w with live_arrays := w.live_arrays + 1 } (N : Int)
      = r at *
    obtain ⟨fresh, e1, e2, e3, e4⟩ := single_pages_loop_spec cfg
      ((N : Int) - (r.2.length : Int)).toNat r.1 r.2
    generalize hs : single_pages_loop cfg ((N : Int) - (r.2.length : Int)).toNat r.1 r.2 = sl at *
    obtain ⟨w1, pages, ok⟩ := sl
    simp only at e1 e2 e3 e4
    have acc := b1.trans e2
    rw [← e1] at acc
    obtain ⟨a, q, f, ha, hq, hf, hperm⟩ := acc
    simp only at ha hq hf
    cases ok
    · simp only
      obtain ⟨g0, g1, g2, g3, g4⟩ := iovmm_pages_fail_spec w1 pages
      refine ⟨a, q, f ++ pages.reverse, by rw [g1, ha], by rw [g2, hq],
        by rw [g3, hf, List.append_assoc], Or.inr ⟨g0, ?_, ⟨pages, f, rfl, hperm⟩, ?_⟩⟩
      · refine hperm.trans ?_
        refine List.Perm.trans List.perm_append_comm ?_
        exact List.Perm.append_left f (List.reverse_perm pages).symm
      · rw [g4, e4, b3]; simp
    · simp only
      have hlen : pages.length = N := by
        have := e3 rfl
        rw [e1, List.length_append, this]
        omega
      split
      · refine ⟨a, q, f, ?_, ?_, ?_, Or.inl ⟨pages, rfl, hlen, hperm, ?_⟩⟩
        · simpa [NVMAP2_cache_clean_pages, count_total_page_allocs] using ha
        · simpa [NVMAP2_cache_clean_pages, count_total_page_allocs] using hq
        · simpa [NVMAP2_cache_clean_pages, count_total_page_allocs] using hf
        · simp only [NVMAP2_cache_clean_pages, count_total_page_allocs]; rw [e4, b3]
      · refine ⟨a, q, f, ha, hq, hf, Or.inl ⟨pages, rfl, hlen, hperm, ?_⟩⟩
        simp only [count_total_page_allocs]; rw [e4, b3]

/-- C9 at `demoPageSys`: nine pages are requested (the call fails at the
second single-page allocation, after three pool pages, one split big page, one
loose page and one single page were obtained). -/
theorem iovmm_pages_exact_or_released_witness :
    ∃ a q f,
      (NVMAP2_heap_alloc_iovmm_pages demoPageCfg true demoPageSys 36864 false).1.allocated
        = demoPageSys.allocated ++ a ∧
      (NVMAP2_heap_alloc_iovmm_pages demoPageCfg true demoPageSys 36864 false).1.from_pool
        = demoPageSys.from_pool ++ q ∧
      (NVMAP2_heap_alloc_iovmm_pages demoPageCfg true demoPageSys 36864 false).1.freed
        = demoPageSys.freed ++ f ∧
      ((∃ pages,
          (NVMAP2_heap_alloc_iovmm_pages demoPageCfg true demoPageSys 36864 false).2
            = Except.ok pages ∧
          pages.length = 36864 >>> demoPageCfg.PAGE_SHIFT ∧
          List.Perm (a ++ q) (pages ++ f) ∧
          (NVMAP2_heap_alloc_iovmm_pages demoPageCfg true demoPageSys 36864 false).1.live_arrays
            = demoPageSys.live_arrays + 1) ∨
       ((NVMAP2_heap_alloc_iovmm_pages demoPageCfg true demoPageSys 36864 false).2
            = Except.error (-ENOMEM) ∧
          List.Perm (a ++ q) f ∧
          (∃ filled trimmed, f = trimmed ++ filled.reverse ∧
            List.Perm (a ++ q) (filled ++ trimmed)) ∧
          (NVMAP2_heap_alloc_iovmm_pages demoPageCfg true demoPageSys 36864 false).1.live_arrays
            = demoPageSys.live_arrays)) :=
  iovmm_pages_exact_or_released demoPageCfg true demoPageSys 36864 (by decide)

/-! ### Channel open and release -/

theorem channelopen_exclusive_full (c : HostConsts) (env : OpenEnv) (s : HostState)
    (hp : s.channel_policy = nvhost_channel_policy.MAP_CHANNEL_ON_SUBMIT)
    (he : s.pdata.exclusive = true)
    (hfull : s.pdata.num_mapped_chs = s.pdata.num_channels) :
    __nvhost_channelopen c env true s = (s, -ENOMEM, none) := by
  simp [__nvhost_channelopen, hp, he, hfull, channelopen_fail]

theorem channelopen_exclusive_free (c : HostConsts) (env : OpenEnv) (s : HostState)
    (hp : s.channel_policy = nvhost_channel_policy.MAP_CHANNEL_ON_SUBMIT)
    (he : s.pdata.exclusive = true) (hok : env.others_ok)
    (hfree : s.pdata.num_mapped_chs ≠ s.pdata.num_channels) :
    ∃ s1 f, __nvhost_channelopen c env true s = (s1, 0, some f) ∧
      s1.channel_policy = s.channel_policy ∧ s1.pdata.exclusive = true ∧
      s1.pdata.num_channels = s.pdata.num_channels ∧
      s1.pdata.num_mapped_chs = wrap32 (s.pdata.num_mapped_chs + 1) := by
  obtain ⟨h1, h2, h3, h4⟩ := hok
  simp [__nvhost_channelopen, hp, he, hfree, h1, h2, h3, h4, nvhost_module_add_client,
    nvhost_module_busy, nvhost_module_idle, nvhost_vm_allocate, nvhost_module_disable_poweroff]
  split <;> simp [hp, he]

theorem release_syncpts_frame (l : List Nat) : ∀ s : HostState,
    (release_syncpts s l).channel_policy = s.channel_policy ∧
    (release_syncpts s l).syncpt_policy = s.syncpt_policy ∧
    (release_syncpts s l).pdata = s.pdata := by
  induction l with
  | nil => intro s; exact ⟨rfl, rfl, rfl⟩
  | cons id rest ih =>
    intro s
    simp only [release_syncpts]
    obtain ⟨h1, h2, h3⟩ := ih (if id ≠ 0 then nvhost_free_syncpt s id else s)
    rw [h1, h2, h3]
    split <;> exact ⟨rfl, rfl, rfl⟩

theorem channelrelease_exclusive (s : HostState) (priv : Nat) (ctx : nvhost_channel_userctx)
    (hp : s.channel_policy = nvhost_channel_policy.MAP_CHANNEL_ON_SUBMIT)
    (he : s.pdata.exclusive = true) :
    (nvhost_channelrelease s priv ctx).2 = 0 ∧
    (nvhost_channelrelease s priv ctx).1.channel_policy = s.channel_policy ∧
    (nvhost_channelrelease s priv ctx).1.pdata.exclusive = true ∧
    (nvhost_channelrelease s priv ctx).1.pdata.num_channels = s.pdata.num_channels ∧
    (nvhost_channelrelease s priv ctx).1.pdata.num_mapped_chs
      = wrap32 (s.pdata.num_mapped_chs - 1) := by
  rcases hen : ctx.error_notifier_ref with _ | d <;> rcases hvm : ctx.vm with _ | v <;>
    simp only [nvhost_channelrelease, hen, hvm, nvhost_vm_put, host_dma_buf_put,
      nvhost_module_remove_client, hp, he, and_self, if_true,
      show (nvhost_channel_policy.MAP_CHANNEL_ON_SUBMIT
        = nvhost_channel_policy.MAP_CHANNEL_ON_OPEN) = False by simp, if_false] <;>
    refine ⟨trivial, ?_, ?_, ?_, ?_⟩ <;>
    (split_ifs <;>
      simp [nvhost_free_syncpt, nvhost_module_enable_poweroff, release_syncpts_frame, he, hp])

theorem file_step_exclusive (c : HostConsts) (n : Nat) (hn : n < 2147483648) (fs : FileSys)
    (op : FileOp) (hop : ∀ env, op = FileOp.open env → env.others_ok)
    (hp : fs.host.channel_policy = nvhost_channel_policy.MAP_CHANNEL_ON_SUBMIT)
    (he : fs.host.pdata.exclusive = true)
    (hc : fs.host.pdata.num_channels = (n : Int))
    (hm : fs.host.pdata.num_mapped_chs = (fs.files.length : Int))
    (hle : fs.files.length ≤ n) :
    (file_step c fs op).host.channel_policy = nvhost_channel_policy.MAP_CHANNEL_ON_SUBMIT ∧
    (file_step c fs op).host.pdata.exclusive = true ∧
    (file_step c fs op).host.pdata.num_channels = (n : Int) ∧
    (file_step c fs op).host.pdata.num_mapped_chs = ((file_step c fs op).files.length : Int) ∧
    (file_step c fs op).files.length ≤ n ∧
    (∀ env, op = FileOp.open env →
      (fs.files.length < n → (file_step c fs op).rets = fs.rets ++ [0] ∧
        (file_step c fs op).files.length = fs.files.length + 1) ∧
      (fs.files.length = n → (file_step c fs op).rets = fs.rets ++ [-ENOMEM] ∧
        (file_step c fs op).files = fs.files ∧ (file_step c fs op).host = fs.host)) ∧
    (∀ idx, op = FileOp.release idx → idx < fs.files.length →
      (file_step c fs op).rets = fs.rets ++ [0] ∧
      (file_step c fs op).files.length = fs.files.length - 1) := by
  cases op with
  | «open» env =>
    have hok := hop env rfl
    by_cases hfull : fs.files.length = n
    · have := channelopen_exclusive_full c env fs.host hp he (by rw [hm, hc, hfull])
      simp only [file_step, this]
      refine ⟨hp, he, hc, hm, hle, ?_, ?_⟩
      · intro env2 _
        exact ⟨fun h => absurd hfull (by omega), fun _ => ⟨trivial, trivial, trivial⟩⟩
      · intro idx h; cases h
    · have hlt : fs.files.length < n := by omega
      obtain ⟨s1, f, h0, h1, h2, h3, h4⟩ := channelopen_exclusive_free c env fs.host hp he hok
        (by rw [hm, hc]; omega)
      simp only [file_step, h0]
      refine ⟨by rw [h1, hp], h2, by rw [h3, hc], ?_, ?_, ?_, ?_⟩
      · rw [h4, hm, wrap32_of_range _ (by omega) (by omega)]
        simp
      · simp; omega
      · intro env2 _
        exact ⟨fun _ => ⟨trivial, by simp⟩, fun h => absurd h hfull⟩
      · intro idx h; cases h
  | release idx =>
    simp only [file_step]
    rcases hget : fs.files.get? idx with _ | f
    · simp only
      refine ⟨hp, he, hc, hm, hle, ?_, ?_⟩
      · intro env h; cases h
      · intro idx2 h hlt
        cases h
        rw [List.get?_eq_none] at hget
        omega
    · simp only
      have hlt : idx < fs.files.length := by
        by_contra hcon
        have : fs.files.get? idx = none := List.get?_eq_none.mpr (by omega)
        rw [this] at hget; cases hget
      obtain ⟨r0, r1, r2, r3, r4⟩ := channelrelease_exclusive fs.host f.1 f.2 hp he
      have hlen : (fs.files.eraseIdx idx).length = fs.files.length - 1 :=
        List.length_eraseIdx_of_lt hlt
      refine ⟨by rw [r1, hp], r2, by rw [r3, hc], ?_, ?_, ?_, ?_⟩
      · rw [r4, hm, hlen, wrap32_of_range _ (by omega) (by omega)]
        omega
      · rw [hlen]; omega
      · intro env h; cases h
      · intro idx2 _ _
        exact ⟨by rw [r0], hlen⟩

theorem file_run_exclusive (c : HostConsts) (n : Nat) (hn : n < 2147483648) (ops : List FileOp) :
    ∀ fs : FileSys, (∀ op ∈ ops, ∀ env, op = FileOp.open env → env.others_ok) →
      fs.host.channel_policy = nvhost_channel_policy.MAP_CHANNEL_ON_SUBMIT →
      fs.host.pdata.exclusive = true →
      fs.host.pdata.num_channels = (n : Int) →
      fs.host.pdata.num_mapped_chs = (fs.files.length : Int) →
      fs.files.length ≤ n →
      (file_run c fs ops).host.channel_policy = nvhost_channel_policy.MAP_CHANNEL_ON_SUBMIT ∧
      (file_run c fs ops).host.pdata.exclusive = true ∧
      (file_run c fs ops).host.pdata.num_channels = (n : Int) ∧
      (file_run c fs ops).host.pdata.num_mapped_chs = ((file_run c fs ops).files.length : Int) ∧
      (file_run c fs ops).files.length ≤ n := by
  induction ops with
  | nil => intro fs _ hp he hc hm hle; exact ⟨hp, he, hc, hm, hle⟩
  | cons op ops ih =>
    intro fs hops hp he hc hm hle
    obtain ⟨a1, a2, a3, a4, a5, -, -⟩ := file_step_exclusive c n hn fs op
      (hops op (List.mem_cons_self _ _)) hp he hc hm hle
    exact ih (file_step c fs op) (fun o ho => hops o (List.mem_cons_of_mem _ ho)) a1 a2 a3 a4 a5

theorem file_run_opens (c : HostConsts) (n : Nat) (hn : n < 2147483648) (env : OpenEnv)
    (hok : env.others_ok) (k : Nat) :
    ∀ fs : FileSys,
      fs.host.channel_policy = nvhost_channel_policy.MAP_CHANNEL_ON_SUBMIT →
      fs.host.pdata.exclusive = true →
      fs.host.pdata.num_channels = (n : Int) →
      fs.host.pdata.num_mapped_chs = (fs.files.length : Int) →
      fs.files.length + k ≤ n →
      (file_run c fs (List.replicate k (FileOp.open env))).host.channel_policy
        = nvhost_channel_policy.MAP_CHANNEL_ON_SUBMIT ∧
      (file_run c fs (List.replicate k (FileOp.open env))).host.pdata.exclusive = true ∧
      (file_run c fs (List.replicate k (FileOp.open env))).host.pdata.num_channels = (n : Int) ∧
      (file_run c fs (List.replicate k (FileOp.open env))).host.pdata.num_mapped_chs
        = ((file_run c fs (List.replicate k (FileOp.open env))).files.length : Int) ∧
      (file_run c fs (List.replicate k (FileOp.open env))).files.length = fs.files.length + k ∧
      (file_run c fs (List.replicate k (FileOp.open env))).rets
        = fs.rets ++ List.replicate k 0 := by
  induction k with
  | zero => intro fs hp he hc hm _; exact ⟨hp, he, hc, hm, rfl, by simp [file_run]⟩
  | succ k ih =>
    intro fs hp he hc hm hle
    obtain ⟨a1, a2, a3, a4, a5, a6, -⟩ := file_step_exclusive c n hn fs (FileOp.open env)
      (fun e h => by cases h; exact hok) hp he hc hm (by omega)
    obtain ⟨b1, b2⟩ := (a6 env rfl).1 (by omega)
    obtain ⟨i1, i2, i3, i4, i5, i6⟩ := ih (file_step c fs (FileOp.open env)) a1 a2 a3 a4
      (by rw [b2]; omega)
    have hrun : file_run c fs (List.replicate (k + 1) (FileOp.open env))
        = file_run c (file_step c fs (FileOp.open env)) (List.replicate k (FileOp.open env)) := rfl
    rw [hrun]
    refine ⟨i1, i2, i3, i4, by rw [i5, b2]; omega, ?_⟩
    rw [i6, b1, List.replicate_succ, List.append_assoc]
    rfl

/-- C3, amended. Exclusive mode under the map-on-submit policy, a device with
`n` channels, none mapped and no context open, every other step of each open
succeeding.  After any sequence of opens and releases the mapped-channel count
equals the number of open contexts and is at most `n`.  For `n ≥ 1`: `n` opens
return 0, the next returns `-ENOMEM` (the status of every failure of
`__nvhost_channelopen`, allocation failure included), and after one release one
further open returns 0 and the one after it `-ENOMEM` again. -/
theorem exclusive_open_accounting (c : HostConsts) (s0 : HostState) (n : Nat)
    (hn : n < 2147483648)
    (hp : s0.channel_policy = nvhost_channel_policy.MAP_CHANNEL_ON_SUBMIT)
    (he : s0.pdata.exclusive = true)
    (hc : s0.pdata.num_channels = (n : Int))
    (hm : s0.pdata.num_mapped_chs = 0) :
    (∀ ops : List FileOp, (∀ op ∈ ops, ∀ env, op = FileOp.open env → env.others_ok) →
      (file_run c ⟨s0, [], []⟩ ops).host.pdata.num_mapped_chs
        = ((file_run c ⟨s0, [], []⟩ ops).files.length : Int) ∧
      (file_run c ⟨s0, [], []⟩ ops).files.length ≤ n) ∧
    (∀ env : OpenEnv, env.others_ok → 1 ≤ n →
      (file_run c ⟨s0, [], []⟩
          (List.replicate n (FileOp.open env) ++
            [FileOp.open env, FileOp.release 0, FileOp.open env, FileOp.open env])).rets
        = List.replicate n 0 ++ [-ENOMEM, 0, 0, -ENOMEM]) := by
  constructor
  · intro ops hops
    obtain ⟨-, -, -, a4, a5⟩ := file_run_exclusive c n hn ops ⟨s0, [], []⟩ hops hp he hc
      (by simpa using hm) (by simp)
    exact ⟨a4, a5⟩
  · intro env hok hn1
    obtain ⟨i1, i2, i3, i4, i5, i6⟩ := file_run_opens c n hn env hok n ⟨s0, [], []⟩ hp he hc
      (by simpa using hm) (by simp)
    simp only [List.length_nil, Nat.zero_add, List.nil_append] at i5 i6
    unfold file_run at *
    rw [List.foldl_append]
    generalize List.foldl (file_step c) ⟨s0, [], []⟩ (List.replicate n (FileOp.open env)) = fs1
      at *
    have hopen : ∀ e, FileOp.open env = FileOp.open e → e.others_ok := fun e h => by
      cases h; exact hok
    have hrel : ∀ e, FileOp.release 0 = FileOp.open e → e.others_ok := fun e h => by cases h
    simp only [List.foldl_cons, List.foldl_nil]
    -- the open that finds every channel mapped
    obtain ⟨a1, a2, a3, a4, a5, a6, -⟩ := file_step_exclusive c n hn fs1 (FileOp.open env)
      hopen i1 i2 i3 i4 (by omega)
    obtain ⟨b1, b2, b3⟩ := (a6 env rfl).2 i5
    generalize file_step c fs1 (FileOp.open env) = fs2 at *
    -- the release
    obtain ⟨c1, c2, c3, c4, c5, -, c7⟩ := file_step_exclusive c n hn fs2 (FileOp.release 0)
      hrel a1 a2 a3 a4 a5
    obtain ⟨d1, d2⟩ := c7 0 rfl (by rw [b2]; omega)
    generalize file_step c fs2 (FileOp.release 0) = fs3 at *
    -- the open that takes the freed channel
    obtain ⟨e1, e2, e3, e4, e5, e6, -⟩ := file_step_exclusive c n hn fs3 (FileOp.open env)
      hopen c1 c2 c3 c4 c5
    obtain ⟨f1, f2⟩ := (e6 env rfl).1 (by rw [d2, b2]; omega)
    generalize file_step c fs3 (FileOp.open env) = fs4 at *
    -- the open after it
    obtain ⟨-, -, -, -, -, g6, -⟩ := file_step_exclusive c n hn fs4 (FileOp.open env)
      hopen e1 e2 e3 e4 e5
    obtain ⟨h1, -, -⟩ := (g6 env rfl).2 (by rw [f2, d2, b2]; omega)
    rw [h1, f1, d1, b1, i6]
    simp

/-- The amended C3 at a device with two channels. -/
theorem exclusive_open_accounting_witness :
    (∀ ops : List FileOp, (∀ op ∈ ops, ∀ env, op = FileOp.open env → env.others_ok) →
      (file_run tegraHostConsts ⟨exclusiveDevice 2 false, [], []⟩ ops).host.pdata.num_mapped_chs
        = ((file_run tegraHostConsts ⟨exclusiveDevice 2 false, [], []⟩ ops).files.length : Int) ∧
      (file_run tegraHostConsts ⟨exclusiveDevice 2 false, [], []⟩ ops).files.length ≤ 2) ∧
    (∀ env : OpenEnv, env.others_ok → 1 ≤ 2 →
      (file_run tegraHostConsts ⟨exclusiveDevice 2 false, [], []⟩
          (List.replicate 2 (FileOp.open env) ++
            [FileOp.open env, FileOp.release 0, FileOp.open env, FileOp.open env])).rets
        = List.replicate 2 0 ++ [-ENOMEM, 0, 0, -ENOMEM]) :=
  exclusive_open_accounting tegraHostConsts (exclusiveDevice 2 false) 2 (by decide)
    rfl rfl rfl rfl

/-- C3, as stated, fails: on a device with one channel the second open
returns `-ENOMEM`, the very status an open returns when the allocation of the
context fails; no separate resource-exhausted status exists. -/
theorem exclusive_open_exhaustion_is_enomem :
    (file_run tegraHostConsts ⟨exclusiveDevice 1 false, [], []⟩
        [FileOp.open okOpenEnv, FileOp.open okOpenEnv]).rets = [0, -ENOMEM] ∧
    (__nvhost_channelopen tegraHostConsts { okOpenEnv with kzalloc_ok := false } true
        (exclusiveDevice 1 false)).2.1 = -ENOMEM := by
  decide

/-- C4 at a failing input: exclusive device with the keep-powered flag, the
power-on probe fails.  The open returns `-ENOMEM`, yet the mapped-channel count
stays raised, the freed context stays in the power-management client list, and
power-off stays disabled. -/
theorem channelopen_failed_probe_not_undone :
    (__nvhost_channelopen tegraHostConsts { okOpenEnv with module_busy_ret := -EAGAIN } true
        (exclusiveDevice 2 true)).2.1 = -ENOMEM ∧
    (exclusiveDevice 2 true).pdata.num_mapped_chs = 0 ∧
    (__nvhost_channelopen tegraHostConsts { okOpenEnv with module_busy_ret := -EAGAIN } true
        (exclusiveDevice 2 true)).1.pdata.num_mapped_chs = 1 ∧
    (exclusiveDevice 2 true).acm_clients = [] ∧
    (__nvhost_channelopen tegraHostConsts { okOpenEnv with module_busy_ret := -EAGAIN } true
        (exclusiveDevice 2 true)).1.acm_clients = [1] ∧
    (__nvhost_channelopen tegraHostConsts { okOpenEnv with module_busy_ret := -EAGAIN } true
        (exclusiveDevice 2 true)).1.live_privs = [] ∧
    (exclusiveDevice 2 true).poweroff_disabled = false ∧
    (__nvhost_channelopen tegraHostConsts { okOpenEnv with module_busy_ret := -EAGAIN } true
        (exclusiveDevice 2 true)).1.poweroff_disabled = true := by
  decide

/-! ### Buffer mapping -/

theorem dma_buf_get_cases (env : BufEnv) (st : BufState) (fd : Nat) :
    (∃ d, env.fd_table fd = FdEntry.dmabuf d ∧
      dma_buf_get env st fd
        = ({ st with log := st.log ++ [BufEv.dma_buf_get d] }, Except.ok d)) ∨
    (∃ e, e ≠ 0 ∧ (∀ d, env.fd_table fd ≠ FdEntry.dmabuf d) ∧
      dma_buf_get env st fd = (st, Except.error e)) := by
  unfold dma_buf_get
  rcases h : env.fd_table fd with _ | _ | d
  · exact Or.inr ⟨-EBADF, by decide, by simp, rfl⟩
  · exact Or.inr ⟨-EINVAL, by decide, by simp, rfl⟩
  · exact Or.inl ⟨d, rfl, rfl⟩

theorem resolved_cons_dmabuf (env : BufEnv) (b : nvhost_channel_buffer)
    (bs : List nvhost_channel_buffer) (d : Nat) (h : env.fd_table b.dmabuf_fd = FdEntry.dmabuf d) :
    resolved env (b :: bs) = d :: resolved env bs := by
  simp [resolved, List.filterMap_cons, h]

theorem resolved_cons_none (env : BufEnv) (b : nvhost_channel_buffer)
    (bs : List nvhost_channel_buffer) (h : ∀ d, env.fd_table b.dmabuf_fd ≠ FdEntry.dmabuf d) :
    resolved env (b :: bs) = resolved env bs := by
  unfold resolved
  rw [List.filterMap_cons]
  rcases hfd : env.fd_table b.dmabuf_fd with _ | _ | d
  · simp
  · simp
  · exact absurd hfd (h d)

/-- The mapping loop leaves the user table alone and raises the map count of
each dma-buf by the number of handled entries that resolve to it. -/
theorem map_buffers_loop_vm (env : BufEnv) (bufs : List nvhost_channel_buffer) :
    ∀ (st : BufState) (addr : Nat),
      (map_buffers_loop env bufs st addr).st.user_table = st.user_table ∧
      (∀ x, (map_buffers_loop env bufs st addr).st.vm x
        = st.vm x + (resolved env ((map_buffers_loop env bufs st addr).buffers.take
            (map_buffers_loop env bufs st addr).num_handled_buffers)).count x) ∧
      (∀ e, (map_buffers_loop env bufs st addr).err = some e → e ≠ 0) := by
  induction bufs with
  | nil => intro st addr; simp [map_buffers_loop, resolved]
  | cons b rest ih =>
    intro st addr
    simp only [map_buffers_loop]
    split
    · refine ⟨rfl, by simp [resolved], ?_⟩
      intro e he; simp only [Option.some.injEq] at he; rw [← he]; decide
    · rcases dma_buf_get_cases env st b.dmabuf_fd with ⟨d, hd, hget⟩ | ⟨e, he0, hne, hget⟩
      · simp only [hget]
        unfold nvhost_vm_map_dmabuf
        by_cases hs : env.vm_map_status d = 0
        · simp only [hs, if_true, ne_eq, not_true_eq_false, if_false]
          obtain ⟨i1, i2, i3⟩ := ih
            (dma_buf_put { st with vm := Function.update st.vm d (st.vm d + 1),
                                   log := st.log ++ [BufEv.dma_buf_get d] ++ [BufEv.vm_map d] } d)
            (env.vm_map_addr d)
          refine ⟨by rw [i1]; rfl, ?_, i3⟩
          intro x
          have hcons : ∀ b1 : nvhost_channel_buffer, b1.dmabuf_fd = b.dmabuf_fd →
              ∀ bs, resolved env (b1 :: bs) = d :: resolved env bs :=
            fun b1 h bs => resolved_cons_dmabuf env b1 bs d (by rw [h]; exact hd)
          rw [i2 x, List.take_succ_cons,
            hcons { b with address := env.vm_map_addr d % 18446744073709551616 } rfl]
          simp only [dma_buf_put, List.count_cons]
          by_cases hx : x = d
          · subst hx; simp; omega
          · have : (d == x) = false := by simpa using fun h => hx h.symm
            simp [Function.update_noteq hx, this]
        · simp only [hs, if_false, ne_eq, not_false_eq_true, if_true]
          refine ⟨rfl, by simp [resolved, dma_buf_put], ?_⟩
          intro e he; simp only [Option.some.injEq] at he; rw [← he]; exact hs
      · simp only [hget]
        refine ⟨trivial, by simp [resolved], ?_⟩
        intro e2 he; simp only [Option.some.injEq] at he; rw [← he]; exact he0

/-- The rollback loop leaves the user table alone and lowers the map count of
each dma-buf by the number of entries that resolve to it. -/
theorem map_buffers_rollback_vm (env : BufEnv) (bufs : List nvhost_channel_buffer) :
    ∀ st : BufState,
      (map_buffers_rollback env bufs st).user_table = st.user_table ∧
      (∀ x, (map_buffers_rollback env bufs st).vm x = st.vm x - (resolved env bufs).count x) := by
  induction bufs with
  | nil => intro st; simp [map_buffers_rollback, resolved]
  | cons b rest ih =>
    intro st
    simp only [map_buffers_rollback]
    rcases dma_buf_get_cases env st b.dmabuf_fd with ⟨d, hd, hget⟩ | ⟨e, he0, hne, hget⟩
    · simp only [hget]
      obtain ⟨i1, i2⟩ := ih (dma_buf_put (nvhost_vm_unmap_dmabuf
        { st with log := st.log ++ [BufEv.dma_buf_get d] } d) d)
      refine ⟨by rw [i1]; rfl, ?_⟩
      intro x
      rw [i2 x, resolved_cons_dmabuf env _ _ d hd]
      simp only [dma_buf_put, nvhost_vm_unmap_dmabuf, List.count_cons]
      by_cases hx : x = d
      · subst hx; simp; omega
      · have : (d == x) = false := by simpa using fun h => hx h.symm
        simp [Function.update_noteq hx, this]
    · simp only [hget]
      obtain ⟨i1, i2⟩ := ih st
      refine ⟨i1, ?_⟩
      intro x
      rw [i2 x, resolved_cons_none env _ _ hne]

/-- The mapping loop followed by the rollback of the handled entries restores
the address space. -/
theorem map_then_rollback_vm (env : BufEnv) (bufs : List nvhost_channel_buffer)
    (st : BufState) (addr : Nat) :
    (map_buffers_rollback env
        ((map_buffers_loop env bufs st addr).buffers.take
          (map_buffers_loop env bufs st addr).num_handled_buffers)
        (map_buffers_loop env bufs st addr).st).vm = st.vm ∧
    (map_buffers_rollback env
        ((map_buffers_loop env bufs st addr).buffers.take
          (map_buffers_loop env bufs st addr).num_handled_buffers)
        (map_buffers_loop env bufs st addr).st).user_table = st.user_table := by
  obtain ⟨f1, f2, -⟩ := map_buffers_loop_vm env bufs st addr
  obtain ⟨r1, r2⟩ := map_buffers_rollback_vm env
    ((map_buffers_loop env bufs st addr).buffers.take
      (map_buffers_loop env bufs st addr).num_handled_buffers)
    (map_buffers_loop env bufs st addr).st
  refine ⟨?_, by rw [r1, f1]⟩
  funext x
  rw [r2 x, f2 x]
  omega

theorem map_buffers_rollback_log (env : BufEnv) (bufs : List nvhost_channel_buffer) :
    ∀ st : BufState,
      (map_buffers_rollback env bufs st).log = st.log ++ (resolved env bufs).flatMap
        (fun d => [BufEv.dma_buf_get d, BufEv.vm_unmap d, BufEv.dma_buf_put d]) := by
  induction bufs with
  | nil => intro st; simp [map_buffers_rollback, resolved]
  | cons b rest ih =>
    intro st
    simp only [map_buffers_rollback]
    rcases dma_buf_get_cases env st b.dmabuf_fd with ⟨d, hd, hget⟩ | ⟨e, he0, hne, hget⟩
    · simp only [hget]
      rw [ih, resolved_cons_dmabuf env _ _ d hd]
      simp [dma_buf_put, nvhost_vm_unmap_dmabuf]
    · simp only [hget]
      rw [ih, resolved_cons_none env _ _ hne]

/-- An entry that passes the per-entry checks resolves to a dma-buf. -/
theorem entry_error_none (env : BufEnv) (b : nvhost_channel_buffer)
    (h : entry_error env b = none) :
    ¬ (b.reserved0 ≠ 0 ∨ b.reserved1_0 ≠ 0 ∨ b.reserved1_1 ≠ 0) ∧
    ∃ d, env.fd_table b.dmabuf_fd = FdEntry.dmabuf d := by
  unfold entry_error at h
  split at h
  · cases h
  · rename_i hres
    refine ⟨hres, ?_⟩
    rcases hfd : env.fd_table b.dmabuf_fd with _ | _ | d
    · rw [hfd] at h; cases h
    · rw [hfd] at h; cases h
    · exact ⟨d, rfl⟩

/-- The mapping loop on a table whose first entries `pre` pass every check and
map, followed by an entry with a nonzero reserved field. -/
theorem map_buffers_loop_reserved (env : BufEnv) (b : nvhost_channel_buffer)
    (post : List nvhost_channel_buffer)
    (hb : b.reserved0 ≠ 0 ∨ b.reserved1_0 ≠ 0 ∨ b.reserved1_1 ≠ 0)
    (pre : List nvhost_channel_buffer) :
    ∀ (st : BufState) (addr : Nat),
      (∀ p ∈ pre, entry_error env p = none ∧
        ∀ d, env.fd_table p.dmabuf_fd = FdEntry.dmabuf d → env.vm_map_status d = 0) →
      (map_buffers_loop env (pre ++ b :: post) st addr).err = some (-EINVAL) ∧
      (map_buffers_loop env (pre ++ b :: post) st addr).num_handled_buffers = pre.length ∧
      resolved env ((map_buffers_loop env (pre ++ b :: post) st addr).buffers.take pre.length)
        = resolved env pre ∧
      (map_buffers_loop env (pre ++ b :: post) st addr).st.log = st.log ++
        (resolved env pre).flatMap
          (fun d => [BufEv.dma_buf_get d, BufEv.vm_map d, BufEv.dma_buf_put d]) := by
  induction pre with
  | nil =>
    intro st addr _
    simp [map_buffers_loop, hb, resolved]
  | cons p pre ih =>
    intro st addr hpre
    obtain ⟨hp, hmap⟩ := hpre p (List.mem_cons_self _ _)
    obtain ⟨hres, d, hd⟩ := entry_error_none env p hp
    have hs := hmap d hd
    have hget : dma_buf_get env st p.dmabuf_fd
        = ({ st with log := st.log ++ [BufEv.dma_buf_get d] }, Except.ok d) := by
      simp [dma_buf_get, hd]
    obtain ⟨i1, i2, i3, i4⟩ := ih
      (dma_buf_put { st with vm := Function.update st.vm d (st.vm d + 1),
                             log := st.log ++ [BufEv.dma_buf_get d] ++ [BufEv.vm_map d] } d)
      (env.vm_map_addr d) (fun q hq => hpre q (List.mem_cons_of_mem _ hq))
    simp only [List.cons_append, map_buffers_loop, hres, if_false, hget, nvhost_vm_map_dmabuf, hs,
      if_true, ne_eq, not_true_eq_false]
    generalize map_buffers_loop env (pre ++ b :: post)
      (dma_buf_put { st with vm := Function.update st.vm d (st.vm d + 1),
                             log := st.log ++ [BufEv.dma_buf_get d] ++ [BufEv.vm_map d] } d)
      (env.vm_map_addr d) = L at *
    refine ⟨i1, by rw [i2]; rfl, ?_, ?_⟩
    · show resolved env (List.take (pre.length + 1)
        ({ p with address := env.vm_map_addr d % 18446744073709551616 } :: L.buffers)) = _
      rw [List.take_succ_cons,
        resolved_cons_dmabuf env { p with address := env.vm_map_addr d % 18446744073709551616 }
          _ d hd, i3, resolved_cons_dmabuf env p pre d hd]
    · rw [i4, resolved_cons_dmabuf env p pre d hd]
      simp [dma_buf_put]
/-- The mapping loop cannot run to completion over an entry with a nonzero
reserved field. -/
theorem map_buffers_loop_stops (env : BufEnv) (bufs : List nvhost_channel_buffer) :
    ∀ (st : BufState) (addr : Nat),
      (∃ b ∈ bufs, b.reserved0 ≠ 0 ∨ b.reserved1_0 ≠ 0 ∨ b.reserved1_1 ≠ 0) →
      ∃ e, (map_buffers_loop env bufs st addr).err = some e := by
  induction bufs with
  | nil => intro st addr h; obtain ⟨b, hb, -⟩ := h; cases hb
  | cons p rest ih =>
    intro st addr h
    simp only [map_buffers_loop]
    split
    · exact ⟨_, rfl⟩
    · rename_i hres
      have hrest : ∃ b ∈ rest, b.reserved0 ≠ 0 ∨ b.reserved1_0 ≠ 0 ∨ b.reserved1_1 ≠ 0 := by
        obtain ⟨b, hb, hbr⟩ := h
        rcases List.mem_cons.mp hb with rfl | hb2
        · exact absurd hbr hres
        · exact ⟨b, hb2, hbr⟩
      rcases dma_buf_get_cases env st p.dmabuf_fd with ⟨d, hd, hget⟩ | ⟨e, he0, hne, hget⟩
      · simp only [hget]
        split
        · exact ⟨_, rfl⟩
        · exact ih _ _ hrest
      · simp only [hget]
        exact ⟨_, rfl⟩

/-- C5. A map_buffers request whose table (its first `num_buffers` entries)
holds an entry `b` with a nonzero reserved field, after the entries `pre`.
Whatever else happens in the call, it returns a nonzero status, the mappings of
the context's address space are the same after the call as before it, and the
user's table is not written.  When the allocation and the copy of the table
succeed and the entries of `pre` pass their checks and map, the status is
`-EINVAL`, and the calls made are: for each entry of `pre` a resolve, a map and
a put, then for each of them a resolve, an unmap and a put. -/
theorem map_buffer_reserved_rollback (env : BufEnv) (st : BufState)
    (args : nvhost_channel_map_buffer_args) (pre post : List nvhost_channel_buffer)
    (b : nvhost_channel_buffer)
    (htab : st.user_table.take args.num_buffers = pre ++ b :: post)
    (hb : b.reserved0 ≠ 0 ∨ b.reserved1_0 ≠ 0 ∨ b.reserved1_1 ≠ 0) :
    (nvhost_ioctl_channel_map_buffer env st args).2 ≠ 0 ∧
    (nvhost_ioctl_channel_map_buffer env st args).1.vm = st.vm ∧
    (nvhost_ioctl_channel_map_buffer env st args).1.user_table = st.user_table ∧
    (env.kzalloc_buffers_ok = true → args.num_buffers ≤ st.user_table.length →
      (∀ p ∈ pre, entry_error env p = none ∧
        ∀ d, env.fd_table p.dmabuf_fd = FdEntry.dmabuf d → env.vm_map_status d = 0) →
      (nvhost_ioctl_channel_map_buffer env st args).2 = -EINVAL ∧
      (args.reserved = 0 →
        (nvhost_ioctl_channel_map_buffer env st args).1.log = st.log ++
          (resolved env pre).flatMap
            (fun d => [BufEv.dma_buf_get d, BufEv.vm_map d, BufEv.dma_buf_put d]) ++
          (resolved env pre).flatMap
            (fun d => [BufEv.dma_buf_get d, BufEv.vm_unmap d, BufEv.dma_buf_put d]))) := by
  unfold nvhost_ioctl_channel_map_buffer
  by_cases hr : args.reserved = 0
  swap
  · simp only [ne_eq, hr, not_false_eq_true, if_true]
    exact ⟨by decide, trivial, trivial, fun _ _ _ => ⟨trivial, fun h => by simp at h⟩⟩
  simp only [ne_eq, hr, not_true_eq_false, if_false]
  cases hk : env.kzalloc_buffers_ok
  · simp only [Bool.not_false, if_true]
    exact ⟨by decide, trivial, trivial, fun h => by cases h⟩
  simp only [Bool.not_true, Bool.false_eq_true, if_false]
  by_cases hc : copy_table_left st args.num_buffers = 0
  swap
  · simp only [hc, not_false_eq_true, if_true]
    refine ⟨by exact_mod_cast hc, trivial, trivial, ?_⟩
    intro _ hlen _
    exact absurd (by simp [copy_table_left]; omega) hc
  simp only [hc, not_true_eq_false, if_false]
  rw [htab]
  obtain ⟨e, he⟩ := map_buffers_loop_stops env (pre ++ b :: post) st 0
    ⟨b, by simp, hb⟩
  obtain ⟨-, -, hne⟩ := map_buffers_loop_vm env (pre ++ b :: post) st 0
  obtain ⟨v1, v2⟩ := map_then_rollback_vm env (pre ++ b :: post) st 0
  simp only [he]
  refine ⟨hne e he, v1, v2, ?_⟩
  intro _ _ hpre
  obtain ⟨l1, l2, l3, l4⟩ := map_buffers_loop_reserved env b post hb pre st 0 hpre
  rw [he] at l1
  simp only [Option.some.injEq] at l1
  refine ⟨l1, fun _ => ?_⟩
  rw [map_buffers_rollback_log, l2, l3, l4]
theorem foldl_dma_buf_put (ds : List Nat) : ∀ st : BufState,
    (ds.foldl dma_buf_put st).vm = st.vm ∧
    (ds.foldl dma_buf_put st).user_table = st.user_table ∧
    (ds.foldl dma_buf_put st).log = st.log ++ ds.map BufEv.dma_buf_put := by
  induction ds with
  | nil => intro st; simp
  | cons d ds ih =>
    intro st
    obtain ⟨h1, h2, h3⟩ := ih (dma_buf_put st d)
    simp only [List.foldl_cons]
    exact ⟨h1, h2, by rw [h3]; simp [dma_buf_put]⟩

theorem foldl_vm_unmap (ds : List Nat) : ∀ st : BufState,
    (∀ x, (ds.foldl nvhost_vm_unmap_dmabuf st).vm x = st.vm x - ds.count x) ∧
    (ds.foldl nvhost_vm_unmap_dmabuf st).user_table = st.user_table ∧
    (ds.foldl nvhost_vm_unmap_dmabuf st).log = st.log ++ ds.map BufEv.vm_unmap := by
  induction ds with
  | nil => intro st; simp
  | cons d ds ih =>
    intro st
    obtain ⟨h1, h2, h3⟩ := ih (nvhost_vm_unmap_dmabuf st d)
    simp only [List.foldl_cons]
    refine ⟨?_, h2, by rw [h3]; simp [nvhost_vm_unmap_dmabuf]⟩
    intro x
    rw [h1 x]
    simp only [nvhost_vm_unmap_dmabuf, List.count_cons]
    by_cases hx : x = d
    · subst hx; simp; omega
    · have : (d == x) = false := by simpa using fun h => hx h.symm
      simp [Function.update_noteq hx, this]

/-- The resolving loop of unmap changes neither the address space nor the user
table, and an error it stops with is nonzero. -/
theorem unmap_get_loop_frame (env : BufEnv) (bufs : List nvhost_channel_buffer) :
    ∀ st : BufState,
      (unmap_get_loop env bufs st).st.vm = st.vm ∧
      (unmap_get_loop env bufs st).st.user_table = st.user_table ∧
      (∀ e, (unmap_get_loop env bufs st).err = some e → e ≠ 0) := by
  induction bufs with
  | nil => intro st; simp [unmap_get_loop]
  | cons b rest ih =>
    intro st
    simp only [unmap_get_loop]
    split
    · refine ⟨rfl, rfl, ?_⟩
      intro e he; simp only [Option.some.injEq] at he; rw [← he]; decide
    · rcases dma_buf_get_cases env st b.dmabuf_fd with ⟨d, hd, hget⟩ | ⟨e, he0, hne, hget⟩
      · simp only [hget]
        exact ih _
      · simp only [hget]
        refine ⟨trivial, trivial, ?_⟩
        intro e2 he; simp only [Option.some.injEq] at he; rw [← he]; exact he0

/-- The resolving loop of unmap over entries that all pass. -/
theorem unmap_get_loop_pass (env : BufEnv) (bufs : List nvhost_channel_buffer) :
    ∀ st : BufState, (∀ p ∈ bufs, entry_error env p = none) →
      (unmap_get_loop env bufs st).err = none ∧
      (unmap_get_loop env bufs st).dmabufs = resolved env bufs ∧
      (unmap_get_loop env bufs st).st.log
        = st.log ++ (resolved env bufs).map BufEv.dma_buf_get := by
  induction bufs with
  | nil => intro st _; simp [unmap_get_loop, resolved]
  | cons p rest ih =>
    intro st hall
    obtain ⟨hres, d, hd⟩ := entry_error_none env p (hall p (List.mem_cons_self _ _))
    have hget : dma_buf_get env st p.dmabuf_fd
        = ({ st with log := st.log ++ [BufEv.dma_buf_get d] }, Except.ok d) := by
      simp [dma_buf_get, hd]
    obtain ⟨i1, i2, i3⟩ := ih { st with log := st.log ++ [BufEv.dma_buf_get d] }
      (fun q hq => hall q (List.mem_cons_of_mem _ hq))
    simp only [unmap_get_loop, hres, if_false, hget]
    refine ⟨i1, by rw [i2, resolved_cons_dmabuf env p rest d hd], ?_⟩
    rw [i3, resolved_cons_dmabuf env p rest d hd]
    simp

/-- The resolving loop of unmap over entries that pass, followed by one that
does not. -/
theorem unmap_get_loop_fail (env : BufEnv) (b : nvhost_channel_buffer)
    (post : List nvhost_channel_buffer) (e : Int) (hb : entry_error env b = some e)
    (pre : List nvhost_channel_buffer) :
    ∀ st : BufState, (∀ p ∈ pre, entry_error env p = none) →
      (unmap_get_loop env (pre ++ b :: post) st).err = some e ∧
      (unmap_get_loop env (pre ++ b :: post) st).dmabufs = resolved env pre ∧
      (unmap_get_loop env (pre ++ b :: post) st).st.log
        = st.log ++ (resolved env pre).map BufEv.dma_buf_get := by
  induction pre with
  | nil =>
    intro st _
    simp only [List.nil_append, unmap_get_loop, resolved, List.filterMap_nil, List.map_nil,
      List.append_nil]
    unfold entry_error at hb
    split at hb
    · simp only [Option.some.injEq] at hb
      rename_i hres
      simp [hres, hb]
    · rename_i hres
      simp only [hres, if_false]
      unfold dma_buf_get
      rcases hfd : env.fd_table b.dmabuf_fd with _ | _ | d
      · rw [hfd] at hb; simp only [Option.some.injEq] at hb; simp [hb]
      · rw [hfd] at hb; simp only [Option.some.injEq] at hb; simp [hb]
      · rw [hfd] at hb; cases hb
  | cons p pre ih =>
    intro st hall
    obtain ⟨hres, d, hd⟩ := entry_error_none env p (hall p (List.mem_cons_self _ _))
    have hget : dma_buf_get env st p.dmabuf_fd
        = ({ st with log := st.log ++ [BufEv.dma_buf_get d] }, Except.ok d) := by
      simp [dma_buf_get, hd]
    obtain ⟨i1, i2, i3⟩ := ih { st with log := st.log ++ [BufEv.dma_buf_get d] }
      (fun q hq => hall q (List.mem_cons_of_mem _ hq))
    rw [List.cons_append]
    simp only [unmap_get_loop, hres, if_false, hget]
    refine ⟨i1, by rw [i2, resolved_cons_dmabuf env p pre d hd], ?_⟩
    rw [i3, resolved_cons_dmabuf env p pre d hd]
    simp

/-- C6. An unmap_buffers request never writes the user's table, and whenever it
returns a nonzero status the address-space mappings are unchanged.  If, after
entries `pre` that pass, an entry has a nonzero reserved field or a descriptor
that does not resolve (`entry_error` gives `e`), then no buffer is unmapped, a
nonzero status is returned, and with the allocations and the copy succeeding
the status is `e` and the calls made are the resolves of `pre` followed by
the puts of exactly those dma-bufs.  If every entry passes (allocations and copy
succeeding), the status is 0 and the calls made are the resolves of all listed
dma-bufs, then one unmap of each, then one put of each. -/
theorem unmap_buffer_all_or_nothing (env : BufEnv) (st : BufState)
    (args : nvhost_channel_map_buffer_args) :
    (nvhost_ioctl_channel_unmap_buffer env st args).1.user_table = st.user_table ∧
    ((nvhost_ioctl_channel_unmap_buffer env st args).2 ≠ 0 →
      (nvhost_ioctl_channel_unmap_buffer env st args).1.vm = st.vm) ∧
    (∀ pre b post e,
      st.user_table.take args.num_buffers = pre ++ b :: post →
      (∀ p ∈ pre, entry_error env p = none) → entry_error env b = some e →
      (nvhost_ioctl_channel_unmap_buffer env st args).2 ≠ 0 ∧
      (nvhost_ioctl_channel_unmap_buffer env st args).1.vm = st.vm ∧
      (args.reserved = 0 → env.kzalloc_buffers_ok = true → env.kzalloc_dmabufs_ok = true →
        args.num_buffers ≤ st.user_table.length →
        (nvhost_ioctl_channel_unmap_buffer env st args).2 = e ∧
        (nvhost_ioctl_channel_unmap_buffer env st args).1.log = st.log ++
          (resolved env pre).map BufEv.dma_buf_get ++
          (resolved env pre).map BufEv.dma_buf_put)) ∧
    ((∀ p ∈ st.user_table.take args.num_buffers, entry_error env p = none) →
      args.reserved = 0 → env.kzalloc_buffers_ok = true → env.kzalloc_dmabufs_ok = true →
      args.num_buffers ≤ st.user_table.length →
      (nvhost_ioctl_channel_unmap_buffer env st args).2 = 0 ∧
      (∀ x, (nvhost_ioctl_channel_unmap_buffer env st args).1.vm x = st.vm x -
        (resolved env (st.user_table.take args.num_buffers)).count x) ∧
      (nvhost_ioctl_channel_unmap_buffer env st args).1.log = st.log ++
        (resolved env (st.user_table.take args.num_buffers)).map BufEv.dma_buf_get ++
        (resolved env (st.user_table.take args.num_buffers)).map BufEv.vm_unmap ++
        (resolved env (st.user_table.take args.num_buffers)).map BufEv.dma_buf_put) := by
  unfold nvhost_ioctl_channel_unmap_buffer
  by_cases hr : args.reserved = 0
  swap
  · simp only [ne_eq, hr, not_false_eq_true, if_true]
    exact ⟨trivial, fun _ => trivial,
      fun _ _ _ _ _ _ _ => ⟨by decide, trivial, fun h => by simp at h⟩,
      fun _ h => by simp at h⟩
  simp only [ne_eq, hr, not_true_eq_false, if_false]
  cases hk : env.kzalloc_buffers_ok
  · simp only [Bool.not_false, if_true]
    exact ⟨trivial, fun _ => trivial,
      fun _ _ _ _ _ _ _ => ⟨by decide, trivial, fun _ h => by cases h⟩,
      fun _ _ h => by cases h⟩
  simp only [Bool.not_true, Bool.false_eq_true, if_false]
  cases hk2 : env.kzalloc_dmabufs_ok
  · simp only [Bool.not_false, if_true]
    exact ⟨trivial, fun _ => trivial,
      fun _ _ _ _ _ _ _ => ⟨by decide, trivial, fun _ _ h => by cases h⟩,
      fun _ _ _ h => by cases h⟩
  simp only [Bool.not_true, Bool.false_eq_true, if_false]
  by_cases hc : copy_table_left st args.num_buffers = 0
  swap
  · simp only [hc, not_false_eq_true, if_true]
    have hlen : ¬ args.num_buffers ≤ st.user_table.length := by
      intro h; exact hc (by simp [copy_table_left]; omega)
    exact ⟨trivial, fun _ => trivial,
      fun _ _ _ _ _ _ _ => ⟨by exact_mod_cast hc, trivial, fun _ _ _ h => absurd h hlen⟩,
      fun _ _ _ _ h => absurd h hlen⟩
  simp only [hc, not_true_eq_false, if_false]
  obtain ⟨f1, f2, f3⟩ := unmap_get_loop_frame env (st.user_table.take args.num_buffers) st
  refine ⟨?_, ?_, ?_, ?_⟩
  · rcases herr : (unmap_get_loop env (st.user_table.take args.num_buffers) st).err with _ | e
    · simp only
      rw [(foldl_dma_buf_put _ _).2.1, (foldl_vm_unmap _ _).2.1, f2]
    · simp only
      rw [(foldl_dma_buf_put _ _).2.1, f2]
  · rcases herr : (unmap_get_loop env (st.user_table.take args.num_buffers) st).err with _ | e
    · simp
    · intro _
      simp only
      rw [(foldl_dma_buf_put _ _).1, f1]
  · intro pre b post e htab hpre hb
    obtain ⟨l1, l2, l3⟩ := unmap_get_loop_fail env b post e hb pre st hpre
    rw [htab] at f1 f3 ⊢
    simp only [l1]
    refine ⟨f3 e l1, by rw [(foldl_dma_buf_put _ _).1, f1], fun _ _ _ _ => ⟨trivial, ?_⟩⟩
    rw [(foldl_dma_buf_put _ _).2.2, l2, l3]
  · intro hall _ _ _ _
    obtain ⟨l1, l2, l3⟩ := unmap_get_loop_pass env (st.user_table.take args.num_buffers) st hall
    simp only [l1]
    refine ⟨trivial, ?_, ?_⟩
    · intro x
      rw [(foldl_dma_buf_put _ _).1, (foldl_vm_unmap _ _).1 x, f1, l2]
    · rw [(foldl_dma_buf_put _ _).2.2, (foldl_vm_unmap _ _).2.2, l2, l3]

/-- C5 at a concrete request: a table of three entries whose third has a nonzero
reserved word; the first two are mapped and unmapped again. -/
theorem map_buffer_reserved_rollback_witness :
    (nvhost_ioctl_channel_map_buffer demoBufEnv
        (demoBufState [demoBuffer 3 0, demoBuffer 4 0, demoBuffer 5 7]) ⟨3, 0, 0⟩).2 = -EINVAL ∧
    (nvhost_ioctl_channel_map_buffer demoBufEnv
        (demoBufState [demoBuffer 3 0, demoBuffer 4 0, demoBuffer 5 7]) ⟨3, 0, 0⟩).1.vm
      = (demoBufState [demoBuffer 3 0, demoBuffer 4 0, demoBuffer 5 7]).vm ∧
    (nvhost_ioctl_channel_map_buffer demoBufEnv
        (demoBufState [demoBuffer 3 0, demoBuffer 4 0, demoBuffer 5 7]) ⟨3, 0, 0⟩).1.user_table
      = [demoBuffer 3 0, demoBuffer 4 0, demoBuffer 5 7] := by
  have h := map_buffer_reserved_rollback demoBufEnv
    (demoBufState [demoBuffer 3 0, demoBuffer 4 0, demoBuffer 5 7]) ⟨3, 0, 0⟩
    [demoBuffer 3 0, demoBuffer 4 0] [] (demoBuffer 5 7) rfl (by decide)
  refine ⟨(h.2.2.2 rfl (by decide) ?_).1, h.2.1, h.2.2.1⟩
  intro p hp
  refine ⟨?_, fun _ _ => rfl⟩
  simp only [List.mem_cons, List.mem_singleton, List.not_mem_nil, or_false] at hp
  rcases hp with rfl | rfl <;> decide

/-- C6 at a concrete request: the third descriptor of the table is not open, so
nothing is unmapped and the two references taken are put again. -/
theorem unmap_buffer_all_or_nothing_witness :
    (nvhost_ioctl_channel_unmap_buffer demoBufEnv
        (demoBufState [demoBuffer 3 0, demoBuffer 4 0, demoBuffer 6 0]) ⟨3, 0, 0⟩).2 = -EBADF ∧
    (nvhost_ioctl_channel_unmap_buffer demoBufEnv
        (demoBufState [demoBuffer 3 0, demoBuffer 4 0, demoBuffer 6 0]) ⟨3, 0, 0⟩).1.vm
      = (demoBufState [demoBuffer 3 0, demoBuffer 4 0, demoBuffer 6 0]).vm ∧
    (nvhost_ioctl_channel_unmap_buffer demoBufEnv
        (demoBufState [demoBuffer 3 0, demoBuffer 4 0, demoBuffer 6 0]) ⟨3, 0, 0⟩).1.log
      = [BufEv.dma_buf_get 30, BufEv.dma_buf_get 40, BufEv.dma_buf_put 30,
         BufEv.dma_buf_put 40] := by
  have h := (unmap_buffer_all_or_nothing demoBufEnv
    (demoBufState [demoBuffer 3 0, demoBuffer 4 0, demoBuffer 6 0]) ⟨3, 0, 0⟩).2.2.1
    [demoBuffer 3 0, demoBuffer 4 0] (demoBuffer 6 0) [] (-EBADF) rfl
    (by
      intro p hp
      simp only [List.mem_cons, List.mem_singleton, List.not_mem_nil, or_false] at hp
      rcases hp with rfl | rfl <;> decide)
    (by decide)
  obtain ⟨h1, h2⟩ := h.2.2 rfl rfl rfl (by decide)
  exact ⟨h1, h.2.1, h2⟩

/-! ### Job submission -/

theorem submit_init_trace (ctx : nvhost_channel_userctx) (args : nvhost_submit_args) :
    (submit_init ctx args).local_class_ids = none ∧
    ∃ tail, (submit_init ctx args).trace = SubmitEv.job_alloc :: tail ∧
      ∀ ev ∈ tail, ev.is_build = true := by
  unfold submit_init
  rcases ctx.error_notifier_ref with _ | d
  · exact ⟨rfl, [SubmitEv.vm_get], rfl, by simp [SubmitEv.is_build]⟩
  · exact ⟨rfl, [SubmitEv.vm_get, SubmitEv.get_dma_buf d], rfl, by simp [SubmitEv.is_build]⟩

theorem submit_class_ids_trace (args : nvhost_submit_args) (um : SubmitUser) (env : SubmitEnv)
    (st : SubmitSt) :
    ∃ tail, (submit_class_ids args um env st).1.trace = st.trace ++ tail ∧
      ∀ ev ∈ tail, ev.is_build = true := by
  unfold submit_class_ids
  split
  · split
    · exact ⟨[SubmitEv.kzalloc_class_ids], rfl, by simp [SubmitEv.is_build]⟩
    · split <;> exact ⟨[SubmitEv.kzalloc_class_ids], rfl, by simp [SubmitEv.is_build]⟩
  · exact ⟨[], by simp, by simp⟩

theorem trace_ext_step (X st : SubmitSt) (ev : SubmitEv) (hev : ev.is_build = true)
    (h : ∃ tail, X.trace = (st.trace ++ [ev]) ++ tail ∧ ∀ e ∈ tail, e.is_build = true) :
    ∃ tail, X.trace = st.trace ++ tail ∧ ∀ e ∈ tail, e.is_build = true := by
  obtain ⟨tail, h1, h2⟩ := h
  refine ⟨ev :: tail, by rw [h1]; simp, ?_⟩
  intro e he
  rcases List.mem_cons.mp he with rfl | h
  · exact hev
  · exact h2 e h

theorem submit_cmdbuf_loop_trace (c : HostConsts) (pdata : nvhost_device_data)
    (args : nvhost_submit_args) (um : SubmitUser) (is : List Nat) :
    ∀ st : SubmitSt, ∃ tail,
      (submit_cmdbuf_loop c pdata args um is st).1.trace = st.trace ++ tail ∧
      ∀ ev ∈ tail, ev.is_build = true := by
  induction is with
  | nil => intro st; exact ⟨[], by simp [submit_cmdbuf_loop], by simp⟩
  | cons i rest ih =>
    intro st
    simp only [submit_cmdbuf_loop]
    split_ifs
    all_goals first
      | (refine trace_ext_step _ st _ ?_ (ih _); rfl)
      | exact ⟨[], (List.append_nil _).symm, fun _ h => absurd h (List.not_mem_nil _)⟩

theorem submit_copy_arrays_trace (um : SubmitUser) (st : SubmitSt) :
    (submit_copy_arrays um st).1.local_class_ids = none ∧
    ∃ tail, (submit_copy_arrays um st).1.trace = st.trace ++ tail ∧
      ∀ ev ∈ tail, ev.is_build = true := by
  have key : ∃ tail, (if st.local_class_ids.isSome then st.trace ++ [SubmitEv.kfree_class_ids]
      else st.trace) = st.trace ++ tail ∧ ∀ ev ∈ tail, ev.is_build = true := by
    split
    · exact ⟨[SubmitEv.kfree_class_ids], rfl, by simp [SubmitEv.is_build]⟩
    · exact ⟨[], by simp, by simp⟩
  unfold submit_copy_arrays
  simp only
  split
  · exact ⟨rfl, key⟩
  · split
    · exact ⟨rfl, key⟩
    · split <;> exact ⟨rfl, key⟩

/-- Every path through the steps before the sync-point loop leaves a trace that
starts with the job allocation and otherwise holds only building calls. -/
theorem submit_prepare_trace (c : HostConsts) (pdata : nvhost_device_data)
    (ctx : nvhost_channel_userctx) (args : nvhost_submit_args) (um : SubmitUser)
    (env : SubmitEnv) :
    ((submit_prepare c pdata ctx args um env).2 = none →
      (submit_prepare c pdata ctx args um env).1.local_class_ids = none) ∧
    ∃ tail, (submit_prepare c pdata ctx args um env).1.trace = SubmitEv.job_alloc :: tail ∧
      ∀ ev ∈ tail, ev.is_build = true := by
  obtain ⟨-, t0, h0, p0⟩ := submit_init_trace ctx args
  obtain ⟨t1, h1, p1⟩ := submit_class_ids_trace args um env (submit_init ctx args)
  unfold submit_prepare
  rcases hc : submit_class_ids args um env (submit_init ctx args) with ⟨st1, _ | e1⟩
  swap
  · rw [hc] at h1
    refine ⟨by simp, t0 ++ t1, by simp only; rw [h1, h0]; rfl, ?_⟩
    intro ev hev
    rcases List.mem_append.mp hev with h | h
    · exact p0 ev h
    · exact p1 ev h
  rw [hc] at h1
  simp only at h1 ⊢
  obtain ⟨t2, h2, p2⟩ := submit_cmdbuf_loop_trace c pdata args um
    (List.range (toInt32 args.num_cmdbufs).toNat) st1
  rcases hl : submit_cmdbuf_loop c pdata args um
    (List.range (toInt32 args.num_cmdbufs).toNat) st1 with ⟨st2, _ | e2⟩
  swap
  · rw [hl] at h2
    refine ⟨by simp, t0 ++ t1 ++ t2, by simp only; rw [h2, h1, h0]; simp, ?_⟩
    intro ev hev
    rcases List.mem_append.mp hev with h | h
    · rcases List.mem_append.mp h with h | h
      · exact p0 ev h
      · exact p1 ev h
    · exact p2 ev h
  rw [hl] at h2
  simp only at h2 ⊢
  obtain ⟨hnone, t3, h3, p3⟩ := submit_copy_arrays_trace um st2
  refine ⟨fun _ => hnone, t0 ++ t1 ++ t2 ++ t3, by rw [h3, h2, h1, h0]; simp, ?_⟩
  intro ev hev
  rcases List.mem_append.mp hev with h | h
  · rcases List.mem_append.mp h with h | h
    · rcases List.mem_append.mp h with h | h
      · exact p0 ev h
      · exact p1 ev h
    · exact p2 ev h
  · exact p3 ev h

theorem submit_syncpt_loop_frame (table : List Nat) (um : SubmitUser) (is : List Nat) :
    ∀ st : SubmitSt,
      (submit_syncpt_loop table um is st).1.trace = st.trace ∧
      (submit_syncpt_loop table um is st).1.local_class_ids = st.local_class_ids := by
  induction is with
  | nil => intro st; exact ⟨rfl, rfl⟩
  | cons i rest ih =>
    intro st
    simp only [submit_syncpt_loop]
    split_ifs
    all_goals first
      | exact ⟨rfl, rfl⟩
      | exact ih _

/-- The sync-point loop stops with `-EINVAL` at the latest at an index whose
descriptor is copied and carries an id that is 0 or not in the table, when the
descriptors before it are copied. -/
theorem submit_syncpt_loop_bad (table : List Nat) (um : SubmitUser) (m : Nat)
    (post : List Nat)
    (hbad : (user_at um.syncpt_incrs m 8 { syncpt_id := 0, syncpt_incrs := 0 }).val.syncpt_id = 0 ∨
      (user_at um.syncpt_incrs m 8 { syncpt_id := 0, syncpt_incrs := 0 }).val.syncpt_id ∉ table)
    (hm : (user_at um.syncpt_incrs m 8 { syncpt_id := 0, syncpt_incrs := 0 }).left = 0)
    (pre : List Nat) :
    ∀ st : SubmitSt,
      (∀ i ∈ pre, (user_at um.syncpt_incrs i 8 { syncpt_id := 0, syncpt_incrs := 0 }).left = 0) →
      (submit_syncpt_loop table um (pre ++ m :: post) st).2 = some (-EINVAL) := by
  induction pre with
  | nil =>
    intro st _
    simp only [List.nil_append, submit_syncpt_loop, hm, ne_eq, not_true_eq_false, if_false]
    rcases hbad with h | h
    · simp [h]
    · split_ifs <;> rfl
  | cons i pre ih =>
    intro st hpre
    have hi := hpre i (List.mem_cons_self _ _)
    rw [List.cons_append]
    simp only [submit_syncpt_loop, hi, ne_eq, not_true_eq_false, if_false]
    split_ifs
    all_goals first
      | rfl
      | exact ih _ (fun j hj => hpre j (List.mem_cons_of_mem _ hj))

theorem range_split (n m : Nat) (h : m < n) :
    List.range n = List.range m ++ m :: List.range' (m + 1) (n - m - 1) := by
  have h1 : List.range' 0 n = List.range' 0 m ++ List.range' (0 + m) (n - m) := by
    rw [List.range'_append_1]; congr 1; omega
  obtain ⟨k, hk⟩ : ∃ k, n - m = k + 1 := ⟨n - m - 1, by omega⟩
  rw [List.range_eq_range', List.range_eq_range', h1, hk, Nat.zero_add]
  simp [List.range'_succ]

/-- C1. A submit that passes the count check, allocates its job and passes
every step before the sync-point loop, and in which some increment descriptor
`m` (of the `num_syncpt_incrs` ones, the descriptors up to it being copied)
carries an id that is 0 or does not occur in the reserved sync-point table (the
context's under the per-instance policy, the channel's otherwise): the call
returns `-EINVAL`, never calls `nvhost_job_pin` nor `nvhost_channel_submit`, and
the one job it allocated is put, as the last call it makes. -/
theorem submit_rejects_unreserved_syncpt (c : HostConsts) (policy : nvhost_syncpt_policy)
    (nb_pts : Int) (pdata : nvhost_device_data) (ctx : nvhost_channel_userctx)
    (ch : nvhost_channel) (args : nvhost_submit_args) (um : SubmitUser) (env : SubmitEnv)
    (m : Nat)
    (hcount : ¬ toInt32 args.num_syncpt_incrs > nb_pts)
    (halloc : env.job_alloc_ok = true)
    (hprep : (submit_prepare c pdata ctx args um env).2 = none)
    (hm : (m : Int) < toInt32 args.num_syncpt_incrs)
    (hcopied : ∀ i, i ≤ m →
      (user_at um.syncpt_incrs i 8 { syncpt_id := 0, syncpt_incrs := 0 }).left = 0)
    (hbad : (user_at um.syncpt_incrs m 8 { syncpt_id := 0, syncpt_incrs := 0 }).val.syncpt_id = 0 ∨
      (user_at um.syncpt_incrs m 8 { syncpt_id := 0, syncpt_incrs := 0 }).val.syncpt_id
        ∉ syncpt_array policy ctx ch) :
    (nvhost_ioctl_channel_submit c policy nb_pts pdata ctx ch args um env).ret = -EINVAL ∧
    SubmitEv.job_pin ∉
      (nvhost_ioctl_channel_submit c policy nb_pts pdata ctx ch args um env).trace ∧
    SubmitEv.channel_submit ∉
      (nvhost_ioctl_channel_submit c policy nb_pts pdata ctx ch args um env).trace ∧
    (nvhost_ioctl_channel_submit c policy nb_pts pdata ctx ch args um env).trace.count
      SubmitEv.job_alloc = 1 ∧
    (nvhost_ioctl_channel_submit c policy nb_pts pdata ctx ch args um env).trace.count
      SubmitEv.job_put = 1 ∧
    (nvhost_ioctl_channel_submit c policy nb_pts pdata ctx ch args um env).trace.getLast?
      = some SubmitEv.job_put := by
  obtain ⟨hlocal, tail, htrace, hbuild⟩ := submit_prepare_trace c pdata ctx args um env
  have hlocal := hlocal hprep
  have hlt : m < (toInt32 args.num_syncpt_incrs).toNat := by omega
  have hloop := submit_syncpt_loop_bad (syncpt_array policy ctx ch) um m
    (List.range' (m + 1) ((toInt32 args.num_syncpt_incrs).toNat - m - 1)) hbad
    (hcopied m (le_refl m)) (List.range m) (submit_prepare c pdata ctx args um env).1
    (fun i hi => hcopied i (by have := List.mem_range.mp hi; omega))
  rw [← range_split _ m hlt] at hloop
  obtain ⟨f1, f2⟩ := submit_syncpt_loop_frame (syncpt_array policy ctx ch) um
    (List.range (toInt32 args.num_syncpt_incrs).toNat) (submit_prepare c pdata ctx args um env).1
  unfold nvhost_ioctl_channel_submit
  simp only [hcount, if_false, halloc, Bool.not_true, Bool.false_eq_true]
  rcases hp : submit_prepare c pdata ctx args um env with ⟨st1, e1⟩
  rw [hp] at hprep hloop f1 f2 htrace hlocal
  simp only at hprep hloop f1 f2 htrace hlocal
  subst hprep
  simp only
  rcases hs : submit_syncpt_loop (syncpt_array policy ctx ch) um
    (List.range (toInt32 args.num_syncpt_incrs).toNat) st1 with ⟨st2, e2⟩
  rw [hs] at hloop f1 f2
  simp only at hloop f1 f2
  subst hloop
  simp only [submit_fail, f1, f2, hlocal, htrace]
  have hnb : ∀ ev ∈ tail, ev ≠ SubmitEv.job_pin ∧ ev ≠ SubmitEv.channel_submit ∧
      ev ≠ SubmitEv.job_alloc ∧ ev ≠ SubmitEv.job_put := by
    intro ev hev
    have := hbuild ev hev
    refine ⟨?_, ?_, ?_, ?_⟩ <;> (rintro rfl; simp [SubmitEv.is_build] at this)
  refine ⟨trivial, ?_, ?_, ?_, ?_, ?_⟩
  · simp
    intro h; exact (hnb _ h).1 rfl
  · simp
    intro h; exact (hnb _ h).2.1 rfl
  · simp [List.count_cons, List.count_append]
    exact List.count_eq_zero.mpr (fun h => (hnb _ h).2.2.1 rfl)
  · simp [List.count_cons, List.count_append]
    exact List.count_eq_zero.mpr (fun h => (hnb _ h).2.2.2 rfl)
  · simp only [Bool.false_eq_true, if_false, Option.isSome_none, List.append_nil]
    rw [List.getLast?_append]
    rfl

/-- C1 at a concrete request: the context has sync points 5 and 6 reserved and
the second of two increments names sync point 7. -/
theorem submit_rejects_unreserved_syncpt_witness :
    (nvhost_ioctl_channel_submit tegraHostConsts
        nvhost_syncpt_policy.SYNCPT_PER_CHANNEL_INSTANCE 192 demoPdata demoCtx demoChannel
        (demoArgs 2) (demoUser [⟨5, 1⟩, ⟨7, 1⟩]) okSubmitEnv).ret = -EINVAL ∧
    SubmitEv.job_pin ∉
      (nvhost_ioctl_channel_submit tegraHostConsts
        nvhost_syncpt_policy.SYNCPT_PER_CHANNEL_INSTANCE 192 demoPdata demoCtx demoChannel
        (demoArgs 2) (demoUser [⟨5, 1⟩, ⟨7, 1⟩]) okSubmitEnv).trace ∧
    SubmitEv.channel_submit ∉
      (nvhost_ioctl_channel_submit tegraHostConsts
        nvhost_syncpt_policy.SYNCPT_PER_CHANNEL_INSTANCE 192 demoPdata demoCtx demoChannel
        (demoArgs 2) (demoUser [⟨5, 1⟩, ⟨7, 1⟩]) okSubmitEnv).trace ∧
    (nvhost_ioctl_channel_submit tegraHostConsts
        nvhost_syncpt_policy.SYNCPT_PER_CHANNEL_INSTANCE 192 demoPdata demoCtx demoChannel
        (demoArgs 2) (demoUser [⟨5, 1⟩, ⟨7, 1⟩]) okSubmitEnv).trace.count SubmitEv.job_alloc = 1 ∧
    (nvhost_ioctl_channel_submit tegraHostConsts
        nvhost_syncpt_policy.SYNCPT_PER_CHANNEL_INSTANCE 192 demoPdata demoCtx demoChannel
        (demoArgs 2) (demoUser [⟨5, 1⟩, ⟨7, 1⟩]) okSubmitEnv).trace.count SubmitEv.job_put = 1 ∧
    (nvhost_ioctl_channel_submit tegraHostConsts
        nvhost_syncpt_policy.SYNCPT_PER_CHANNEL_INSTANCE 192 demoPdata demoCtx demoChannel
        (demoArgs 2) (demoUser [⟨5, 1⟩, ⟨7, 1⟩]) okSubmitEnv).trace.getLast?
      = some SubmitEv.job_put :=
  submit_rejects_unreserved_syncpt tegraHostConsts
    nvhost_syncpt_policy.SYNCPT_PER_CHANNEL_INSTANCE 192 demoPdata demoCtx demoChannel
    (demoArgs 2) (demoUser [⟨5, 1⟩, ⟨7, 1⟩]) okSubmitEnv 1
    (by decide) rfl (by decide) (by decide) (by decide) (by decide)

/-- The count check of submit on the values it covers: a count that, read as
the `int num_syncpt_incrs`, exceeds `nb_pts` is refused with `-EINVAL` before any
call is made. -/
theorem submit_count_check_int_range (c : HostConsts) (policy : nvhost_syncpt_policy)
    (nb_pts : Int) (pdata : nvhost_device_data) (ctx : nvhost_channel_userctx)
    (ch : nvhost_channel) (args : nvhost_submit_args) (um : SubmitUser) (env : SubmitEnv)
    (h : toInt32 args.num_syncpt_incrs > nb_pts) :
    nvhost_ioctl_channel_submit c policy nb_pts pdata ctx ch args um env
      = { ret := -EINVAL, trace := [], job := none, fence := args.fence, user_fences := [] } := by
  unfold nvhost_ioctl_channel_submit
  simp only [h, if_true]

/-- C2 at a failing input: the device has 192 sync points and the caller
supplies `num_syncpt_incrs = 0x80000000`.  Read into the `int` local the count
is negative, the check passes and `nvhost_job_alloc` is called: when that
fails the call returns `-ENOMEM`, and when it succeeds a job is allocated, the
address-space reference is taken and the job is pinned and dispatched. -/
theorem submit_count_check_signed :
    toInt32 2147483648 = -2147483648 ∧
    (nvhost_ioctl_channel_submit tegraHostConsts
        nvhost_syncpt_policy.SYNCPT_PER_CHANNEL_INSTANCE 192 demoPdata demoCtx demoChannel
        (demoArgs 2147483648) (demoUser []) { okSubmitEnv with job_alloc_ok := false }).ret
      = -ENOMEM ∧
    (nvhost_ioctl_channel_submit tegraHostConsts
        nvhost_syncpt_policy.SYNCPT_PER_CHANNEL_INSTANCE 192 demoPdata demoCtx demoChannel
        (demoArgs 2147483648) (demoUser []) { okSubmitEnv with job_alloc_ok := false }).trace
      = [SubmitEv.job_alloc] ∧
    (nvhost_ioctl_channel_submit tegraHostConsts
        nvhost_syncpt_policy.SYNCPT_PER_CHANNEL_INSTANCE 192 demoPdata demoCtx demoChannel
        (demoArgs 2147483648) (demoUser []) okSubmitEnv).ret = 0 ∧
    (nvhost_ioctl_channel_submit tegraHostConsts
        nvhost_syncpt_policy.SYNCPT_PER_CHANNEL_INSTANCE 192 demoPdata demoCtx demoChannel
        (demoArgs 2147483648) (demoUser []) okSubmitEnv).trace
      = [SubmitEv.job_alloc, SubmitEv.vm_get, SubmitEv.module_busy, SubmitEv.job_pin,
         SubmitEv.module_idle, SubmitEv.channel_submit, SubmitEv.job_put] := by
  decide

/-! ### Creation and destruction of a reference -/

theorem handle_ref_create_eq (hs : HandleStore) (h : Nat) :
    NVMAP2_handle_ref_create true true hs h =
      (Function.update hs h
        { ref := wrap32 ((hs h).ref + 1),
          share_count := wrap32 ((hs h).share_count + 1),
          dmabuf := (hs h).dmabuf + 1 },
       some { dupes := 1, handle := h }) := by
  simp [NVMAP2_handle_ref_create, NVMAP2_handle_get]

theorem handle_ref_free_eq (hs : HandleStore) (ref : nvmap_handle_ref) :
    NVMAP2_handle_ref_free hs ref =
      Function.update hs ref.handle
        { ref := (hs ref.handle).ref,
          share_count := wrap32 ((hs ref.handle).share_count - 1),
          dmabuf := (hs ref.handle).dmabuf - 1 } := by
  simp [NVMAP2_handle_ref_free]

/-- C11. `NVMAP2_handle_ref_create`: when the record is allocated and the
handle is retained, the new reference has count 1 and points to the handle,
the handle's own count and its share count are one higher in `atomic_t`
arithmetic (exactly one higher below `INT_MAX`), the count of its dma-buf is
exactly one higher, and no other handle is touched; when the handle cannot be
retained, or the record cannot be allocated, no reference is returned and the
handle store is the one before the call. -/
theorem handle_ref_create_contract (hs : HandleStore) (h : Nat) :
    (∃ hs1, NVMAP2_handle_ref_create true true hs h =
        (hs1, some { dupes := 1, handle := h }) ∧
      NVMAP2_handle_ref_count { dupes := 1, handle := h } = 1 ∧
      (hs1 h).ref = wrap32 ((hs h).ref + 1) ∧
      (hs1 h).share_count = wrap32 ((hs h).share_count + 1) ∧
      (hs1 h).dmabuf = (hs h).dmabuf + 1 ∧
      (-2147483648 ≤ (hs h).ref → (hs h).ref < 2147483647 →
        (hs1 h).ref = (hs h).ref + 1) ∧
      (-2147483648 ≤ (hs h).share_count → (hs h).share_count < 2147483647 →
        (hs1 h).share_count = (hs h).share_count + 1) ∧
      (∀ g, g ≠ h → hs1 g = hs g)) ∧
    (∀ kzalloc_ok, NVMAP2_handle_ref_create kzalloc_ok false hs h = (hs, none)) ∧
    (∀ retain_ok, NVMAP2_handle_ref_create false retain_ok hs h = (hs, none)) := by
  refine ⟨⟨_, handle_ref_create_eq hs h, rfl, ?_, ?_, ?_, ?_, ?_, ?_⟩, ?_, ?_⟩
  · simp
  · simp
  · simp
  · intro h1 h2
    simp only [Function.update_same]
    unfold wrap32; omega
  · intro h1 h2
    simp only [Function.update_same]
    unfold wrap32; omega
  · intro g hg
    simp [Function.update_noteq hg]
  · intro kzalloc_ok
    cases kzalloc_ok <;> simp [NVMAP2_handle_ref_create, NVMAP2_handle_get]
  · intro retain_ok
    simp [NVMAP2_handle_ref_create]

/-- C12. Creating a reference, putting it once and freeing it leaves the
handle store as it was before the create (own count, share count and dma-buf
count of the handle, and every other handle), the put returning 0; and
`NVMAP2_handle_ref_free` alone lowers the share count by one in `atomic_t`
arithmetic (exactly one above `INT_MIN`), lowers the dma-buf count by exactly
one, and leaves the handle's own count and every other handle unchanged. -/
theorem handle_ref_create_free_symmetric (hs : HandleStore) (h : Nat)
    (hr : wrap32 (hs h).ref = (hs h).ref)
    (hsc : wrap32 (hs h).share_count = (hs h).share_count) :
    (∃ hs1 ref, NVMAP2_handle_ref_create true true hs h = (hs1, some ref) ∧
      (NVMAP2_handle_ref_put hs1 ref).1 = 0 ∧
      NVMAP2_handle_ref_free (NVMAP2_handle_ref_put hs1 ref).2.1
        (NVMAP2_handle_ref_put hs1 ref).2.2 = hs) ∧
    (∀ (hs0 : HandleStore) (ref : nvmap_handle_ref),
      (NVMAP2_handle_ref_free hs0 ref ref.handle).share_count =
        wrap32 ((hs0 ref.handle).share_count - 1) ∧
      (-2147483648 < (hs0 ref.handle).share_count →
        (hs0 ref.handle).share_count ≤ 2147483647 →
        (NVMAP2_handle_ref_free hs0 ref ref.handle).share_count =
          (hs0 ref.handle).share_count - 1) ∧
      (NVMAP2_handle_ref_free hs0 ref ref.handle).dmabuf =
        (hs0 ref.handle).dmabuf - 1 ∧
      (NVMAP2_handle_ref_free hs0 ref ref.handle).ref = (hs0 ref.handle).ref ∧
      (∀ g, g ≠ ref.handle → NVMAP2_handle_ref_free hs0 ref g = hs0 g)) := by
  refine ⟨⟨_, _, handle_ref_create_eq hs h, ?_, ?_⟩, ?_⟩
  · show wrap32 ((1 : Int) - 1) = 0
    decide
  · rw [handle_ref_free_eq]
    simp only [NVMAP2_handle_ref_put, NVMAP2_handle_put, Function.update_same,
      Function.update_idem]
    have e1 : wrap32 (wrap32 ((hs h).ref + 1) - 1) = (hs h).ref := by
      revert hr; unfold wrap32; omega
    have e2 : wrap32 (wrap32 ((hs h).share_count + 1) - 1) = (hs h).share_count := by
      revert hsc; unfold wrap32; omega
    rw [e1, e2, Int.add_sub_cancel]
    exact Function.update_eq_self h hs
  · intro hs0 ref
    rw [handle_ref_free_eq]
    refine ⟨by simp, ?_, by simp, by simp, ?_⟩
    · intro h1 h2
      simp only [Function.update_same]
      unfold wrap32; omega
    · intro g hg
      simp [Function.update_noteq hg]

theorem handle_ref_create_free_symmetric_witness :
    (∃ hs1 ref, NVMAP2_handle_ref_create true true (fun _ => ⟨1, 1, 1⟩) 0 = (hs1, some ref) ∧
      (NVMAP2_handle_ref_put hs1 ref).1 = 0 ∧
      NVMAP2_handle_ref_free (NVMAP2_handle_ref_put hs1 ref).2.1
        (NVMAP2_handle_ref_put hs1 ref).2.2 = fun _ => ⟨1, 1, 1⟩) :=
  (handle_ref_create_free_symmetric (fun _ => ⟨1, 1, 1⟩) 0 (by decide) (by decide)).1

/-! ### Register window check -/

theorem validate_reg_some (master : Option (Option Nat)) (ndev : Option Nat) (size : Nat)
    (offset : Nat) (count : Int)
    (hr : master = some (some size) ∨ (master = none ∧ ndev = some size)) :
    validate_reg master ndev offset count =
      if (((offset : Int) + wrap32 (4 * count)) % 4294967296).toNat > size ∨
          (((offset : Int) + wrap32 (4 * count)) % 4294967296).toNat < offset
      then -EPERM else 0 := by
  rcases hr with h | ⟨h1, h2⟩
  · subst h; rfl
  · subst h1; subst h2; rfl

/-- C17. `validate_reg` on a 32-bit `offset` and a `count` from 0 to 64: when
the device consulted (the master if there is one, else the device itself) has
a memory resource of `size` bytes, the result is 0 exactly when
`offset + 4 * count`, as an unbounded integer, is at most `size` and below
`2^32`, and is `-EPERM` otherwise; when that device has no memory resource the
result is `-ENODEV`. -/
theorem validate_reg_window (offset : Nat) (count : Int)
    (ho : offset < 4294967296) (hc0 : 0 ≤ count) (hc1 : count ≤ 64) :
    (∀ (master : Option (Option Nat)) (ndev : Option Nat) (size : Nat),
      (master = some (some size) ∨ (master = none ∧ ndev = some size)) →
      (validate_reg master ndev offset count = 0 ↔
        ((offset : Int) + 4 * count ≤ size ∧ (offset : Int) + 4 * count < 4294967296)) ∧
      (¬ ((offset : Int) + 4 * count ≤ size ∧ (offset : Int) + 4 * count < 4294967296) →
        validate_reg master ndev offset count = -EPERM) ∧
      (validate_reg master ndev offset count = 0 ∨
        validate_reg master ndev offset count = -EPERM)) ∧
    (∀ (master : Option (Option Nat)) (ndev : Option Nat),
      (master = some none ∨ (master = none ∧ ndev = none)) →
      validate_reg master ndev offset count = -ENODEV) := by
  constructor
  · intro master ndev size hr
    rw [validate_reg_some master ndev size offset count hr]
    have hw : wrap32 (4 * count) = 4 * count := by unfold wrap32; omega
    rw [hw]
    have hE : (-EPERM : Int) ≠ 0 := by decide
    by_cases hs : (offset : Int) + 4 * count < 4294967296
    · have e : (((offset : Int) + 4 * count) % 4294967296).toNat = offset + (4 * count).toNat := by
        omega
      rw [e]
      refine ⟨?_, ?_, ?_⟩
      · constructor
        · intro h
          split_ifs at h with hc
          · exact absurd h hE
          · constructor <;> omega
        · intro h
          rw [if_neg (by omega)]
      · intro h
        rw [if_pos (by omega)]
      · split_ifs
        · exact Or.inr rfl
        · exact Or.inl rfl
    · have e : (((offset : Int) + 4 * count) % 4294967296).toNat <  offset := by
        omega
      rw [if_pos (Or.inr e)]
      exact ⟨⟨fun h => absurd h hE, fun h => absurd h.2 hs⟩, fun _ => rfl, Or.inr rfl⟩
  · intro master ndev hr
    rcases hr with h | ⟨h1, h2⟩
    · subst h; rfl
    · subst h1; subst h2; rfl

/-- C17 at the top of the 32-bit range: a window of 64 registers starting 16
bytes below `2^32` is refused although the aperture is larger, and a window of
64 registers at offset 256 of a 512-byte aperture is accepted. -/
theorem validate_reg_window_witness :
    validate_reg none (some 8589934592) 4294967280 64 = -EPERM ∧
    validate_reg (some (some 512)) none 256 64 = 0 :=
  ⟨((validate_reg_window 4294967280 64 (by decide) (by decide) (by decide)).1
      none (some 8589934592) 8589934592 (Or.inr ⟨rfl, rfl⟩)).2.1 (by decide),
   ((validate_reg_window 256 64 (by decide) (by decide) (by decide)).1
      (some (some 512)) none 512 (Or.inl rfl)).1.2 (by decide)⟩

/-! ### Client identifiers -/

theorem next_clientid_spec (counter : Int) :
    (next_clientid counter).2 =
      (if wrap32 (counter + 1) = 0 then 1 else wrap32 (counter + 1)) ∧
    (next_clientid counter).1 = (next_clientid counter).2 ∧
    (next_clientid counter).2 ≠ 0 ∧
    (next_clientid (next_clientid counter).1).2 ≠ (next_clientid counter).2 := by
  unfold next_clientid
  simp only []
  by_cases h : wrap32 (counter + 1) = 0
  · rw [if_pos h, if_pos h, h]
    refine ⟨by decide, rfl, by decide, by decide⟩
  · rw [if_neg h, if_neg h]
    refine ⟨rfl, rfl, h, ?_⟩
    simp only []
    split_ifs with h2
    · revert h2; unfold wrap32; omega
    · revert h; unfold wrap32; omega

/-- An open that stores a context returns 0, assigns the id `next_clientid`
yields from the host's counter and leaves the counter at the value
`next_clientid` leaves. -/
theorem channelopen_clientid_aux (c : HostConsts) (env : OpenEnv) (has_dev : Bool)
    (s : HostState) :
    ∀ priv ctx, (__nvhost_channelopen c env has_dev s).2.2 = some (priv, ctx) →
    ctx.clientid = (next_clientid s.clientid).2 ∧
    (__nvhost_channelopen c env has_dev s).1.clientid = (next_clientid s.clientid).1 ∧
    (__nvhost_channelopen c env has_dev s).2.1 = 0 := by
  unfold __nvhost_channelopen
  lift_lets
  intro r0 ch s1 excl src s2 priv s3 r4 s5 r6 s7 ids s8 r9 ctx
  have h0 : s1.clientid = s.clientid := by
    simp only [s1, r0, nvhost_channel_map]
    split_ifs <;> rfl
  have h2 : s2.clientid = s.clientid := by
    simp only [s2]
    split_ifs
    · exact h0
    · exact h0
  have h4 : r4.1.clientid = s.clientid := by
    simp only [r4, nvhost_module_add_client]
    split_ifs <;> exact h2
  have h5 : s5.clientid = s.clientid := by
    simp only [s5, nvhost_module_disable_poweroff]
    split_ifs <;> exact h4
  have h6 : r6.1.clientid = s.clientid := by
    simp only [r6, nvhost_module_busy]
    split_ifs <;> exact h5
  have h7 : s7.clientid = s.clientid := h6
  have h9 : r9.1.clientid = ids.1 := by
    simp only [r9, nvhost_vm_allocate]
    split_ifs <;> rfl
  intro p x hx
  split_ifs at hx ⊢
  simp only [Option.some.injEq, Prod.mk.injEq] at hx
  obtain ⟨-, rfl⟩ := hx
  refine ⟨?_, ?_, rfl⟩
  · show ids.2 = _
    simp only [ids, h7]
  · rw [h9]
    simp only [ids, h7]

/-- C18. An `__nvhost_channelopen` that stores a context, on a host whose
client-id counter holds `s.clientid`, returns 0 and assigns an id that is not
0: it is the counter plus one in 32-bit arithmetic when that is nonzero and 1
when it is zero (stated for the `int` the field holds and for its 32-bit
pattern); the counter afterwards equals the assigned id; and a successful open
that follows directly receives a different id. -/
theorem channelopen_clientid_never_zero (c : HostConsts) (env : OpenEnv) (has_dev : Bool)
    (s : HostState) (priv : Nat) (ctx : nvhost_channel_userctx)
    (h : (__nvhost_channelopen c env has_dev s).2.2 = some (priv, ctx)) :
    (__nvhost_channelopen c env has_dev s).2.1 = 0 ∧
    ctx.clientid ≠ 0 ∧
    ctx.clientid = (if wrap32 (s.clientid + 1) = 0 then 1 else wrap32 (s.clientid + 1)) ∧
    ctx.clientid % 4294967296 =
      (if (s.clientid + 1) % 4294967296 = 0 then 1 else (s.clientid + 1) % 4294967296) ∧
    (__nvhost_channelopen c env has_dev s).1.clientid = ctx.clientid ∧
    ∀ (env2 : OpenEnv) (has_dev2 : Bool) (priv2 : Nat) (ctx2 : nvhost_channel_userctx),
      (__nvhost_channelopen c env2 has_dev2 (__nvhost_channelopen c env has_dev s).1).2.2
        = some (priv2, ctx2) →
      ctx2.clientid ≠ ctx.clientid := by
  obtain ⟨h1, h2, h3⟩ := channelopen_clientid_aux c env has_dev s priv ctx h
  obtain ⟨n1, n2, n3, n4⟩ := next_clientid_spec s.clientid
  refine ⟨h3, by rw [h1]; exact n3, by rw [h1]; exact n1, ?_, by rw [h1, h2]; exact n2, ?_⟩
  · rw [h1, n1]
    unfold wrap32
    split_ifs <;> omega
  · intro env2 has_dev2 priv2 ctx2 hx
    obtain ⟨k1, -, -⟩ := channelopen_clientid_aux c env2 has_dev2 _ priv2 ctx2 hx
    rw [k1, h2, h1]
    exact n4

/-- C18 at a counter holding `0xFFFFFFFF` (the `int` -1): the open succeeds and
assigns the id 1, not 0. -/
theorem channelopen_clientid_never_zero_witness :
    (__nvhost_channelopen tegraHostConsts okOpenEnv true
      { exclusiveDevice 2 false with clientid := -1 }).2.1 = 0 ∧
    (__nvhost_channelopen tegraHostConsts okOpenEnv true
      { exclusiveDevice 2 false with clientid := -1 }).1.clientid = 1 :=
  ⟨(channelopen_clientid_never_zero tegraHostConsts okOpenEnv true
      { exclusiveDevice 2 false with clientid := -1 } 1
      { ch := none, timeout := 0, priority := 100, clientid := 1, timeout_debug_dump := true,
        pdev := some 0, syncpts := List.replicate 16 0, client_managed_syncpt := 0,
        error_notifier_ref := none, error_notifier_offset := 0, vm := some 1 }
      (by decide)).1,
   (channelopen_clientid_never_zero tegraHostConsts okOpenEnv true
      { exclusiveDevice 2 false with clientid := -1 } 1
      { ch := none, timeout := 0, priority := 100, clientid := 1, timeout_debug_dump := true,
        pdev := some 0, syncpts := List.replicate 16 0, client_managed_syncpt := 0,
        error_notifier_ref := none, error_notifier_offset := 0, vm := some 1 }
      (by decide)).2.2.2.2.1⟩

/-! ### Error notifier -/

theorem init_error_notifier_set (env : NotifierEnv) (b : DmaBufs)
    (ctx : nvhost_channel_userctx) (args : nvhost_set_error_notifier)
    (hmem : args.mem ≠ 0)
    (hok : (nvhost_init_error_notifier env b ctx args).2.2 = 0) :
    ∃ d, env.fd_table args.mem = FdEntry.dmabuf d ∧ env.vmap_ok d = true ∧
      nvhost_init_error_notifier env b ctx args =
        ((match ctx.error_notifier_ref with
          | some old => (memset_zero (b.get d) d args.offset env.sizeof_notification).put old
          | none => memset_zero (b.get d) d args.offset env.sizeof_notification),
         { ctx with error_notifier_ref := some d, error_notifier_offset := args.offset }, 0) := by
  unfold nvhost_init_error_notifier at hok ⊢
  rw [if_neg hmem] at hok ⊢
  rcases hfd : env.fd_table args.mem with _ | _ | d
  · rw [hfd] at hok; simp [EINVAL] at hok
  · rw [hfd] at hok; simp [EINVAL] at hok
  · rw [hfd] at hok
    simp only [] at hok ⊢
    by_cases hv : env.vmap_ok d = true
    · refine ⟨d, rfl, hv, ?_⟩
      have e : (!env.vmap_ok d) = false := by simp [hv]
      rw [e]
      exact if_neg Bool.false_ne_true
    · simp only [Bool.not_eq_true] at hv
      simp [hv, ENOMEM] at hok

theorem memset_zero_inside (b : DmaBufs) (d offset n k : Nat)
    (h1 : offset ≤ k) (h2 : k < offset + n) :
    (memset_zero b d offset n).bytes d k = 0 := by
  unfold DmaBufs.bytes memset_zero
  apply if_pos
  constructor
  · omega
  · show ((b.va d + k) % 18446744073709551616 +
        (18446744073709551616 - (b.va d + offset) % 18446744073709551616))
          % 18446744073709551616 < n
    omega

theorem memset_zero_outside (b : DmaBufs) (d offset n a : Nat)
    (hfit : offset + n ≤ b.size d) (hmap : b.va d + b.size d ≤ 18446744073709551616)
    (ha : ¬ (b.va d + offset ≤ a ∧ a < b.va d + offset + n)) :
    (memset_zero b d offset n).mem a = b.mem a := by
  unfold memset_zero
  apply if_neg
  rintro ⟨h1, h2⟩
  apply ha
  omega

/-- C15. A call of `nvhost_init_error_notifier` with a non-null handle that
returns 0 resolved the handle to a dma-buf `d` and mapped it; afterwards the
context refers to `d` at `offset` and is otherwise unchanged, and the reference
count of every buffer is its old count, plus one if it is `d`, minus one if it
is the buffer the context held before; sizes and mappings are as before.  When
the record lies inside the buffer, `offset + sizeof(struct nvhost_notification)
<= dmabuf->size` (and the mapping of `d` ends within the 64-bit address space),
the bytes `[offset, offset + sizeof)` of `d` are zero, every other byte of `d`
is as before, and so is every byte of memory outside the zeroed record, in
particular all memory outside `d`.  A call with a null handle returns 0, drops
the reference the context held, clears the context's notifier reference and
changes no byte of memory. -/
theorem init_error_notifier_contract (env : NotifierEnv) (b : DmaBufs)
    (ctx : nvhost_channel_userctx) (args : nvhost_set_error_notifier) :
    (args.mem ≠ 0 → (nvhost_init_error_notifier env b ctx args).2.2 = 0 →
      ∃ d, env.fd_table args.mem = FdEntry.dmabuf d ∧ env.vmap_ok d = true ∧
        (nvhost_init_error_notifier env b ctx args).2.1 =
          { ctx with error_notifier_ref := some d, error_notifier_offset := args.offset } ∧
        (∀ e, (nvhost_init_error_notifier env b ctx args).1.refs e =
          b.refs e + (if e = d then 1 else 0) -
            (if ctx.error_notifier_ref = some e then 1 else 0)) ∧
        (nvhost_init_error_notifier env b ctx args).1.size = b.size ∧
        (nvhost_init_error_notifier env b ctx args).1.va = b.va ∧
        (args.offset + env.sizeof_notification ≤ b.size d →
          b.va d + b.size d ≤ 18446744073709551616 →
          (∀ k, args.offset ≤ k → k < args.offset + env.sizeof_notification →
            (nvhost_init_error_notifier env b ctx args).1.bytes d k = 0) ∧
          (∀ k, k < b.size d →
            ¬ (args.offset ≤ k ∧ k < args.offset + env.sizeof_notification) →
            (nvhost_init_error_notifier env b ctx args).1.bytes d k = b.bytes d k) ∧
          (∀ a, ¬ (b.va d + args.offset ≤ a ∧
              a < b.va d + args.offset + env.sizeof_notification) →
            (nvhost_init_error_notifier env b ctx args).1.mem a = b.mem a) ∧
          (∀ a, ¬ (b.va d ≤ a ∧ a < b.va d + b.size d) →
            (nvhost_init_error_notifier env b ctx args).1.mem a = b.mem a))) ∧
    (args.mem = 0 →
      (nvhost_init_error_notifier env b ctx args).2.2 = 0 ∧
      (nvhost_init_error_notifier env b ctx args).2.1 = { ctx with error_notifier_ref := none } ∧
      (∀ a, (nvhost_init_error_notifier env b ctx args).1.mem a = b.mem a) ∧
      (nvhost_init_error_notifier env b ctx args).1.size = b.size ∧
      (nvhost_init_error_notifier env b ctx args).1.va = b.va ∧
      (∀ e, (nvhost_init_error_notifier env b ctx args).1.refs e =
        b.refs e - (if ctx.error_notifier_ref = some e then 1 else 0))) := by
  constructor
  · intro hmem hok
    obtain ⟨d, hfd, hv, heq⟩ := init_error_notifier_set env b ctx args hmem hok
    refine ⟨d, hfd, hv, ?_⟩
    rw [heq]
    have hmemeq : ∀ a, (match ctx.error_notifier_ref with
          | some old => (memset_zero (b.get d) d args.offset env.sizeof_notification).put old
          | none => memset_zero (b.get d) d args.offset env.sizeof_notification).mem a =
        (memset_zero b d args.offset env.sizeof_notification).mem a := by
      intro a
      rcases ctx.error_notifier_ref with _ | old <;> rfl
    have hbytes : ∀ k, (match ctx.error_notifier_ref with
          | some old => (memset_zero (b.get d) d args.offset env.sizeof_notification).put old
          | none => memset_zero (b.get d) d args.offset env.sizeof_notification).bytes d k =
        (memset_zero b d args.offset env.sizeof_notification).bytes d k := by
      intro k
      rcases ctx.error_notifier_ref with _ | old <;> rfl
    refine ⟨rfl, ?_, ?_, ?_, ?_⟩
    · intro e
      rcases ctx.error_notifier_ref with _ | old
      · by_cases he : e = d
        · subst he; simp [memset_zero, DmaBufs.get]
        · simp [memset_zero, DmaBufs.get, he, Function.update_noteq he]
      · simp only [memset_zero, DmaBufs.get, DmaBufs.put, Option.some.injEq]
        by_cases h1 : e = d <;> by_cases h2 : old = e <;> by_cases h3 : old = d
        all_goals first
          | (subst h1; subst h2; simp)
          | (subst h1; simp [Function.update_noteq h2, h2, Function.update_noteq (Ne.symm h2)])
          | (subst h2; simp [Function.update_noteq h1, h1])
          | (simp [Function.update_noteq h1, Function.update_noteq (Ne.symm h2), h1, h2])
    · rcases ctx.error_notifier_ref with _ | old <;> rfl
    · rcases ctx.error_notifier_ref with _ | old <;> rfl
    · intro hfit hmap
      refine ⟨?_, ?_, ?_, ?_⟩
      · intro k h1 h2
        exact (hbytes k).trans
          (memset_zero_inside b d args.offset env.sizeof_notification k h1 h2)
      · intro k hk hout
        refine (hbytes k).trans ?_
        unfold DmaBufs.bytes
        show (memset_zero b d args.offset env.sizeof_notification).mem
          ((b.va d + k) % 18446744073709551616) = _
        apply memset_zero_outside b d args.offset env.sizeof_notification _ hfit hmap
        omega
      · intro a ha
        exact (hmemeq a).trans
          (memset_zero_outside b d args.offset env.sizeof_notification a hfit hmap ha)
      · intro a ha
        refine (hmemeq a).trans ?_
        apply memset_zero_outside b d args.offset env.sizeof_notification a hfit hmap
        omega
  · intro hmem
    unfold nvhost_init_error_notifier
    rw [if_pos hmem]
    rcases ctx.error_notifier_ref with _ | old
    · exact ⟨rfl, rfl, fun _ => rfl, rfl, rfl, fun e => by simp⟩
    · refine ⟨rfl, rfl, fun _ => rfl, rfl, rfl, fun e => ?_⟩
      simp only [DmaBufs.put, Option.some.injEq]
      by_cases h : old = e
      · subst h; simp
      · simp [h, Function.update_noteq (Ne.symm h)]

/-- C15 at a concrete call: the context holds dma-buf 8 and the notifier is set
to descriptor 3 (dma-buf 7, 64 bytes, mapped at 28672) at offset 32.  The call
returns 0, bytes 32..47 of dma-buf 7 are zero and byte 48 is untouched, as is
the first byte behind the buffer; dma-buf 7 has gained a reference and
dma-buf 8 has lost one. -/
theorem init_error_notifier_contract_witness :
    (nvhost_init_error_notifier demoNotifierEnv demoDmaBufs
      { demoCtx with error_notifier_ref := some 8 } { offset := 32, size := 16, mem := 3 }).2.2
      = 0 ∧
    ∃ d, demoNotifierEnv.fd_table 3 = FdEntry.dmabuf d ∧ d = 7 ∧
      (nvhost_init_error_notifier demoNotifierEnv demoDmaBufs
        { demoCtx with error_notifier_ref := some 8 }
        { offset := 32, size := 16, mem := 3 }).1.bytes d 47 = 0 ∧
      (nvhost_init_error_notifier demoNotifierEnv demoDmaBufs
        { demoCtx with error_notifier_ref := some 8 }
        { offset := 32, size := 16, mem := 3 }).1.bytes d 48 = 255 ∧
      (nvhost_init_error_notifier demoNotifierEnv demoDmaBufs
        { demoCtx with error_notifier_ref := some 8 }
        { offset := 32, size := 16, mem := 3 }).1.mem 28736 = 255 ∧
      (nvhost_init_error_notifier demoNotifierEnv demoDmaBufs
        { demoCtx with error_notifier_ref := some 8 }
        { offset := 32, size := 16, mem := 3 }).1.refs 7 = 2 ∧
      (nvhost_init_error_notifier demoNotifierEnv demoDmaBufs
        { demoCtx with error_notifier_ref := some 8 }
        { offset := 32, size := 16, mem := 3 }).1.refs 8 = 0 := by
  refine ⟨by decide, ?_⟩
  obtain ⟨d, hfd, -, -, hr, -, -, hin⟩ :=
    (init_error_notifier_contract demoNotifierEnv demoDmaBufs
      { demoCtx with error_notifier_ref := some 8 } { offset := 32, size := 16, mem := 3 }).1
      (by decide) (by decide)
  have hd : d = 7 := by
    have h3 : demoNotifierEnv.fd_table 3 = FdEntry.dmabuf 7 := by decide
    rw [h3] at hfd
    exact (FdEntry.dmabuf.inj hfd).symm
  subst hd
  obtain ⟨hz, hk, -, ho⟩ := hin (by decide) (by decide)
  refine ⟨7, hfd, rfl, hz 47 (by decide) (by decide), ?_, ?_, ?_, ?_⟩
  · rw [hk 48 (by decide) (by decide)]; rfl
  · rw [ho 28736 (by decide)]; rfl
  · rw [hr 7]; decide
  · rw [hr 8]; decide

/-! ### Job submission: status codes and gathers of the phases -/

theorem submit_class_ids_err (args : nvhost_submit_args) (um : SubmitUser) (env : SubmitEnv)
    (st : SubmitSt) :
    (submit_class_ids args um env st).1.job = st.job ∧
    ∀ e, (submit_class_ids args um env st).2 = some e → e = -ENOMEM ∨ e = -EINVAL := by
  unfold submit_class_ids
  split_ifs
  · exact ⟨rfl, fun e h => Or.inl (Option.some.inj h).symm⟩
  · exact ⟨rfl, fun e h => Or.inr (Option.some.inj h).symm⟩
  · exact ⟨rfl, fun e h => by simp at h⟩
  · exact ⟨rfl, fun e h => by simp at h⟩

theorem submit_cmdbuf_loop_err (c : HostConsts) (pdata : nvhost_device_data)
    (args : nvhost_submit_args) (um : SubmitUser) (is : List Nat) :
    ∀ st : SubmitSt,
      (∀ e, (submit_cmdbuf_loop c pdata args um is st).2 = some e → e = -EINVAL ∨ 0 < e) ∧
      ((∀ g ∈ st.job.gathers, g.class_id = 0 ∨ g.class_id = pdata.engine_class ∨
          g.class_id = c.NV_HOST1X_CLASS_ID) →
        ∀ g ∈ (submit_cmdbuf_loop c pdata args um is st).1.job.gathers,
          g.class_id = 0 ∨ g.class_id = pdata.engine_class ∨
          g.class_id = c.NV_HOST1X_CLASS_ID) := by
  induction is with
  | nil =>
    intro st
    exact ⟨fun e h => by simp [submit_cmdbuf_loop] at h, fun h => h⟩
  | cons i rest ih =>
    intro st
    simp only [submit_cmdbuf_loop]
    split_ifs
    all_goals first
      | exact ⟨fun e h => Or.inl (Option.some.inj h).symm, fun h => h⟩
      | (refine ⟨fun e h => Or.inr ?_, fun h => h⟩
         rw [← Option.some.inj h]
         omega)
      | (refine ⟨(ih _).1, fun h => (ih _).2 ?_⟩
         intro g hg
         rcases List.mem_append.mp hg with hg | hg
         · exact h g hg
         · rw [List.mem_singleton.mp hg]
           simp only []
           tauto)

theorem submit_copy_arrays_err (um : SubmitUser) (st : SubmitSt) :
    (submit_copy_arrays um st).1.job.gathers = st.job.gathers ∧
    ∀ e, (submit_copy_arrays um st).2 = some e → 0 < e := by
  unfold submit_copy_arrays
  simp only []
  split_ifs
  all_goals first
    | (refine ⟨rfl, fun e h => ?_⟩
       rw [← Option.some.inj h]
       omega)
    | exact ⟨rfl, fun e h => False.elim h⟩

/-- The steps before the sync-point loop fail with `-ENOMEM`, `-EINVAL` or a
positive count of bytes left uncopied, and the job they build holds only
gathers of class 0, the engine's class or the host class. -/
theorem submit_prepare_err (c : HostConsts) (pdata : nvhost_device_data)
    (ctx : nvhost_channel_userctx) (args : nvhost_submit_args) (um : SubmitUser)
    (env : SubmitEnv) :
    (∀ e, (submit_prepare c pdata ctx args um env).2 = some e →
      e = -ENOMEM ∨ e = -EINVAL ∨ 0 < e) ∧
    ∀ g ∈ (submit_prepare c pdata ctx args um env).1.job.gathers,
      g.class_id = 0 ∨ g.class_id = pdata.engine_class ∨ g.class_id = c.NV_HOST1X_CLASS_ID := by
  have hinit : (submit_init ctx args).job.gathers = [] := by
    unfold submit_init
    rcases ctx.error_notifier_ref with _ | d <;> rfl
  obtain ⟨hj, he⟩ := submit_class_ids_err args um env (submit_init ctx args)
  unfold submit_prepare
  rcases hc : submit_class_ids args um env (submit_init ctx args) with ⟨st1, _ | e1⟩
  swap
  · rw [hc] at hj he
    simp only [] at hj ⊢
    refine ⟨fun e h => ?_, ?_⟩
    · rcases he e h with h | h
      · exact Or.inl h
      · exact Or.inr (Or.inl h)
    · rw [hj, hinit]
      intro g hg
      exact absurd hg (List.not_mem_nil g)
  rw [hc] at hj
  simp only [] at hj ⊢
  obtain ⟨hle, hlg⟩ := submit_cmdbuf_loop_err c pdata args um
    (List.range (toInt32 args.num_cmdbufs).toNat) st1
  have hg1 := hlg (by rw [hj, hinit]; intro g hg; exact absurd hg (List.not_mem_nil g))
  rcases hl : submit_cmdbuf_loop c pdata args um
    (List.range (toInt32 args.num_cmdbufs).toNat) st1 with ⟨st2, _ | e2⟩
  swap
  · rw [hl] at hle hg1
    simp only [] at hg1 ⊢
    exact ⟨fun e h => Or.inr (hle e h), hg1⟩
  rw [hl] at hg1
  simp only [] at hg1 ⊢
  obtain ⟨hag, hae⟩ := submit_copy_arrays_err um st2
  refine ⟨fun e h => Or.inr (Or.inr (hae e h)), ?_⟩
  rw [hag]
  exact hg1

theorem submit_syncpt_loop_err (table : List Nat) (um : SubmitUser) (is : List Nat) :
    ∀ st : SubmitSt,
      (submit_syncpt_loop table um is st).1.job.gathers = st.job.gathers ∧
      ∀ e, (submit_syncpt_loop table um is st).2 = some e → e = -EINVAL ∨ 0 < e := by
  induction is with
  | nil => intro st; exact ⟨rfl, fun e h => by simp [submit_syncpt_loop] at h⟩
  | cons i rest ih =>
    intro st
    simp only [submit_syncpt_loop]
    split_ifs
    all_goals first
      | exact ⟨rfl, fun e h => Or.inl (Option.some.inj h).symm⟩
      | (refine ⟨rfl, fun e h => Or.inr ?_⟩
         rw [← Option.some.inj h]
         omega)
      | exact ih _

theorem submit_fail_spec (st : SubmitSt) (err : Int) (fence : Nat) (uf : List Nat)
    (ht : ∀ ev ∈ st.trace, ev = SubmitEv.job_alloc ∨ ev.is_build = true) :
    (submit_fail st err false fence uf).ret = err ∧
    (submit_fail st err false fence uf).job = some st.job ∧
    (submit_fail st err false fence uf).fence = fence ∧
    ∀ ev ∈ (submit_fail st err false fence uf).trace,
      ev = SubmitEv.job_alloc ∨ ev.is_build = true ∨ ev = SubmitEv.job_put := by
  refine ⟨rfl, rfl, rfl, ?_⟩
  intro ev hev
  unfold submit_fail at hev
  simp only [Bool.false_eq_true, if_false, List.append_nil, List.mem_append,
    List.mem_singleton] at hev
  rcases hev with (h | h) | h
  · rcases ht ev h with h | h
    · exact Or.inl h
    · exact Or.inr (Or.inl h)
  · exact Or.inr (Or.inr h)
  · split_ifs at h
    · rw [List.mem_singleton.mp h]
      exact Or.inr (Or.inl rfl)
    · exact absurd h (List.not_mem_nil ev)

/-- Every submit either arrives at the power vote with a job built by the
earlier steps, or returns a nonzero status after calls that only build and
release the job. -/
theorem submit_reaches_dispatch (c : HostConsts) (policy : nvhost_syncpt_policy) (nb_pts : Int)
    (pdata : nvhost_device_data) (ctx : nvhost_channel_userctx) (ch : nvhost_channel)
    (args : nvhost_submit_args) (um : SubmitUser) (env : SubmitEnv) :
    (∃ st2, nvhost_ioctl_channel_submit c policy nb_pts pdata ctx ch args um env =
        submit_dispatch c pdata ctx args um env st2 ∧
      (∀ ev ∈ st2.trace, ev = SubmitEv.job_alloc ∨ ev.is_build = true) ∧
      (∀ g ∈ st2.job.gathers, g.class_id = 0 ∨ g.class_id = pdata.engine_class ∨
        g.class_id = c.NV_HOST1X_CLASS_ID)) ∨
    ((nvhost_ioctl_channel_submit c policy nb_pts pdata ctx ch args um env).ret ≠ 0 ∧
      (nvhost_ioctl_channel_submit c policy nb_pts pdata ctx ch args um env).fence = args.fence ∧
      (∀ ev ∈ (nvhost_ioctl_channel_submit c policy nb_pts pdata ctx ch args um env).trace,
        ev = SubmitEv.job_alloc ∨ ev.is_build = true ∨ ev = SubmitEv.job_put) ∧
      (∀ j, (nvhost_ioctl_channel_submit c policy nb_pts pdata ctx ch args um env).job = some j →
        ∀ g ∈ j.gathers, g.class_id = 0 ∨ g.class_id = pdata.engine_class ∨
          g.class_id = c.NV_HOST1X_CLASS_ID)) := by
  unfold nvhost_ioctl_channel_submit
  simp only []
  split_ifs with h1 h2
  · right
    refine ⟨?_, rfl, fun ev h => absurd h (List.not_mem_nil ev), fun j h => by simp at h⟩
    show (-EINVAL : Int) ≠ 0
    decide
  · right
    refine ⟨?_, rfl, fun ev h => Or.inl (List.mem_singleton.mp h), fun j h => by simp at h⟩
    show (-ENOMEM : Int) ≠ 0
    decide
  · obtain ⟨-, t0, ht0, pt0⟩ := submit_prepare_trace c pdata ctx args um env
    obtain ⟨pe, pg⟩ := submit_prepare_err c pdata ctx args um env
    have htr : ∀ ev ∈ (submit_prepare c pdata ctx args um env).1.trace,
        ev = SubmitEv.job_alloc ∨ ev.is_build = true := by
      intro ev hev
      rw [ht0] at hev
      rcases List.mem_cons.mp hev with h | h
      · exact Or.inl h
      · exact Or.inr (pt0 ev h)
    rcases hp : submit_prepare c pdata ctx args um env with ⟨st1, _ | e1⟩
    swap
    · rw [hp] at pe pg htr
      simp only [] at pe pg htr ⊢
      right
      obtain ⟨f1, f2, f3, f4⟩ := submit_fail_spec st1 e1 args.fence [] htr
      refine ⟨?_, f3, f4, ?_⟩
      · rw [f1]
        rcases pe e1 rfl with h | h | h
        · rw [h]; decide
        · rw [h]; decide
        · omega
      · intro j hj
        rw [f2] at hj
        rw [← Option.some.inj hj]
        exact pg
    rw [hp] at pg htr
    simp only [] at pg htr ⊢
    obtain ⟨sf1, sf2⟩ := submit_syncpt_loop_frame (syncpt_array policy ctx ch) um
      (List.range (toInt32 args.num_syncpt_incrs).toNat) st1
    obtain ⟨sg, se⟩ := submit_syncpt_loop_err (syncpt_array policy ctx ch) um
      (List.range (toInt32 args.num_syncpt_incrs).toNat) st1
    rcases hs : submit_syncpt_loop (syncpt_array policy ctx ch) um
      (List.range (toInt32 args.num_syncpt_incrs).toNat) st1 with ⟨st2, _ | e2⟩
    swap
    · rw [hs] at sf1 sg se
      simp only [] at sf1 sg se ⊢
      right
      obtain ⟨f1, f2, f3, f4⟩ := submit_fail_spec st2 e2 args.fence [] (by rw [sf1]; exact htr)
      refine ⟨?_, f3, f4, ?_⟩
      · rw [f1]
        rcases se e2 rfl with h | h
        · rw [h]; decide
        · omega
      · intro j hj
        rw [f2] at hj
        rw [← Option.some.inj hj, sg]
        exact pg
    rw [hs] at sf1 sg
    simp only [] at sf1 sg ⊢
    left
    exact ⟨st2, rfl, by rw [sf1]; exact htr, by rw [sg]; exact pg⟩

theorem submit_deliver_fences_spec (pdata : nvhost_device_data) (um : SubmitUser)
    (job : nvhost_job) (is : List Nat) :
    (∀ ev ∈ (submit_deliver_fences pdata um job is).1,
      ∃ i, ev = SubmitEv.copy_fence_to_user i (get_job_fence pdata job i)) ∧
    (submit_deliver_fences pdata um job is).2 <+: is.map (get_job_fence pdata job) := by
  induction is with
  | nil => exact ⟨fun ev h => absurd h (List.not_mem_nil ev), List.prefix_refl _⟩
  | cons i rest ih =>
    simp only [submit_deliver_fences]
    split_ifs
    · refine ⟨fun ev h => ⟨i, List.mem_singleton.mp h⟩, List.nil_prefix⟩
    · refine ⟨fun ev h => ?_, ?_⟩
      · rcases List.mem_cons.mp h with h | h
        · exact ⟨i, h⟩
        · exact ih.1 ev h
      · rw [List.map_cons]
        exact (List.prefix_cons_inj _).mpr ih.2

/-- The trace of a dispatch that starts from building calls holds the
dispatch call only when the job carries the timeout computed from the context
and the arguments. -/
theorem submit_dispatch_timeout (c : HostConsts) (pdata : nvhost_device_data)
    (ctx : nvhost_channel_userctx) (args : nvhost_submit_args) (um : SubmitUser)
    (env : SubmitEnv) (st0 : SubmitSt)
    (ht : ∀ ev ∈ st0.trace, ev = SubmitEv.job_alloc ∨ ev.is_build = true) :
    SubmitEv.channel_submit ∈ (submit_dispatch c pdata ctx args um env st0).trace →
    ∃ j, (submit_dispatch c pdata ctx args um env st0).job = some j ∧
      j.timeout = (if args.timeout ≠ 0 then min ctx.timeout args.timeout else ctx.timeout) := by
  have hn : SubmitEv.channel_submit ∉ st0.trace := by
    intro hm
    rcases ht _ hm with h | h
    · exact absurd h (by decide)
    · exact absurd h (by decide)
  unfold submit_dispatch
  lift_lets
  intro n src1 st1 st2 src2 st3 job4 delivered st5 pts st6 h
  split_ifs at h ⊢
  all_goals first
    | (exfalso
       simp [submit_fail, st2, st1, hn] at h
       done)
    | (refine ⟨_, rfl, ?_⟩
       show (if args.timeout ≠ 0 then min ctx.timeout args.timeout else ctx.timeout) = _
       split_ifs
       rfl)

/-- A dispatch that returns 0 leaves the job with the fences assigned, reports
`get_job_fence` of it for every increment it delivers, and sets the scalar
fence by the number of increments when no fence descriptor is asked for. -/
theorem submit_dispatch_success (c : HostConsts) (pdata : nvhost_device_data)
    (ctx : nvhost_channel_userctx) (args : nvhost_submit_args) (um : SubmitUser)
    (env : SubmitEnv) (st0 : SubmitSt)
    (ht : ∀ ev ∈ st0.trace, ev = SubmitEv.job_alloc ∨ ev.is_build = true) :
    (submit_dispatch c pdata ctx args um env st0).ret = 0 →
    ∃ j, (submit_dispatch c pdata ctx args um env st0).job = some j ∧
      j.hwctx_syncpt_idx = 0 ∧
      SubmitEv.channel_submit ∈ (submit_dispatch c pdata ctx args um env st0).trace ∧
      (∀ i f, SubmitEv.copy_fence_to_user i f ∈
          (submit_dispatch c pdata ctx args um env st0).trace → f = get_job_fence pdata j i) ∧
      (submit_dispatch c pdata ctx args um env st0).user_fences <+:
        (List.range (toInt32 args.num_syncpt_incrs).toNat).map (get_job_fence pdata j) ∧
      (args.flags &&& (1 <<< c.NVHOST_SUBMIT_FLAG_SYNC_FENCE_FD) = 0 →
        (submit_dispatch c pdata ctx args um env st0).fence =
          if toInt32 args.num_syncpt_incrs = 1 then get_job_fence pdata j 0 else 0) ∧
      (args.flags &&& (1 <<< c.NVHOST_SUBMIT_FLAG_SYNC_FENCE_FD) ≠ 0 →
        (submit_dispatch c pdata ctx args um env st0).fence = env.fence_fd ∧
        SubmitEv.create_fence_fd
          ((List.range (toInt32 args.num_syncpt_incrs).toNat).map (fun i =>
            ((j.sp.getD i { id := 0, incrs := 0, fence := 0 }).id, get_job_fence pdata j i)))
          ∈ (submit_dispatch c pdata ctx args um env st0).trace) := by
  have hn : ∀ i f, SubmitEv.copy_fence_to_user i f ∉ st0.trace := by
    intro i f hm
    rcases ht _ hm with h | h
    · exact absurd h (by simp)
    · exact absurd h (by simp [SubmitEv.is_build])
  unfold submit_dispatch
  lift_lets
  intro n src1 st1 st2 src2 st3 job4 delivered st5 pts st6 h
  have hd := submit_deliver_fences_spec pdata um job4 (List.range n.toNat)
  have hdel1 : ∀ ev ∈ delivered.1,
      ∃ i, ev = SubmitEv.copy_fence_to_user i (get_job_fence pdata job4 i) := by
    simp only [delivered]
    split_ifs
    · exact hd.1
    · intro ev h
      exact absurd h (List.not_mem_nil _)
  have hdel2 : delivered.2 <+: (List.range n.toNat).map (get_job_fence pdata job4) := by
    simp only [delivered]
    split_ifs
    · exact hd.2
    · exact List.nil_prefix
  have hcopy : ∀ i f, SubmitEv.copy_fence_to_user i f ∈ delivered.1 →
      f = get_job_fence pdata job4 i := by
    intro i f hm
    obtain ⟨k, hk⟩ := hdel1 _ hm
    injection hk with h1 h2
    rw [h2, h1]
  by_cases c1 : env.module_busy_ret ≠ 0
  · rw [if_pos c1] at h
    exact absurd h c1
  rw [if_neg c1] at h ⊢
  by_cases c2 : env.job_pin_ret ≠ 0
  · rw [if_pos c2] at h
    exact absurd h c2
  rw [if_neg c2] at h ⊢
  by_cases c3 : env.channel_submit_ret ≠ 0
  · rw [if_pos c3] at h
    exact absurd h c3
  rw [if_neg c3] at h ⊢
  by_cases c4 : args.flags &&& (1 <<< c.NVHOST_SUBMIT_FLAG_SYNC_FENCE_FD) ≠ 0
  · rw [if_pos c4] at h ⊢
    by_cases c5 : env.create_fence_fd_ret ≠ 0
    · rw [if_pos c5] at h
      exact absurd h c5
    rw [if_neg c5]
    refine ⟨job4, rfl, rfl, ?_, ?_, hdel2, fun h0 => absurd h0 c4, fun _ => ⟨rfl, ?_⟩⟩
    · simp [st6, st5, st3]
    · intro i f hm
      simp [st6, st5, st3, st2, st1, hn] at hm
      exact hcopy i f hm
    · simp [st6, pts]
  · rw [if_neg c4]
    refine ⟨job4, rfl, rfl, ?_, ?_, hdel2, fun _ => rfl, fun h0 => absurd h0 c4⟩
    · simp [st5, st3]
    · intro i f hm
      simp [st5, st3, st2, st1, hn] at hm
      exact hcopy i f hm

/-! ### Job submission: timeout -/

/-- C13. After `SET_TIMEOUT(t)` on a context, a submit on that context whose
trace holds the dispatch call (`nvhost_channel_submit`) has given the job the
timeout `t` when the caller's `args.timeout` is 0 and `min t args.timeout`
otherwise; in either case the job's timeout is at most `t`. -/
theorem submit_timeout_is_min (c : HostConsts) (policy : nvhost_syncpt_policy) (nb_pts : Int)
    (pdata : nvhost_device_data) (priv : nvhost_channel_userctx) (ch : nvhost_channel)
    (args : nvhost_submit_args) (um : SubmitUser) (env : SubmitEnv) (t : Nat)
    (ht : t < 4294967296)
    (h : SubmitEv.channel_submit ∈
      (nvhost_ioctl_channel_submit c policy nb_pts pdata
        (nvhost_channelctl_SET_TIMEOUT priv t).1 ch args um env).trace) :
    (nvhost_channelctl_SET_TIMEOUT priv t).2 = 0 ∧
    (nvhost_channelctl_SET_TIMEOUT priv t).1 = { priv with timeout := t } ∧
    ∃ j, (nvhost_ioctl_channel_submit c policy nb_pts pdata
        (nvhost_channelctl_SET_TIMEOUT priv t).1 ch args um env).job = some j ∧
      j.timeout = (if args.timeout = 0 then t else min t args.timeout) ∧
      j.timeout ≤ t := by
  have hset : (nvhost_channelctl_SET_TIMEOUT priv t).1 = { priv with timeout := t } := by
    unfold nvhost_channelctl_SET_TIMEOUT
    rw [Nat.mod_eq_of_lt ht]
  refine ⟨rfl, hset, ?_⟩
  rcases submit_reaches_dispatch c policy nb_pts pdata
    (nvhost_channelctl_SET_TIMEOUT priv t).1 ch args um env with ⟨st2, heq, htr, -⟩ | ⟨-, -, hev, -⟩
  · rw [heq] at h ⊢
    obtain ⟨j, hj, hto⟩ := submit_dispatch_timeout c pdata _ args um env st2 htr h
    refine ⟨j, hj, ?_⟩
    rw [hto, hset]
    show (if args.timeout ≠ 0 then min t args.timeout else t) = _ ∧
      (if args.timeout ≠ 0 then min t args.timeout else t) ≤ t
    by_cases h0 : args.timeout = 0
    · simp [h0]
    · simp [h0]
  · rcases hev _ h with h | h | h
    · exact absurd h (by decide)
    · exact absurd h (by decide)
    · exact absurd h (by decide)

/-- C13 end to end: `SET_TIMEOUT(5000)` on a context whose timeout was 30000,
then a submit with caller timeout 0 and a submit with caller timeout 2000. -/
theorem submit_timeout_is_min_witness :
    (∃ j, (nvhost_ioctl_channel_submit tegraHostConsts
        nvhost_syncpt_policy.SYNCPT_PER_CHANNEL_INSTANCE 192 demoPdata
        (nvhost_channelctl_SET_TIMEOUT { demoCtx with timeout := 30000 } 5000).1 demoChannel
        (demoArgs 1) (demoUser [⟨5, 1⟩]) okSubmitEnv).job = some j ∧ j.timeout = 5000) ∧
    (∃ j, (nvhost_ioctl_channel_submit tegraHostConsts
        nvhost_syncpt_policy.SYNCPT_PER_CHANNEL_INSTANCE 192 demoPdata
        (nvhost_channelctl_SET_TIMEOUT { demoCtx with timeout := 30000 } 5000).1 demoChannel
        { demoArgs 1 with timeout := 2000 } (demoUser [⟨5, 1⟩]) okSubmitEnv).job = some j ∧
      j.timeout = 2000) := by
  obtain ⟨-, -, j1, h1, t1, -⟩ :=
    submit_timeout_is_min tegraHostConsts nvhost_syncpt_policy.SYNCPT_PER_CHANNEL_INSTANCE 192
      demoPdata { demoCtx with timeout := 30000 } demoChannel (demoArgs 1) (demoUser [⟨5, 1⟩])
      okSubmitEnv 5000 (by decide) (by decide)
  obtain ⟨-, -, j2, h2, t2, -⟩ :=
    submit_timeout_is_min tegraHostConsts nvhost_syncpt_policy.SYNCPT_PER_CHANNEL_INSTANCE 192
      demoPdata { demoCtx with timeout := 30000 } demoChannel { demoArgs 1 with timeout := 2000 }
      (demoUser [⟨5, 1⟩]) okSubmitEnv 5000 (by decide) (by decide)
  exact ⟨⟨j1, h1, t1.trans (by decide)⟩, ⟨j2, h2, t2.trans (by decide)⟩⟩

/-! ### Job submission: fences -/

theorem toInt32_eq_one_iff (n : Nat) (h : n < 4294967296) : toInt32 n = 1 ↔ n = 1 := by
  unfold toInt32 two32
  rw [Nat.mod_eq_of_lt h]
  split_ifs <;> omega

theorem prefix_map_range_get (f : Nat → Nat) (n : Nat) (l : List Nat)
    (h : l <+: (List.range n).map f) (i : Nat) (hi : i < l.length) :
    l[i]? = some (f i) := by
  obtain ⟨t, ht⟩ := h
  have hlen : l.length ≤ n := by
    have := congrArg List.length ht
    simp at this
    omega
  have h1 : (l ++ t)[i]? = l[i]? := List.getElem?_append_left hi
  rw [← h1, ht, List.getElem?_map, List.getElem?_range (by omega)]
  rfl

/-- C14. For a submit that returns 0 (with `num_syncpt_incrs` a 32-bit value):
the value `get_job_fence` reports for increment `i` of the job is the raw
`job->sp[i].fence`, except that for `i = 0` on a device with `push_work_done`
it is that value minus 1 modulo `2^32`; every word copied to the user's fence
array for increment `i`, and every threshold handed to the fence descriptor,
is that reported value; and when no fence descriptor is asked for the scalar
`args->fence` is the reported fence of increment 0 if exactly one increment
was requested and 0 otherwise. -/
theorem submit_fence_reporting (c : HostConsts) (policy : nvhost_syncpt_policy) (nb_pts : Int)
    (pdata : nvhost_device_data) (ctx : nvhost_channel_userctx) (ch : nvhost_channel)
    (args : nvhost_submit_args) (um : SubmitUser) (env : SubmitEnv)
    (hn : args.num_syncpt_incrs < 4294967296)
    (hret : (nvhost_ioctl_channel_submit c policy nb_pts pdata ctx ch args um env).ret = 0) :
    ∃ j, (nvhost_ioctl_channel_submit c policy nb_pts pdata ctx ch args um env).job = some j ∧
      SubmitEv.channel_submit ∈
        (nvhost_ioctl_channel_submit c policy nb_pts pdata ctx ch args um env).trace ∧
      (∀ i, i ≠ 0 ∨ pdata.push_work_done = false →
        get_job_fence pdata j i = (j.sp.getD i { id := 0, incrs := 0, fence := 0 }).fence) ∧
      (pdata.push_work_done = true →
        (get_job_fence pdata j 0 : Int) =
          (((j.sp.getD 0 { id := 0, incrs := 0, fence := 0 }).fence : Int) - 1) % 4294967296) ∧
      (∀ i f, SubmitEv.copy_fence_to_user i f ∈
          (nvhost_ioctl_channel_submit c policy nb_pts pdata ctx ch args um env).trace →
        f = get_job_fence pdata j i) ∧
      (∀ i, i < (nvhost_ioctl_channel_submit c policy nb_pts pdata ctx ch args um
          env).user_fences.length →
        (nvhost_ioctl_channel_submit c policy nb_pts pdata ctx ch args um env).user_fences[i]?
          = some (get_job_fence pdata j i)) ∧
      (args.flags &&& (1 <<< c.NVHOST_SUBMIT_FLAG_SYNC_FENCE_FD) ≠ 0 →
        SubmitEv.create_fence_fd
          ((List.range (toInt32 args.num_syncpt_incrs).toNat).map (fun i =>
            ((j.sp.getD i { id := 0, incrs := 0, fence := 0 }).id, get_job_fence pdata j i)))
          ∈ (nvhost_ioctl_channel_submit c policy nb_pts pdata ctx ch args um env).trace) ∧
      (args.flags &&& (1 <<< c.NVHOST_SUBMIT_FLAG_SYNC_FENCE_FD) = 0 →
        (args.num_syncpt_incrs = 1 →
          (nvhost_ioctl_channel_submit c policy nb_pts pdata ctx ch args um env).fence
            = get_job_fence pdata j 0) ∧
        (args.num_syncpt_incrs ≠ 1 →
          (nvhost_ioctl_channel_submit c policy nb_pts pdata ctx ch args um env).fence = 0)) := by
  rcases submit_reaches_dispatch c policy nb_pts pdata ctx ch args um env with
    ⟨st2, heq, htr, -⟩ | ⟨hne, -, -, -⟩
  swap
  · exact absurd hret hne
  rw [heq] at hret ⊢
  obtain ⟨j, hj, -, hsub, hcopy, hpre, hsc, hfd⟩ :=
    submit_dispatch_success c pdata ctx args um env st2 htr hret
  refine ⟨j, hj, hsub, ?_, ?_, hcopy, ?_, fun h => (hfd h).2, ?_⟩
  · intro i hi
    unfold get_job_fence
    simp only []
    rw [if_neg]
    rintro ⟨h1, h2⟩
    rcases hi with h | h
    · exact h h2
    · rw [h] at h1
      exact absurd h1 (by decide)
  · intro hp
    unfold get_job_fence
    simp only [hp, and_self, if_true]
    omega
  · intro i hi
    exact prefix_map_range_get _ _ _ hpre i hi
  · intro hfl
    have h1 := hsc hfl
    constructor
    · intro h
      rw [h1, if_pos ((toInt32_eq_one_iff _ hn).mpr h)]
    · intro h
      rw [h1, if_neg (fun hh => h ((toInt32_eq_one_iff _ hn).mp hh))]

/-- C14 on a device with `push_work_done`: one increment on sync point 5, the
fence array supplied, the dispatch assigning the raw fence 41.  The call
returns 0, and both the scalar fence and the word in the fence array are 40. -/
theorem submit_fence_reporting_witness :
    (nvhost_ioctl_channel_submit tegraHostConsts
      nvhost_syncpt_policy.SYNCPT_PER_CHANNEL_INSTANCE 192
      { demoPdata with push_work_done := true } demoCtx demoChannel
      { demoArgs 1 with fences := 8192 } { demoUser [⟨5, 1⟩] with fences_left := [0] }
      okSubmitEnv).ret = 0 ∧
    (nvhost_ioctl_channel_submit tegraHostConsts
      nvhost_syncpt_policy.SYNCPT_PER_CHANNEL_INSTANCE 192
      { demoPdata with push_work_done := true } demoCtx demoChannel
      { demoArgs 1 with fences := 8192 } { demoUser [⟨5, 1⟩] with fences_left := [0] }
      okSubmitEnv).fence = 40 ∧
    (nvhost_ioctl_channel_submit tegraHostConsts
      nvhost_syncpt_policy.SYNCPT_PER_CHANNEL_INSTANCE 192
      { demoPdata with push_work_done := true } demoCtx demoChannel
      { demoArgs 1 with fences := 8192 } { demoUser [⟨5, 1⟩] with fences_left := [0] }
      okSubmitEnv).user_fences = [40] ∧
    ∃ j, (nvhost_ioctl_channel_submit tegraHostConsts
        nvhost_syncpt_policy.SYNCPT_PER_CHANNEL_INSTANCE 192
        { demoPdata with push_work_done := true } demoCtx demoChannel
        { demoArgs 1 with fences := 8192 } { demoUser [⟨5, 1⟩] with fences_left := [0] }
        okSubmitEnv).job = some j ∧
      (nvhost_ioctl_channel_submit tegraHostConsts
        nvhost_syncpt_policy.SYNCPT_PER_CHANNEL_INSTANCE 192
        { demoPdata with push_work_done := true } demoCtx demoChannel
        { demoArgs 1 with fences := 8192 } { demoUser [⟨5, 1⟩] with fences_left := [0] }
        okSubmitEnv).fence = get_job_fence { demoPdata with push_work_done := true } j 0 := by
  refine ⟨by decide, by decide, by decide, ?_⟩
  obtain ⟨j, hj, -, -, -, -, -, -, hsc⟩ :=
    submit_fence_reporting tegraHostConsts nvhost_syncpt_policy.SYNCPT_PER_CHANNEL_INSTANCE 192
      { demoPdata with push_work_done := true } demoCtx demoChannel
      { demoArgs 1 with fences := 8192 } { demoUser [⟨5, 1⟩] with fences_left := [0] }
      okSubmitEnv (by decide) (by decide)
  exact ⟨j, hj, (hsc (by decide)).1 rfl⟩

/-! ### Job submission: failed copies from user memory -/

/-- C16 at failing inputs.  A submit whose only command-buffer descriptor
cannot be copied returns 12, the number of bytes `copy_from_user` left
uncopied, not `-EINVAL`; likewise a faulting relocation array returns 16, a
faulting relocation-shift array 4, a faulting wait-check array 16 and a
faulting sync-point increment descriptor 8.  Only the faulting class-id array
returns `-EINVAL`.  In each case the job is released and neither pinned nor
submitted. -/
theorem submit_copy_failure_status :
    (nvhost_ioctl_channel_submit tegraHostConsts
        nvhost_syncpt_policy.SYNCPT_PER_CHANNEL_INSTANCE 192 demoPdata demoCtx demoChannel
        { demoArgs 0 with num_cmdbufs := 1, cmdbufs := 4096 } (demoUser []) okSubmitEnv).ret
      = 12 ∧
    (nvhost_ioctl_channel_submit tegraHostConsts
        nvhost_syncpt_policy.SYNCPT_PER_CHANNEL_INSTANCE 192 demoPdata demoCtx demoChannel
        { demoArgs 0 with num_cmdbufs := 1, cmdbufs := 4096 } (demoUser []) okSubmitEnv).trace
      = [SubmitEv.job_alloc, SubmitEv.vm_get, SubmitEv.job_put] ∧
    (nvhost_ioctl_channel_submit tegraHostConsts
        nvhost_syncpt_policy.SYNCPT_PER_CHANNEL_INSTANCE 192 demoPdata demoCtx demoChannel
        { demoArgs 0 with num_relocs := 1, relocs := 4096 }
        { demoUser [] with relocs := { left := 16, val := [] } } okSubmitEnv).ret = 16 ∧
    (nvhost_ioctl_channel_submit tegraHostConsts
        nvhost_syncpt_policy.SYNCPT_PER_CHANNEL_INSTANCE 192 demoPdata demoCtx demoChannel
        { demoArgs 0 with num_relocs := 1, relocs := 4096, reloc_shifts := 8192 }
        { demoUser [] with relocs := { left := 0, val := [0, 0, 0, 0] },
                           reloc_shifts := { left := 4, val := [] } } okSubmitEnv).ret = 4 ∧
    (nvhost_ioctl_channel_submit tegraHostConsts
        nvhost_syncpt_policy.SYNCPT_PER_CHANNEL_INSTANCE 192 demoPdata demoCtx demoChannel
        { demoArgs 0 with num_waitchks := 1, waitchks := 4096 }
        { demoUser [] with waitchks := { left := 16, val := [] } } okSubmitEnv).ret = 16 ∧
    (nvhost_ioctl_channel_submit tegraHostConsts
        nvhost_syncpt_policy.SYNCPT_PER_CHANNEL_INSTANCE 192 demoPdata demoCtx demoChannel
        (demoArgs 1) (demoUser []) okSubmitEnv).ret = 8 ∧
    (nvhost_ioctl_channel_submit tegraHostConsts
        nvhost_syncpt_policy.SYNCPT_PER_CHANNEL_INSTANCE 192 demoPdata demoCtx demoChannel
        (demoArgs 1) (demoUser []) okSubmitEnv).trace
      = [SubmitEv.job_alloc, SubmitEv.vm_get, SubmitEv.job_put] ∧
    (nvhost_ioctl_channel_submit tegraHostConsts
        nvhost_syncpt_policy.SYNCPT_PER_CHANNEL_INSTANCE 192 demoPdata demoCtx demoChannel
        { demoArgs 0 with num_cmdbufs := 1, cmdbufs := 4096, class_ids := 8192 }
        { demoUser [] with class_ids := { left := 4, val := [] } } okSubmitEnv).ret
      = -EINVAL ∧
    (nvhost_ioctl_channel_submit tegraHostConsts
        nvhost_syncpt_policy.SYNCPT_PER_CHANNEL_INSTANCE 192 demoPdata demoCtx demoChannel
        { demoArgs 0 with num_cmdbufs := 1, cmdbufs := 4096, class_ids := 8192 }
        { demoUser [] with class_ids := { left := 4, val := [] } } okSubmitEnv).trace
      = [SubmitEv.job_alloc, SubmitEv.vm_get, SubmitEv.kzalloc_class_ids, SubmitEv.job_put,
         SubmitEv.kfree_class_ids] := by
  decide

/-! ### Job submission: class ids -/

/-- The command-buffer loop, run with the class ids `ids` copied and every
descriptor copy succeeding, stops with `-EINVAL` when one of the visited
buffers has a class id that is nonzero and neither the engine's class nor the
host class, and runs to its end otherwise. -/
theorem submit_cmdbuf_loop_class (c : HostConsts) (pdata : nvhost_device_data)
    (args : nvhost_submit_args) (um : SubmitUser) (ids : List Nat)
    (hcls : args.class_ids ≠ 0) (is : List Nat) :
    ∀ st : SubmitSt, st.local_class_ids = some ids →
      (∀ i ∈ is, (user_at um.cmdbufs i 12 { mem := 0, offset := 0, words := 0 }).left = 0) →
      ((∃ i ∈ is, ids.getD i 0 ≠ 0 ∧ ids.getD i 0 ≠ pdata.engine_class ∧
          ids.getD i 0 ≠ c.NV_HOST1X_CLASS_ID) →
        (submit_cmdbuf_loop c pdata args um is st).2 = some (-EINVAL)) ∧
      (¬ (∃ i ∈ is, ids.getD i 0 ≠ 0 ∧ ids.getD i 0 ≠ pdata.engine_class ∧
          ids.getD i 0 ≠ c.NV_HOST1X_CLASS_ID) →
        (submit_cmdbuf_loop c pdata args um is st).2 = none) := by
  induction is with
  | nil =>
    intro st _ _
    exact ⟨fun ⟨i, hi, _⟩ => absurd hi (List.not_mem_nil i), fun _ => rfl⟩
  | cons i rest ih =>
    intro st hl hcopy
    have hi := hcopy i (List.mem_cons_self _ _)
    have hrest : ∀ k ∈ rest,
        (user_at um.cmdbufs k 12 { mem := 0, offset := 0, words := 0 }).left = 0 :=
      fun k hk => hcopy k (List.mem_cons_of_mem _ hk)
    simp only [submit_cmdbuf_loop, hi, hl, hcls, ne_eq, not_true_eq_false, not_false_eq_true,
      if_true, if_false, Option.getD_some]
    by_cases hb : ids.getD i 0 ≠ 0 ∧ ids.getD i 0 ≠ pdata.engine_class ∧
        ids.getD i 0 ≠ c.NV_HOST1X_CLASS_ID
    · rw [if_pos (by simpa using hb)]
      exact ⟨fun _ => rfl, fun h => absurd ⟨i, List.mem_cons_self _ _, hb⟩ h⟩
    · rw [if_neg (by simpa using hb)]
      refine ⟨fun hex => (ih _ ?_ hrest).1 ?_, fun hno => (ih _ ?_ hrest).2 ?_⟩
      · rfl
      · obtain ⟨k, hk, hbad⟩ := hex
        rcases List.mem_cons.mp hk with h | h
        · rw [h] at hbad
          exact absurd hbad hb
        · exact ⟨k, h, hbad⟩
      · rfl
      · exact fun ⟨k, hk, hbad⟩ => hno ⟨k, List.mem_cons_of_mem _ hk, hbad⟩

theorem submit_prepare_class (c : HostConsts) (pdata : nvhost_device_data)
    (ctx : nvhost_channel_userctx) (args : nvhost_submit_args) (um : SubmitUser)
    (env : SubmitEnv) (hcls : args.class_ids ≠ 0) (hkz : env.kzalloc_ok = true)
    (hcl : um.class_ids.left = 0)
    (hcopy : ∀ i, i < (toInt32 args.num_cmdbufs).toNat →
      (user_at um.cmdbufs i 12 { mem := 0, offset := 0, words := 0 }).left = 0) :
    (submit_prepare c pdata ctx args um env).2 = some (-EINVAL) ↔
      ∃ i, i < (toInt32 args.num_cmdbufs).toNat ∧
        um.class_ids.val.getD i 0 ≠ 0 ∧ um.class_ids.val.getD i 0 ≠ pdata.engine_class ∧
        um.class_ids.val.getD i 0 ≠ c.NV_HOST1X_CLASS_ID := by
  have h1 : submit_class_ids args um env (submit_init ctx args) =
      ({ submit_init ctx args with
          trace := (submit_init ctx args).trace ++ [SubmitEv.kzalloc_class_ids],
          local_class_ids := some um.class_ids.val }, none) := by
    unfold submit_class_ids
    simp [hcls, hkz, hcl]
  obtain ⟨k1, k2⟩ := submit_cmdbuf_loop_class c pdata args um um.class_ids.val hcls
    (List.range (toInt32 args.num_cmdbufs).toNat)
    { submit_init ctx args with
      trace := (submit_init ctx args).trace ++ [SubmitEv.kzalloc_class_ids],
      local_class_ids := some um.class_ids.val } rfl
    (fun i hi => hcopy i (List.mem_range.mp hi))
  unfold submit_prepare
  rw [h1]
  simp only []
  by_cases hb : ∃ i ∈ List.range (toInt32 args.num_cmdbufs).toNat,
      um.class_ids.val.getD i 0 ≠ 0 ∧ um.class_ids.val.getD i 0 ≠ pdata.engine_class ∧
      um.class_ids.val.getD i 0 ≠ c.NV_HOST1X_CLASS_ID
  · have hr := k1 hb
    obtain ⟨i, hi, hbad⟩ := hb
    rcases hl : submit_cmdbuf_loop c pdata args um
      (List.range (toInt32 args.num_cmdbufs).toNat)
      { submit_init ctx args with
        trace := (submit_init ctx args).trace ++ [SubmitEv.kzalloc_class_ids],
        local_class_ids := some um.class_ids.val } with ⟨st2, _ | e2⟩
    · rw [hl] at hr
      exact absurd hr (by simp)
    · rw [hl] at hr
      simp only [] at hr ⊢
      exact ⟨fun _ => ⟨i, List.mem_range.mp hi, hbad⟩, fun _ => hr⟩
  · have hr := k2 hb
    rcases hl : submit_cmdbuf_loop c pdata args um
      (List.range (toInt32 args.num_cmdbufs).toNat)
      { submit_init ctx args with
        trace := (submit_init ctx args).trace ++ [SubmitEv.kzalloc_class_ids],
        local_class_ids := some um.class_ids.val } with ⟨st2, _ | e2⟩
    · simp only []
      constructor
      · intro h
        have hp := (submit_copy_arrays_err um st2).2 _ h
        exact absurd hp (by decide)
      · rintro ⟨i, hi, hbad⟩
        exact absurd ⟨i, List.mem_range.mpr hi, hbad⟩ hb
    · rw [hl] at hr
      exact absurd hr (by simp)

theorem submit_syncpt_loop_positive (table : List Nat) (um : SubmitUser) (is : List Nat)
    (hsp : ∀ i ∈ is,
      (user_at um.syncpt_incrs i 8 { syncpt_id := 0, syncpt_incrs := 0 }).left = 0 →
      (user_at um.syncpt_incrs i 8 { syncpt_id := 0, syncpt_incrs := 0 }).val.syncpt_id ≠ 0 ∧
      (user_at um.syncpt_incrs i 8 { syncpt_id := 0, syncpt_incrs := 0 }).val.syncpt_id ∈ table) :
    ∀ st : SubmitSt, ∀ e, (submit_syncpt_loop table um is st).2 = some e → 0 < e := by
  induction is with
  | nil => intro st e h; simp [submit_syncpt_loop] at h
  | cons i rest ih =>
    intro st e
    have hi := hsp i (List.mem_cons_self _ _)
    have hrest := ih (fun k hk => hsp k (List.mem_cons_of_mem _ hk))
    simp only [submit_syncpt_loop]
    by_cases hl : (user_at um.syncpt_incrs i 8 { syncpt_id := 0, syncpt_incrs := 0 }).left ≠ 0
    · rw [if_pos hl]
      intro h
      rw [← Option.some.inj h]
      omega
    · rw [if_neg hl]
      obtain ⟨h1, h2⟩ := hi (not_not.mp hl)
      rw [if_neg h1, if_neg (not_not.mpr h2)]
      exact hrest _ e

theorem submit_dispatch_pin (c : HostConsts) (pdata : nvhost_device_data)
    (ctx : nvhost_channel_userctx) (args : nvhost_submit_args) (um : SubmitUser)
    (env : SubmitEnv) (st0 : SubmitSt) :
    (env.module_busy_ret = 0 →
      SubmitEv.job_pin ∈ (submit_dispatch c pdata ctx args um env st0).trace) ∧
    (env.module_busy_ret ≠ 0 →
      (submit_dispatch c pdata ctx args um env st0).ret = env.module_busy_ret) := by
  unfold submit_dispatch
  lift_lets
  intro n src1 st1 st2 src2 st3 job4 delivered st5 pts st6
  constructor
  · intro h0
    rw [if_neg (not_not.mpr h0)]
    split_ifs <;> simp [submit_fail, st6, st5, st3, st2]
  · intro h0
    rw [if_pos h0]
    rfl

/-- C19, amended.  Take a submit with class ids supplied in which every
earlier step succeeds (the count check, the job allocation, the allocation and
copy of the class-id array, the copy of every command-buffer descriptor) and in
which no later step before pinning fails with `-EINVAL` itself (every
sync-point descriptor that is copied names a nonzero reserved sync point, the
power vote does not return `-EINVAL`).  It returns `-EINVAL` without pinning
or submitting exactly when some command buffer's class id is nonzero and
differs from both `pdata->class` and `NV_HOST1X_CLASS_ID`.  And whatever the
submit does, every gather of its job has class id 0, the engine's class or the
host class. -/
theorem submit_class_id_validation (c : HostConsts) (policy : nvhost_syncpt_policy)
    (nb_pts : Int) (pdata : nvhost_device_data) (ctx : nvhost_channel_userctx)
    (ch : nvhost_channel) (args : nvhost_submit_args) (um : SubmitUser) (env : SubmitEnv)
    (hpts : toInt32 args.num_syncpt_incrs ≤ nb_pts) (halloc : env.job_alloc_ok = true)
    (hcls : args.class_ids ≠ 0) (hkz : env.kzalloc_ok = true) (hcl : um.class_ids.left = 0)
    (hcopy : ∀ i, i < (toInt32 args.num_cmdbufs).toNat →
      (user_at um.cmdbufs i 12 { mem := 0, offset := 0, words := 0 }).left = 0)
    (hsp : ∀ i, i < (toInt32 args.num_syncpt_incrs).toNat →
      (user_at um.syncpt_incrs i 8 { syncpt_id := 0, syncpt_incrs := 0 }).left = 0 →
      (user_at um.syncpt_incrs i 8 { syncpt_id := 0, syncpt_incrs := 0 }).val.syncpt_id ≠ 0 ∧
      (user_at um.syncpt_incrs i 8 { syncpt_id := 0, syncpt_incrs := 0 }).val.syncpt_id ∈
        syncpt_array policy ctx ch)
    (hbusy : env.module_busy_ret ≠ -EINVAL) :
    (((nvhost_ioctl_channel_submit c policy nb_pts pdata ctx ch args um env).ret = -EINVAL ∧
      SubmitEv.job_pin ∉
        (nvhost_ioctl_channel_submit c policy nb_pts pdata ctx ch args um env).trace ∧
      SubmitEv.channel_submit ∉
        (nvhost_ioctl_channel_submit c policy nb_pts pdata ctx ch args um env).trace) ↔
      ∃ i, i < (toInt32 args.num_cmdbufs).toNat ∧
        um.class_ids.val.getD i 0 ≠ 0 ∧ um.class_ids.val.getD i 0 ≠ pdata.engine_class ∧
        um.class_ids.val.getD i 0 ≠ c.NV_HOST1X_CLASS_ID) ∧
    (∀ j, (nvhost_ioctl_channel_submit c policy nb_pts pdata ctx ch args um env).job = some j →
      ∀ g ∈ j.gathers, g.class_id = 0 ∨ g.class_id = pdata.engine_class ∨
        g.class_id = c.NV_HOST1X_CLASS_ID) := by
  constructor
  swap
  · intro j hj g hg
    rcases submit_reaches_dispatch c policy nb_pts pdata ctx ch args um env with
      ⟨st2, heq, -, hgs⟩ | ⟨-, -, -, hgs⟩
    · rw [heq] at hj
      have hd : ∃ j0, (submit_dispatch c pdata ctx args um env st2).job = some j0 ∧
          j0.gathers = st2.job.gathers := by
        unfold submit_dispatch
        lift_lets
        intro n src1 st1 st2 src2 st3 job4 delivered st5 pts st6
        split_ifs <;> exact ⟨_, rfl, rfl⟩
      obtain ⟨j0, h0, hg0⟩ := hd
      rw [h0] at hj
      rw [← Option.some.inj hj, hg0] at hg
      exact hgs g hg
    · exact hgs j hj g hg
  have hiff := submit_prepare_class c pdata ctx args um env hcls hkz hcl hcopy
  obtain ⟨-, t0, ht0, pt0⟩ := submit_prepare_trace c pdata ctx args um env
  have htr : ∀ ev ∈ (submit_prepare c pdata ctx args um env).1.trace,
      ev = SubmitEv.job_alloc ∨ ev.is_build = true := by
    intro ev hev
    rw [ht0] at hev
    rcases List.mem_cons.mp hev with h | h
    · exact Or.inl h
    · exact Or.inr (pt0 ev h)
  have hpos := submit_syncpt_loop_positive (syncpt_array policy ctx ch) um
    (List.range (toInt32 args.num_syncpt_incrs).toNat)
    (fun i hi => hsp i (List.mem_range.mp hi))
  unfold nvhost_ioctl_channel_submit
  simp only []
  rw [if_neg (not_lt.mpr hpts), if_neg (by simp [halloc])]
  rcases hp : submit_prepare c pdata ctx args um env with ⟨st1, _ | e1⟩
  · rw [hp] at hiff
    simp only [] at hiff ⊢
    have hno : ¬ ∃ i, i < (toInt32 args.num_cmdbufs).toNat ∧
        um.class_ids.val.getD i 0 ≠ 0 ∧ um.class_ids.val.getD i 0 ≠ pdata.engine_class ∧
        um.class_ids.val.getD i 0 ≠ c.NV_HOST1X_CLASS_ID :=
      fun h => absurd (hiff.mpr h) (by simp)
    refine ⟨fun hl => ?_, fun h => absurd h hno⟩
    exfalso
    rcases hs : submit_syncpt_loop (syncpt_array policy ctx ch) um
      (List.range (toInt32 args.num_syncpt_incrs).toNat) st1 with ⟨st2, _ | e2⟩
    · rw [hs] at hl
      simp only [] at hl
      obtain ⟨d1, d2⟩ := submit_dispatch_pin c pdata ctx args um env st2
      by_cases hb : env.module_busy_ret = 0
      · exact hl.2.1 (d1 hb)
      · rw [d2 hb] at hl
        exact hbusy hl.1
    · rw [hs] at hl
      simp only [] at hl
      have := hpos st1 e2 (by rw [hs])
      have h1 : e2 = -EINVAL := hl.1
      rw [h1] at this
      exact absurd this (by decide)
  · rw [hp] at hiff htr
    simp only [] at hiff htr ⊢
    obtain ⟨f1, -, -, f4⟩ := submit_fail_spec st1 e1 args.fence [] htr
    constructor
    · intro hl
      rw [f1] at hl
      exact hiff.mp (by rw [hl.1])
    · intro h
      have he : e1 = -EINVAL := Option.some.inj (hiff.mpr h)
      refine ⟨by rw [f1, he], ?_, ?_⟩
      · intro hm
        rcases f4 _ hm with h | h | h
        · exact absurd h (by decide)
        · exact absurd h (by decide)
        · exact absurd h (by decide)
      · intro hm
        rcases f4 _ hm with h | h | h
        · exact absurd h (by decide)
        · exact absurd h (by decide)
        · exact absurd h (by decide)

/-- C19 at a submit with one command buffer of class 77 on an engine of class
96 (host class 1), everything else in order: it returns `-EINVAL` and neither
pins nor submits. -/
theorem submit_class_id_validation_witness :
    (nvhost_ioctl_channel_submit tegraHostConsts
      nvhost_syncpt_policy.SYNCPT_PER_CHANNEL_INSTANCE 192 demoPdata demoCtx demoChannel
      { demoArgs 1 with num_cmdbufs := 1, cmdbufs := 4096, class_ids := 8192 }
      { demoUser [⟨5, 1⟩] with class_ids := { left := 0, val := [77] },
                               cmdbufs := [{ left := 0, val := ⟨1, 0, 4⟩ }] }
      okSubmitEnv).ret = -EINVAL ∧
    SubmitEv.job_pin ∉ (nvhost_ioctl_channel_submit tegraHostConsts
      nvhost_syncpt_policy.SYNCPT_PER_CHANNEL_INSTANCE 192 demoPdata demoCtx demoChannel
      { demoArgs 1 with num_cmdbufs := 1, cmdbufs := 4096, class_ids := 8192 }
      { demoUser [⟨5, 1⟩] with class_ids := { left := 0, val := [77] },
                               cmdbufs := [{ left := 0, val := ⟨1, 0, 4⟩ }] }
      okSubmitEnv).trace ∧
    SubmitEv.channel_submit ∉ (nvhost_ioctl_channel_submit tegraHostConsts
      nvhost_syncpt_policy.SYNCPT_PER_CHANNEL_INSTANCE 192 demoPdata demoCtx demoChannel
      { demoArgs 1 with num_cmdbufs := 1, cmdbufs := 4096, class_ids := 8192 }
      { demoUser [⟨5, 1⟩] with class_ids := { left := 0, val := [77] },
                               cmdbufs := [{ left := 0, val := ⟨1, 0, 4⟩ }] }
      okSubmitEnv).trace :=
  (submit_class_id_validation tegraHostConsts
    nvhost_syncpt_policy.SYNCPT_PER_CHANNEL_INSTANCE 192 demoPdata demoCtx demoChannel
    { demoArgs 1 with num_cmdbufs := 1, cmdbufs := 4096, class_ids := 8192 }
    { demoUser [⟨5, 1⟩] with class_ids := { left := 0, val := [77] },
                             cmdbufs := [{ left := 0, val := ⟨1, 0, 4⟩ }] }
    okSubmitEnv (by decide) rfl (by decide) rfl rfl (by decide) (by decide) (by decide)).1.mpr
    ⟨0, by decide, by decide, by decide, by decide⟩

/-- C19 as first stated does not hold: this submit supplies class ids, its one
command buffer has the engine's class 96, and every step up to the class-id
check succeeds; it still returns `-EINVAL` without pinning or submitting,
because its sync-point increment names sync point 7, which the context has not
reserved. -/
theorem submit_einval_without_bad_class_id :
    (nvhost_ioctl_channel_submit tegraHostConsts
      nvhost_syncpt_policy.SYNCPT_PER_CHANNEL_INSTANCE 192 demoPdata demoCtx demoChannel
      { demoArgs 1 with num_cmdbufs := 1, cmdbufs := 4096, class_ids := 8192 }
      { demoUser [⟨7, 1⟩] with class_ids := { left := 0, val := [96] },
                               cmdbufs := [{ left := 0, val := ⟨1, 0, 4⟩ }] }
      okSubmitEnv).ret = -EINVAL ∧
    (nvhost_ioctl_channel_submit tegraHostConsts
      nvhost_syncpt_policy.SYNCPT_PER_CHANNEL_INSTANCE 192 demoPdata demoCtx demoChannel
      { demoArgs 1 with num_cmdbufs := 1, cmdbufs := 4096, class_ids := 8192 }
      { demoUser [⟨7, 1⟩] with class_ids := { left := 0, val := [96] },
                               cmdbufs := [{ left := 0, val := ⟨1, 0, 4⟩ }] }
      okSubmitEnv).trace =
      [SubmitEv.job_alloc, SubmitEv.vm_get, SubmitEv.kzalloc_class_ids,
       SubmitEv.job_add_gather { mem := 1, words := 4, offset := 0, class_id := 96,
                                 pre_fence := -1 },
       SubmitEv.kfree_class_ids, SubmitEv.job_put] ∧
    demoPdata.engine_class = 96 ∧
    ¬ ∃ i, i < 1 ∧ ([96] : List Nat).getD i 0 ≠ 0 ∧
      ([96] : List Nat).getD i 0 ≠ demoPdata.engine_class ∧
      ([96] : List Nat).getD i 0 ≠ tegraHostConsts.NV_HOST1X_CLASS_ID := by
  decide

/-! ### Legacy 32-bit submit -/

theorem submit_cmdbuf_loop_waitbases (c : HostConsts) (pdata : nvhost_device_data)
    (args : nvhost_submit_args) (um : SubmitUser) (w : Nat) (is : List Nat) :
    ∀ st : SubmitSt,
      submit_cmdbuf_loop c pdata { args with waitbases := w } um is st =
        submit_cmdbuf_loop c pdata args um is st := by
  induction is with
  | nil => intro st; rfl
  | cons i rest ih =>
    intro st
    simp only [submit_cmdbuf_loop, ih]

/-- The submit does not read `args->waitbases`. -/
theorem submit_waitbases (c : HostConsts) (policy : nvhost_syncpt_policy) (nb_pts : Int)
    (pdata : nvhost_device_data) (ctx : nvhost_channel_userctx) (ch : nvhost_channel)
    (args : nvhost_submit_args) (um : SubmitUser) (env : SubmitEnv) (w : Nat) :
    nvhost_ioctl_channel_submit c policy nb_pts pdata ctx ch { args with waitbases := w } um env =
      nvhost_ioctl_channel_submit c policy nb_pts pdata ctx ch args um env := by
  have h1 : submit_prepare c pdata ctx { args with waitbases := w } um env =
      submit_prepare c pdata ctx args um env := by
    unfold submit_prepare
    have e1 : submit_class_ids { args with waitbases := w } um env
        (submit_init ctx { args with waitbases := w }) =
        submit_class_ids args um env (submit_init ctx args) := rfl
    rw [e1]
    simp only [submit_cmdbuf_loop_waitbases]
  have h2 : ∀ st, submit_dispatch c pdata ctx { args with waitbases := w } um env st =
      submit_dispatch c pdata ctx args um env st := fun _ => rfl
  unfold nvhost_ioctl_channel_submit
  simp only [h1, h2]

/-- C20. The legacy case `NVHOST32_IOCTL_CHANNEL_SUBMIT` leaves exactly what
the canonical case `NVHOST_IOCTL_CHANNEL_SUBMIT` leaves when that is given the
record with the same counts, timeout, version, fence and user pointers
(`waitbases` included) and with `flags` and `cmdbuf_exts` zero: the same `err`,
the same context and channel, the same calls made by the submit, and the same
`fence` in the argument record. -/
theorem legacy_submit_equivalent (c : HostConsts) (channel_policy : nvhost_channel_policy)
    (syncpt_policy : nvhost_syncpt_policy) (nb_pts : Int) (pdata : nvhost_device_data)
    (menv : MapEnv) (priv : nvhost_channel_userctx) (ch : nvhost_channel) (channel_refs : Int)
    (args32 : nvhost32_submit_args) (um : SubmitUser) (env : SubmitEnv) :
    nvhost_channelctl_SUBMIT32 c channel_policy syncpt_policy nb_pts pdata menv priv ch
        channel_refs args32 um env =
      nvhost_channelctl_SUBMIT c channel_policy syncpt_policy nb_pts pdata menv priv ch
        channel_refs
        { submit_version := args32.submit_version,
          num_syncpt_incrs := args32.num_syncpt_incrs,
          num_cmdbufs := args32.num_cmdbufs,
          num_relocs := args32.num_relocs,
          num_waitchks := args32.num_waitchks,
          timeout := args32.timeout,
          flags := 0,
          fence := args32.fence,
          syncpt_incrs := args32.syncpt_incrs,
          cmdbuf_exts := 0,
          cmdbufs := args32.cmdbufs,
          relocs := args32.relocs,
          reloc_shifts := args32.reloc_shifts,
          waitchks := args32.waitchks,
          waitbases := args32.waitbases,
          class_ids := args32.class_ids,
          fences := args32.fences } um env := by
  have hw := fun (ctx : nvhost_channel_userctx) (chn : nvhost_channel) =>
    submit_waitbases c syncpt_policy nb_pts pdata ctx chn
      { submit_version := args32.submit_version,
        num_syncpt_incrs := args32.num_syncpt_incrs,
        num_cmdbufs := args32.num_cmdbufs,
        num_relocs := args32.num_relocs,
        num_waitchks := args32.num_waitchks,
        timeout := args32.timeout,
        flags := 0,
        fence := args32.fence,
        syncpt_incrs := args32.syncpt_incrs,
        cmdbuf_exts := 0,
        cmdbufs := args32.cmdbufs,
        relocs := args32.relocs,
        reloc_shifts := args32.reloc_shifts,
        waitchks := args32.waitchks,
        waitbases := 0,
        class_ids := args32.class_ids,
        fences := args32.fences } um env args32.waitbases
  simp only [] at hw
  unfold nvhost_channelctl_SUBMIT32 nvhost_channelctl_SUBMIT
  simp only [hw]

/-! ### Heap type conversion -/

theorem testBit_not32_two_pow (i k : Nat) (hi : i < 32) :
    (not32 (2 ^ i)).testBit k = (decide (k < 32) && !decide (i = k)) := by
  unfold not32 two32
  have h1 : (4294967296 - 1 : Nat) = 2 ^ 32 - 1 := by norm_num
  have h2 : 2 ^ i % 4294967296 = 2 ^ i :=
    Nat.mod_eq_of_lt (by
      have : (2 : Nat) ^ i < 2 ^ 32 := Nat.pow_lt_pow_right (by norm_num) hi
      simpa using this)
  rw [h1, h2, Nat.testBit_xor, Nat.testBit_two_pow_sub_one, Nat.testBit_two_pow]
  by_cases a : k < 32 <;> by_cases b : i = k <;> simp [a, b]
  omega

theorem heap_type_conversion_absorb (t n g : Nat) :
    (((t &&& n) ||| g) &&& n) ||| g = (t &&& n) ||| g := by
  apply Nat.eq_of_testBit_eq
  intro k
  simp only [Nat.testBit_or, Nat.testBit_and]
  cases t.testBit k <;> cases n.testBit k <;> cases g.testBit k <;> rfl

/-- C21. `NVMAP2_heap_type_conversion` returns its argument whenever
`nvmap_convert_carveout_to_iovmm` is set or `nvmap_convert_iovmm_to_carveout`
is clear, and whenever the argument has no IOVMM bit; with the first switch
clear and the second set, an argument with the IOVMM bit becomes
`(arg & ~IOVMM) | CARVEOUT_GENERIC`, which for single-bit constants is the
argument with the IOVMM bit cleared, the generic-carveout bit set and every
other bit as it was; and applying the function twice gives what applying it
once gives. -/
theorem heap_type_conversion_one_way (c : HeapConsts) (c2i i2c : Bool) (t : Nat) :
    ((c2i = true ∨ i2c = false) → NVMAP2_heap_type_conversion c c2i i2c t = t) ∧
    (t &&& c.NVMAP_HEAP_IOVMM = 0 → NVMAP2_heap_type_conversion c c2i i2c t = t) ∧
    (c2i = false → i2c = true → t &&& c.NVMAP_HEAP_IOVMM ≠ 0 →
      NVMAP2_heap_type_conversion c c2i i2c t =
        (t &&& not32 c.NVMAP_HEAP_IOVMM) ||| c.NVMAP_HEAP_CARVEOUT_GENERIC) ∧
    (∀ i g, c.NVMAP_HEAP_IOVMM = 2 ^ i → c.NVMAP_HEAP_CARVEOUT_GENERIC = 2 ^ g →
      i < 32 → g < 32 → i ≠ g → t < 4294967296 →
      c2i = false → i2c = true → t.testBit i = true →
      ∀ k, (NVMAP2_heap_type_conversion c c2i i2c t).testBit k =
        if k = i then false else if k = g then true else t.testBit k) ∧
    NVMAP2_heap_type_conversion c c2i i2c (NVMAP2_heap_type_conversion c c2i i2c t) =
      NVMAP2_heap_type_conversion c c2i i2c t := by
  have hact : c2i = false → i2c = true → t &&& c.NVMAP_HEAP_IOVMM ≠ 0 →
      NVMAP2_heap_type_conversion c c2i i2c t =
        (t &&& not32 c.NVMAP_HEAP_IOVMM) ||| c.NVMAP_HEAP_CARVEOUT_GENERIC := by
    intro h1 h2 h3
    subst h1; subst h2
    simp [NVMAP2_heap_type_conversion, h3]
  refine ⟨?_, ?_, hact, ?_, ?_⟩
  · rintro (h | h) <;> subst h <;> simp [NVMAP2_heap_type_conversion]
  · intro h
    unfold NVMAP2_heap_type_conversion
    split_ifs <;> first | rfl | (exfalso; exact ‹¬ _› h)
  · intro i g hI hG hi hg hig ht h1 h2 hbit k
    have h3 : t &&& c.NVMAP_HEAP_IOVMM ≠ 0 := by
      intro h0
      have := congrArg (fun x => x.testBit i) h0
      simp [Nat.testBit_and, hI, Nat.testBit_two_pow, hbit] at this
    rw [hact h1 h2 h3, hI, hG, Nat.testBit_or, Nat.testBit_and, testBit_not32_two_pow i k hi,
      Nat.testBit_two_pow]
    by_cases a : k = i
    · subst a
      have : ¬ g = k := fun h => hig h.symm
      simp [this]
    · by_cases b : k = g
      · subst b
        simp [a]
      · have hb : ¬ g = k := fun h => b h.symm
        have ha : ¬ i = k := fun h => a h.symm
        simp only [a, b, hb, ha, if_false, decide_False, Bool.not_false, Bool.and_true,
          Bool.or_false]
        by_cases hk : k < 32
        · simp [hk]
        · have : t.testBit k = false :=
            Nat.testBit_eq_false_of_lt (lt_of_lt_of_le ht (by
              have : (2 : Nat) ^ 32 ≤ 2 ^ k := Nat.pow_le_pow_right (by norm_num) (by omega)
              simpa using this))
          simp [hk, this]
  · unfold NVMAP2_heap_type_conversion
    by_cases hsw : (!c2i && i2c) = true
    · simp only [hsw, if_true]
      by_cases h3 : t &&& c.NVMAP_HEAP_IOVMM ≠ 0
      · rw [if_pos h3]
        split_ifs
        · exact heap_type_conversion_absorb t _ _
        · rfl
      · rw [if_neg h3, if_neg h3]
    · simp only [hsw, Bool.false_eq_true, if_false]

/-- C21 with the constants of this kernel line (IOVMM bit 30, generic carveout
bit 0): the mask `IOVMM | IRAM` becomes `IRAM | GENERIC`, in whichever way it
is read. -/
theorem heap_type_conversion_one_way_witness :
    NVMAP2_heap_type_conversion tegraHeapConsts false true 1610612736 = 536870913 ∧
    NVMAP2_heap_type_conversion tegraHeapConsts true true 1610612736 = 1610612736 ∧
    NVMAP2_heap_type_conversion tegraHeapConsts false true
      (NVMAP2_heap_type_conversion tegraHeapConsts false true 1610612736) = 536870913 := by
  obtain ⟨h1, -, h3, -, h5⟩ := heap_type_conversion_one_way tegraHeapConsts false true 1610612736
  refine ⟨(h3 rfl rfl (by decide)).trans (by decide),
    (heap_type_conversion_one_way tegraHeapConsts true true 1610612736).1 (Or.inl rfl), ?_⟩
  rw [h5]
  exact (h3 rfl rfl (by decide)).trans (by decide)

/-! ### Error notifier: the offset is not checked -/

/-- C23 at failing inputs.  Whatever the offset `o`, and so whatever the size
of the buffer behind descriptor 3, the call returns 0, zeroes the 16 bytes
from `o` on and makes the context refer to the buffer at `o`: for the buffer
of 64 bytes and `o = 4096` the bytes 4096 to 4111, which held 255, lie outside
the buffer and are zero afterwards.  The `size` field of the request is not
read.  The bytes zeroed at `o = 4096` are the first 16 bytes of dma-buf 8,
which is mapped 4096 bytes behind dma-buf 7: memory of another buffer is
overwritten, and no byte of dma-buf 7 itself changes. -/
theorem init_error_notifier_offset_unchecked :
    (∀ o size : Nat,
      (nvhost_init_error_notifier demoNotifierEnv demoDmaBufs demoCtx
        { offset := o, size := size, mem := 3 }).2.2 = 0 ∧
      (nvhost_init_error_notifier demoNotifierEnv demoDmaBufs demoCtx
        { offset := o, size := size, mem := 3 }).1.bytes 7 o = 0 ∧
      (nvhost_init_error_notifier demoNotifierEnv demoDmaBufs demoCtx
        { offset := o, size := size, mem := 3 }).1.bytes 7 (o + 15) = 0 ∧
      (nvhost_init_error_notifier demoNotifierEnv demoDmaBufs demoCtx
        { offset := o, size := size, mem := 3 }).2.1.error_notifier_ref = some 7 ∧
      (nvhost_init_error_notifier demoNotifierEnv demoDmaBufs demoCtx
        { offset := o, size := size, mem := 3 }).2.1.error_notifier_offset = o) ∧
    ¬ (4096 + demoNotifierEnv.sizeof_notification ≤ 64) ∧
    demoDmaBufs.bytes 7 4096 = 255 ∧
    (nvhost_init_error_notifier demoNotifierEnv demoDmaBufs demoCtx
      { offset := 4096, size := 16, mem := 3 }).2.2 = 0 ∧
    (nvhost_init_error_notifier demoNotifierEnv demoDmaBufs demoCtx
      { offset := 4096, size := 16, mem := 3 }).1.bytes 7 4096 = 0 ∧
    (nvhost_init_error_notifier demoNotifierEnv demoDmaBufs demoCtx
      { offset := 4096, size := 16, mem := 3 }).1.bytes 7 4111 = 0 ∧
    demoCtx.error_notifier_ref = none ∧
    (nvhost_init_error_notifier demoNotifierEnv demoDmaBufs demoCtx
      { offset := 4096, size := 16, mem := 3 }).2.1.error_notifier_ref = some 7 ∧
    demoDmaBufs.size 7 = 64 ∧
    demoDmaBufs.va 8 = demoDmaBufs.va 7 + 4096 ∧
    demoDmaBufs.bytes 8 0 = 255 ∧
    (nvhost_init_error_notifier demoNotifierEnv demoDmaBufs demoCtx
      { offset := 4096, size := 16, mem := 3 }).1.bytes 8 0 = 0 ∧
    (nvhost_init_error_notifier demoNotifierEnv demoDmaBufs demoCtx
      { offset := 4096, size := 16, mem := 3 }).1.bytes 8 15 = 0 ∧
    (∀ k, k < 64 →
      (nvhost_init_error_notifier demoNotifierEnv demoDmaBufs demoCtx
        { offset := 4096, size := 16, mem := 3 }).1.bytes 7 k = 255) := by
  have hres : ∀ o size : Nat,
      nvhost_init_error_notifier demoNotifierEnv demoDmaBufs demoCtx
        { offset := o, size := size, mem := 3 } =
      (memset_zero (demoDmaBufs.get 7) 7 o 16,
        { demoCtx with error_notifier_ref := some 7, error_notifier_offset := o }, 0) := by
    intro o size
    rfl
  refine ⟨?_, by decide, by decide, by decide, by decide, by decide, by decide, by decide,
    by decide, by decide, by decide, by decide, by decide, ?_⟩
  · intro o size
    rw [hres o size]
    refine ⟨rfl, ?_, ?_, rfl, rfl⟩
    · exact memset_zero_inside (demoDmaBufs.get 7) 7 o 16 o (Nat.le_refl o) (by omega)
    · exact memset_zero_inside (demoDmaBufs.get 7) 7 o 16 (o + 15) (by omega) (by omega)
  · intro k hk
    rw [hres 4096 16]
    unfold DmaBufs.bytes
    have hva : (memset_zero (demoDmaBufs.get 7) 7 4096 16).va 7 = 28672 := rfl
    rw [hva]
    show (memset_zero (demoDmaBufs.get 7) 7 4096 16).mem ((28672 + k) % 18446744073709551616)
      = 255
    unfold memset_zero
    show (if (28672 + k) % 18446744073709551616 < 18446744073709551616 ∧
        ((28672 + k) % 18446744073709551616 +
          (18446744073709551616 - (4096 * 7 + 4096) % 18446744073709551616))
            % 18446744073709551616 < 16 then 0 else 255) = 255
    apply if_neg
    omega

/-! ### Order of the fallback lists -/

/-- C24 at a failing input.  For the mask `IOVMM | CARVEOUT_GENERIC` and two
pages `NVMAP2_heap_mask_to_policy` returns `heap_policy_large`, in which the
IOVMM entry (index 2) stands before the general carveout mask (index 3): the
carveouts are not all tried before generic memory.  The list ends with the
sentinel 0.  It is the single-page list `heap_policy_small` that has the
carveout mask before IOVMM, with VPR and IRAM first in both. -/
theorem heap_policy_large_iovmm_before_carveout_mask :
    NVMAP2_heap_mask_to_policy tegraHeapConsts 1073741825 2 = some PolicyList.large ∧
    PolicyList.entries tegraHeapConsts PolicyList.large =
      [tegraHeapConsts.NVMAP_HEAP_CARVEOUT_VPR, tegraHeapConsts.NVMAP_HEAP_CARVEOUT_IRAM,
       tegraHeapConsts.NVMAP_HEAP_IOVMM, tegraHeapConsts.NVMAP_HEAP_CARVEOUT_MASK, 0] ∧
    (PolicyList.entries tegraHeapConsts PolicyList.large).indexOf
      tegraHeapConsts.NVMAP_HEAP_IOVMM = 2 ∧
    (PolicyList.entries tegraHeapConsts PolicyList.large).indexOf
      tegraHeapConsts.NVMAP_HEAP_CARVEOUT_MASK = 3 ∧
    (PolicyList.entries tegraHeapConsts PolicyList.large).getLast? = some 0 ∧
    NVMAP2_heap_mask_to_policy tegraHeapConsts 1073741825 1 = some PolicyList.small ∧
    PolicyList.entries tegraHeapConsts PolicyList.small =
      [tegraHeapConsts.NVMAP_HEAP_CARVEOUT_VPR, tegraHeapConsts.NVMAP_HEAP_CARVEOUT_IRAM,
       tegraHeapConsts.NVMAP_HEAP_CARVEOUT_MASK, tegraHeapConsts.NVMAP_HEAP_IOVMM, 0] := by
  decide

theorem heap_mask_to_policy_nonexcl (c : HeapConsts) (heap_mask : Nat) (nr_page : Int)
    (p : PolicyList) (h : NVMAP2_heap_mask_to_policy c heap_mask nr_page = some p)
    (h1 : heap_mask &&& c.NVMAP_HEAP_CARVEOUT_IVM = 0)
    (h2 : heap_mask &&& c.NVMAP_HEAP_CARVEOUT_VIDMEM = 0) :
    p = if nr_page = 1 then PolicyList.small else PolicyList.large := by
  unfold NVMAP2_heap_mask_to_policy heap_policy_excl at h
  simp only [excl_scan, Nat.and_zero, if_true, h1, h2] at h
  by_cases h0 : heap_mask = 0
  · simp [h0] at h
  · simp only [h0, if_false, Bool.false_eq_true, Option.some.injEq] at h
    exact h.symm

/-- C24, amended.  For a valid mask without an exclusive heap bit and more
than one page, the list returned is VPR, IRAM, IOVMM, the general carveout
mask and the sentinel 0, in this order: the dedicated carveouts VPR and IRAM
stand before IOVMM and IOVMM stands before the general carveout mask.  For one
page the list returned is VPR, IRAM, the general carveout mask, IOVMM and the
sentinel 0. -/
theorem heap_policy_lists_order (c : HeapConsts) (heap_mask : Nat) (nr_page : Int)
    (p : PolicyList) (h : NVMAP2_heap_mask_to_policy c heap_mask nr_page = some p)
    (h1 : heap_mask &&& c.NVMAP_HEAP_CARVEOUT_IVM = 0)
    (h2 : heap_mask &&& c.NVMAP_HEAP_CARVEOUT_VIDMEM = 0) :
    (1 < nr_page →
      p.entries c = [c.NVMAP_HEAP_CARVEOUT_VPR, c.NVMAP_HEAP_CARVEOUT_IRAM,
        c.NVMAP_HEAP_IOVMM, c.NVMAP_HEAP_CARVEOUT_MASK, 0] ∧
      (p.entries c).getLast? = some 0) ∧
    (nr_page = 1 →
      p.entries c = [c.NVMAP_HEAP_CARVEOUT_VPR, c.NVMAP_HEAP_CARVEOUT_IRAM,
        c.NVMAP_HEAP_CARVEOUT_MASK, c.NVMAP_HEAP_IOVMM, 0] ∧
      (p.entries c).getLast? = some 0) := by
  have hp := heap_mask_to_policy_nonexcl c heap_mask nr_page p h h1 h2
  constructor
  · intro hn
    rw [hp, if_neg (by omega)]
    exact ⟨rfl, rfl⟩
  · intro hn
    rw [hp, if_pos hn]
    exact ⟨rfl, rfl⟩

/-- The amended C24 for the mask `IOVMM | CARVEOUT_GENERIC` and two pages. -/
theorem heap_policy_lists_order_witness :
    PolicyList.entries tegraHeapConsts PolicyList.large =
      [tegraHeapConsts.NVMAP_HEAP_CARVEOUT_VPR, tegraHeapConsts.NVMAP_HEAP_CARVEOUT_IRAM,
       tegraHeapConsts.NVMAP_HEAP_IOVMM, tegraHeapConsts.NVMAP_HEAP_CARVEOUT_MASK, 0] ∧
    (PolicyList.entries tegraHeapConsts PolicyList.large).getLast? = some 0 :=
  (heap_policy_lists_order tegraHeapConsts 1073741825 2 PolicyList.large (by decide)
    (by decide) (by decide)).1 (by decide)

/-! ### The contiguous-block helper -/

theorem order_search_least (size : Nat) : ∀ fuel order bytes o,
    order ≤ o → o < order_search size fuel order bytes → bytes * 2 ^ (o - order) < size := by
  intro fuel
  induction fuel with
  | zero =>
    intro order bytes o h1 h2
    simp only [order_search] at h2
    omega
  | succ n ih =>
    intro order bytes o h1 h2
    simp only [order_search] at h2
    split_ifs at h2 with hle
    · omega
    · rcases Nat.eq_or_lt_of_le h1 with h | h
      · subst h
        simp only [Nat.sub_self, pow_zero, mul_one]
        omega
      · have := ih (order + 1) (2 * bytes) o h h2
        have e : o - order = (o - (order + 1)) + 1 := by omega
        rw [e, pow_succ]
        calc bytes * (2 ^ (o - (order + 1)) * 2) = 2 * bytes * 2 ^ (o - (order + 1)) := by ring
          _ < size := this

theorem get_order_least (cfg : PageCfg) (size : Nat) :
    size ≤ 2 ^ get_order cfg size * 2 ^ cfg.PAGE_SHIFT ∧
    ∀ o, o < get_order cfg size → 2 ^ o * 2 ^ cfg.PAGE_SHIFT < size := by
  constructor
  · have h := order_search_spec size size 0 (2 ^ cfg.PAGE_SHIFT) (by
      have : size < 2 ^ size := Nat.lt_two_pow size
      have h1 : 1 ≤ 2 ^ cfg.PAGE_SHIFT := Nat.one_le_two_pow
      nlinarith)
    simp only [pow_zero, mul_one] at h
    unfold get_order
    rw [Nat.mul_comm]
    exact h
  · intro o ho
    have := order_search_least size size 0 (2 ^ cfg.PAGE_SHIFT) o (Nat.zero_le _) ho
    rw [Nat.sub_zero] at this
    rw [Nat.mul_comm]
    exact this

theorem heap_alloc_pages_exact_logs (cfg : PageCfg) (w w1 : PageSys) (size page : Nat)
    (h : heap_alloc_pages_exact cfg w size = (w1, some page)) :
    w1.allocated = w.allocated ++ List.range' page (2 ^ get_order cfg size) ∧
    w1.freed = w.freed ++ List.range' (page + (size >>> cfg.PAGE_SHIFT))
      (2 ^ get_order cfg size - (size >>> cfg.PAGE_SHIFT)) := by
  unfold heap_alloc_pages_exact at h
  rcases alloc_pages_spec w (get_order cfg size) with
    ⟨w0, h0, -⟩ | ⟨w0, page0, h0, ha, -, hf, -⟩
  · simp [h0] at h
  · simp only [h0, Prod.mk.injEq, Option.some.injEq] at h
    obtain ⟨hw, hp⟩ := h
    subst hp
    obtain ⟨g1, -, g3, -⟩ := free_pages_logs
      (List.range' (page0 + (size >>> cfg.PAGE_SHIFT))
        (2 ^ get_order cfg size - (size >>> cfg.PAGE_SHIFT))) w0
    rw [← hw, g1, g3, ha, hf]
    exact ⟨rfl, rfl⟩

theorem free_pages_cleaned (l : List Nat) : ∀ w : PageSys,
    (l.foldl free_page w).cleaned = w.cleaned := by
  induction l with
  | nil => intro w; rfl
  | cons p l ih =>
    intro w
    simp only [List.foldl_cons]
    rw [ih (free_page w p)]
    rfl

theorem heap_alloc_pages_exact_of_alloc (cfg : PageCfg) (w : PageSys) (size : Nat) :
    (∀ w0 page, alloc_pages w (get_order cfg size) = (w0, some page) →
      heap_alloc_pages_exact cfg w size =
        ((List.range' (page + (size >>> cfg.PAGE_SHIFT))
          (2 ^ get_order cfg size - (size >>> cfg.PAGE_SHIFT))).foldl free_page w0,
         some page)) ∧
    (∀ w0, alloc_pages w (get_order cfg size) = (w0, none) →
      heap_alloc_pages_exact cfg w size = (w0, none)) := by
  constructor
  · intro w0 page h
    unfold heap_alloc_pages_exact
    simp only [h]
  · intro w0 h
    unfold heap_alloc_pages_exact
    simp only [h]

theorem iovmm_pages_contiguous (cfg : PageCfg) (v : PageSys) (size : Nat)
    (hN : size >>> cfg.PAGE_SHIFT < 2147483648) :
    (∀ v0 first,
      alloc_pages { v with live_arrays := v.live_arrays + 1 } (get_order cfg size) =
        (v0, some first) →
      ∃ v1, NVMAP2_heap_alloc_iovmm_pages cfg true v size true =
          (v1, Except.ok (List.range' first (size >>> cfg.PAGE_SHIFT))) ∧
        v1.allocated = v.allocated ++ List.range' first (2 ^ get_order cfg size) ∧
        v1.freed = v.freed ++ List.range' (first + (size >>> cfg.PAGE_SHIFT))
          (2 ^ get_order cfg size - (size >>> cfg.PAGE_SHIFT)) ∧
        v1.cleaned = v.cleaned ++ List.range' first (size >>> cfg.PAGE_SHIFT) ∧
        v1.live_arrays = v.live_arrays + 1) ∧
    (∀ v0,
      alloc_pages { v with live_arrays := v.live_arrays + 1 } (get_order cfg size) =
        (v0, none) →
      ∃ v1, NVMAP2_heap_alloc_iovmm_pages cfg true v size true =
          (v1, Except.error (-ENOMEM)) ∧
        v1.allocated = v.allocated ∧ v1.freed = v.freed ∧ v1.cleaned = v.cleaned ∧
        v1.live_arrays = v.live_arrays) := by
  constructor
  · intro v0 first h
    have hx := (heap_alloc_pages_exact_of_alloc cfg
      { v with live_arrays := v.live_arrays + 1 } size).1 v0 first h
    rcases alloc_pages_spec { v with live_arrays := v.live_arrays + 1 } (get_order cfg size)
      with ⟨u, hu, -⟩ | ⟨u, p, hu, ha, -, hf, hl⟩
    · rw [h] at hu
      exact absurd (congrArg Prod.snd hu) (by simp)
    · rw [h] at hu
      have e1 : v0 = u := congrArg Prod.fst hu
      have e2 : first = p := Option.some.inj (congrArg Prod.snd hu)
      subst e1; subst e2
      obtain ⟨g1, -, g3, g4⟩ := free_pages_logs
        (List.range' (first + (size >>> cfg.PAGE_SHIFT))
          (2 ^ get_order cfg size - (size >>> cfg.PAGE_SHIFT))) v0
      have g5 := free_pages_cleaned
        (List.range' (first + (size >>> cfg.PAGE_SHIFT))
          (2 ^ get_order cfg size - (size >>> cfg.PAGE_SHIFT))) v0
      have hc : v0.cleaned = v.cleaned := by
        have := congrArg (fun r => r.1.cleaned) h
        unfold alloc_pages at this
        rcases hq : v.alloc_outcomes with _ | ⟨b, rest⟩
        · simp [hq] at this
          rw [← this]
        · cases b <;> simp [hq] at this <;> rw [← this]
      refine ⟨NVMAP2_cache_clean_pages
        ((List.range' (first + (size >>> cfg.PAGE_SHIFT))
          (2 ^ get_order cfg size - (size >>> cfg.PAGE_SHIFT))).foldl free_page v0)
        (List.range' first (size >>> cfg.PAGE_SHIFT)), ?_, ?_, ?_, ?_, ?_⟩
      · unfold NVMAP2_heap_alloc_iovmm_pages
        simp only [Bool.not_true, Bool.false_eq_true, if_false, if_true, hx]
        rw [toInt32_of_lt _ hN, Int.toNat_ofNat, range_map_add]
      · show (NVMAP2_cache_clean_pages _ _).allocated = _
        unfold NVMAP2_cache_clean_pages
        show (List.foldl free_page v0 _).allocated = _
        rw [g1, ha]
      · unfold NVMAP2_cache_clean_pages
        show (List.foldl free_page v0 _).freed = _
        rw [g3, hf]
      · unfold NVMAP2_cache_clean_pages
        show (List.foldl free_page v0 _).cleaned ++ _ = _
        rw [g5, hc]
      · unfold NVMAP2_cache_clean_pages
        show (List.foldl free_page v0 _).live_arrays = _
        rw [g4, hl]
  · intro v0 h
    have hx := (heap_alloc_pages_exact_of_alloc cfg
      { v with live_arrays := v.live_arrays + 1 } size).2 v0 h
    rcases alloc_pages_spec { v with live_arrays := v.live_arrays + 1 } (get_order cfg size)
      with ⟨u, hu, ha, -, hf, hl⟩ | ⟨u, p, hu, -⟩
    swap
    · rw [h] at hu
      exact absurd (congrArg Prod.snd hu) (by simp)
    · rw [h] at hu
      have e1 : v0 = u := congrArg Prod.fst hu
      subst e1
      have hc : v0.cleaned = v.cleaned := by
        have := congrArg (fun r => r.1.cleaned) h
        unfold alloc_pages at this
        rcases hq : v.alloc_outcomes with _ | ⟨b, rest⟩
        · simp [hq] at this
          rw [← this]
        · cases b <;> simp [hq] at this <;> rw [← this]
      refine ⟨(iovmm_pages_fail v0 []).1, ?_, ?_, ?_, ?_, ?_⟩
      · unfold NVMAP2_heap_alloc_iovmm_pages
        simp only [Bool.not_true, Bool.false_eq_true, if_false, if_true, hx]
        rfl
      · exact ha
      · exact hf
      · exact hc
      · show v0.live_arrays - 1 = v.live_arrays
        rw [hl]
        show v.live_arrays + 1 - 1 = v.live_arrays
        omega
/-- C25. For a size of at least one page, a successful
`heap_alloc_pages_exact` has taken a block of `2 ^ order` pages from
`alloc_pages`, with `order = get_order(size)` the least order whose block
holds `size` bytes, and returns the first page of that block; it has freed
exactly the pages of the block from index `size >> PAGE_SHIFT` on, which are
`2 ^ order - (size >> PAGE_SHIFT)` pages, and keeps the `size >> PAGE_SHIFT`
pages before them: kept and freed pages together are the block, and no page
is both kept and freed.  The helper returns a page exactly when `alloc_pages`
does.  For a contiguous `NVMAP2_heap_alloc_iovmm_pages` (page count within
`int`, page array obtained): when `alloc_pages` hands out a block starting at
`first`, the call returns the `size >> PAGE_SHIFT` consecutive pages from
`first` on, has allocated the block, freed its tail, cleaned the pages it
returns and holds the page array; when `alloc_pages` returns NULL, the call
returns `-ENOMEM`, keeps no page and has given the page array back; and every
successful contiguous call is of the first kind. -/
theorem heap_alloc_pages_exact_trims (cfg : PageCfg) (w w1 : PageSys) (size page : Nat)
    (hsize : 2 ^ cfg.PAGE_SHIFT ≤ size)
    (h : heap_alloc_pages_exact cfg w size = (w1, some page)) :
    size ≤ 2 ^ get_order cfg size * 2 ^ cfg.PAGE_SHIFT ∧
    (∀ o, o < get_order cfg size → 2 ^ o * 2 ^ cfg.PAGE_SHIFT < size) ∧
    w1.allocated = w.allocated ++ List.range' page (2 ^ get_order cfg size) ∧
    w1.freed = w.freed ++ List.range' (page + (size >>> cfg.PAGE_SHIFT))
      (2 ^ get_order cfg size - (size >>> cfg.PAGE_SHIFT)) ∧
    1 ≤ size >>> cfg.PAGE_SHIFT ∧
    (size >>> cfg.PAGE_SHIFT) + (2 ^ get_order cfg size - (size >>> cfg.PAGE_SHIFT))
      = 2 ^ get_order cfg size ∧
    List.range' page (size >>> cfg.PAGE_SHIFT) ++
      List.range' (page + (size >>> cfg.PAGE_SHIFT))
        (2 ^ get_order cfg size - (size >>> cfg.PAGE_SHIFT))
      = List.range' page (2 ^ get_order cfg size) ∧
    (∀ p ∈ List.range' page (size >>> cfg.PAGE_SHIFT),
      p ∉ List.range' (page + (size >>> cfg.PAGE_SHIFT))
        (2 ^ get_order cfg size - (size >>> cfg.PAGE_SHIFT))) ∧
    (∃ w0, alloc_pages w (get_order cfg size) = (w0, some page)) ∧
    (∀ u : PageSys, (heap_alloc_pages_exact cfg u size).2 =
      (alloc_pages u (get_order cfg size)).2) ∧
    (∀ v : PageSys, size >>> cfg.PAGE_SHIFT < 2147483648 →
      (∀ v0 first,
        alloc_pages { v with live_arrays := v.live_arrays + 1 } (get_order cfg size) =
          (v0, some first) →
        ∃ v1, NVMAP2_heap_alloc_iovmm_pages cfg true v size true =
            (v1, Except.ok (List.range' first (size >>> cfg.PAGE_SHIFT))) ∧
          v1.allocated = v.allocated ++ List.range' first (2 ^ get_order cfg size) ∧
          v1.freed = v.freed ++ List.range' (first + (size >>> cfg.PAGE_SHIFT))
            (2 ^ get_order cfg size - (size >>> cfg.PAGE_SHIFT)) ∧
          v1.cleaned = v.cleaned ++ List.range' first (size >>> cfg.PAGE_SHIFT) ∧
          v1.live_arrays = v.live_arrays + 1) ∧
      (∀ v0,
        alloc_pages { v with live_arrays := v.live_arrays + 1 } (get_order cfg size) =
          (v0, none) →
        ∃ v1, NVMAP2_heap_alloc_iovmm_pages cfg true v size true =
            (v1, Except.error (-ENOMEM)) ∧
          v1.allocated = v.allocated ∧ v1.freed = v.freed ∧ v1.cleaned = v.cleaned ∧
          v1.live_arrays = v.live_arrays) ∧
      (∀ (altalloc_ok : Bool) (v1 : PageSys) (pages : List Nat),
        NVMAP2_heap_alloc_iovmm_pages cfg altalloc_ok v size true = (v1, Except.ok pages) →
        pages.length = size >>> cfg.PAGE_SHIFT ∧
        ∃ v0 first,
          alloc_pages { v with live_arrays := v.live_arrays + 1 } (get_order cfg size) =
            (v0, some first) ∧
          pages = List.range' first (size >>> cfg.PAGE_SHIFT) ∧
          v1.allocated = v.allocated ++ List.range' first (2 ^ get_order cfg size) ∧
          v1.freed = v.freed ++ List.range' (first + (size >>> cfg.PAGE_SHIFT))
            (2 ^ get_order cfg size - (size >>> cfg.PAGE_SHIFT)))) := by
  obtain ⟨o1, o2⟩ := get_order_least cfg size
  obtain ⟨l1, l2⟩ := heap_alloc_pages_exact_logs cfg w w1 size page h
  have hle := get_order_spec cfg size
  have hn : 1 ≤ size >>> cfg.PAGE_SHIFT := by
    rw [Nat.shiftRight_eq_div_pow]
    exact (Nat.one_le_div_iff (Nat.two_pow_pos _)).mpr hsize
  have hboth : ∀ u : PageSys, (heap_alloc_pages_exact cfg u size).2 =
      (alloc_pages u (get_order cfg size)).2 := by
    intro u
    obtain ⟨k1, k2⟩ := heap_alloc_pages_exact_of_alloc cfg u size
    rcases hq : alloc_pages u (get_order cfg size) with ⟨u0, _ | p⟩
    · rw [k2 u0 hq]
    · rw [k1 u0 p hq]
  refine ⟨o1, o2, l1, l2, hn, Nat.add_sub_cancel' hle, ?_, ?_, ?_, hboth, ?_⟩
  · rw [List.range'_append_1, Nat.sub_add_cancel hle]
  · intro p hp hq
    rw [List.mem_range'_1] at hp hq
    omega
  · have := hboth w
    rw [h] at this
    rcases hq : alloc_pages w (get_order cfg size) with ⟨w0, r⟩
    rw [hq] at this
    have e : r = some page := this.symm
    subst e
    exact ⟨w0, rfl⟩
  · intro v hN
    obtain ⟨c1, c2⟩ := iovmm_pages_contiguous cfg v size hN
    refine ⟨c1, c2, ?_⟩
    intro altalloc_ok v1 pages hr
    cases altalloc_ok
    · unfold NVMAP2_heap_alloc_iovmm_pages at hr
      simp at hr
    · rcases hq : alloc_pages { v with live_arrays := v.live_arrays + 1 } (get_order cfg size)
        with ⟨v0, _ | first⟩
      · obtain ⟨v2, hv2, -⟩ := c2 v0 hq
        rw [hv2] at hr
        exact absurd (congrArg Prod.snd hr) (by simp)
      · obtain ⟨v2, hv2, ha, hf, -⟩ := c1 v0 first hq
        rw [hv2] at hr
        have e1 : v2 = v1 := congrArg Prod.fst hr
        have e2 : List.range' first (size >>> cfg.PAGE_SHIFT) = pages :=
          Except.ok.inj (congrArg Prod.snd hr)
        subst e1
        subst e2
        exact ⟨List.length_range' _ _ _, v0, first, rfl, rfl, ha, hf⟩

/-- C25 for three pages of 4096 bytes: the block has four pages (order 2)
starting at frame 100, frame 103 is freed and frames 100 to 102 are kept; the
contiguous call for the same size returns frames 100, 101 and 102 and has
freed frame 103, and with `alloc_pages` failing it returns `-ENOMEM`. -/
theorem heap_alloc_pages_exact_trims_witness :
    get_order demoPageCfg 12288 = 2 ∧
    (heap_alloc_pages_exact demoPageCfg demoPageSys 12288).2 = some 100 ∧
    (heap_alloc_pages_exact demoPageCfg demoPageSys 12288).1.allocated
      = demoPageSys.allocated ++ List.range' 100 (2 ^ get_order demoPageCfg 12288) ∧
    (heap_alloc_pages_exact demoPageCfg demoPageSys 12288).1.freed
      = demoPageSys.freed ++ List.range' (100 + (12288 >>> demoPageCfg.PAGE_SHIFT))
          (2 ^ get_order demoPageCfg 12288 - (12288 >>> demoPageCfg.PAGE_SHIFT)) ∧
    (heap_alloc_pages_exact demoPageCfg demoPageSys 12288).1.freed = [103] ∧
    (NVMAP2_heap_alloc_iovmm_pages demoPageCfg true demoPageSys 12288 true).2 =
      Except.ok [100, 101, 102] ∧
    (NVMAP2_heap_alloc_iovmm_pages demoPageCfg true demoPageSys 12288 true).1.allocated =
      [100, 101, 102, 103] ∧
    (NVMAP2_heap_alloc_iovmm_pages demoPageCfg true demoPageSys 12288 true).1.freed = [103] ∧
    (NVMAP2_heap_alloc_iovmm_pages demoPageCfg true demoPageSys 12288 true).1.cleaned =
      [100, 101, 102] ∧
    (NVMAP2_heap_alloc_iovmm_pages demoPageCfg true
      { demoPageSys with alloc_outcomes := [false] } 12288 true).2 = Except.error (-ENOMEM) ∧
    (NVMAP2_heap_alloc_iovmm_pages demoPageCfg true
      { demoPageSys with alloc_outcomes := [false] } 12288 true).1.allocated = [] := by
  obtain ⟨-, -, h3, h4, -, -, -, -, -, -, hc⟩ :=
    heap_alloc_pages_exact_trims demoPageCfg demoPageSys
      (heap_alloc_pages_exact demoPageCfg demoPageSys 12288).1 12288 100 (by decide) (by decide)
  obtain ⟨c1, -, -⟩ := hc demoPageSys (by decide)
  obtain ⟨v1, hv, ha, hf, hcl, -⟩ := c1
    (alloc_pages { demoPageSys with live_arrays := demoPageSys.live_arrays + 1 }
      (get_order demoPageCfg 12288)).1 100 (by decide)
  refine ⟨by decide, by decide, h3, h4, by decide, ?_, ?_, ?_, ?_, rfl, by decide⟩
  · rw [hv]; rfl
  · rw [hv, ha]; rfl
  · rw [hv, hf]; rfl
  · rw [hv, hcl]; rfl

/-! ### Register access in batches -/

theorem validate_reg_ok_bound (master : Option (Option Nat)) (ndev : Option Nat)
    (offset : Nat) (count : Int) (ho : offset < 4294967296) (hc0 : 0 ≤ count)
    (hc1 : count ≤ 64) (h : validate_reg master ndev offset count = 0) :
    (offset : Int) + 4 * count < 4294967296 := by
  have hw : wrap32 (4 * count) = 4 * count := by unfold wrap32; omega
  have key : ∀ size, (master = some (some size) ∨ (master = none ∧ ndev = some size)) →
      (offset : Int) + 4 * count < 4294967296 := by
    intro size hr
    rw [validate_reg_some master ndev size offset count hr, hw] at h
    split_ifs at h with hc
    · exact absurd h (by decide)
    · by_contra hge
      apply hc
      right
      omega
  have hnd : (-ENODEV : Int) ≠ 0 := by decide
  rcases master with _ | _ | size
  · rcases ndev with _ | size
    · exact absurd h hnd
    · exact key size (Or.inr ⟨rfl, rfl⟩)
  · exact absurd h hnd
  · exact key size (Or.inl rfl)

theorem write_module_regs_ok (dev : RegDev) (st : RegState) (offset : Nat) (count : Int)
    (values : List Nat) (h : (nvhost_write_module_regs dev st offset count values).2 = 0) :
    validate_reg dev.master dev.ndev offset count = 0 ∧
    (nvhost_write_module_regs dev st offset count values).1.log =
      st.log ++ [{ write := true, offset := offset, count := count.toNat }] := by
  have hnd : (-ENODEV : Int) ≠ 0 := by decide
  unfold nvhost_write_module_regs at h ⊢
  split_ifs at h ⊢ with h1 h2 h3
  · exact absurd h hnd
  · exact absurd h h2
  · exact absurd h h3
  · exact ⟨not_not.mp h2, rfl⟩

theorem read_module_regs_ok (dev : RegDev) (st : RegState) (offset : Nat) (count : Int)
    (h : (nvhost_read_module_regs dev st offset count).2.1 = 0) :
    validate_reg dev.master dev.ndev offset count = 0 ∧
    (nvhost_read_module_regs dev st offset count).1.log =
      st.log ++ [{ write := false, offset := offset, count := count.toNat }] := by
  have hnd : (-ENODEV : Int) ≠ 0 := by decide
  unfold nvhost_read_module_regs at h ⊢
  split_ifs at h ⊢ with h1 h2 h3
  · exact absurd h hnd
  · exact absurd h h2
  · exact absurd h h3
  · exact ⟨not_not.mp h2, rfl⟩

theorem BatchSegment.nil (write : Bool) (start : Nat) : BatchSegment write start 0 [] :=
  ⟨fun e h => absurd h (List.not_mem_nil e), rfl, fun k h => absurd h (Nat.not_lt_zero k)⟩

theorem BatchSegment.cons (write : Bool) (start batch words : Nat) (evs : List RegEv)
    (hb1 : 1 ≤ batch) (hb2 : batch ≤ 64)
    (h : BatchSegment write (start + 4 * batch) words evs) :
    BatchSegment write start (batch + words)
      ({ write := write, offset := start, count := batch } :: evs) := by
  obtain ⟨h1, h2, h3⟩ := h
  refine ⟨?_, ?_, ?_⟩
  · intro e he
    rcases List.mem_cons.mp he with rfl | he
    · exact ⟨rfl, hb1, hb2⟩
    · exact h1 e he
  · simp only [List.map_cons, List.sum_cons, h2]
  · intro k hk
    cases k with
    | zero => simp
    | succ k =>
      have hk2 : k < evs.length := by simpa using hk
      have := h3 k hk2
      simp only [List.get_eq_getElem, List.getElem_cons_succ, List.take_succ_cons,
        List.map_cons, List.sum_cons] at this ⊢
      rw [this]
      ring

theorem regrdwr_batches_zero (dev : RegDev) (um : RegUser) (write : Bool)
    (fuel offs pos : Nat) (st : RegState) :
    regrdwr_batches dev um write fuel 0 offs pos st = some (st, none, pos) := by
  unfold regrdwr_batches
  rfl

theorem regrdwr_batches_succ (dev : RegDev) (um : RegUser) (write : Bool)
    (fuel remaining offs pos : Nat) (st : RegState) (hr : remaining ≠ 0) :
    regrdwr_batches dev um write (fuel + 1) remaining offs pos st =
      if write then
        if um.values_fault pos then some (st, some (-EFAULT), pos)
        else
          if (nvhost_write_module_regs dev st offs (min remaining 64 : Nat)
              ((List.range (min remaining 64)).map (fun i => st.user_values (pos + i)))).2 ≠ 0
          then some ((nvhost_write_module_regs dev st offs (min remaining 64 : Nat)
              ((List.range (min remaining 64)).map (fun i => st.user_values (pos + i)))).1,
            some (nvhost_write_module_regs dev st offs (min remaining 64 : Nat)
              ((List.range (min remaining 64)).map (fun i => st.user_values (pos + i)))).2, pos)
          else
            regrdwr_batches dev um write fuel (remaining - min remaining 64)
              ((offs + min remaining 64 * 4) % two32) (pos + min remaining 64)
              (nvhost_write_module_regs dev st offs (min remaining 64 : Nat)
                ((List.range (min remaining 64)).map (fun i => st.user_values (pos + i)))).1
      else
        if (nvhost_read_module_regs dev st offs (min remaining 64 : Nat)).2.1 ≠ 0 then
          some ((nvhost_read_module_regs dev st offs (min remaining 64 : Nat)).1,
            some (nvhost_read_module_regs dev st offs (min remaining 64 : Nat)).2.1, pos)
        else if um.values_fault pos then
          some ((nvhost_read_module_regs dev st offs (min remaining 64 : Nat)).1,
            some (-EFAULT), pos)
        else
          regrdwr_batches dev um write fuel (remaining - min remaining 64)
            ((offs + min remaining 64 * 4) % two32) (pos + min remaining 64)
            { (nvhost_read_module_regs dev st offs (min remaining 64 : Nat)).1 with
              user_values := fun w =>
                if pos ≤ w ∧ w < pos + min remaining 64 then
                  (nvhost_read_module_regs dev st offs (min remaining 64 : Nat)).2.2.getD
                    (w - pos) 0
                else (nvhost_read_module_regs dev st offs
                  (min remaining 64 : Nat)).1.user_values w } := by
  conv_lhs => unfold regrdwr_batches
  rw [if_neg hr]

theorem validate_reg_good (master : Option (Option Nat)) (ndev : Option Nat) (size : Nat)
    (offset : Nat) (count : Int)
    (hr : master = some (some size) ∨ (master = none ∧ ndev = some size))
    (hc0 : 0 ≤ count) (hc1 : count ≤ 64) (hs : (offset : Int) + 4 * count ≤ size)
    (hlt : (offset : Int) + 4 * count < 4294967296) :
    validate_reg master ndev offset count = 0 := by
  have hw : wrap32 (4 * count) = 4 * count := by unfold wrap32; omega
  rw [validate_reg_some master ndev size offset count hr, hw]
  apply if_neg
  omega

theorem write_module_regs_good (dev : RegDev) (st : RegState) (offset : Nat) (count : Int)
    (values : List Nat) (ha : dev.aperture = true)
    (hv : validate_reg dev.master dev.ndev offset count = 0) (hb : dev.module_busy_ret = 0) :
    (nvhost_write_module_regs dev st offset count values).2 = 0 := by
  unfold nvhost_write_module_regs
  split_ifs with h1 h2 h3
  · simp [ha] at h1
  · exact absurd hv h2
  · exact absurd hb h3
  · rfl

theorem read_module_regs_good (dev : RegDev) (st : RegState) (offset : Nat) (count : Int)
    (ha : dev.aperture = true)
    (hv : validate_reg dev.master dev.ndev offset count = 0) (hb : dev.module_busy_ret = 0) :
    (nvhost_read_module_regs dev st offset count).2.1 = 0 := by
  unfold nvhost_read_module_regs
  split_ifs with h1 h2 h3
  · simp [ha] at h1
  · exact absurd hv h2
  · exact absurd hb h3
  · rfl

theorem regrdwr_batches_spec (dev : RegDev) (um : RegUser) (write : Bool) :
    ∀ (fuel remaining offs pos : Nat) (st : RegState), remaining ≤ fuel →
      offs < 4294967296 →
      ∃ st1 r pos1, regrdwr_batches dev um write fuel remaining offs pos st =
          some (st1, r, pos1) ∧
        (∀ e, r = some e → e ≠ 0) ∧
        (r = none → pos1 = pos + remaining ∧
          ∃ evs, st1.log = st.log ++ evs ∧ BatchSegment write offs remaining evs) ∧
        (∀ size, dev.aperture = true → dev.module_busy_ret = 0 →
          (dev.master = some (some size) ∨ (dev.master = none ∧ dev.ndev = some size)) →
          (∀ p, um.values_fault p = false) → offs + 4 * remaining ≤ size →
          offs + 4 * remaining < 4294967296 → r = none) := by
  have hef : (-EFAULT : Int) ≠ 0 := by decide
  intro fuel
  induction fuel with
  | zero =>
    intro remaining offs pos st hle _
    have h0 : remaining = 0 := Nat.le_zero.mp hle
    subst h0
    exact ⟨st, none, pos, regrdwr_batches_zero dev um write 0 offs pos st,
      fun e h => Option.noConfusion h,
      fun _ => ⟨rfl, [], (List.append_nil _).symm, BatchSegment.nil write offs⟩,
      fun _ _ _ _ _ _ _ => rfl⟩
  | succ fuel ih =>
    intro remaining offs pos st hle hoffs
    by_cases hr : remaining = 0
    · subst hr
      exact ⟨st, none, pos, regrdwr_batches_zero dev um write _ offs pos st,
        fun e h => Option.noConfusion h,
        fun _ => ⟨rfl, [], (List.append_nil _).symm, BatchSegment.nil write offs⟩,
        fun _ _ _ _ _ _ _ => rfl⟩
    · have hb1 : 1 ≤ min remaining 64 := by omega
      have hb2 : min remaining 64 ≤ 64 := by omega
      have hbr : min remaining 64 ≤ remaining := by omega
      have hrec : remaining - min remaining 64 ≤ fuel := by omega
      have hc0 : (0 : Int) ≤ ((min remaining 64 : Nat) : Int) := by omega
      have hc1 : ((min remaining 64 : Nat) : Int) ≤ 64 := by omega
      have hmod : (offs + min remaining 64 * 4) % two32 < 4294967296 := by
        unfold two32; omega
      rw [regrdwr_batches_succ dev um write fuel remaining offs pos st hr]
      cases write with
      | true =>
        rw [if_pos rfl]
        by_cases hf : um.values_fault pos = true
        · rw [if_pos hf]
          refine ⟨_, _, _, rfl, ?_, ?_, ?_⟩
          · intro e he
            rw [← Option.some.inj he]
            exact hef
          · intro h
            exact Option.noConfusion h
          · intro size _ _ _ hnf _ _
            rw [hnf pos] at hf
            exact Bool.noConfusion hf
        · rw [if_neg hf]
          by_cases hw : (nvhost_write_module_regs dev st offs (min remaining 64 : Nat)
              ((List.range (min remaining 64)).map (fun i => st.user_values (pos + i)))).2 ≠ 0
          · rw [if_pos hw]
            refine ⟨_, _, _, rfl, ?_, ?_, ?_⟩
            · intro e he
              rw [← Option.some.inj he]
              exact hw
            · intro h
              exact Option.noConfusion h
            · intro size ha hb hres _ hs hlt
              exfalso
              apply hw
              apply write_module_regs_good dev st offs _ _ ha _ hb
              apply validate_reg_good dev.master dev.ndev size offs _ hres hc0 hc1
              · push_cast
                omega
              · push_cast
                omega
          · rw [if_neg hw]
            have hw0 := not_not.mp hw
            obtain ⟨hv, hlog⟩ := write_module_regs_ok dev st offs _ _ hw0
            have hbound := validate_reg_ok_bound dev.master dev.ndev offs _ hoffs hc0 hc1 hv
            have hnw : (offs + min remaining 64 * 4) % two32 = offs + 4 * min remaining 64 := by
              unfold two32
              omega
            obtain ⟨st1, r, pos1, hres, hnz, hdone, hgood⟩ :=
              ih (remaining - min remaining 64) ((offs + min remaining 64 * 4) % two32)
                (pos + min remaining 64)
                (nvhost_write_module_regs dev st offs (min remaining 64 : Nat)
                  ((List.range (min remaining 64)).map (fun i => st.user_values (pos + i)))).1
                hrec hmod
            refine ⟨st1, r, pos1, hres, hnz, ?_, ?_⟩
            · intro hn
              obtain ⟨hp, evs, hl, hseg⟩ := hdone hn
              refine ⟨by omega,
                ({ write := true, offset := offs, count := min remaining 64 } : RegEv) :: evs,
                ?_, ?_⟩
              · rw [hl, hlog, List.append_assoc, Int.toNat_ofNat]
                rfl
              · rw [hnw] at hseg
                have := BatchSegment.cons true offs (min remaining 64)
                  (remaining - min remaining 64) evs hb1 hb2 hseg
                rw [Nat.add_sub_cancel' hbr] at this
                exact this
            · intro size ha hb hres2 hnf hs hlt
              apply hgood size ha hb hres2 hnf
              · rw [hnw]; omega
              · rw [hnw]; omega
      | false =>
        rw [if_neg Bool.false_ne_true]
        by_cases hw : (nvhost_read_module_regs dev st offs (min remaining 64 : Nat)).2.1 ≠ 0
        · rw [if_pos hw]
          refine ⟨_, _, _, rfl, ?_, ?_, ?_⟩
          · intro e he
            rw [← Option.some.inj he]
            exact hw
          · intro h
            exact Option.noConfusion h
          · intro size ha hb hres _ hs hlt
            exfalso
            apply hw
            apply read_module_regs_good dev st offs _ ha _ hb
            apply validate_reg_good dev.master dev.ndev size offs _ hres hc0 hc1
            · push_cast
              omega
            · push_cast
              omega
        · rw [if_neg hw]
          by_cases hf : um.values_fault pos = true
          · rw [if_pos hf]
            refine ⟨_, _, _, rfl, ?_, ?_, ?_⟩
            · intro e he
              rw [← Option.some.inj he]
              exact hef
            · intro h
              exact Option.noConfusion h
            · intro size _ _ _ hnf _ _
              rw [hnf pos] at hf
              exact Bool.noConfusion hf
          · rw [if_neg hf]
            have hw0 := not_not.mp hw
            obtain ⟨hv, hlog⟩ := read_module_regs_ok dev st offs _ hw0
            have hbound := validate_reg_ok_bound dev.master dev.ndev offs _ hoffs hc0 hc1 hv
            have hnw : (offs + min remaining 64 * 4) % two32 = offs + 4 * min remaining 64 := by
              unfold two32
              omega
            obtain ⟨st1, r, pos1, hres, hnz, hdone, hgood⟩ :=
              ih (remaining - min remaining 64) ((offs + min remaining 64 * 4) % two32)
                (pos + min remaining 64)
                { (nvhost_read_module_regs dev st offs (min remaining 64 : Nat)).1 with
                  user_values := fun w =>
                    if pos ≤ w ∧ w < pos + min remaining 64 then
                      (nvhost_read_module_regs dev st offs (min remaining 64 : Nat)).2.2.getD
                        (w - pos) 0
                    else (nvhost_read_module_regs dev st offs
                      (min remaining 64 : Nat)).1.user_values w }
                hrec hmod
            refine ⟨st1, r, pos1, hres, hnz, ?_, ?_⟩
            · intro hn
              obtain ⟨hp, evs, hl, hseg⟩ := hdone hn
              refine ⟨by omega,
                ({ write := false, offset := offs, count := min remaining 64 } : RegEv) :: evs,
                ?_, ?_⟩
              · rw [hl]
                show (nvhost_read_module_regs dev st offs (min remaining 64 : Nat)).1.log ++ evs = _
                rw [hlog, List.append_assoc, Int.toNat_ofNat]
                rfl
              · rw [hnw] at hseg
                have := BatchSegment.cons false offs (min remaining 64)
                  (remaining - min remaining 64) evs hb1 hb2 hseg
                rw [Nat.add_sub_cancel' hbr] at this
                exact this
            · intro size ha hb hres2 hnf hs hlt
              apply hgood size ha hb hres2 hnf
              · rw [hnw]; omega
              · rw [hnw]; omega

theorem regrdwr_offsets_spec (dev : RegDev) (um : RegUser)
    (args : nvhost_ctrl_module_regrdwr_args) :
    ∀ (n idx pos : Nat) (st : RegState),
      ∃ st1 err, regrdwr_offsets dev um args n idx pos st = some (st1, err) ∧
        (err = 0 → ∃ segs : List (List RegEv), segs.length = n ∧
          st1.log = st.log ++ segs.flatten ∧
          ∀ j (h : j < segs.length), ∃ offs, um.offsets.get? (idx + j) = some offs ∧
            BatchSegment (decide (args.write ≠ 0)) (offs % 4294967296)
              (args.block_size >>> 2) (segs.get ⟨j, h⟩)) ∧
        (∀ size, dev.aperture = true → dev.module_busy_ret = 0 →
          (dev.master = some (some size) ∨ (dev.master = none ∧ dev.ndev = some size)) →
          (∀ p, um.values_fault p = false) →
          (∀ j, j < n → ∃ offs, um.offsets.get? (idx + j) = some offs ∧
            offs % 4294967296 + 4 * (args.block_size >>> 2) ≤ size ∧
            offs % 4294967296 + 4 * (args.block_size >>> 2) < 4294967296) →
          err = 0) := by
  have hef : (-EFAULT : Int) ≠ 0 := by decide
  intro n
  induction n with
  | zero =>
    intro idx pos st
    refine ⟨st, 0, rfl, fun _ => ⟨[], rfl, ?_, ?_⟩, fun _ _ _ _ _ _ => rfl⟩
    · simp
    · intro j h
      exact absurd h (Nat.not_lt_zero j)
  | succ n ih =>
    intro idx pos st
    unfold regrdwr_offsets
    rcases ho : um.offsets.get? idx with _ | offs
    · refine ⟨st, -EFAULT, rfl, fun h => absurd h hef, ?_⟩
      intro size _ _ _ _ hall
      obtain ⟨o, h1, _⟩ := hall 0 (Nat.succ_pos n)
      rw [Nat.add_zero, ho] at h1
      exact Option.noConfusion h1
    · have hlt : offs % two32 < 4294967296 := by unfold two32; omega
      obtain ⟨st1, r, pos1, hres, hnz, hdone, hgood⟩ :=
        regrdwr_batches_spec dev um (decide (args.write ≠ 0)) (args.block_size >>> 2)
          (args.block_size >>> 2) (offs % two32) pos st (Nat.le_refl _) hlt
      simp only [hres]
      rcases r with _ | e
      · obtain ⟨hp, evs, hl, hseg⟩ := hdone rfl
        obtain ⟨st2, err, hres2, hok, hfw⟩ := ih (idx + 1) pos1 st1
        refine ⟨st2, err, hres2, ?_, ?_⟩
        · intro he
          obtain ⟨segs, hlen, hlog, hsegs⟩ := hok he
          refine ⟨evs :: segs, by simp [hlen], ?_, ?_⟩
          · rw [hlog, hl, List.flatten_cons, List.append_assoc]
          · intro j h
            cases j with
            | zero => exact ⟨offs, ho, hseg⟩
            | succ j =>
              have hj : j < segs.length := by simpa using h
              obtain ⟨o, h1, h2⟩ := hsegs j hj
              refine ⟨o, ?_, h2⟩
              rw [← h1]
              congr 1
              omega
        · intro size ha hb hr hnf hall
          apply hfw size ha hb hr hnf
          intro j hj
          obtain ⟨o, h1, h2⟩ := hall (j + 1) (Nat.succ_lt_succ hj)
          refine ⟨o, ?_, h2⟩
          rw [← h1]
          congr 1
          omega
      · refine ⟨st1, e, rfl, fun h => absurd h (hnz e rfl), ?_⟩
        intro size ha hb hr hnf hall
        obtain ⟨o, h1, h2, h3⟩ := hall 0 (Nat.succ_pos n)
        rw [Nat.add_zero, ho] at h1
        have ho2 : offs = o := Option.some.inj h1
        subst ho2
        have := hgood size ha hb hr hnf h2 h3
        exact Option.noConfusion this

theorem module_regrdwr_total (dev : RegDev) (um : RegUser) (st : RegState)
    (args : nvhost_ctrl_module_regrdwr_args) :
    ∃ r, nvhost_ioctl_channel_module_regrdwr dev um st args = some r := by
  unfold nvhost_ioctl_channel_module_regrdwr
  split_ifs with h
  · exact ⟨_, rfl⟩
  · obtain ⟨st1, err, hres, _⟩ := regrdwr_offsets_spec dev um args args.num_offsets 0 0 st
    exact ⟨_, hres⟩

/-- C27. `nvhost_ioctl_channel_module_regrdwr` works in batches.  A request
with `num_offsets = 0` or a `block_size` that is not a multiple of 4 returns
`-EINVAL` and leaves the state, and so the list of register accesses, as it
was.  Every other request terminates with a status, and then: when the device
has an aperture and can be powered, no copy of values faults, and every one of
the `num_offsets` start offsets can be read and has `block_size` bytes of room
in the register resource, the status is 0; and whenever the status is 0 the
accesses made are `num_offsets` segments, the `j`-th for the `j`-th start
offset, each a sequence of accesses of 1 to 64 words in the direction asked
for, the `k`-th at the start offset plus four times the words moved before it,
with word counts adding up to `block_size / 4`. -/
theorem module_regrdwr_batching (dev : RegDev) (um : RegUser) (st : RegState)
    (args : nvhost_ctrl_module_regrdwr_args) :
    ((args.num_offsets = 0 ∨ args.block_size % 4 ≠ 0) →
      nvhost_ioctl_channel_module_regrdwr dev um st args = some (st, -EINVAL)) ∧
    (0 < args.num_offsets → args.block_size % 4 = 0 →
      ∃ st1 err, nvhost_ioctl_channel_module_regrdwr dev um st args = some (st1, err) ∧
        (∀ size, dev.aperture = true → dev.module_busy_ret = 0 →
          (dev.master = some (some size) ∨ (dev.master = none ∧ dev.ndev = some size)) →
          (∀ p, um.values_fault p = false) →
          (∀ j, j < args.num_offsets → ∃ offs, um.offsets.get? j = some offs ∧
            offs % 4294967296 + args.block_size ≤ size ∧
            offs % 4294967296 + args.block_size < 4294967296) →
          err = 0) ∧
        (err = 0 → ∃ segs : List (List RegEv), segs.length = args.num_offsets ∧
          st1.log = st.log ++ segs.flatten ∧
          ∀ j (h : j < segs.length), ∃ offs, um.offsets.get? j = some offs ∧
            BatchSegment (decide (args.write ≠ 0)) (offs % 4294967296)
              (args.block_size / 4) (segs.get ⟨j, h⟩))) := by
  have hand : args.block_size &&& 3 = args.block_size % 4 :=
    Nat.and_pow_two_sub_one_eq_mod args.block_size 2
  have hshift : args.block_size >>> 2 = args.block_size / 4 :=
    Nat.shiftRight_eq_div_pow args.block_size 2
  constructor
  · intro h
    unfold nvhost_ioctl_channel_module_regrdwr
    rw [hand]
    exact if_pos h
  · intro hn hb
    have hcond : ¬ (args.num_offsets = 0 ∨ args.block_size &&& 3 ≠ 0) := by
      rw [hand]
      omega
    obtain ⟨st1, err, hres, hok, hgood⟩ :=
      regrdwr_offsets_spec dev um args args.num_offsets 0 0 st
    refine ⟨st1, err, ?_, ?_, ?_⟩
    · unfold nvhost_ioctl_channel_module_regrdwr
      rw [if_neg hcond]
      exact hres
    · intro size ha hbusy hr hnf hall
      apply hgood size ha hbusy hr hnf
      intro j hj
      obtain ⟨o, h1, h2, h3⟩ := hall j hj
      refine ⟨o, by rw [Nat.zero_add]; exact h1, ?_, ?_⟩
      · rw [hshift]; omega
      · rw [hshift]; omega
    · intro he
      obtain ⟨segs, hlen, hlog, hsegs⟩ := hok he
      refine ⟨segs, hlen, hlog, ?_⟩
      intro j h
      obtain ⟨o, h1, h2⟩ := hsegs j h
      rw [Nat.zero_add] at h1
      rw [hshift] at h2
      exact ⟨o, h1, h2⟩

theorem module_regrdwr_batching_witness :
    (nvhost_ioctl_channel_module_regrdwr demoRegDev
        { offsets := [16, 256], values_fault := fun _ => false } demoRegState
        { id := 0, num_offsets := 2, block_size := 520, offsets := 0, values := 0,
          write := 1 }).map (fun r => (r.1.log, r.2)) =
      some ([{ write := true, offset := 16, count := 64 },
             { write := true, offset := 272, count := 64 },
             { write := true, offset := 528, count := 2 },
             { write := true, offset := 256, count := 64 },
             { write := true, offset := 512, count := 64 },
             { write := true, offset := 768, count := 2 }], 0) ∧
    (nvhost_ioctl_channel_module_regrdwr demoRegDev
        { offsets := [16, 256], values_fault := fun _ => false } demoRegState
        { id := 0, num_offsets := 0, block_size := 520, offsets := 0, values := 0,
          write := 1 }).map (fun r => (r.1.log, r.2)) = some ([], -EINVAL) ∧
    ∃ st1, nvhost_ioctl_channel_module_regrdwr demoRegDev
        { offsets := [16, 256], values_fault := fun _ => false } demoRegState
        { id := 0, num_offsets := 2, block_size := 520, offsets := 0, values := 0,
          write := 1 } = some (st1, 0) ∧
      ∃ segs : List (List RegEv), segs.length = 2 ∧
        st1.log = demoRegState.log ++ segs.flatten ∧
        ∀ j (h : j < segs.length), ∃ offs,
          [16, 256].get? j = some offs ∧
          BatchSegment true (offs % 4294967296) (520 / 4) (segs.get ⟨j, h⟩) := by
  refine ⟨by decide, ?_, ?_⟩
  · rw [(module_regrdwr_batching demoRegDev
        { offsets := [16, 256], values_fault := fun _ => false } demoRegState
        { id := 0, num_offsets := 0, block_size := 520, offsets := 0, values := 0,
          write := 1 }).1 (Or.inl rfl)]
    rfl
  · obtain ⟨st1, err, hres, hgood, hok⟩ := (module_regrdwr_batching demoRegDev
        { offsets := [16, 256], values_fault := fun _ => false } demoRegState
        { id := 0, num_offsets := 2, block_size := 520, offsets := 0, values := 0,
          write := 1 }).2 (by decide) (by decide)
    have he : err = 0 := by
      apply hgood 4096 rfl rfl (Or.inr ⟨rfl, rfl⟩) (fun _ => rfl)
      intro j hj
      have hj2 : j < 2 := hj
      interval_cases j
      · exact ⟨16, rfl, by decide, by decide⟩
      · exact ⟨256, rfl, by decide, by decide⟩
    subst he
    exact ⟨st1, hres, hok rfl⟩

/-! ### The context's sync-point table across control calls -/

theorem channelctl_SUBMIT_priv_syncpts (c : HostConsts) (channel_policy : nvhost_channel_policy)
    (syncpt_policy : nvhost_syncpt_policy) (nb_pts : Int) (pdata : nvhost_device_data)
    (menv : MapEnv) (priv : nvhost_channel_userctx) (ch : nvhost_channel) (channel_refs : Int)
    (args : nvhost_submit_args) (um : SubmitUser) (env : SubmitEnv) :
    (nvhost_channelctl_SUBMIT c channel_policy syncpt_policy nb_pts pdata menv priv ch
      channel_refs args um env).priv.syncpts = priv.syncpts := by
  unfold nvhost_channelctl_SUBMIT
  split_ifs <;> rfl

theorem channelctl_SUBMIT32_priv_syncpts (c : HostConsts)
    (channel_policy : nvhost_channel_policy)
    (syncpt_policy : nvhost_syncpt_policy) (nb_pts : Int) (pdata : nvhost_device_data)
    (menv : MapEnv) (priv : nvhost_channel_userctx) (ch : nvhost_channel) (channel_refs : Int)
    (args : nvhost32_submit_args) (um : SubmitUser) (env : SubmitEnv) :
    (nvhost_channelctl_SUBMIT32 c channel_policy syncpt_policy nb_pts pdata menv priv ch
      channel_refs args um env).priv.syncpts = priv.syncpts := by
  unfold nvhost_channelctl_SUBMIT32
  split_ifs <;> rfl

theorem get_client_syncpt_syncpts (policy : nvhost_syncpt_policy) (name_ok : Bool)
    (new_id : Nat) (given : List Nat) (ctx : nvhost_channel_userctx) (ch : nvhost_channel) :
    (nvhost_ioctl_channel_get_client_syncpt policy name_ok new_id given ctx ch).1.syncpts =
      ctx.syncpts := by
  unfold nvhost_ioctl_channel_get_client_syncpt
  split_ifs <;> rfl

theorem init_error_notifier_syncpts (env : NotifierEnv) (b : DmaBufs)
    (ctx : nvhost_channel_userctx) (args : nvhost_set_error_notifier) :
    (nvhost_init_error_notifier env b ctx args).2.1.syncpts = ctx.syncpts := by
  unfold nvhost_init_error_notifier
  split_ifs with h
  · rfl
  · cases env.fd_table args.mem with
    | dmabuf d =>
      dsimp only
      split_ifs <;> rfl
    | _ => rfl

theorem channelctl_priv_syncpts (c : HostConsts) (k : CtlConsts) (w : CtlWorld)
    (cmd : ChannelCmd) (h : ∀ p n, cmd ≠ ChannelCmd.GET_SYNCPOINT p n) :
    ∃ r, nvhost_channelctl c k w cmd = some r ∧ r.w.priv.syncpts = w.priv.syncpts := by
  unfold nvhost_channelctl
  by_cases hp : w.priv.pdev.isNone = true
  · rw [if_pos hp]
    exact ⟨_, rfl, rfl⟩
  · rw [if_neg hp]
    cases cmd with
    | OPEN env =>
      dsimp only
      split_ifs <;> exact ⟨_, rfl, rfl⟩
    | GET_SYNCPOINT p n => exact absurd rfl (h p n)
    | GET_CLIENT_MANAGED_SYNCPOINT name_ok new_id =>
      exact ⟨_, rfl, get_client_syncpt_syncpts _ _ _ _ _ _⟩
    | GET_MODMUTEX param =>
      dsimp only
      split_ifs <;> exact ⟨_, rfl, rfl⟩
    | MODULE_REGRDWR32 args um =>
      obtain ⟨r, hr⟩ := module_regrdwr_total w.regdev um w.regs args
      dsimp only
      rw [hr]
      exact ⟨_, rfl, rfl⟩
    | MODULE_REGRDWR args um =>
      obtain ⟨r, hr⟩ := module_regrdwr_total w.regdev um w.regs args
      dsimp only
      rw [hr]
      exact ⟨_, rfl, rfl⟩
    | SUBMIT32 args32 um env menv =>
      exact ⟨_, rfl, channelctl_SUBMIT32_priv_syncpts _ _ _ _ _ _ _ _ _ _ _ _⟩
    | SUBMIT args um env menv =>
      exact ⟨_, rfl, channelctl_SUBMIT_priv_syncpts _ _ _ _ _ _ _ _ _ _ _ _⟩
    | SET_ERROR_NOTIFIER args env =>
      exact ⟨_, rfl, init_error_notifier_syncpts _ _ _ _⟩
    | _ => exact ⟨_, rfl, rfl⟩

theorem get_syncpt_instance_cases (new_id : Nat) (given : List Nat)
    (ctx : nvhost_channel_userctx) (index : Nat) :
    (ctx.syncpts.getD index 0 ≠ 0 ∧
      nvhost_ioctl_channel_get_syncpt_instance new_id given ctx index =
        (ctx, given, ctx.syncpts.getD index 0)) ∨
    (ctx.syncpts.getD index 0 = 0 ∧ new_id = 0 ∧
      nvhost_ioctl_channel_get_syncpt_instance new_id given ctx index = (ctx, given, 0)) ∨
    (ctx.syncpts.getD index 0 = 0 ∧ new_id ≠ 0 ∧
      nvhost_ioctl_channel_get_syncpt_instance new_id given ctx index =
        ({ ctx with syncpts := ctx.syncpts.set index new_id }, given ++ [new_id], new_id)) := by
  unfold nvhost_ioctl_channel_get_syncpt_instance nvhost_get_syncpt_host_managed
  by_cases h1 : ctx.syncpts.getD index 0 = 0
  · by_cases h2 : new_id = 0
    · right; left
      refine ⟨h1, h2, ?_⟩
      simp only [h1, h2, ne_eq, not_true_eq_false, if_false, if_true]
    · right; right
      refine ⟨h1, h2, ?_⟩
      simp only [h1, h2, ne_eq, not_true_eq_false, if_false, if_true]
  · left
    refine ⟨h1, ?_⟩
    simp only [h1, ne_eq, not_false_eq_true, if_true]

theorem get_syncpt_channel_cases (new_id : Nat) (given : List Nat)
    (ch : nvhost_channel) (index : Nat) :
    (ch.syncpts.getD index 0 ≠ 0 ∧
      nvhost_ioctl_channel_get_syncpt_channel new_id given ch index =
        (ch, given, ch.syncpts.getD index 0)) ∨
    (ch.syncpts.getD index 0 = 0 ∧ new_id = 0 ∧
      nvhost_ioctl_channel_get_syncpt_channel new_id given ch index = (ch, given, 0)) ∨
    (ch.syncpts.getD index 0 = 0 ∧ new_id ≠ 0 ∧
      nvhost_ioctl_channel_get_syncpt_channel new_id given ch index =
        ({ ch with syncpts := ch.syncpts.set index new_id }, given ++ [new_id], new_id)) := by
  unfold nvhost_ioctl_channel_get_syncpt_channel nvhost_get_syncpt_host_managed
  by_cases h1 : ch.syncpts.getD index 0 = 0
  · by_cases h2 : new_id = 0
    · right; left
      refine ⟨h1, h2, ?_⟩
      simp only [h1, h2, ne_eq, not_true_eq_false, if_false, if_true]
    · right; right
      refine ⟨h1, h2, ?_⟩
      simp only [h1, h2, ne_eq, not_true_eq_false, if_false, if_true]
  · left
    refine ⟨h1, ?_⟩
    simp only [h1, ne_eq, not_false_eq_true, if_true]

theorem getD_set_self (l : List Nat) (i v : Nat) (h : i < l.length) :
    (l.set i v).getD i 0 = v := by
  simp [List.getD_eq_getElem?_getD, h]

theorem getD_set_other (l : List Nat) (i j v : Nat) (h : i ≠ j) :
    (l.set i v).getD j 0 = l.getD j 0 := by
  simp [List.getD_eq_getElem?_getD, List.getElem?_set_ne h]

theorem channelctl_get_syncpoint_eq (c : HostConsts) (k : CtlConsts) (w : CtlWorld)
    (param new_id : Nat) (hp : ¬ w.priv.pdev.isNone = true)
    (hlt : param < c.NVHOST_MODULE_MAX_SYNCPTS) :
    nvhost_channelctl c k w (ChannelCmd.GET_SYNCPOINT param new_id) =
      if w.host.syncpt_policy = nvhost_syncpt_policy.SYNCPT_PER_CHANNEL_INSTANCE then
        some { w := { w with
                 priv := (nvhost_ioctl_channel_get_syncpt_instance new_id w.syncpts_given
                   w.priv param).1,
                 syncpts_given := (nvhost_ioctl_channel_get_syncpt_instance new_id
                   w.syncpts_given w.priv param).2.1 },
               err := if (nvhost_ioctl_channel_get_syncpt_instance new_id w.syncpts_given
                   w.priv param).2.2 = 0 then -EAGAIN else 0,
               value := some (nvhost_ioctl_channel_get_syncpt_instance new_id w.syncpts_given
                   w.priv param).2.2,
               submit := none }
      else
        some { w := { w with
                 ch := (nvhost_ioctl_channel_get_syncpt_channel new_id w.syncpts_given
                   w.ch param).1,
                 syncpts_given := (nvhost_ioctl_channel_get_syncpt_channel new_id
                   w.syncpts_given w.ch param).2.1 },
               err := if (nvhost_ioctl_channel_get_syncpt_channel new_id w.syncpts_given
                   w.ch param).2.2 = 0 then -EAGAIN else 0,
               value := some (nvhost_ioctl_channel_get_syncpt_channel new_id w.syncpts_given
                   w.ch param).2.2,
               submit := none } := by
  unfold nvhost_channelctl
  rw [if_neg hp]
  dsimp only
  rw [if_neg (Nat.not_le.mpr hlt)]

theorem channelctl_get_syncpoint_einval (c : HostConsts) (k : CtlConsts) (w : CtlWorld)
    (param new_id : Nat) (hp : ¬ w.priv.pdev.isNone = true)
    (hge : param ≥ c.NVHOST_MODULE_MAX_SYNCPTS) :
    nvhost_channelctl c k w (ChannelCmd.GET_SYNCPOINT param new_id) =
      some { w := w, err := -EINVAL, value := none, submit := none } := by
  unfold nvhost_channelctl
  rw [if_neg hp]
  dsimp only
  rw [if_pos hge]

theorem channelctl_efault (c : HostConsts) (k : CtlConsts) (w : CtlWorld)
    (cmd : ChannelCmd) (hp : w.priv.pdev.isNone = true) :
    nvhost_channelctl c k w cmd =
      some { w := w, err := -EFAULT, value := none, submit := none } := by
  unfold nvhost_channelctl
  rw [if_pos hp]

theorem channelctl_get_syncpoint_char (c : HostConsts) (k : CtlConsts) (w : CtlWorld)
    (param new_id : Nat) :
    ∃ r, nvhost_channelctl c k w (ChannelCmd.GET_SYNCPOINT param new_id) = some r ∧
      r.w.priv.pdev = w.priv.pdev ∧ r.w.host = w.host ∧
      ((r.err ≠ 0 ∧ r.w.priv.syncpts = w.priv.syncpts ∧ r.w.ch.syncpts = w.ch.syncpts) ∨
       (r.err = 0 ∧ ¬ w.priv.pdev.isNone = true ∧ param < c.NVHOST_MODULE_MAX_SYNCPTS ∧
         w.host.syncpt_policy = nvhost_syncpt_policy.SYNCPT_PER_CHANNEL_INSTANCE ∧
         r.w.ch = w.ch ∧
         ∃ id, id ≠ 0 ∧ r.value = some id ∧
           ((w.priv.syncpts.getD param 0 = id ∧ r.w.priv.syncpts = w.priv.syncpts) ∨
            (w.priv.syncpts.getD param 0 = 0 ∧
              r.w.priv.syncpts = w.priv.syncpts.set param id))) ∨
       (r.err = 0 ∧ ¬ w.priv.pdev.isNone = true ∧ param < c.NVHOST_MODULE_MAX_SYNCPTS ∧
         w.host.syncpt_policy ≠ nvhost_syncpt_policy.SYNCPT_PER_CHANNEL_INSTANCE ∧
         r.w.priv = w.priv ∧
         ∃ id, id ≠ 0 ∧ r.value = some id ∧
           ((w.ch.syncpts.getD param 0 = id ∧ r.w.ch.syncpts = w.ch.syncpts) ∨
            (w.ch.syncpts.getD param 0 = 0 ∧
              r.w.ch.syncpts = w.ch.syncpts.set param id)))) := by
  have hef : (-EFAULT : Int) ≠ 0 := by decide
  have hei : (-EINVAL : Int) ≠ 0 := by decide
  have hea : (-EAGAIN : Int) ≠ 0 := by decide
  by_cases hp : w.priv.pdev.isNone = true
  · rw [channelctl_efault c k w _ hp]
    exact ⟨_, rfl, rfl, rfl, Or.inl ⟨hef, rfl, rfl⟩⟩
  by_cases hlt : param < c.NVHOST_MODULE_MAX_SYNCPTS
  swap
  · rw [channelctl_get_syncpoint_einval c k w param new_id hp (Nat.not_lt.mp hlt)]
    exact ⟨_, rfl, rfl, rfl, Or.inl ⟨hei, rfl, rfl⟩⟩
  rw [channelctl_get_syncpoint_eq c k w param new_id hp hlt]
  by_cases hpol : w.host.syncpt_policy = nvhost_syncpt_policy.SYNCPT_PER_CHANNEL_INSTANCE
  · rw [if_pos hpol]
    rcases get_syncpt_instance_cases new_id w.syncpts_given w.priv param with
      ⟨h1, h2⟩ | ⟨h1, h0, h2⟩ | ⟨h1, h0, h2⟩
    · rw [h2]
      refine ⟨_, rfl, rfl, rfl, Or.inr (Or.inl ⟨if_neg h1, hp, hlt, hpol, rfl, _, h1, rfl,
        Or.inl ⟨rfl, rfl⟩⟩)⟩
    · rw [h2]
      refine ⟨_, rfl, rfl, rfl, Or.inl ⟨?_, rfl, rfl⟩⟩
      show (if (0 : Nat) = 0 then -EAGAIN else (0 : Int)) ≠ 0
      rw [if_pos rfl]
      exact hea
    · rw [h2]
      refine ⟨_, rfl, rfl, rfl, Or.inr (Or.inl ⟨if_neg h0, hp, hlt, hpol, rfl, _, h0, rfl,
        Or.inr ⟨h1, rfl⟩⟩)⟩
  · rw [if_neg hpol]
    rcases get_syncpt_channel_cases new_id w.syncpts_given w.ch param with
      ⟨h1, h2⟩ | ⟨h1, h0, h2⟩ | ⟨h1, h0, h2⟩
    · rw [h2]
      refine ⟨_, rfl, rfl, rfl, Or.inr (Or.inr ⟨if_neg h1, hp, hlt, hpol, rfl, _, h1, rfl,
        Or.inl ⟨rfl, rfl⟩⟩)⟩
    · rw [h2]
      refine ⟨_, rfl, rfl, rfl, Or.inl ⟨?_, rfl, rfl⟩⟩
      show (if (0 : Nat) = 0 then -EAGAIN else (0 : Int)) ≠ 0
      rw [if_pos rfl]
      exact hea
    · rw [h2]
      refine ⟨_, rfl, rfl, rfl, Or.inr (Or.inr ⟨if_neg h0, hp, hlt, hpol, rfl, _, h0, rfl,
        Or.inr ⟨h1, rfl⟩⟩)⟩

theorem get_syncpt_instance_hit (new_id : Nat) (given : List Nat)
    (ctx : nvhost_channel_userctx) (index : Nat) (h : ctx.syncpts.getD index 0 ≠ 0) :
    nvhost_ioctl_channel_get_syncpt_instance new_id given ctx index =
      (ctx, given, ctx.syncpts.getD index 0) := by
  rcases get_syncpt_instance_cases new_id given ctx index with
    ⟨_, h2⟩ | ⟨h1, _, _⟩ | ⟨h1, _, _⟩
  · exact h2
  · exact absurd h1 h
  · exact absurd h1 h

theorem get_syncpt_channel_hit (new_id : Nat) (given : List Nat)
    (ch : nvhost_channel) (index : Nat) (h : ch.syncpts.getD index 0 ≠ 0) :
    nvhost_ioctl_channel_get_syncpt_channel new_id given ch index =
      (ch, given, ch.syncpts.getD index 0) := by
  rcases get_syncpt_channel_cases new_id given ch index with
    ⟨_, h2⟩ | ⟨h1, _, _⟩ | ⟨h1, _, _⟩
  · exact h2
  · exact absurd h1 h
  · exact absurd h1 h

theorem channelctl_get_syncpoint_repeat (c : HostConsts) (k : CtlConsts) (w : CtlWorld)
    (param new_id : Nat) (r : CtlResult)
    (hr : nvhost_channelctl c k w (ChannelCmd.GET_SYNCPOINT param new_id) = some r)
    (herr : r.err = 0)
    (hl1 : w.priv.syncpts.length = c.NVHOST_MODULE_MAX_SYNCPTS)
    (hl2 : w.ch.syncpts.length = c.NVHOST_MODULE_MAX_SYNCPTS) (new_id2 : Nat) :
    ∃ r2, nvhost_channelctl c k r.w (ChannelCmd.GET_SYNCPOINT param new_id2) = some r2 ∧
      r2.err = 0 ∧ r2.value = r.value ∧ r2.w.syncpts_given = r.w.syncpts_given ∧
      r2.w.priv.syncpts = r.w.priv.syncpts ∧ r2.w.ch.syncpts = r.w.ch.syncpts := by
  obtain ⟨r0, hr0, hpdev, hhost, hcases⟩ := channelctl_get_syncpoint_char c k w param new_id
  rw [hr] at hr0
  have hrr : r = r0 := Option.some.inj hr0
  subst hrr
  rcases hcases with ⟨hne, _, _⟩ | ⟨_, hp, hlt, hpol, hch, id, hid, hval, htab⟩ |
    ⟨_, hp, hlt, hpol, hpriv, id, hid, hval, htab⟩
  · exact absurd herr hne
  · have hp2 : ¬ r.w.priv.pdev.isNone = true := by rw [hpdev]; exact hp
    have hpol2 : r.w.host.syncpt_policy = nvhost_syncpt_policy.SYNCPT_PER_CHANNEL_INSTANCE := by
      rw [hhost]; exact hpol
    have hget : r.w.priv.syncpts.getD param 0 = id := by
      rcases htab with ⟨h1, h2⟩ | ⟨_, h2⟩
      · rw [h2]; exact h1
      · rw [h2]
        exact getD_set_self _ _ _ (by rw [hl1]; exact hlt)
    have hne : r.w.priv.syncpts.getD param 0 ≠ 0 := by rw [hget]; exact hid
    rw [channelctl_get_syncpoint_eq c k r.w param new_id2 hp2 hlt, if_pos hpol2,
      get_syncpt_instance_hit new_id2 r.w.syncpts_given r.w.priv param hne]
    refine ⟨_, rfl, if_neg hne, ?_, rfl, rfl, rfl⟩
    rw [hval]
    exact congrArg some hget
  · have hp2 : ¬ r.w.priv.pdev.isNone = true := by rw [hpdev]; exact hp
    have hpol2 : r.w.host.syncpt_policy ≠ nvhost_syncpt_policy.SYNCPT_PER_CHANNEL_INSTANCE := by
      rw [hhost]; exact hpol
    have hget : r.w.ch.syncpts.getD param 0 = id := by
      rcases htab with ⟨h1, h2⟩ | ⟨_, h2⟩
      · rw [h2]; exact h1
      · rw [h2]
        exact getD_set_self _ _ _ (by rw [hl2]; exact hlt)
    have hne : r.w.ch.syncpts.getD param 0 ≠ 0 := by rw [hget]; exact hid
    rw [channelctl_get_syncpoint_eq c k r.w param new_id2 hp2 hlt, if_neg hpol2,
      get_syncpt_channel_hit new_id2 r.w.syncpts_given r.w.ch param hne]
    refine ⟨_, rfl, if_neg hne, ?_, rfl, rfl, rfl⟩
    rw [hval]
    exact congrArg some hget

/-- C22. Every control call `nvhost_channelctl` makes on a context returns,
and leaves the context's sync-point table `priv->syncpts` with every entry
that was nonzero before the call at the same value (the table keeps its
length).  An entry that differs after the call was zero before it, and the
call was `GET_SYNCPOINT` on that index under the per-instance policy, which
returned the new entry.  When a `GET_SYNCPOINT(index)` has succeeded on tables
of `NVHOST_MODULE_MAX_SYNCPTS` entries, a second `GET_SYNCPOINT(index)`,
whatever the allocator would offer, succeeds with the same id and hands out no
further sync point, under either policy. -/
theorem channelctl_syncpt_table_stable (c : HostConsts) (k : CtlConsts) (w : CtlWorld)
    (cmd : ChannelCmd) :
    ∃ r, nvhost_channelctl c k w cmd = some r ∧
      r.w.priv.syncpts.length = w.priv.syncpts.length ∧
      (∀ i, w.priv.syncpts.getD i 0 ≠ 0 →
        r.w.priv.syncpts.getD i 0 = w.priv.syncpts.getD i 0) ∧
      (∀ i, r.w.priv.syncpts.getD i 0 ≠ w.priv.syncpts.getD i 0 →
        w.priv.syncpts.getD i 0 = 0 ∧
        w.host.syncpt_policy = nvhost_syncpt_policy.SYNCPT_PER_CHANNEL_INSTANCE ∧
        r.value = some (r.w.priv.syncpts.getD i 0) ∧
        ∃ new_id, cmd = ChannelCmd.GET_SYNCPOINT i new_id) ∧
      (∀ index new_id, cmd = ChannelCmd.GET_SYNCPOINT index new_id → r.err = 0 →
        w.priv.syncpts.length = c.NVHOST_MODULE_MAX_SYNCPTS →
        w.ch.syncpts.length = c.NVHOST_MODULE_MAX_SYNCPTS →
        ∀ new_id2, ∃ r2,
          nvhost_channelctl c k r.w (ChannelCmd.GET_SYNCPOINT index new_id2) = some r2 ∧
          r2.err = 0 ∧ r2.value = r.value ∧ r2.w.syncpts_given = r.w.syncpts_given ∧
          r2.w.priv.syncpts = r.w.priv.syncpts ∧ r2.w.ch.syncpts = r.w.ch.syncpts) := by
  by_cases hc : ∃ p n, cmd = ChannelCmd.GET_SYNCPOINT p n
  · obtain ⟨p, n, hcmd⟩ := hc
    subst hcmd
    obtain ⟨r, hr, hpdev, hhost, hcases⟩ := channelctl_get_syncpoint_char c k w p n
    refine ⟨r, hr, ?_, ?_, ?_, ?_⟩
    · rcases hcases with ⟨_, h, _⟩ | ⟨_, _, _, _, _, id, _, _, htab⟩ |
        ⟨_, _, _, _, hpriv, _⟩
      · rw [h]
      · rcases htab with ⟨_, h⟩ | ⟨_, h⟩
        · rw [h]
        · rw [h, List.length_set]
      · rw [hpriv]
    · intro i hi
      rcases hcases with ⟨_, h, _⟩ | ⟨_, _, _, _, _, id, _, _, htab⟩ |
        ⟨_, _, _, _, hpriv, _⟩
      · rw [h]
      · rcases htab with ⟨_, h⟩ | ⟨h0, h⟩
        · rw [h]
        · rw [h]
          apply getD_set_other
          intro hpi
          subst hpi
          exact hi h0
      · rw [hpriv]
    · intro i hi
      rcases hcases with ⟨_, h, _⟩ | ⟨_, _, _, hpol, _, id, _, hval, htab⟩ |
        ⟨_, _, _, _, hpriv, _⟩
      · rw [h] at hi
        exact absurd rfl hi
      · rcases htab with ⟨_, h⟩ | ⟨h0, h⟩
        · rw [h] at hi
          exact absurd rfl hi
        · have hpi : p = i := by
            by_contra hne
            apply hi
            rw [h]
            exact getD_set_other _ _ _ _ hne
          subst hpi
          have hlt : p < w.priv.syncpts.length := by
            by_contra hge
            apply hi
            rw [h, List.set_eq_of_length_le (Nat.not_lt.mp hge)]
          refine ⟨h0, hpol, ?_, n, rfl⟩
          rw [hval, h, getD_set_self _ _ _ hlt]
      · rw [hpriv] at hi
        exact absurd rfl hi
    · intro index new_id hcmd herr hl1 hl2 new_id2
      cases hcmd
      exact channelctl_get_syncpoint_repeat c k w p n r hr herr hl1 hl2 new_id2
  · have hc2 : ∀ p n, cmd ≠ ChannelCmd.GET_SYNCPOINT p n := fun p n h => hc ⟨p, n, h⟩
    obtain ⟨r, hr, hs⟩ := channelctl_priv_syncpts c k w cmd hc2
    refine ⟨r, hr, by rw [hs], fun i _ => by rw [hs], ?_, ?_⟩
    · intro i hi
      rw [hs] at hi
      exact absurd rfl hi
    · intro index new_id hcmd
      exact absurd hcmd (hc2 index new_id)

theorem channelctl_syncpt_table_stable_witness :
    ∃ r r2, nvhost_channelctl tegraHostConsts tegraCtlConsts
        { demoWorld nvhost_syncpt_policy.SYNCPT_PER_CHANNEL_INSTANCE with
          priv := { demoCtx with syncpts := [5, 6, 0, 0, 0, 0, 0, 0, 0, 0, 0, 0, 0, 0, 0, 0] },
          ch := { demoChannel with
            syncpts := [9, 0, 0, 0, 0, 0, 0, 0, 0, 0, 0, 0, 0, 0, 0, 0] } }
        (ChannelCmd.GET_SYNCPOINT 2 44) = some r ∧
      r.err = 0 ∧ r.value = some 44 ∧
      r.w.priv.syncpts = [5, 6, 44, 0, 0, 0, 0, 0, 0, 0, 0, 0, 0, 0, 0, 0] ∧
      r.w.syncpts_given = [44] ∧
      nvhost_channelctl tegraHostConsts tegraCtlConsts r.w
        (ChannelCmd.GET_SYNCPOINT 2 45) = some r2 ∧
      r2.err = 0 ∧ r2.value = some 44 ∧ r2.w.syncpts_given = [44] ∧
      r2.w.priv.syncpts = [5, 6, 44, 0, 0, 0, 0, 0, 0, 0, 0, 0, 0, 0, 0, 0] := by
  obtain ⟨r, hr, _, _, _, hrep⟩ := channelctl_syncpt_table_stable tegraHostConsts tegraCtlConsts
    { demoWorld nvhost_syncpt_policy.SYNCPT_PER_CHANNEL_INSTANCE with
          priv := { demoCtx with syncpts := [5, 6, 0, 0, 0, 0, 0, 0, 0, 0, 0, 0, 0, 0, 0, 0] },
          ch := { demoChannel with
            syncpts := [9, 0, 0, 0, 0, 0, 0, 0, 0, 0, 0, 0, 0, 0, 0, 0] } }
    (ChannelCmd.GET_SYNCPOINT 2 44)
  have hr0 := hr
  rw [channelctl_get_syncpoint_eq _ _ _ _ _ (by decide) (by decide)] at hr
  have hrr := Option.some.inj hr
  subst hrr
  obtain ⟨r2, hr2, he2, hv2, hg2, hp2, _⟩ := hrep 2 44 rfl rfl rfl rfl 45
  exact ⟨_, r2, hr0, rfl, rfl, rfl, rfl, hr2, he2, hv2, hg2, hp2⟩

/-! ### The copy of the sync-point table into the mapped channel -/

theorem submit_syncpt_loop_congr (table : List Nat) (um um2 : SubmitUser)
    (h : um2.syncpt_incrs = um.syncpt_incrs) (is : List Nat) :
    ∀ st : SubmitSt, submit_syncpt_loop table um2 is st = submit_syncpt_loop table um is st := by
  induction is with
  | nil => intro st; rfl
  | cons i rest ih =>
    intro st
    unfold submit_syncpt_loop
    simp only [h, ih]

theorem submit_deliver_fences_congr (pdata : nvhost_device_data) (um um2 : SubmitUser)
    (job : nvhost_job) (h : um2.fences_left = um.fences_left) (is : List Nat) :
    submit_deliver_fences pdata um2 job is = submit_deliver_fences pdata um job is := by
  induction is with
  | nil => rfl
  | cons i rest ih =>
    unfold submit_deliver_fences
    simp only [h, ih]

theorem submit_dispatch_congr (c : HostConsts) (pdata : nvhost_device_data)
    (ctx : nvhost_channel_userctx) (args : nvhost_submit_args) (um um2 : SubmitUser)
    (env : SubmitEnv) (st : SubmitSt) (h : um2.fences_left = um.fences_left) :
    submit_dispatch c pdata ctx args um2 env st = submit_dispatch c pdata ctx args um env st := by
  have hd : ∀ job is, submit_deliver_fences pdata um2 job is =
      submit_deliver_fences pdata um job is :=
    fun job is => submit_deliver_fences_congr pdata um um2 job h is
  unfold submit_dispatch
  simp only [hd]

theorem submit_copy_arrays_congr (um um2 : SubmitUser) (st : SubmitSt)
    (h1 : um2.relocs = um.relocs) (h2 : um2.reloc_shifts = um.reloc_shifts)
    (h3 : um2.waitchks = um.waitchks) :
    submit_copy_arrays um2 st = submit_copy_arrays um st := by
  unfold submit_copy_arrays
  rw [h1, h2, h3]

theorem submit_class_ids_congr (args : nvhost_submit_args) (um um2 : SubmitUser)
    (env : SubmitEnv) (st : SubmitSt) (h : um2.class_ids = um.class_ids) :
    submit_class_ids args um2 env st = submit_class_ids args um env st := by
  unfold submit_class_ids
  rw [h]

theorem submit_cmdbuf_loop_congr (c : HostConsts) (pdata : nvhost_device_data)
    (args : nvhost_submit_args) (um um2 : SubmitUser) (hcb : um2.cmdbufs = um.cmdbufs)
    (is : List Nat)
    (hpf : ∀ i ∈ is,
      (if (user_at um2.cmdbuf_exts i 8 { pre_fence := -1 }).left ≠ 0 then (-1 : Int)
        else (user_at um2.cmdbuf_exts i 8 { pre_fence := -1 }).val.pre_fence) =
      (if (user_at um.cmdbuf_exts i 8 { pre_fence := -1 }).left ≠ 0 then (-1 : Int)
        else (user_at um.cmdbuf_exts i 8 { pre_fence := -1 }).val.pre_fence)) :
    ∀ st : SubmitSt, submit_cmdbuf_loop c pdata args um2 is st =
      submit_cmdbuf_loop c pdata args um is st := by
  induction is with
  | nil => intro st; rfl
  | cons i rest ih =>
    intro st
    have hi := hpf i (List.mem_cons_self i rest)
    have ihr := ih (fun j hj => hpf j (List.mem_cons_of_mem i hj))
    unfold submit_cmdbuf_loop
    rw [hcb]
    by_cases he : args.cmdbuf_exts ≠ 0
    · simp only [if_pos he, hi, ihr]
    · simp only [if_neg he, ihr]

theorem submit_cmdbuf_loop_pre_fences (c : HostConsts) (pdata : nvhost_device_data)
    (args : nvhost_submit_args) (um : SubmitUser) (is : List Nat) :
    ∀ st : SubmitSt, (submit_cmdbuf_loop c pdata args um is st).2 = none →
      (submit_cmdbuf_loop c pdata args um is st).1.job.gathers.map (fun g => g.pre_fence) =
        st.job.gathers.map (fun g => g.pre_fence) ++
          is.map (fun i =>
            if args.cmdbuf_exts ≠ 0 then
              (if (user_at um.cmdbuf_exts i 8 { pre_fence := -1 }).left ≠ 0 then (-1 : Int)
                else (user_at um.cmdbuf_exts i 8 { pre_fence := -1 }).val.pre_fence)
            else -1) := by
  induction is with
  | nil =>
    intro st _
    simp [submit_cmdbuf_loop]
  | cons i rest ih =>
    intro st
    simp only [submit_cmdbuf_loop]
    split_ifs with h1 h2 h3 h4 h5 h6 h7
    all_goals first
      | (intro h; exact False.elim h)
      | (intro h
         rw [ih _ h]
         simp [*]
         done)
      | (intro h
         rw [ih _ h]
         simp [*]
         split_ifs with hz
         · rfl
         · exfalso
           simp_all)

theorem submit_prepare_pre_fences (c : HostConsts) (pdata : nvhost_device_data)
    (ctx : nvhost_channel_userctx) (args : nvhost_submit_args) (um : SubmitUser)
    (env : SubmitEnv) (h : (submit_prepare c pdata ctx args um env).2 = none) :
    (submit_prepare c pdata ctx args um env).1.job.gathers.map (fun g => g.pre_fence) =
      (List.range (toInt32 args.num_cmdbufs).toNat).map (fun i =>
        if args.cmdbuf_exts ≠ 0 then
          (if (user_at um.cmdbuf_exts i 8 { pre_fence := -1 }).left ≠ 0 then (-1 : Int)
            else (user_at um.cmdbuf_exts i 8 { pre_fence := -1 }).val.pre_fence)
        else -1) := by
  have hinit : (submit_init ctx args).job.gathers = [] := by
    unfold submit_init
    rcases ctx.error_notifier_ref with _ | d <;> rfl
  obtain ⟨hj, -⟩ := submit_class_ids_err args um env (submit_init ctx args)
  unfold submit_prepare at h ⊢
  rcases hc : submit_class_ids args um env (submit_init ctx args) with ⟨st1, _ | e1⟩
  swap
  · rw [hc] at h
    exact Option.noConfusion h
  rw [hc] at hj h
  simp only [] at hj h ⊢
  have hl0 := submit_cmdbuf_loop_pre_fences c pdata args um
    (List.range (toInt32 args.num_cmdbufs).toNat) st1
  rcases hl : submit_cmdbuf_loop c pdata args um
    (List.range (toInt32 args.num_cmdbufs).toNat) st1 with ⟨st2, _ | e2⟩
  swap
  · rw [hl] at h
    exact Option.noConfusion h
  rw [hl] at hl0 h
  simp only [] at hl0 h ⊢
  rw [(submit_copy_arrays_err um st2).1, hl0 trivial, hj, hinit]
  rfl

theorem submit_dispatch_gathers (c : HostConsts) (pdata : nvhost_device_data)
    (ctx : nvhost_channel_userctx) (args : nvhost_submit_args) (um : SubmitUser)
    (env : SubmitEnv) (st0 : SubmitSt) :
    (submit_dispatch c pdata ctx args um env st0).ret = 0 →
    ∃ j, (submit_dispatch c pdata ctx args um env st0).job = some j ∧
      j.gathers = st0.job.gathers := by
  unfold submit_dispatch
  lift_lets
  intro n src1 st1 st2 src2 st3 job4 delivered st5 pts st6
  have hg : job4.gathers = st0.job.gathers := rfl
  intro h
  split_ifs at h ⊢
  all_goals first
    | exact ⟨job4, rfl, hg⟩
    | (exfalso
       simp only [submit_fail] at h
       contradiction)

theorem submit_success_path (c : HostConsts) (policy : nvhost_syncpt_policy)
    (nb_pts : Int) (pdata : nvhost_device_data) (ctx : nvhost_channel_userctx)
    (ch : nvhost_channel) (args : nvhost_submit_args) (um : SubmitUser) (env : SubmitEnv)
    (h : (nvhost_ioctl_channel_submit c policy nb_pts pdata ctx ch args um env).ret = 0) :
    (submit_prepare c pdata ctx args um env).2 = none ∧
    ∃ st2, nvhost_ioctl_channel_submit c policy nb_pts pdata ctx ch args um env =
        submit_dispatch c pdata ctx args um env st2 ∧
      st2.job.gathers = (submit_prepare c pdata ctx args um env).1.job.gathers ∧
      ∀ ev ∈ st2.trace, ev = SubmitEv.job_alloc ∨ ev.is_build = true := by
  have hei : (-EINVAL : Int) ≠ 0 := by decide
  have hen : (-ENOMEM : Int) ≠ 0 := by decide
  revert h
  unfold nvhost_ioctl_channel_submit
  simp only []
  split_ifs with h1 h2
  · intro h
    exact absurd h hei
  · intro h
    exact absurd h hen
  · obtain ⟨-, t0, ht0, pt0⟩ := submit_prepare_trace c pdata ctx args um env
    obtain ⟨pe, -⟩ := submit_prepare_err c pdata ctx args um env
    have htr : ∀ ev ∈ (submit_prepare c pdata ctx args um env).1.trace,
        ev = SubmitEv.job_alloc ∨ ev.is_build = true := by
      intro ev hev
      rw [ht0] at hev
      rcases List.mem_cons.mp hev with h | h
      · exact Or.inl h
      · exact Or.inr (pt0 ev h)
    rcases hp : submit_prepare c pdata ctx args um env with ⟨st1, _ | e1⟩
    swap
    · rw [hp] at pe htr
      simp only [] at pe htr ⊢
      intro h
      exfalso
      rw [(submit_fail_spec st1 e1 args.fence [] htr).1] at h
      rcases pe e1 rfl with h0 | h0 | h0
      · rw [h0] at h; exact hen h
      · rw [h0] at h; exact hei h
      · omega
    rw [hp] at htr
    simp only [] at htr ⊢
    obtain ⟨sf1, -⟩ := submit_syncpt_loop_frame (syncpt_array policy ctx ch) um
      (List.range (toInt32 args.num_syncpt_incrs).toNat) st1
    obtain ⟨sg, se⟩ := submit_syncpt_loop_err (syncpt_array policy ctx ch) um
      (List.range (toInt32 args.num_syncpt_incrs).toNat) st1
    rcases hs : submit_syncpt_loop (syncpt_array policy ctx ch) um
      (List.range (toInt32 args.num_syncpt_incrs).toNat) st1 with ⟨st2, _ | e2⟩
    swap
    · rw [hs] at sf1 se
      simp only [] at sf1 se ⊢
      intro h
      exfalso
      rw [(submit_fail_spec st2 e2 args.fence [] (by rw [sf1]; exact htr)).1] at h
      rcases se e2 rfl with h0 | h0
      · rw [h0] at h; exact hei h
      · omega
    rw [hs] at sf1 sg
    simp only [] at sf1 sg ⊢
    intro _
    exact ⟨trivial, st2, rfl, sg, by rw [sf1]; exact htr⟩

theorem submit_success_pre_fences (c : HostConsts) (policy : nvhost_syncpt_policy)
    (nb_pts : Int) (pdata : nvhost_device_data) (ctx : nvhost_channel_userctx)
    (ch : nvhost_channel) (args : nvhost_submit_args) (um : SubmitUser) (env : SubmitEnv)
    (h : (nvhost_ioctl_channel_submit c policy nb_pts pdata ctx ch args um env).ret = 0) :
    SubmitEv.job_pin ∈ (nvhost_ioctl_channel_submit c policy nb_pts pdata ctx ch args um
      env).trace ∧
    SubmitEv.channel_submit ∈ (nvhost_ioctl_channel_submit c policy nb_pts pdata ctx ch args um
      env).trace ∧
    ∃ j, (nvhost_ioctl_channel_submit c policy nb_pts pdata ctx ch args um env).job = some j ∧
      j.gathers.map (fun g => g.pre_fence) =
        (List.range (toInt32 args.num_cmdbufs).toNat).map (fun i =>
          if args.cmdbuf_exts ≠ 0 then
            (if (user_at um.cmdbuf_exts i 8 { pre_fence := -1 }).left ≠ 0 then (-1 : Int)
              else (user_at um.cmdbuf_exts i 8 { pre_fence := -1 }).val.pre_fence)
          else -1) := by
  obtain ⟨hpn, st2, heq, hg2, ht2⟩ :=
    submit_success_path c policy nb_pts pdata ctx ch args um env h
  have hpf := submit_prepare_pre_fences c pdata ctx args um env hpn
  rw [heq] at h ⊢
  obtain ⟨j, hj, hgj⟩ := submit_dispatch_gathers c pdata ctx args um env st2 h
  obtain ⟨j2, hj2, -, hsub, -⟩ := submit_dispatch_success c pdata ctx args um env st2 ht2 h
  obtain ⟨hpin, hbusy⟩ := submit_dispatch_pin c pdata ctx args um env st2
  refine ⟨?_, hsub, j, hj, ?_⟩
  · by_cases hb : env.module_busy_ret = 0
    · exact hpin hb
    · exfalso
      rw [hbusy hb] at h
      exact hb h
  · rw [hgj, hg2]
    exact hpf

theorem submit_exts_congr (c : HostConsts) (policy : nvhost_syncpt_policy)
    (nb_pts : Int) (pdata : nvhost_device_data) (ctx : nvhost_channel_userctx)
    (ch : nvhost_channel) (args : nvhost_submit_args) (um : SubmitUser) (env : SubmitEnv)
    (exts : List (UserCopy nvhost_cmdbuf_ext))
    (hpf : ∀ i, i < (toInt32 args.num_cmdbufs).toNat →
      (if (user_at exts i 8 { pre_fence := -1 }).left ≠ 0 then (-1 : Int)
        else (user_at exts i 8 { pre_fence := -1 }).val.pre_fence) =
      (if (user_at um.cmdbuf_exts i 8 { pre_fence := -1 }).left ≠ 0 then (-1 : Int)
        else (user_at um.cmdbuf_exts i 8 { pre_fence := -1 }).val.pre_fence)) :
    nvhost_ioctl_channel_submit c policy nb_pts pdata ctx ch args
        { um with cmdbuf_exts := exts } env =
      nvhost_ioctl_channel_submit c policy nb_pts pdata ctx ch args um env := by
  have h1 : ∀ st, submit_class_ids args { um with cmdbuf_exts := exts } env st =
      submit_class_ids args um env st :=
    fun st => submit_class_ids_congr args um { um with cmdbuf_exts := exts } env st rfl
  have h2 : ∀ st, submit_cmdbuf_loop c pdata args { um with cmdbuf_exts := exts }
      (List.range (toInt32 args.num_cmdbufs).toNat) st =
      submit_cmdbuf_loop c pdata args um (List.range (toInt32 args.num_cmdbufs).toNat) st :=
    submit_cmdbuf_loop_congr c pdata args um { um with cmdbuf_exts := exts } rfl _
      (fun i hi => hpf i (List.mem_range.mp hi))
  have h3 : ∀ st, submit_copy_arrays { um with cmdbuf_exts := exts } st =
      submit_copy_arrays um st :=
    fun st => submit_copy_arrays_congr um { um with cmdbuf_exts := exts } st rfl rfl rfl
  have h4 : ∀ table is st, submit_syncpt_loop table { um with cmdbuf_exts := exts } is st =
      submit_syncpt_loop table um is st :=
    fun table is st => submit_syncpt_loop_congr table um { um with cmdbuf_exts := exts } rfl is st
  have h5 : ∀ st, submit_dispatch c pdata ctx args { um with cmdbuf_exts := exts } env st =
      submit_dispatch c pdata ctx args um env st :=
    fun st => submit_dispatch_congr c pdata ctx args um { um with cmdbuf_exts := exts } env st rfl
  unfold nvhost_ioctl_channel_submit submit_prepare
  simp only [h1, h2, h3, h4, h5]

theorem user_at_set_padded (exts : List (UserCopy nvhost_cmdbuf_ext)) (k i : Nat)
    (v : UserCopy nvhost_cmdbuf_ext) :
    user_at ((exts ++ List.replicate (k + 1 - exts.length)
        ({ left := 8, val := { pre_fence := -1 } } : UserCopy nvhost_cmdbuf_ext)).set k v)
        i 8 { pre_fence := -1 } =
      if i = k then v else user_at exts i 8 { pre_fence := -1 } := by
  unfold user_at
  have hlen : k < (exts ++ List.replicate (k + 1 - exts.length)
      ({ left := 8, val := { pre_fence := -1 } } : UserCopy nvhost_cmdbuf_ext)).length := by
    rw [List.length_append, List.length_replicate]
    omega
  by_cases hik : i = k
  · subst hik
    rw [if_pos rfl, List.getD_eq_getElem?_getD, List.getElem?_set_self hlen]
    rfl
  · rw [if_neg hik]
    simp only [List.getD_eq_getElem?_getD, List.getElem?_set_ne (Ne.symm hik)]
    by_cases hi : i < exts.length
    · rw [List.getElem?_append_left hi]
    · rw [List.getElem?_append_right (Nat.le_of_not_lt hi),
        List.getElem?_eq_none (Nat.le_of_not_lt hi)]
      by_cases hi2 : i - exts.length < k + 1 - exts.length
      · rw [List.getElem?_replicate, if_pos hi2]
        rfl
      · rw [List.getElem?_replicate, if_neg hi2]

theorem submit_cmdbuf_loop_no_exts (c : HostConsts) (pdata : nvhost_device_data)
    (args : nvhost_submit_args) (um : SubmitUser) (is : List Nat)
    (hpf : ∀ i ∈ is,
      (if (user_at um.cmdbuf_exts i 8 { pre_fence := -1 }).left ≠ 0 then (-1 : Int)
        else (user_at um.cmdbuf_exts i 8 { pre_fence := -1 }).val.pre_fence) = -1) :
    ∀ st : SubmitSt, submit_cmdbuf_loop c pdata { args with cmdbuf_exts := 0 } um is st =
      submit_cmdbuf_loop c pdata args um is st := by
  induction is with
  | nil => intro st; rfl
  | cons i rest ih =>
    intro st
    have hi := hpf i (List.mem_cons_self i rest)
    have ihr := ih (fun j hj => hpf j (List.mem_cons_of_mem i hj))
    unfold submit_cmdbuf_loop
    by_cases he : args.cmdbuf_exts ≠ 0
    · simp only [if_pos he, hi, ihr, ne_eq, not_true_eq_false, if_false]
    · simp only [if_neg he, ihr, ne_eq, not_true_eq_false, if_false]

theorem submit_no_exts_congr (c : HostConsts) (policy : nvhost_syncpt_policy)
    (nb_pts : Int) (pdata : nvhost_device_data) (ctx : nvhost_channel_userctx)
    (ch : nvhost_channel) (args : nvhost_submit_args) (um : SubmitUser) (env : SubmitEnv)
    (hpf : ∀ i, i < (toInt32 args.num_cmdbufs).toNat →
      (if (user_at um.cmdbuf_exts i 8 { pre_fence := -1 }).left ≠ 0 then (-1 : Int)
        else (user_at um.cmdbuf_exts i 8 { pre_fence := -1 }).val.pre_fence) = -1) :
    nvhost_ioctl_channel_submit c policy nb_pts pdata ctx ch { args with cmdbuf_exts := 0 }
        um env =
      nvhost_ioctl_channel_submit c policy nb_pts pdata ctx ch args um env := by
  have h1 : ∀ st, submit_class_ids { args with cmdbuf_exts := 0 } um env st =
      submit_class_ids args um env st := fun st => rfl
  have h2 : ∀ st, submit_cmdbuf_loop c pdata { args with cmdbuf_exts := 0 } um
      (List.range (toInt32 args.num_cmdbufs).toNat) st =
      submit_cmdbuf_loop c pdata args um (List.range (toInt32 args.num_cmdbufs).toNat) st :=
    submit_cmdbuf_loop_no_exts c pdata args um _ (fun i hi => hpf i (List.mem_range.mp hi))
  have h3 : submit_init ctx { args with cmdbuf_exts := 0 } = submit_init ctx args := rfl
  have h5 : ∀ st, submit_dispatch c pdata ctx { args with cmdbuf_exts := 0 } um env st =
      submit_dispatch c pdata ctx args um env st := fun st => rfl
  unfold nvhost_ioctl_channel_submit submit_prepare
  simp only [h1, h2, h3, h5]

/-- C28. A command buffer whose extension record cannot be copied does not
fail the submit.  Take a submit with an extension array in which the copy of
the record of command buffer `k` fails.  Its whole result (status, calls made,
job, fences) equals that of the same submit on a user memory in which that
record can be read and holds pre-fence -1.  When the copy of every
extension record fails, the result also equals that of the same submit with
no extension array.  When the submit with the readable record returns 0, so
does this one, it pins the job and dispatches it, and the job holds one gather
per command buffer, the `k`-th with pre-fence -1.  And a successful submit
without an extension array leaves every gather with pre-fence -1. -/
theorem submit_ext_copy_failure_nonfatal (c : HostConsts) (policy : nvhost_syncpt_policy)
    (nb_pts : Int) (pdata : nvhost_device_data) (ctx : nvhost_channel_userctx)
    (ch : nvhost_channel) (args : nvhost_submit_args) (um : SubmitUser) (env : SubmitEnv)
    (k : Nat) (hext : args.cmdbuf_exts ≠ 0)
    (hk : k < (toInt32 args.num_cmdbufs).toNat)
    (hfail : (user_at um.cmdbuf_exts k 8 { pre_fence := -1 }).left ≠ 0) :
    nvhost_ioctl_channel_submit c policy nb_pts pdata ctx ch args um env =
      nvhost_ioctl_channel_submit c policy nb_pts pdata ctx ch args
        { um with cmdbuf_exts := (List.set
            (um.cmdbuf_exts ++ List.replicate (k + 1 - um.cmdbuf_exts.length)
              ({ left := 8, val := { pre_fence := -1 } } : UserCopy nvhost_cmdbuf_ext)) k
            ⟨0, ⟨-1⟩⟩) } env ∧
    ((∀ i, i < (toInt32 args.num_cmdbufs).toNat →
        (user_at um.cmdbuf_exts i 8 { pre_fence := -1 }).left ≠ 0) →
      nvhost_ioctl_channel_submit c policy nb_pts pdata ctx ch args um env =
        nvhost_ioctl_channel_submit c policy nb_pts pdata ctx ch
          { args with cmdbuf_exts := 0 } um env) ∧
    ((nvhost_ioctl_channel_submit c policy nb_pts pdata ctx ch args
        { um with cmdbuf_exts := (List.set
            (um.cmdbuf_exts ++ List.replicate (k + 1 - um.cmdbuf_exts.length)
              ({ left := 8, val := { pre_fence := -1 } } : UserCopy nvhost_cmdbuf_ext)) k
            ⟨0, ⟨-1⟩⟩) } env).ret = 0 →
      (nvhost_ioctl_channel_submit c policy nb_pts pdata ctx ch args um env).ret = 0 ∧
      SubmitEv.job_pin ∈
        (nvhost_ioctl_channel_submit c policy nb_pts pdata ctx ch args um env).trace ∧
      SubmitEv.channel_submit ∈
        (nvhost_ioctl_channel_submit c policy nb_pts pdata ctx ch args um env).trace ∧
      ∃ j, (nvhost_ioctl_channel_submit c policy nb_pts pdata ctx ch args um env).job =
          some j ∧
        j.gathers.length = (toInt32 args.num_cmdbufs).toNat ∧
        ∃ g, j.gathers.get? k = some g ∧ g.pre_fence = -1) ∧
    ((nvhost_ioctl_channel_submit c policy nb_pts pdata ctx ch { args with cmdbuf_exts := 0 }
        um env).ret = 0 →
      ∃ j, (nvhost_ioctl_channel_submit c policy nb_pts pdata ctx ch
          { args with cmdbuf_exts := 0 } um env).job = some j ∧
        j.gathers.length = (toInt32 args.num_cmdbufs).toNat ∧
        ∀ g ∈ j.gathers, g.pre_fence = -1) := by
  have heq : nvhost_ioctl_channel_submit c policy nb_pts pdata ctx ch args um env =
      nvhost_ioctl_channel_submit c policy nb_pts pdata ctx ch args
        { um with cmdbuf_exts := (List.set
            (um.cmdbuf_exts ++ List.replicate (k + 1 - um.cmdbuf_exts.length)
              ({ left := 8, val := { pre_fence := -1 } } : UserCopy nvhost_cmdbuf_ext)) k
            ⟨0, ⟨-1⟩⟩) } env := by
    symm
    apply submit_exts_congr
    intro i _
    rw [user_at_set_padded]
    by_cases hik : i = k
    · subst hik
      rw [if_pos rfl, if_pos hfail]
      rfl
    · rw [if_neg hik]
  refine ⟨heq, ?_, ?_, ?_⟩
  · intro hall
    symm
    apply submit_no_exts_congr
    intro i hi
    rw [if_pos (hall i hi)]
  · intro h0
    rw [← heq] at h0
    obtain ⟨hpin, hsub, j, hj, hg⟩ :=
      submit_success_pre_fences c policy nb_pts pdata ctx ch args um env h0
    refine ⟨h0, hpin, hsub, j, hj, ?_, ?_⟩
    · have := congrArg List.length hg
      simpa using this
    · have hlen : k < j.gathers.length := by
        have := congrArg List.length hg
        simp only [List.length_map, List.length_range] at this
        omega
      refine ⟨j.gathers.get ⟨k, hlen⟩, List.get?_eq_get hlen, ?_⟩
      have h1 := congrArg (fun l => l.get? k) hg
      simp only [List.get?_eq_getElem?, List.getElem?_map, List.getElem?_range hk,
        List.getElem?_eq_getElem hlen, Option.map_some'] at h1
      have h2 := Option.some.inj h1
      rw [if_pos hext, if_pos hfail] at h2
      exact h2
  · intro h0
    obtain ⟨-, -, j, hj, hg⟩ :=
      submit_success_pre_fences c policy nb_pts pdata ctx ch { args with cmdbuf_exts := 0 }
        um env h0
    refine ⟨j, hj, ?_, ?_⟩
    · have := congrArg List.length hg
      simpa using this
    · intro g hgm
      have hm : g.pre_fence ∈ j.gathers.map (fun g => g.pre_fence) :=
        List.mem_map_of_mem _ hgm
      rw [hg] at hm
      obtain ⟨i, -, hi⟩ := List.mem_map.mp hm
      rw [← hi]
      exact if_neg (fun h => h rfl)

theorem submit_ext_copy_failure_nonfatal_witness :
    (nvhost_ioctl_channel_submit tegraHostConsts
        nvhost_syncpt_policy.SYNCPT_PER_CHANNEL_INSTANCE 192 demoPdata demoCtx demoChannel
        { demoArgs 1 with num_cmdbufs := 2, cmdbufs := 8192, cmdbuf_exts := 12288 }
        { demoUser [⟨5, 1⟩] with
          cmdbufs := [⟨0, ⟨11, 0, 16⟩⟩, ⟨0, ⟨12, 0, 32⟩⟩],
          cmdbuf_exts := [⟨0, ⟨7⟩⟩, ⟨8, ⟨3⟩⟩] } okSubmitEnv).ret = 0 ∧
    ((nvhost_ioctl_channel_submit tegraHostConsts
        nvhost_syncpt_policy.SYNCPT_PER_CHANNEL_INSTANCE 192 demoPdata demoCtx demoChannel
        { demoArgs 1 with num_cmdbufs := 2, cmdbufs := 8192, cmdbuf_exts := 12288 }
        { demoUser [⟨5, 1⟩] with
          cmdbufs := [⟨0, ⟨11, 0, 16⟩⟩, ⟨0, ⟨12, 0, 32⟩⟩],
          cmdbuf_exts := [⟨0, ⟨7⟩⟩, ⟨8, ⟨3⟩⟩] } okSubmitEnv).job.map
        (fun j => j.gathers.map (fun g => g.pre_fence))) = some [7, -1] ∧
    nvhost_ioctl_channel_submit tegraHostConsts
        nvhost_syncpt_policy.SYNCPT_PER_CHANNEL_INSTANCE 192 demoPdata demoCtx demoChannel
        { demoArgs 1 with num_cmdbufs := 2, cmdbufs := 8192, cmdbuf_exts := 12288 }
        { demoUser [⟨5, 1⟩] with
          cmdbufs := [⟨0, ⟨11, 0, 16⟩⟩, ⟨0, ⟨12, 0, 32⟩⟩],
          cmdbuf_exts := [⟨0, ⟨7⟩⟩, ⟨8, ⟨3⟩⟩] } okSubmitEnv =
      nvhost_ioctl_channel_submit tegraHostConsts
        nvhost_syncpt_policy.SYNCPT_PER_CHANNEL_INSTANCE 192 demoPdata demoCtx demoChannel
        { demoArgs 1 with num_cmdbufs := 2, cmdbufs := 8192, cmdbuf_exts := 12288 }
        { demoUser [⟨5, 1⟩] with
          cmdbufs := [⟨0, ⟨11, 0, 16⟩⟩, ⟨0, ⟨12, 0, 32⟩⟩],
          cmdbuf_exts := [⟨0, ⟨7⟩⟩, ⟨0, ⟨-1⟩⟩] } okSubmitEnv :=
  ⟨by decide, by decide,
    (submit_ext_copy_failure_nonfatal tegraHostConsts
      nvhost_syncpt_policy.SYNCPT_PER_CHANNEL_INSTANCE 192 demoPdata demoCtx demoChannel
      { demoArgs 1 with num_cmdbufs := 2, cmdbufs := 8192, cmdbuf_exts := 12288 }
      { demoUser [⟨5, 1⟩] with
        cmdbufs := [⟨0, ⟨11, 0, 16⟩⟩, ⟨0, ⟨12, 0, 32⟩⟩],
        cmdbuf_exts := [⟨0, ⟨7⟩⟩, ⟨8, ⟨3⟩⟩] } okSubmitEnv 1
      (by decide) (by decide) (by decide)).1⟩

/-! ### Clock rates -/

theorem moduleid_to_index_loop_mem (clocks : List Nat) (moduleid : Nat) (is : List Nat) :
    moduleid_to_index_loop clocks moduleid is = 0 ∨
    moduleid_to_index_loop clocks moduleid is ∈ is := by
  induction is with
  | nil => exact Or.inl rfl
  | cons i rest ih =>
    simp only [moduleid_to_index_loop]
    split_ifs
    · exact Or.inr (List.mem_cons_self _ _)
    · rcases ih with h | h
      · exact Or.inl h
      · exact Or.inr (List.mem_cons_of_mem _ h)

/-- C29 at a failing input.  The argument `0x10005` carries module id 5 in its
low half and the attribute 1 in its high half; clock 1 of the device belongs
to module 5.  `SET_CLK_RATE` decodes the module id and sets clock 1;
`GET_CLK_RATE` passes the whole argument to `moduleid_to_index`, finds no
clock of module `0x10005`, and reads clock 0: after setting the rate 777 the
rate read back is 100.  The index either call uses is below
`NVHOST_MODULE_MAX_CLOCKS`, and for an argument without attribute bits the two
calls use the same index. -/
theorem clk_rate_get_does_not_decode :
    (nvhost_ioctl_channel_set_rate tegraCtlConsts 0
      { clocks := [0, 5, 0, 0, 0, 0, 0], rates := [100, 200, 0, 0, 0, 0, 0] } 65541 777).2.2.1
      = 1 ∧
    (nvhost_ioctl_channel_get_rate tegraCtlConsts 0
      { clocks := [0, 5, 0, 0, 0, 0, 0], rates := [100, 200, 0, 0, 0, 0, 0] } 65541 0).2.2
      = 0 ∧
    ((nvhost_channelctl tegraHostConsts tegraCtlConsts
        (demoWorld nvhost_syncpt_policy.SYNCPT_PER_CHANNEL_INSTANCE)
        (ChannelCmd.SET_CLK_RATE 65541 777 0)).map (fun r => (r.err, r.w.clk.rates)))
      = some (0, [100, 777, 0, 0, 0, 0, 0]) ∧
    (((nvhost_channelctl tegraHostConsts tegraCtlConsts
        (demoWorld nvhost_syncpt_policy.SYNCPT_PER_CHANNEL_INSTANCE)
        (ChannelCmd.SET_CLK_RATE 65541 777 0)).bind (fun r =>
          nvhost_channelctl tegraHostConsts tegraCtlConsts r.w
            (ChannelCmd.GET_CLK_RATE 65541 0 0))).map (fun r => (r.err, r.value)))
      = some (0, some 100) ∧
    (∀ (k : CtlConsts) (clocks : List Nat) (moduleid : Nat),
      0 < k.NVHOST_MODULE_MAX_CLOCKS →
      moduleid_to_index k clocks moduleid < k.NVHOST_MODULE_MAX_CLOCKS) ∧
    (∀ (s : ClkState) (arg rate1 rate2 : Nat), arg < 65536 →
      (nvhost_ioctl_channel_set_rate tegraCtlConsts 0 s arg rate1).2.2.1 =
        (nvhost_ioctl_channel_get_rate tegraCtlConsts 0 s arg rate2).2.2) := by
  refine ⟨by decide, by decide, by decide, by decide, ?_, ?_⟩
  · intro k clocks moduleid hk
    unfold moduleid_to_index
    rcases moduleid_to_index_loop_mem clocks moduleid (List.range k.NVHOST_MODULE_MAX_CLOCKS)
      with h | h
    · rw [h]; exact hk
    · exact List.mem_range.mp h
  · intro s arg rate1 rate2 harg
    have e : ((arg >>> tegraCtlConsts.NVHOST_MODULE_ID_BIT_POS) &&&
        ((1 <<< tegraCtlConsts.NVHOST_MODULE_ID_BIT_WIDTH) - 1)) % two32 = arg := by
      show ((arg >>> 0) &&& ((1 <<< 16) - 1)) % 4294967296 = arg
      have h1 : ((1 : Nat) <<< 16) - 1 = 2 ^ 16 - 1 := by decide
      have h2 : arg % 2 ^ 16 = arg := Nat.mod_eq_of_lt (by norm_num; exact harg)
      rw [Nat.shiftRight_zero, h1, Nat.and_pow_two_sub_one_eq_mod, h2,
        Nat.mod_eq_of_lt (by omega)]
    simp only [nvhost_ioctl_channel_set_rate, nvhost_ioctl_channel_get_rate, e]

/-! ### Bit masks of sync points and mutexes -/

theorem create_mask_fold (b : Nat) (l : List Nat) : ∀ acc : Nat,
    (l.foldl (fun word w => if w = 0 ∨ w > 31 then word else word ||| (1 <<< w)) acc).testBit b
      = (acc.testBit b || decide (1 ≤ b ∧ b ≤ 31 ∧ b ∈ l)) := by
  induction l with
  | nil => intro acc; simp
  | cons w rest ih =>
    intro acc
    rw [List.foldl_cons, ih]
    by_cases hw : w = 0 ∨ w > 31
    · rw [if_pos hw]
      by_cases hb : 1 ≤ b ∧ b ≤ 31 ∧ b ∈ rest
      · have : 1 ≤ b ∧ b ≤ 31 ∧ b ∈ w :: rest := ⟨hb.1, hb.2.1, List.mem_cons_of_mem _ hb.2.2⟩
        simp [hb, this]
      · have : ¬ (1 ≤ b ∧ b ≤ 31 ∧ b ∈ w :: rest) := by
          rintro ⟨h1, h2, h3⟩
          rcases List.mem_cons.mp h3 with h | h
          · omega
          · exact hb ⟨h1, h2, h⟩
        rw [decide_eq_false hb, decide_eq_false this]
    · rw [if_neg hw, Nat.testBit_or, Nat.one_shiftLeft, Nat.testBit_two_pow]
      by_cases hwb : w = b
      · subst hwb
        have : 1 ≤ w ∧ w ≤ 31 ∧ w ∈ w :: rest := ⟨by omega, by omega, List.mem_cons_self _ _⟩
        simp [this]
      · by_cases hb : 1 ≤ b ∧ b ≤ 31 ∧ b ∈ rest
        · have : 1 ≤ b ∧ b ≤ 31 ∧ b ∈ w :: rest :=
            ⟨hb.1, hb.2.1, List.mem_cons_of_mem _ hb.2.2⟩
          simp [hb, this]
        · have : ¬ (1 ≤ b ∧ b ≤ 31 ∧ b ∈ w :: rest) := by
            rintro ⟨h1, h2, h3⟩
            rcases List.mem_cons.mp h3 with h | h
            · exact hwb h.symm
            · exact hb ⟨h1, h2, h⟩
          rw [decide_eq_false hb, decide_eq_false this, decide_eq_false hwb]
          simp

/-- C30. Bit `b` of `create_mask(words, num)` is set exactly when `b` is
between 1 and 31 and one of the first `num` entries equals `b`.  So bit 0 and
the bits from 32 on are never set, the mask is a 32-bit value, entries that
are 0 or above 31 add nothing, and two tables with the same set of entries
give the same mask, whatever the order and the multiplicity of the entries; a
context that has reserved the sync points 40 and 6 gets the mask 64 (bit 6
alone) from `nvhost_ioctl_channel_get_syncpt_mask` while its submit on sync
point 40 is accepted. -/
theorem create_mask_bits (words : List Nat) (num : Int) :
    (∀ b, (create_mask words num).testBit b = true ↔
      (1 ≤ b ∧ b ≤ 31 ∧ b ∈ words.take num.toNat)) ∧
    (create_mask words num).testBit 0 = false ∧
    create_mask words num < 4294967296 ∧
    (∀ (words2 : List Nat) (num2 : Int),
      (∀ b, 1 ≤ b → b ≤ 31 → (b ∈ words.take num.toNat ↔ b ∈ words2.take num2.toNat)) →
      create_mask words2 num2 = create_mask words num) ∧
    (nvhost_ioctl_channel_get_syncpt_mask tegraHostConsts
        nvhost_syncpt_policy.SYNCPT_PER_CHANNEL_INSTANCE
        { demoCtx with syncpts := [40, 6, 0, 0] } demoChannel = 64 ∧
      (nvhost_ioctl_channel_submit tegraHostConsts
        nvhost_syncpt_policy.SYNCPT_PER_CHANNEL_INSTANCE 192 demoPdata
        { demoCtx with syncpts := [40, 6, 0, 0] } demoChannel (demoArgs 1)
        (demoUser [⟨40, 1⟩]) okSubmitEnv).ret = 0) := by
  have key : ∀ (ws : List Nat) (n : Int) (b : Nat), (create_mask ws n).testBit b = true ↔
      (1 ≤ b ∧ b ≤ 31 ∧ b ∈ ws.take n.toNat) := by
    intro ws n b
    unfold create_mask
    rw [create_mask_fold]
    simp
  refine ⟨key words num, ?_, ?_, ?_, by decide, by decide⟩
  · have := (key words num 0).not
    simpa using this
  · apply Nat.lt_of_testBit 32
    · by_contra h
      have := (key words num 32).mp (by simpa using h)
      omega
    · decide
    · intro j hj
      have e1 : (create_mask words num).testBit j = false := by
        by_contra h
        have := (key words num j).mp (by simpa using h)
        omega
      have e2 : (4294967296 : Nat).testBit j = false := by
        have : (4294967296 : Nat) = 2 ^ 32 := by norm_num
        rw [this, Nat.testBit_two_pow]
        simp
        omega
      rw [e1, e2]
  · intro words2 num2 h
    apply Nat.eq_of_testBit_eq
    intro b
    have k1 := key words num b
    have k2 := key words2 num2 b
    by_cases hb : 1 ≤ b ∧ b ≤ 31
    · have := h b hb.1 hb.2
      rw [Bool.eq_iff_iff, k1, k2]
      constructor
      · rintro ⟨h1, h2, h3⟩; exact ⟨h1, h2, this.mpr h3⟩
      · rintro ⟨h1, h2, h3⟩; exact ⟨h1, h2, this.mp h3⟩
    · rw [Bool.eq_iff_iff, k1, k2]
      constructor
      · rintro ⟨h1, h2, -⟩; exact absurd ⟨h1, h2⟩ hb
      · rintro ⟨h1, h2, -⟩; exact absurd ⟨h1, h2⟩ hb

end TegraHost
